import Mathlib

/-!
# sdpoker: the ST 2110 conformance rules of `checkST2110.js`

A shallow embedding of the rule engine of `src/checkST2110.js`.

* A JavaScript string is a `List Char` (`Str`).  None of the patterns of the
  source counts characters outside the ASCII range, so reading a string as a
  list of code points rather than UTF-16 code units changes no outcome.
* A JavaScript number that the source obtains from a capture of `\d+` is held
  in a `Nat`: the binary64 number nearest to the number the digits denote, which
  is that number below `2 ^ 53` and a natural number below `2 ^ 1024` above it;
  `2 ^ 1024` stands for `Infinity`, to which the digits round from
  `2 ^ 1024 - 2 ^ 970` on.
* A function of the source that can throw (`lines.length` on the `null` that
  `String.prototype.match` returns) returns an `Option`; `none` is the thrown
  `TypeError`.
* A regular expression literal is a value of `Re`, run by a backtracking
  matcher with the priorities of the ECMAScript specification (greedy
  quantifiers, leftmost alternative first, leftmost start first).
-/

namespace SDPoker

/-- A JavaScript string. -/
abbrev Str := List Char

/-! ## Character classes -/

/-- The class `\s`: ECMAScript WhiteSpace and LineTerminator code points. -/
def isSpace (c : Char) : Bool :=
  c.toNat == 9 || c.toNat == 10 || c.toNat == 11 || c.toNat == 12 || c.toNat == 13 ||
  c.toNat == 32 || c.toNat == 160 || c.toNat == 5760 ||
  (decide (8192 ≤ c.toNat) && decide (c.toNat ≤ 8202)) ||
  c.toNat == 8232 || c.toNat == 8233 || c.toNat == 8239 || c.toNat == 8287 ||
  c.toNat == 12288 || c.toNat == 65279

/-- The class `\d`. -/
def isDigit (c : Char) : Bool := decide (48 ≤ c.toNat) && decide (c.toNat ≤ 57)

/-- The class `[1-9]`. -/
def isDigit19 (c : Char) : Bool := decide (49 ≤ c.toNat) && decide (c.toNat ≤ 57)

/-- The class `[\r\n]`. -/
def isCRLF (c : Char) : Bool := c.toNat == 13 || c.toNat == 10

/-- The class `[0-9A-F]`. -/
def isHexUpper (c : Char) : Bool :=
  isDigit c || (decide (65 ≤ c.toNat) && decide (c.toNat ≤ 70))

/-- The class `[0-9a-fA-F]`. -/
def isHex (c : Char) : Bool :=
  isHexUpper c || (decide (97 ≤ c.toNat) && decide (c.toNat ≤ 102))

/-- The class `[a-zA-Z]`. -/
def isAlpha (c : Char) : Bool :=
  (decide (65 ≤ c.toNat) && decide (c.toNat ≤ 90)) ||
  (decide (97 ≤ c.toNat) && decide (c.toNat ≤ 122))

/-! ## Regular expressions -/

/-- Abstract syntax of the regular expressions used by the source. -/
inductive Re where
  | eps : Re
  | cls : (Char → Bool) → Re
  | bol : Re
  | eol : Re
  | seq : Re → Re → Re
  | alt : Re → Re → Re
  | star : Re → Re
  | grp : Nat → Re → Re

namespace Re

/-- A literal character. -/
def chr (c : Char) : Re := cls (fun x => x == c)

/-- A literal string. -/
def lit : Str → Re
  | [] => eps
  | c :: cs => seq (chr c) (lit cs)

/-- The quantifier `+`. -/
def plus (r : Re) : Re := seq r (star r)

/-- The quantifier `?`. -/
def opt (r : Re) : Re := alt r eps

/-- The quantifier `{n}`. -/
def rep : Nat → Re → Re
  | 0, _ => eps
  | n + 1, r => seq r (rep n r)

/-- A sequence of several expressions. -/
def cat : List Re → Re
  | [] => eps
  | r :: rs => seq r (cat rs)

/-- The capture groups that occur in an expression. -/
def groups : Re → List Nat
  | eps => []
  | cls _ => []
  | bol => []
  | eol => []
  | seq a b => groups a ++ groups b
  | alt a b => groups a ++ groups b
  | star a => groups a
  | grp i a => i :: groups a

end Re

/-- State of the matcher: index into the input, rest of the input,
captures set so far. -/
structure MState where
  pos : Nat
  rem : Str
  caps : List (Nat × Str)

/-- Record capture `i`. -/
def setCap (i : Nat) (s : Str) (caps : List (Nat × Str)) : List (Nat × Str) :=
  (i, s) :: caps.filter (fun p => p.1 != i)

/-- Reset the captures of the listed groups (start of a quantifier iteration). -/
def clearCaps (gs : List Nat) (caps : List (Nat × Str)) : List (Nat × Str) :=
  caps.filter (fun p => !gs.contains p.1)

/-- The loop of a greedy `*`: one more iteration first, the continuation
second.  An iteration that consumes nothing is rejected, as in RepeatMatcher
of the ECMAScript specification; the counter starts at the length of the rest
of the input, which no sequence of consuming iterations can exceed. -/
def starLoop (step : MState → (MState → Option MState) → Option MState) (gs : List Nat) :
    Nat → MState → (MState → Option MState) → Option MState
  | 0, st, k => k st
  | n + 1, st, k =>
    match step { st with caps := clearCaps gs st.caps }
        (fun st1 => if st1.rem.length < st.rem.length then starLoop step gs n st1 k else none) with
    | some r => some r
    | none => k st

/-- The backtracking matcher, in continuation-passing style. -/
def Re.run : Re → MState → (MState → Option MState) → Option MState
  | .eps, st, k => k st
  | .cls p, st, k =>
    match st.rem with
    | [] => none
    | c :: cs => if p c then k { st with pos := st.pos + 1, rem := cs } else none
  | .bol, st, k => if st.pos = 0 then k st else none
  | .eol, st, k => if st.rem.isEmpty then k st else none
  | .seq a b, st, k => a.run st (fun st1 => b.run st1 k)
  | .alt a b, st, k =>
    match a.run st k with
    | some r => some r
    | none => b.run st k
  | .star a, st, k => starLoop a.run a.groups st.rem.length st k
  | .grp i a, st, k =>
    a.run st (fun st1 =>
      k { st1 with caps := setCap i (st.rem.take (st.rem.length - st1.rem.length)) st1.caps })

/-- A successful match: start index, end index, matched text, captures. -/
structure Match where
  index : Nat
  stop : Nat
  text : Str
  caps : List (Nat × Str)

/-- Capture `i` of a match (`m[i]`), `none` when the group did not take part. -/
def Match.cap (m : Match) (i : Nat) : Option Str := m.caps.lookup i

/-- Try the expression at one position of the input. -/
def Re.matchAt (r : Re) (pos : Nat) (rest : Str) : Option Match :=
  match r.run { pos := pos, rem := rest, caps := [] } some with
  | some st => some { index := pos, stop := st.pos, text := rest.take (st.pos - pos), caps := st.caps }
  | none => none

/-- Leftmost match at or after the current position. -/
def Re.searchFrom (r : Re) : Nat → Str → Option Match
  | pos, [] => r.matchAt pos []
  | pos, c :: cs =>
    match r.matchAt pos (c :: cs) with
    | some m => some m
    | none => r.searchFrom (pos + 1) cs

/-- The call `s.match(r)` for an expression without the `g` flag, also `r.exec(s)`. -/
def Re.exec (r : Re) (s : Str) : Option Match := r.searchFrom 0 s

/-- The call `r.test(s)` for an expression without the `g` flag. -/
def Re.test (r : Re) (s : Str) : Bool := (r.exec s).isSome

/-- The call `r.exec(s)` for an expression with the `g` flag whose `lastIndex` is `li`:
the match, if any, and the new `lastIndex`. -/
def Re.execG (r : Re) (s : Str) (li : Nat) : Option Match × Nat :=
  if s.length < li then (none, 0)
  else
    match r.searchFrom li (s.drop li) with
    | some m => (some m, m.stop)
    | none => (none, 0)

/-- The loop `while ((m = r.exec(s)) !== null) out.push(m)` for an expression with the
`g` flag: the matches pushed and the final `lastIndex`; `none` when the counter runs out,
which stands for a loop that does not end. -/
def Re.execLoop (r : Re) (s : Str) : Nat → Nat → Option (List Match × Nat)
  | 0, _ => none
  | fuel + 1, li =>
    match r.execG s li with
    | (none, li1) => some ([], li1)
    | (some m, li1) =>
      match r.execLoop s fuel li1 with
      | some (ms, li2) => some (m :: ms, li2)
      | none => none

/-- All matches of an expression with the `g` flag, as `s.match(r)` and `s.replace(r, _)`
enumerate them: after an empty match the search resumes one character further on. -/
def Re.allFrom (r : Re) : Nat → Nat → Str → List Match
  | 0, _, _ => []
  | fuel + 1, pos, rest =>
    match r.searchFrom pos rest with
    | none => []
    | some m =>
      if m.stop = m.index then
        match rest.drop (m.stop - pos) with
        | [] => [m]
        | _ :: t => m :: r.allFrom fuel (m.stop + 1) t
      else m :: r.allFrom fuel m.stop (rest.drop (m.stop - pos))

/-- The call `s.match(r)` for an expression with the `g` flag: the matched texts,
`none` (JavaScript `null`) when there is no match. -/
def Re.matchG (r : Re) (s : Str) : Option (List Str) :=
  match r.allFrom (s.length + 1) 0 s with
  | [] => none
  | ms => some (ms.map (fun m => m.text))

/-- The pieces of `s.replace(r, rep)` for an expression with the `g` flag. -/
def replaceGo (rep : Str) : List Match → Nat → Str → Str
  | [], _, rest => rest
  | m :: ms, pos, rest =>
    rest.take (m.index - pos) ++ rep ++ replaceGo rep ms m.stop (rest.drop (m.stop - pos))

/-- The call `s.replace(r, rep)` for an expression with the `g` flag and a replacement
text without `$` patterns. -/
def Re.replaceG (r : Re) (s rep : Str) : Str :=
  replaceGo rep (r.allFrom (s.length + 1) 0 s) 0 s

/-- The loop of `String.prototype.split` with a regular expression separator that has no
capture group: `p` is the start of the piece being built, `q` the position tried,
`fromP` and `fromQ` the input from there. -/
def splitGo (r : Re) : Nat → Nat → Nat → Str → Str → List Str
  | 0, _, _, fromP, _ => [fromP]
  | _ + 1, _, _, fromP, [] => [fromP]
  | fuel + 1, p, q, fromP, c :: cs =>
    match r.matchAt q (c :: cs) with
    | none => splitGo r fuel p (q + 1) fromP cs
    | some m =>
      if m.stop = p then splitGo r fuel p (q + 1) fromP cs
      else fromP.take (q - p) :: splitGo r fuel m.stop m.stop
        ((c :: cs).drop (m.stop - q)) ((c :: cs).drop (m.stop - q))

/-- The call `s.split(r)` for a regular expression `r` without capture groups. -/
def Re.split (r : Re) (s : Str) : List Str :=
  match s with
  | [] => if (r.matchAt 0 []).isSome then [] else [[]]
  | _ => splitGo r (s.length + 1) 0 0 s s

/-! ## String methods -/

/-- The call `s.startsWith(p)`. -/
def startsWith (s p : Str) : Bool := p.isPrefixOf s

/-- The call `s.slice(n)` for a non-negative `n`. -/
def slice (s : Str) (n : Nat) : Str := s.drop n

/-- The call `s.trim()`: white space and line terminators removed at both ends. -/
def trim (s : Str) : Str := ((s.dropWhile isSpace).reverse.dropWhile isSpace).reverse

/-- The call `s.indexOf(p)`: `none` stands for `-1`. -/
def indexOf (p : Str) : Nat → Str → Option Nat
  | i, [] => if p.isEmpty then some i else none
  | i, c :: cs => if p.isPrefixOf (c :: cs) then some i else indexOf p (i + 1) cs

/-- The call `s.split(c)` for a separator of one character. -/
def splitChar (sep : Char) : Str → List Str
  | [] => [[]]
  | c :: cs =>
    if c == sep then [] :: splitChar sep cs
    else
      match splitChar sep cs with
      | [] => [[c]]
      | h :: t => (c :: h) :: t

/-- The natural number that a text of decimal digits denotes. -/
def digitsValue (s : Str) : Nat := s.foldl (fun acc c => 10 * acc + (c.toNat - 48)) 0

/-- The quotient `a / b` rounded to the nearest integer, a tie to the even one. -/
def roundHalfEven (a b : Nat) : Nat :=
  if 2 * (a % b) < b then a / b
  else if b < 2 * (a % b) then a / b + 1
  else a / b + (a / b) % 2

/-- The number `Infinity` where a number is held in a `Nat`: every binary64 number that is
a natural number is below `2 ^ 1024`. -/
def Infinity : Nat := 2 ^ 1024

/-- The least `e` from `e` on, at most `fuel` further, with `n < 2 ^ (53 + e)`: the number
of binary digits of `n` beyond 53. -/
def excessBits (n : Nat) : Nat → Nat → Nat
  | 0, e => e
  | fuel + 1, e => if n < 2 ^ (53 + e) then e else excessBits n fuel (e + 1)

/-- The binary64 number nearest to the natural number `n`, a tie to the even significand:
`n` itself below `2 ^ 53`; from there up to `2 ^ 1024` the 53 leading binary digits of `n`,
rounded, at the scale of `n`; and `Infinity` when that is `2 ^ 1024`, or `n` is `2 ^ 1024`
or more. -/
def roundBinary64 (n : Nat) : Nat :=
  if n < 2 ^ 53 then n
  else if Infinity ≤ n then Infinity
  else if roundHalfEven n (2 ^ excessBits n 971 0) * 2 ^ excessBits n 971 0 < Infinity then
    roundHalfEven n (2 ^ excessBits n 971 0) * 2 ^ excessBits n 971 0
  else Infinity

/-- Unary `+` applied to a capture of `\d+`: the binary64 number nearest to the number the
digits denote. -/
def toNumber (s : Str) : Nat := roundBinary64 (digitsValue s)

/-! ## Lines -/

/-- The maximal runs of characters other than CR and LF, in order: what the
expression `/[^\r\n]+/g` matches. -/
def lineRuns : Str → List Str
  | [] => []
  | c :: cs =>
    if isCRLF c then lineRuns cs
    else
      match cs with
      | [] => [[c]]
      | d :: _ =>
        if isCRLF d then [c] :: lineRuns cs
        else
          match lineRuns cs with
          | [] => [[c]]
          | h :: t => (c :: h) :: t

/-- `const splitLines = sdp => sdp.match(/[^\r\n]+/g)`: `none` is the `null` that
`match` returns for a text without any such run. -/
def splitLines (sdp : Str) : Option (List Str) :=
  match lineRuns sdp with
  | [] => none
  | ls => some ls

/-! ## Findings and configuration -/

/-- One diagnostic of the rule engine: each constructor is one message template of the
source (`new Error(...)`), its arguments the values the template interpolates. -/
inductive Finding where
  /-- test_10_74_1: the mediaclk attribute shall have a zero offset (stream index as interpolated). -/
  | mediaclkOffset (s : Nat)
  /-- test_10_81_1: each stream description shall have a media-level mediaclk attribute. -/
  | mediaclkMissing (stream : Nat)
  /-- test_10_81_2: the direct reference for the mediaclk parameter should be used. -/
  | mediaclkNotDirect (found : Str)
  /-- test_10_82_1: stream descriptions shall have a media-level ts-refclk attribute. -/
  | tsrefclkMissing (stream : Nat)
  /-- test_10_82_2: reference clocks shall use the PTP form or the localmac form. -/
  | tsrefclkForm (line : Nat)
  /-- test_10_82_3: traceable without IEEE1588-2008 is not a permitted form. -/
  | ptpTraceable (line : Nat)
  /-- test_10_82_3: the only supported PTP version is IEEE1588-2008. -/
  | ptpVersion (line : Nat)
  /-- test_10_82_3: parameters for ptp-server do not match acceptable patterns. -/
  | ptpServer (line : Nat)
  /-- test_10_82_3: PTP domain number must be a value between 0 and 127 inclusive. -/
  | ptpDomainRange (line : Nat)
  /-- test_10_82_3: PTP domain number must be specified. -/
  | ptpDomainMissing (line : Nat)
  /-- test_10_82_4: reference clock of type localmac has an invalid MAC address. -/
  | localmacInvalid (line : Nat)
  /-- extractMTParams: the fmtp line does not match fmtpPattern (fmpt ... has error). -/
  | fmtpError (line : Nat) (text : Str)
  /-- extractMTParams: parameter appears more than once. -/
  | paramDuplicate (line stream : Nat) (key : Str)
  /-- test_20_72_1: required parameter is missing. -/
  | paramMissing (line stream : Nat) (param : Str)
  /-- test_20_72_3: exactframerate does not match an acceptable pattern. -/
  | frameRatePatternBad (line stream : Nat)
  /-- test_20_72_3: exactframerate has a numerator that is not an integer. -/
  | frameRateNumerator (line stream : Nat)
  /-- test_20_72_3: exactframerate has a denominator that is not an integer. -/
  | frameRateDenominator (line stream : Nat)
  /-- test_20_72_3: exactframerate is an integer rate expressed as a non-integer rational. -/
  | frameRateInteger (line stream : Nat)
  /-- test_20_72_3: exactframerate specifies a frame rate slower than one per second. -/
  | frameRateSlow (line stream : Nat)
  /-- test_20_72_3: exactframerate uses integer values that are not the minimum possible. -/
  | frameRateNotMinimal (line stream : Nat)
  /-- test_10_83_1: duplicate RTP streams are expected, but neither form was found. -/
  | duplicateExpected
  /-- test_10_83_2: an SSRC line with group reference to a non-integer value. -/
  | ssrcNotInteger (line : Nat)
  /-- test_10_83_2: separate source address grouping is not an acceptable pattern. -/
  | ssrcGroupPatternBad (line : Nat)
  /-- test_10_83_2: reference to non existent source-level attribute within stream. -/
  | ssrcGroupDangling (line : Nat) (groupID : Str) (stream : Nat)
  /-- test_10_83_3: duplicate media identification. -/
  | midDuplicate (line : Nat) (mid : Str)
  /-- test_10_83_3: one stream with two media identifiers. -/
  | midTwo (line : Nat) (mid other : Str)
  /-- test_10_83_3: got to the end of session-level description without finding the
  destination group. -/
  | groupNotFound (line : Nat)
  /-- test_10_83_3: separate destination address grouping is not an acceptable pattern. -/
  | groupPatternBad (line : Nat)
  /-- test_10_83_3: separate destination group reference with no associated stream. -/
  | groupDangling (line : Nat) (groupId : Str)
  /-- test_20_71_1: media type is not video and video only files are in test. -/
  | notVideo (stream : Nat)
  /-- test_10_62_1, test_20_71_2: a media description for video with a pattern that is not
  acceptable. -/
  | videoPatternBad (line : Nat)
  /-- test_10_62_1, test_20_71_2: RTP video stream description with invalid port. -/
  | videoPort (line port : Nat)
  /-- test_10_62_1, test_20_71_2, test_30_62_2: SRTP protocol is not allowed. -/
  | srtp (line : Nat)
  /-- test_10_62_1, test_20_71_2: dynamic payload type expected for video. -/
  | videoPayloadType (line : Nat)
  /-- test_10_62_1: m=video expected for SMPTE 2110-defined video. -/
  | videoExpected
  /-- checkStreamsRtpMap: stream does not have an rtpmap attribute. -/
  | rtpmapMissing (line stream : Nat)
  /-- checkStreamsRtpMap: found more than one rtpmap attribute. -/
  | rtpmapRepeated (line stream : Nat)
  /-- checkStreamsRtpMap: found an rtpmap attribute that is not an acceptable pattern. -/
  | rtpmapPatternBad (line stream : Nat)
  /-- checkStreamsRtpMap: rtpmap attribute with a payload type other than that of the
  stream. -/
  | rtpmapPayloadType (line stream : Nat) (found : Str) (payloadType : Nat)
  /-- checkStreamsRtpMap: encoding name must be the media sub-type. -/
  | rtpmapEncoding (line stream : Nat) (type specification : Str)
  /-- checkStreamsRtpMap: clock rate must be the given rate. -/
  | rtpmapClockRate (line stream : Nat) (clockRate specification : Str)
  /-- test_20_71_4: stream does not have an fmtp attribute. -/
  | fmtpMissing (line stream : Nat)
  /-- test_20_71_4: found more than one fmtp attribute. -/
  | fmtpRepeated (line stream : Nat)
  /-- test_20_71_4: found an fmtp attribute that is not an acceptable pattern. -/
  | fmtpPatternBad (line stream : Nat)
  /-- test_20_71_4: fmtp attribute with a payload type other than that of the stream. -/
  | fmtpPayloadType (line stream : Nat) (found : Str) (payloadType : Nat)
  /-- test_20_72_2: parameter width is not an integer value. -/
  | widthNotInteger (line stream : Nat)
  /-- test_20_72_2: parameter width is outside acceptable range. -/
  | widthRange (line stream width : Nat)
  /-- test_20_72_2: parameter height is not an integer value. -/
  | heightNotInteger (line stream : Nat)
  /-- test_20_72_2: parameter height is outside acceptable range. -/
  | heightRange (line stream height : Nat)
  /-- test_20_72_4: parameter PM (packing mode) is not one of the defined values. -/
  | packingMode (line stream : Nat)
  /-- test_20_72_5: format parameter SSN is not set to the required value. -/
  | ssnValue (line stream : Nat)
  /-- test_20_73_1: format parameter interlace is name only. -/
  | interlaceValue (line stream : Nat)
  /-- test_20_73_2: format parameter segmented is name only. -/
  | segmentedValue (line stream : Nat)
  /-- test_20_73_2: segmented is signalled without interlace being signalled. -/
  | segmentedWithoutInterlace (line stream : Nat)
  /-- test_20_73_3: RANGE is not one of the acceptable values for colorimetry BT.2100. -/
  | rangeBT2100 (line stream : Nat) (range : Str)
  /-- test_20_73_3: RANGE is not one of the acceptable values. -/
  | rangeValue (line stream : Nat) (range : Str)
  /-- test_20_73_4: MAXUDP is not one of the acceptable values. -/
  | maxudpValue (line stream : Nat) (maxudp : Str)
  /-- test_20_73_5: format parameter PAR is not an acceptable pattern. -/
  | parPatternBad (line stream : Nat)
  /-- test_20_73_5: PAR is a ratio that is not expressed with the smallest possible
  values. -/
  | parNotMinimal (line stream : Nat) (par : Str)
  /-- test_20_74_1: format parameter sampling is not an acceptable value. -/
  | samplingValue (line stream : Nat)
  /-- test_20_74_2: format parameter depth is not one of 8, 10, 12 or 16/16f. -/
  | depthValue (line stream : Nat)
  /-- test_20_75_1: format parameter colorimetry is not a permitted value. -/
  | colorimetryValue (line stream : Nat)
  /-- test_20_75_2: colorimetry is BT2100 and so a RANGE parameter should also be
  specified. -/
  | rangeShould (line stream : Nat)
  /-- test_20_76_1: format parameter TCS is not a permitted value. -/
  | tcsValue (line stream : Nat)
  /-- test_30_62_1: required attribute rtpmap is missing for audio stream. -/
  | audioRtpmapMissing (line stream : Nat)
  /-- test_30_62_1: attribute rtpmap does not match the acceptable audio pattern. -/
  | audioRtpmapPatternBad (line stream : Nat)
  /-- test_30_62_1: attribute rtpmap is unexpectedly duplicated. -/
  | audioRtpmapDuplicated (line stream : Nat)
  /-- test_30_62_1: attribute rtpmap has a payload type different from that of the
  stream. -/
  | audioRtpmapPayloadType (line stream : Nat) (found : Str) (payloadType : Nat)
  /-- test_30_62_1: attribute rtpmap specifies an unacceptable sampling rate. -/
  | audioSampleRate (line stream : Nat) (rate : Str)
  /-- test_30_62_1: out-of-scope combination of L16/96000. -/
  | audioL16At96000 (line stream : Nat)
  /-- test_30_62_1: out-of-scope combination of L24/44100. -/
  | audioL24At44100 (line stream : Nat)
  /-- test_30_62_2: a media description for audio with a pattern that is not acceptable. -/
  | audioPatternBad (line : Nat)
  /-- test_30_62_2: RTP audio stream description with invalid port. -/
  | audioPort (line port : Nat)
  /-- test_30_62_2: dynamic payload type expected for audio. -/
  | audioPayloadType (line : Nat)
  /-- test_30_62_3: required attribute ptime is missing (the message of the loop, `as per
  SMPTE ST 2110-30`). -/
  | ptimeMissing (line stream : Nat)
  /-- test_30_62_3: required attribute ptime is missing (the message after the loop, `as
  per ST 2110-30`). -/
  | ptimeMissingAtEnd (line stream : Nat)
  /-- test_30_62_3: attribute ptime is not an acceptable pattern. -/
  | ptimePatternBad (line stream : Nat)
  /-- test_30_62_3: attribute ptime is unexpectedly duplicated. -/
  | ptimeDuplicated (line stream : Nat)
  /-- test_30_62_3: attribute maxptime is not an acceptable pattern. -/
  | maxptimePatternBad (line stream : Nat)
  /-- test_30_62_4: channel order for an audio stream is required by test parameters but
  is not present. -/
  | channelOrderMissing (line stream : Nat)
  /-- test_30_62_4: the same message after the loop, where the template reads
  `lines.lengths` and the message starts with `Line undefined:`. -/
  | channelOrderMissingAtEnd (stream : Nat)
  /-- test_30_62_4: audio stream attribute fmtp does not contain a channel order
  parameter. -/
  | channelOrderAbsent (line stream : Nat)
  /-- test_30_62_4: audio stream contains duplicate fmtp attribute. -/
  | audioFmtpDuplicate (line stream : Nat)
  /-- test_30_62_4: payload type of fmtp attribute does not match that of the stream. -/
  | audioFmtpPayloadType (line stream : Nat) (found : Str) (payloadType : Nat)
  /-- test_30_62_4: channel-order should be specified by the SMPTE2110 convention. -/
  | channelOrderConvention (line stream : Nat) (found : Str)
  /-- test_30_62_4: format parameter channel-order is not acceptable. -/
  | channelOrderBad (line stream : Nat)
  /-- test_30_62_5: media type is not audio and audio only files are in test. -/
  | notAudio (stream : Nat)
  /-- test_21_81_1: parameter TP is not provided. -/
  | tpMissing (line stream : Nat)
  /-- test_21_81_2: format parameter TP is not one of 2110TPN, 2110TPNL or 2110TPW. -/
  | tpValue (line stream : Nat)
  /-- test_21_82_1: TR OFFSET value is not a number. -/
  | troffNotNumber (line stream : Nat)
  /-- test_21_82_1: TR OFFSET cannot be negative. -/
  | troffNegative (line stream : Nat)
  /-- test_21_82_2: CMAX parameter is not a number. -/
  | cmaxNotNumber (line stream : Nat)
  /-- test_21_82_2: CMAX parameter is not an integer. -/
  | cmaxNotInteger (line stream : Nat)
  /-- test_21_82_2: CMAX parameter makes no sense unless it is a positive value. -/
  | cmaxNotPositive (line stream : Nat)
  /-- test_22_53_1: format parameter TP is not one of 2110TPW, 2110TPNL. -/
  | tpValue22 (line stream : Nat)
  /-- test_22_72_1: required parameter is missing, as per SMPTE ST2110-22. -/
  | paramMissing22 (line stream : Nat) (param : Str)
  /-- test_22_73_1: bandwidth must be of the form b=bwtype:bandwidth. -/
  | bandwidthForm (line : Nat)
  /-- test_22_73_1: bwtype must be AS. -/
  | bandwidthType (line : Nat)
  /-- test_22_73_1: bandwidth must be specified as an integer. -/
  | bandwidthInteger (line : Nat)
  /-- test_22_73_1: required attribute b=bwtype:bandwidth is missing. -/
  | bandwidthMissing
  /-- test_22_74_1: the file should specify a single video stream or a duplicate. -/
  | singleStream
  /-- test_22_74_1: framerate must be of the form a=framerate:frame rate. -/
  | framerateForm (line : Nat)
  /-- test_22_74_1: framerate must be specified as either an attribute or a parameter. -/
  | framerateMissing
  /-- test_22_74_1: framerate must be specified using one method only. -/
  | framerateBoth
  /-- no_copy: SDP file given is a fairly obvious copy of the example in the standard. -/
  | copy
  deriving Repr

/-- The number of the message template of a Finding, with the numbers and the texts that
the template interpolates. -/
def Finding.code : Finding → Nat × List Nat × List Str
  | .mediaclkOffset a0 => (0, [a0], [])
  | .mediaclkMissing a0 => (1, [a0], [])
  | .mediaclkNotDirect a0 => (2, [], [a0])
  | .tsrefclkMissing a0 => (3, [a0], [])
  | .tsrefclkForm a0 => (4, [a0], [])
  | .ptpTraceable a0 => (5, [a0], [])
  | .ptpVersion a0 => (6, [a0], [])
  | .ptpServer a0 => (7, [a0], [])
  | .ptpDomainRange a0 => (8, [a0], [])
  | .ptpDomainMissing a0 => (9, [a0], [])
  | .localmacInvalid a0 => (10, [a0], [])
  | .fmtpError a0 a1 => (11, [a0], [a1])
  | .paramDuplicate a0 a1 a2 => (12, [a0, a1], [a2])
  | .paramMissing a0 a1 a2 => (13, [a0, a1], [a2])
  | .frameRatePatternBad a0 a1 => (14, [a0, a1], [])
  | .frameRateNumerator a0 a1 => (15, [a0, a1], [])
  | .frameRateDenominator a0 a1 => (16, [a0, a1], [])
  | .frameRateInteger a0 a1 => (17, [a0, a1], [])
  | .frameRateSlow a0 a1 => (18, [a0, a1], [])
  | .frameRateNotMinimal a0 a1 => (19, [a0, a1], [])
  | .duplicateExpected => (20, [], [])
  | .ssrcNotInteger a0 => (21, [a0], [])
  | .ssrcGroupPatternBad a0 => (22, [a0], [])
  | .ssrcGroupDangling a0 a1 a2 => (23, [a0, a2], [a1])
  | .midDuplicate a0 a1 => (24, [a0], [a1])
  | .midTwo a0 a1 a2 => (25, [a0], [a1, a2])
  | .groupNotFound a0 => (26, [a0], [])
  | .groupPatternBad a0 => (27, [a0], [])
  | .groupDangling a0 a1 => (28, [a0], [a1])
  | .notVideo a0 => (29, [a0], [])
  | .videoPatternBad a0 => (30, [a0], [])
  | .videoPort a0 a1 => (31, [a0, a1], [])
  | .srtp a0 => (32, [a0], [])
  | .videoPayloadType a0 => (33, [a0], [])
  | .videoExpected => (34, [], [])
  | .rtpmapMissing a0 a1 => (35, [a0, a1], [])
  | .rtpmapRepeated a0 a1 => (36, [a0, a1], [])
  | .rtpmapPatternBad a0 a1 => (37, [a0, a1], [])
  | .rtpmapPayloadType a0 a1 a2 a3 => (38, [a0, a1, a3], [a2])
  | .rtpmapEncoding a0 a1 a2 a3 => (39, [a0, a1], [a2, a3])
  | .rtpmapClockRate a0 a1 a2 a3 => (40, [a0, a1], [a2, a3])
  | .fmtpMissing a0 a1 => (41, [a0, a1], [])
  | .fmtpRepeated a0 a1 => (42, [a0, a1], [])
  | .fmtpPatternBad a0 a1 => (43, [a0, a1], [])
  | .fmtpPayloadType a0 a1 a2 a3 => (44, [a0, a1, a3], [a2])
  | .widthNotInteger a0 a1 => (45, [a0, a1], [])
  | .widthRange a0 a1 a2 => (46, [a0, a1, a2], [])
  | .heightNotInteger a0 a1 => (47, [a0, a1], [])
  | .heightRange a0 a1 a2 => (48, [a0, a1, a2], [])
  | .packingMode a0 a1 => (49, [a0, a1], [])
  | .ssnValue a0 a1 => (50, [a0, a1], [])
  | .interlaceValue a0 a1 => (51, [a0, a1], [])
  | .segmentedValue a0 a1 => (52, [a0, a1], [])
  | .segmentedWithoutInterlace a0 a1 => (53, [a0, a1], [])
  | .rangeBT2100 a0 a1 a2 => (54, [a0, a1], [a2])
  | .rangeValue a0 a1 a2 => (55, [a0, a1], [a2])
  | .maxudpValue a0 a1 a2 => (56, [a0, a1], [a2])
  | .parPatternBad a0 a1 => (57, [a0, a1], [])
  | .parNotMinimal a0 a1 a2 => (58, [a0, a1], [a2])
  | .samplingValue a0 a1 => (59, [a0, a1], [])
  | .depthValue a0 a1 => (60, [a0, a1], [])
  | .colorimetryValue a0 a1 => (61, [a0, a1], [])
  | .rangeShould a0 a1 => (62, [a0, a1], [])
  | .tcsValue a0 a1 => (63, [a0, a1], [])
  | .audioRtpmapMissing a0 a1 => (64, [a0, a1], [])
  | .audioRtpmapPatternBad a0 a1 => (65, [a0, a1], [])
  | .audioRtpmapDuplicated a0 a1 => (66, [a0, a1], [])
  | .audioRtpmapPayloadType a0 a1 a2 a3 => (67, [a0, a1, a3], [a2])
  | .audioSampleRate a0 a1 a2 => (68, [a0, a1], [a2])
  | .audioL16At96000 a0 a1 => (69, [a0, a1], [])
  | .audioL24At44100 a0 a1 => (70, [a0, a1], [])
  | .audioPatternBad a0 => (71, [a0], [])
  | .audioPort a0 a1 => (72, [a0, a1], [])
  | .audioPayloadType a0 => (73, [a0], [])
  | .ptimeMissing a0 a1 => (74, [a0, a1], [])
  | .ptimeMissingAtEnd a0 a1 => (75, [a0, a1], [])
  | .ptimePatternBad a0 a1 => (76, [a0, a1], [])
  | .ptimeDuplicated a0 a1 => (77, [a0, a1], [])
  | .maxptimePatternBad a0 a1 => (78, [a0, a1], [])
  | .channelOrderMissing a0 a1 => (79, [a0, a1], [])
  | .channelOrderMissingAtEnd a0 => (80, [a0], [])
  | .channelOrderAbsent a0 a1 => (81, [a0, a1], [])
  | .audioFmtpDuplicate a0 a1 => (82, [a0, a1], [])
  | .audioFmtpPayloadType a0 a1 a2 a3 => (83, [a0, a1, a3], [a2])
  | .channelOrderConvention a0 a1 a2 => (84, [a0, a1], [a2])
  | .channelOrderBad a0 a1 => (85, [a0, a1], [])
  | .notAudio a0 => (86, [a0], [])
  | .tpMissing a0 a1 => (87, [a0, a1], [])
  | .tpValue a0 a1 => (88, [a0, a1], [])
  | .troffNotNumber a0 a1 => (89, [a0, a1], [])
  | .troffNegative a0 a1 => (90, [a0, a1], [])
  | .cmaxNotNumber a0 a1 => (91, [a0, a1], [])
  | .cmaxNotInteger a0 a1 => (92, [a0, a1], [])
  | .cmaxNotPositive a0 a1 => (93, [a0, a1], [])
  | .tpValue22 a0 a1 => (94, [a0, a1], [])
  | .paramMissing22 a0 a1 a2 => (95, [a0, a1], [a2])
  | .bandwidthForm a0 => (96, [a0], [])
  | .bandwidthType a0 => (97, [a0], [])
  | .bandwidthInteger a0 => (98, [a0], [])
  | .bandwidthMissing => (99, [], [])
  | .singleStream => (100, [], [])
  | .framerateForm a0 => (101, [a0], [])
  | .framerateMissing => (102, [], [])
  | .framerateBoth => (103, [], [])
  | .copy => (104, [], [])

/-- The Finding of a template number, numbers and texts, if there is one. -/
def Finding.ofCode : Nat × List Nat × List Str → Option Finding
  | (0, [a0], []) => some (.mediaclkOffset a0)
  | (1, [a0], []) => some (.mediaclkMissing a0)
  | (2, [], [a0]) => some (.mediaclkNotDirect a0)
  | (3, [a0], []) => some (.tsrefclkMissing a0)
  | (4, [a0], []) => some (.tsrefclkForm a0)
  | (5, [a0], []) => some (.ptpTraceable a0)
  | (6, [a0], []) => some (.ptpVersion a0)
  | (7, [a0], []) => some (.ptpServer a0)
  | (8, [a0], []) => some (.ptpDomainRange a0)
  | (9, [a0], []) => some (.ptpDomainMissing a0)
  | (10, [a0], []) => some (.localmacInvalid a0)
  | (11, [a0], [a1]) => some (.fmtpError a0 a1)
  | (12, [a0, a1], [a2]) => some (.paramDuplicate a0 a1 a2)
  | (13, [a0, a1], [a2]) => some (.paramMissing a0 a1 a2)
  | (14, [a0, a1], []) => some (.frameRatePatternBad a0 a1)
  | (15, [a0, a1], []) => some (.frameRateNumerator a0 a1)
  | (16, [a0, a1], []) => some (.frameRateDenominator a0 a1)
  | (17, [a0, a1], []) => some (.frameRateInteger a0 a1)
  | (18, [a0, a1], []) => some (.frameRateSlow a0 a1)
  | (19, [a0, a1], []) => some (.frameRateNotMinimal a0 a1)
  | (20, [], []) => some (.duplicateExpected)
  | (21, [a0], []) => some (.ssrcNotInteger a0)
  | (22, [a0], []) => some (.ssrcGroupPatternBad a0)
  | (23, [a0, a2], [a1]) => some (.ssrcGroupDangling a0 a1 a2)
  | (24, [a0], [a1]) => some (.midDuplicate a0 a1)
  | (25, [a0], [a1, a2]) => some (.midTwo a0 a1 a2)
  | (26, [a0], []) => some (.groupNotFound a0)
  | (27, [a0], []) => some (.groupPatternBad a0)
  | (28, [a0], [a1]) => some (.groupDangling a0 a1)
  | (29, [a0], []) => some (.notVideo a0)
  | (30, [a0], []) => some (.videoPatternBad a0)
  | (31, [a0, a1], []) => some (.videoPort a0 a1)
  | (32, [a0], []) => some (.srtp a0)
  | (33, [a0], []) => some (.videoPayloadType a0)
  | (34, [], []) => some (.videoExpected)
  | (35, [a0, a1], []) => some (.rtpmapMissing a0 a1)
  | (36, [a0, a1], []) => some (.rtpmapRepeated a0 a1)
  | (37, [a0, a1], []) => some (.rtpmapPatternBad a0 a1)
  | (38, [a0, a1, a3], [a2]) => some (.rtpmapPayloadType a0 a1 a2 a3)
  | (39, [a0, a1], [a2, a3]) => some (.rtpmapEncoding a0 a1 a2 a3)
  | (40, [a0, a1], [a2, a3]) => some (.rtpmapClockRate a0 a1 a2 a3)
  | (41, [a0, a1], []) => some (.fmtpMissing a0 a1)
  | (42, [a0, a1], []) => some (.fmtpRepeated a0 a1)
  | (43, [a0, a1], []) => some (.fmtpPatternBad a0 a1)
  | (44, [a0, a1, a3], [a2]) => some (.fmtpPayloadType a0 a1 a2 a3)
  | (45, [a0, a1], []) => some (.widthNotInteger a0 a1)
  | (46, [a0, a1, a2], []) => some (.widthRange a0 a1 a2)
  | (47, [a0, a1], []) => some (.heightNotInteger a0 a1)
  | (48, [a0, a1, a2], []) => some (.heightRange a0 a1 a2)
  | (49, [a0, a1], []) => some (.packingMode a0 a1)
  | (50, [a0, a1], []) => some (.ssnValue a0 a1)
  | (51, [a0, a1], []) => some (.interlaceValue a0 a1)
  | (52, [a0, a1], []) => some (.segmentedValue a0 a1)
  | (53, [a0, a1], []) => some (.segmentedWithoutInterlace a0 a1)
  | (54, [a0, a1], [a2]) => some (.rangeBT2100 a0 a1 a2)
  | (55, [a0, a1], [a2]) => some (.rangeValue a0 a1 a2)
  | (56, [a0, a1], [a2]) => some (.maxudpValue a0 a1 a2)
  | (57, [a0, a1], []) => some (.parPatternBad a0 a1)
  | (58, [a0, a1], [a2]) => some (.parNotMinimal a0 a1 a2)
  | (59, [a0, a1], []) => some (.samplingValue a0 a1)
  | (60, [a0, a1], []) => some (.depthValue a0 a1)
  | (61, [a0, a1], []) => some (.colorimetryValue a0 a1)
  | (62, [a0, a1], []) => some (.rangeShould a0 a1)
  | (63, [a0, a1], []) => some (.tcsValue a0 a1)
  | (64, [a0, a1], []) => some (.audioRtpmapMissing a0 a1)
  | (65, [a0, a1], []) => some (.audioRtpmapPatternBad a0 a1)
  | (66, [a0, a1], []) => some (.audioRtpmapDuplicated a0 a1)
  | (67, [a0, a1, a3], [a2]) => some (.audioRtpmapPayloadType a0 a1 a2 a3)
  | (68, [a0, a1], [a2]) => some (.audioSampleRate a0 a1 a2)
  | (69, [a0, a1], []) => some (.audioL16At96000 a0 a1)
  | (70, [a0, a1], []) => some (.audioL24At44100 a0 a1)
  | (71, [a0], []) => some (.audioPatternBad a0)
  | (72, [a0, a1], []) => some (.audioPort a0 a1)
  | (73, [a0], []) => some (.audioPayloadType a0)
  | (74, [a0, a1], []) => some (.ptimeMissing a0 a1)
  | (75, [a0, a1], []) => some (.ptimeMissingAtEnd a0 a1)
  | (76, [a0, a1], []) => some (.ptimePatternBad a0 a1)
  | (77, [a0, a1], []) => some (.ptimeDuplicated a0 a1)
  | (78, [a0, a1], []) => some (.maxptimePatternBad a0 a1)
  | (79, [a0, a1], []) => some (.channelOrderMissing a0 a1)
  | (80, [a0], []) => some (.channelOrderMissingAtEnd a0)
  | (81, [a0, a1], []) => some (.channelOrderAbsent a0 a1)
  | (82, [a0, a1], []) => some (.audioFmtpDuplicate a0 a1)
  | (83, [a0, a1, a3], [a2]) => some (.audioFmtpPayloadType a0 a1 a2 a3)
  | (84, [a0, a1], [a2]) => some (.channelOrderConvention a0 a1 a2)
  | (85, [a0, a1], []) => some (.channelOrderBad a0 a1)
  | (86, [a0], []) => some (.notAudio a0)
  | (87, [a0, a1], []) => some (.tpMissing a0 a1)
  | (88, [a0, a1], []) => some (.tpValue a0 a1)
  | (89, [a0, a1], []) => some (.troffNotNumber a0 a1)
  | (90, [a0, a1], []) => some (.troffNegative a0 a1)
  | (91, [a0, a1], []) => some (.cmaxNotNumber a0 a1)
  | (92, [a0, a1], []) => some (.cmaxNotInteger a0 a1)
  | (93, [a0, a1], []) => some (.cmaxNotPositive a0 a1)
  | (94, [a0, a1], []) => some (.tpValue22 a0 a1)
  | (95, [a0, a1], [a2]) => some (.paramMissing22 a0 a1 a2)
  | (96, [a0], []) => some (.bandwidthForm a0)
  | (97, [a0], []) => some (.bandwidthType a0)
  | (98, [a0], []) => some (.bandwidthInteger a0)
  | (99, [], []) => some (.bandwidthMissing)
  | (100, [], []) => some (.singleStream)
  | (101, [a0], []) => some (.framerateForm a0)
  | (102, [], []) => some (.framerateMissing)
  | (103, [], []) => some (.framerateBoth)
  | (104, [], []) => some (.copy)
  | _ => none

/-- Equality of Findings is decided on their codes, from which `Finding.ofCode` gives the
Finding back. -/
instance : DecidableEq Finding := fun a b =>
  if h : a.code = b.code then
    isTrue (by
      have ha : Finding.ofCode a.code = some a := by cases a <;> rfl
      have hb : Finding.ofCode b.code = some b := by cases b <;> rfl
      exact Option.some.inj (by rw [← ha, ← hb, h]))
  else isFalse (fun e => h (congrArg Finding.code e))

/-- The `params` object of the rules: the options of the command line, and `checkDups`,
which `test_20_72_1` sets for `extractMTParams`. -/
structure Params where
  verbose : Bool := false
  should : Bool := false
  noCopy : Bool := false
  duplicate : Bool := false
  videoOnly : Bool := false
  audioOnly : Bool := false
  channelOrder : Bool := false
  shaping : Bool := false
  smpte2110_22 : Bool := false
  checkDups : Bool := false
  deriving DecidableEq, Repr

/-! ## The pattern constants (lines 19 to 47 of the source) -/

/-- `/[\r\n]a=mediaclk/` -/
def mediaclkPattern : Re := .seq (.cls isCRLF) (.lit "a=mediaclk".toList)

/-- `/[\r\n]a=mediaclk[^\s=]+/g` -/
def mediaclkTypePattern : Re :=
  .cat [.cls isCRLF, .lit "a=mediaclk".toList, .plus (.cls (fun c => !(isSpace c || c == '=')))]

/-- `/[\r\n]a=mediaclk:direct=\d+\s+/g` -/
def mediaclkDirectPattern : Re :=
  .cat [.cls isCRLF, .lit "a=mediaclk:direct=".toList, .plus (.cls isDigit), .plus (.cls isSpace)]

/-- `/[\r\n]a=ts-refclk/` -/
def tsrefclkPattern : Re := .seq (.cls isCRLF) (.lit "a=ts-refclk".toList)

/-- The clock identity `(([0-9A-F]{2}-){7}[0-9A-F]{2})` of ptpPattern, groups 2 and 3. -/
def ptpIdentity : Re :=
  .grp 2 (.seq (.rep 7 (.grp 3 (.cat [.cls isHexUpper, .cls isHexUpper, .chr '-'])))
    (.seq (.cls isHexUpper) (.cls isHexUpper)))

/-- `/traceable|((([0-9A-F]{2}-){7}[0-9A-F]{2})(:(\d+))?)$/` -/
def ptpPattern : Re :=
  .alt (.lit "traceable".toList)
    (.seq (.grp 1 (.seq ptpIdentity (.opt (.grp 4 (.seq (.chr ':') (.grp 5 (.plus (.cls isDigit))))))))
      .eol)

/-- `/(([0-9a-fA-F]{2}-){5}[0-9a-fA-F]{2})/` -/
def macPattern : Re :=
  .grp 1 (.seq (.rep 5 (.grp 2 (.cat [.cls isHex, .cls isHex, .chr '-'])))
    (.seq (.cls isHex) (.cls isHex)))

/-- `/video\s+(\d+)(\/\d+)?\s+(RTP\/S?AVP)\s+(\d+)/` -/
def videoPattern : Re :=
  .cat [.lit "video".toList, .plus (.cls isSpace), .grp 1 (.plus (.cls isDigit)),
    .opt (.grp 2 (.seq (.chr '/') (.plus (.cls isDigit)))), .plus (.cls isSpace),
    .grp 3 (.cat [.lit "RTP/".toList, .opt (.chr 'S'), .lit "AVP".toList]),
    .plus (.cls isSpace), .grp 4 (.plus (.cls isDigit))]

/-- `/a=rtpmap:(\d+)\s(\S+)\/(\d+)\s*/` -/
def rtpmapPattern : Re :=
  .cat [.lit "a=rtpmap:".toList, .grp 1 (.plus (.cls isDigit)), .cls isSpace,
    .grp 2 (.plus (.cls (fun c => !isSpace c))), .chr '/', .grp 3 (.plus (.cls isDigit)),
    .star (.cls isSpace)]

/-- The text `'([^\\s=;]+)(?:=([^\\s;]+))?'` read as an expression whose two groups are
numbered `i` and `j`. -/
def fmtpElement (i j : Nat) : Re :=
  .seq (.grp i (.plus (.cls (fun c => !(isSpace c || c == '=' || c == ';')))))
    (.opt (.seq (.chr '=') (.grp j (.plus (.cls (fun c => !(isSpace c || c == ';')))))))

/-- The text `'(?:;\\s*)'` read as an expression. -/
def fmtpSeparator : Re := .seq (.chr ';') (.star (.cls isSpace))

/-- `new RegExp('a=fmtp:(\\d+)\\s+' + fmtpElement + '(' + fmtpSeparator + fmtpElement + ')*' +
fmtpSeparator + '?$')` -/
def fmtpPattern : Re :=
  .cat [.lit "a=fmtp:".toList, .grp 1 (.plus (.cls isDigit)), .plus (.cls isSpace),
    fmtpElement 2 3, .star (.grp 4 (.seq fmtpSeparator (fmtpElement 5 6))),
    .opt fmtpSeparator, .eol]

/-- `new RegExp(fmtpElement + fmtpSeparator + '?', 'g')` -/
def fmtpParams : Re := .seq (fmtpElement 1 2) (.opt fmtpSeparator)

/-- `/^[1-9]\d*$/` -/
def integerPattern : Re := .cat [.bol, .cls isDigit19, .star (.cls isDigit), .eol]

/-- `/^([1-9]\d*)(?:\/([1-9]\d*))?$/` -/
def frameRatePattern : Re :=
  .cat [.bol, .grp 1 (.seq (.cls isDigit19) (.star (.cls isDigit))),
    .opt (.seq (.chr '/') (.grp 2 (.seq (.cls isDigit19) (.star (.cls isDigit))))), .eol]

/-- `const skipVideoTypes = ['smpte291', 'vc2', 'SMPTE2022-6']` -/
def skipVideoTypes : List Str := ["smpte291".toList, "vc2".toList, "SMPTE2022-6".toList]

/-- JavaScript truthiness of `m[i]`: defined and not the empty string. -/
def truthy : Option Str → Bool
  | some (_ :: _) => true
  | _ => false

/-! ## ST 2110-10, sections 7.4, 8.1 and 8.2 -/

/-- The number `+(z.trim().split('=')[2])` differs from zero (`NaN`, for a missing third
piece, differs from zero as well). -/
def offsetNonZero (z : Str) : Bool :=
  match (splitChar '=' (trim z)).get? 2 with
  | some d => toNumber d != 0
  | none => true

/-- The body of the loop of test_10_74_1 for the stream text `stream` at index `s`. -/
def check_10_74_1 (s : Nat) (stream : Str) : List Finding :=
  match mediaclkDirectPattern.matchG stream with
  | none => []
  | some zeroCheck =>
    if (match indexOf "IEEE1588-2008".toList 0 stream with
        | some i => decide (0 < i)
        | none => false) then
      (zeroCheck.filter offsetNonZero).map (fun _ => Finding.mediaclkOffset s)
    else []

/-- The elements of a list with their indices from `i` on. -/
def indexed {α : Type} : Nat → List α → List (Nat × α)
  | _, [] => []
  | i, a :: as => (i, a) :: indexed (i + 1) as

/-- `/[\r\n]m=/` -/
def streamSep : Re := Re.seq (.cls isCRLF) (.lit "m=".toList)

/-- `sdp.split(/[\r\n]m=/).slice(1)` -/
def streamsOf (sdp : Str) : List Str := (streamSep.split sdp).drop 1

/-- Test ST2110-10 Section 7.4 Test 1 - Where mediaclk:direct is used with PTP, offset
value is zero. -/
def test_10_74_1 (sdp : Str) (_params : Params) : List Finding :=
  (indexed 0 (streamsOf sdp)).flatMap (fun p => check_10_74_1 p.1 p.2)

/-- Test ST2110-10 Section 8.1 Test 1 - Shall have media-level mediaclk per stream. -/
def test_10_81_1 (sdp : Str) (_params : Params) : List Finding :=
  (indexed 0 (streamsOf sdp)).flatMap (fun p =>
    if !mediaclkPattern.test p.2 then [Finding.mediaclkMissing (p.1 + 1)] else [])

/-- Test ST2110-10 Section 8.1 Test 2 - Should have mediaclk using direct reference. -/
def test_10_81_2 (sdp : Str) (params : Params) : List Finding :=
  if !params.should && params.verbose then []
  else
    match mediaclkTypePattern.matchG sdp with
    | some directCheck =>
      (directCheck.filter (fun x => !startsWith (slice x 1) "a=mediaclk:direct".toList)).map
        (fun nd => Finding.mediaclkNotDirect (slice nd 1))
    | none => []

/-- Test ST2110-10 Section 8.1 Test 1 - Shall have a media-level ts-refclk (the condition
of the source tests the whole text `sdp` for every stream). -/
def test_10_82_1 (sdp : Str) (_params : Params) : List Finding :=
  (indexed 0 (streamsOf sdp)).flatMap (fun p =>
    if !tsrefclkPattern.test sdp then [Finding.tsrefclkMissing (p.1 + 1)] else [])

/-- The loop shared by test_10_82_2, test_10_82_3 and test_10_82_4: lines are skipped up
to and including the first line that starts with `m=`; after it `body x line` is run on
every line, `x` its index. -/
def mediaLevelLoop (body : Nat → Str → List Finding) : Nat → Bool → List Str → List Finding
  | _, _, [] => []
  | x, false, l :: ls => mediaLevelLoop body (x + 1) (startsWith l "m=".toList) ls
  | x, true, l :: ls => body x l ++ mediaLevelLoop body (x + 1) true ls

/-- The body of the loop of test_10_82_2. -/
def check_10_82_2 (x : Nat) (line : Str) : List Finding :=
  if startsWith line "a=ts-refclk".toList then
    if !startsWith line "a=ts-refclk:ptp=".toList && !startsWith line "a=ts-refclk:localmac".toList
    then [Finding.tsrefclkForm (x + 1)] else []
  else []

/-- Test ST2110-10 Section 8.2 Test 2 - Shall be ptp reference or shall be localmac. -/
def test_10_82_2 (sdp : Str) (_params : Params) : Option (List Finding) :=
  (splitLines sdp).map (mediaLevelLoop check_10_82_2 0 false)

/-- The body of the loop of test_10_82_3.  `ptpPattern.test(t)` and `t.match(ptpPattern)`
of the source are one search of the same text, done once here. -/
def check_10_82_3 (x : Nat) (line : Str) : List Finding :=
  if startsWith line "a=ts-refclk:ptp=".toList then
    let ptpDetails := slice line 16
    if startsWith ptpDetails "traceable".toList then [Finding.ptpTraceable (x + 1)]
    else if !startsWith ptpDetails "IEEE1588-2008:".toList then [Finding.ptpVersion (x + 1)]
    else
      match ptpPattern.exec (slice ptpDetails 14) with
      | none => [Finding.ptpServer (x + 1)]
      | some ptpMatch =>
        if truthy (ptpMatch.cap 5) then
          let domainNmbr := toNumber ((ptpMatch.cap 5).getD [])
          if decide (127 < domainNmbr) then [Finding.ptpDomainRange (x + 1)] else []
        else if truthy (ptpMatch.cap 2) then [Finding.ptpDomainMissing (x + 1)]
        else []
  else []

/-- Test ST2110-10 Section 8.2 Test 3 - If a PTP reference clock, check parameters. -/
def test_10_82_3 (sdp : Str) (_params : Params) : Option (List Finding) :=
  (splitLines sdp).map (mediaLevelLoop check_10_82_3 0 false)

/-- The body of the loop of test_10_82_4. -/
def check_10_82_4 (x : Nat) (line : Str) : List Finding :=
  if startsWith line "a=ts-refclk:localmac=".toList then
    if !macPattern.test (slice line 21) then [Finding.localmacInvalid (x + 1)] else []
  else []

/-- Test ST2110-10 Section 8.2 - If local mac clock, check MAC address. -/
def test_10_82_4 (sdp : Str) (_params : Params) : Option (List Finding) :=
  (splitLines sdp).map (mediaLevelLoop check_10_82_4 0 false)

/-- `concat(tests.map(t => t(sdp, params)))`: the tests run in order, every one of them;
the first that throws ends the call. -/
def concatResults : List (Option (List Finding)) → Option (List Finding)
  | [] => some []
  | r :: rs =>
    match r with
    | none => none
    | some fs =>
      match concatResults rs with
      | none => none
      | some gs => some (fs ++ gs)

/-- `section_10_74` -/
def section_10_74 (sdp : Str) (params : Params) : Option (List Finding) :=
  concatResults [some (test_10_74_1 sdp params)]

/-- `section_10_81` -/
def section_10_81 (sdp : Str) (params : Params) : Option (List Finding) :=
  concatResults [some (test_10_81_1 sdp params), some (test_10_81_2 sdp params)]

/-- `section_10_82` -/
def section_10_82 (sdp : Str) (params : Params) : Option (List Finding) :=
  concatResults [some (test_10_82_1 sdp params), test_10_82_2 sdp params,
    test_10_82_3 sdp params, test_10_82_4 sdp params]

/-! ## The copy detector -/

/-- A text given line by line, the lines joined by LF. -/
def unlines : List String → Str
  | [] => []
  | [l] => l.toList
  | l :: ls => l.toList ++ '\n' :: unlines ls

/-- `specExample20` (lines 51 to 73 of the source). -/
def specExample20 : Str := unlines
  ["v=0",
   "o=- 123456 11 IN IP4 192.168.100.2",
   "s=Example of a SMPTE ST2110-20 signal",
   "i=this example is for 720p video at 59.94",
   "t=0 0",
   "a=recvonly",
   "a=group:DUP primary secondary",
   "m=video 50000 RTP/AVP 112",
   "c=IN IP4 239.100.9.10/32",
   "a=source-filter:incl IN IP4 239.100.9.10 192.168.100.2",
   "a=rtpmap:112 raw/90000",
   "a=fmtp:112 sampling=YCbCr-4:2:2; width=1280; height=720; exactframerate=60000/1001; depth=10; TCS=SDR; colorimetry=BT709; PM=2110GPM; SSN=ST2110-20:2017;",
   "a=ts-refclk:ptp=IEEE1588-2008:39-A7-94-FF-FE-07-CB-D0:37",
   "a=mediaclk:direct=0",
   "a=mid:primary",
   "m=video 50020 RTP/AVP 112",
   "c=IN IP4 239.101.9.10/32",
   "a=source-filter:incl IN IP4 239.101.9.10 192.168.101.2",
   "a=rtpmap:112 raw/90000",
   "a=fmtp:112 sampling=YCbCr-4:2:2; width=1280; height=720; exactframerate=60000/1001; depth=10; TCS=SDR; colorimetry=BT709; PM=2110GPM; SSN=ST2110-20:2017;",
   "a=ts-refclk:ptp=IEEE1588-2008:39-A7-94-FF-FE-07-CB-D0:37",
   "a=mediaclk:direct=0",
   "a=mid:secondary"]

/-- `specExample22` (lines 77 to 101 of the source; all lines but the last end in a blank). -/
def specExample22 : Str := unlines
  ["v=0 ",
   "o=- 101202 53 IN IP4 10.0.81.54 ",
   "s=237.0.0.50:22000 ",
   "i=Nmos Testing 237.0.0.50:22000 ",
   "t=0 0 ",
   "a=recvonly ",
   "a=group:DUP PRIMARY SECONDARY ",
   "m=video 22000 RTP/AVP 98 ",
   "c=IN IP4 237.0.0.50/32 ",
   "a=source-filter: incl IN IP4 237.0.0.50 10.0.81.54 ",
   "a=rtpmap:98 jxsv/90000 ",
   "a=fmtp:98 sampling=YCbCr-4:2:2;width=1280;height=720;packetmode=0;exactframerate=60000/1001;depth=10;TCS=SDR;colorimetry=BT709;SSN=ST2110-22:2019;TP=2110TPN;level=1k-1;sublevel=Sublev3bpp ",
   "b=AS:116000 ",
   "a=ssrc:0 cname:nmos@nmos.tv ",
   "a=ts-refclk:ptp=IEEE1588-2008:08-00-11-FF-FE-22-91-3C:127 ",
   "a=mediaclk:direct=0 ",
   "a=mid:PRIMARY m=video 22000 RTP/AVP 98 ",
   "c=IN IP4 237.64.0.50/32 ",
   "a=source-filter: incl IN IP4 237.64.0.50 10.0.81.154 ",
   "a=rtpmap:98 jxsv/90000 ",
   "a=fmtp:98 sampling=YCbCr-4:2:2;width=1280;height=720;packetmode=0;exactframerate=60000/1001;depth=10;TCS=SDR;colorimetry=BT709;SSN=ST2110-22:2019;TP=2110TPN;level=1k-1;sublevel=Sublev3bpp ",
   "b=AS:116000 a=ssrc:0 cname:nmos@nmos.tv ",
   "a=ts-refclk:ptp=IEEE1588-2008:08-00-11-FF-FE-22-91-3C:127 ",
   "a=mediaclk:direct=0 ",
   "a=mid:SECONDARY"]

/-- The loop of no_copy over the indices `x, x + 1, ...` of the lines that remain: `false`
as soon as a line of the submission, its white space collapsed, does not start with the
line of the example. -/
def noCopyLoop : List Str → List Str → Bool
  | l :: ls, e :: es =>
    if !startsWith ((Re.plus (.cls isSpace)).replaceG l " ".toList) e then false
    else noCopyLoop ls es
  | _, _ => true

/-- Test ST2110-10 Appendix B Test 1 - Check that the SDP file given is not a straight
copy. -/
def no_copy (sdp specSDP : Str) : Option (List Finding) :=
  match splitLines (trim sdp), splitLines specSDP with
  | some lines, some exlines => some (if noCopyLoop lines exlines then [Finding.copy] else [])
  | _, _ => none

/-- `no_copy_20` -/
def no_copy_20 (sdp : Str) : Option (List Finding) := no_copy sdp specExample20

/-- `no_copy_22` -/
def no_copy_22 (sdp : Str) : Option (List Finding) := no_copy sdp specExample22

/-! ## Format parameters -/

/-- The object `paramsObject` that extractMTParams builds for one `a=fmtp` line: the
properties assigned by `splitParams.reduce`, in order of first assignment, and the three
properties assigned after it. -/
structure StreamParams where
  props : List (Str × Str)
  _payloadType : Nat
  _line : Nat
  _streamNumber : Nat
  deriving DecidableEq, Repr

/-- The assignment `x[k] = v` of the reduction, on the properties assigned so far.  The
name `__proto__` reaches the setter of `Object.prototype`, which ignores a string and
adds no property. -/
def setProp (o : List (Str × Str)) (k v : Str) : List (Str × Str) :=
  if k == "__proto__".toList then o
  else if o.any (fun p => p.1 == k) then o.map (fun p => if p.1 == k then (k, v) else p)
  else o ++ [(k, v)]

/-- The read `stream.name` for a name that is none of `_payloadType`, `_line`,
`_streamNumber` and is not a property of `Object.prototype`: `none` is `undefined`. -/
def StreamParams.get (o : StreamParams) (name : String) : Option Str :=
  o.props.lookup name.toList

/-- The test `Object.keys(stream).indexOf(name) >= 0`. -/
def StreamParams.hasKey (o : StreamParams) (name : Str) : Bool :=
  (o.props.map (fun p => p.1)).contains name ||
  ["_payloadType".toList, "_line".toList, "_streamNumber".toList].contains name

/-- The loop `for (let y in keys)` of extractMTParams over the keys that remain, with the
keys `reported` so far. -/
def dupLoop (line stream : Nat) (keys : List Str) : List Str → List Str → List Finding
  | [], _ => []
  | k :: rest, reported =>
    if decide (2 ≤ (keys.filter (fun k1 => k == k1)).length) && !reported.contains k then
      Finding.paramDuplicate line stream k :: dupLoop line stream keys rest (reported ++ [k])
    else dupLoop line stream keys rest reported

/-- The read `params.checkDups` in the `a=fmtp` branch of extractMTParams.  In that block
`params` is the string declared by `let params = lines[x].split(/a=fmtp:\d+\s+/)[1]`, which
shadows the parameter `params` of the function; a string has no property `checkDups`, so
the read gives `undefined`, whatever the string. -/
def checkDupsOfString (_params : Str) : Bool := false

/-- The variables of the loop of extractMTParams, and the `lastIndex` of the shared
expression `fmtpParams`. -/
structure ExtractState where
  mtParams : List StreamParams
  errors : List Finding
  isSkippedType : Bool
  streamCount : Nat
  payloadType : Option Nat
  lastIndex : Nat
  deriving DecidableEq, Repr

/-- The separator `/a=fmtp:\d+\s+/` at which extractMTParams splits an `a=fmtp` line. -/
def fmtpHead : Re := Re.cat [.lit "a=fmtp:".toList, .plus (.cls isDigit), .plus (.cls isSpace)]

/-- `[p[1], p[2] || '']` -/
def splitParam (p : Match) : Str × Str := ((p.cap 1).getD [], (p.cap 2).getD [])

/-- The `a=fmtp` branch of extractMTParams for a line that matches fmtpPattern. -/
def extractFmtp (st : ExtractState) (x : Nat) (line : Str) : Option ExtractState :=
  match (fmtpHead.split line).get? 1 with
  | none => none
  | some params =>
    match fmtpParams.execLoop params (params.length + 1) st.lastIndex with
    | none => none
    | some (paramsMatch, li) =>
      let splitParams := paramsMatch.map splitParam
      let dups :=
        if checkDupsOfString params then
          dupLoop (x + 1) st.streamCount (splitParams.map (fun p => p.1))
            (splitParams.map (fun p => p.1)) []
        else []
      match st.payloadType with
      | none => none
      | some pt =>
        some { st with
          errors := st.errors ++ dups
          lastIndex := li
          mtParams := st.mtParams ++
            [{ props := splitParams.foldl (fun o p => setProp o p.1 p.2) []
               _payloadType := pt, _line := x + 1, _streamNumber := st.streamCount }] }

/-- One turn of the loop of extractMTParams, on line `x`.  `payloadType` is `none` for
the `-1` of a media line that videoPattern does not match. -/
def extractStep (st : ExtractState) (x : Nat) (line : Str) : Option ExtractState :=
  if startsWith line "m=".toList then
    some { st with
      payloadType := (videoPattern.exec line).map (fun m => toNumber ((m.cap 4).getD []))
      streamCount := st.streamCount + 1
      isSkippedType := false }
  else if startsWith line "a=rtpmap".toList && st.payloadType.isSome &&
      (match rtpmapPattern.exec line with
       | some m => skipVideoTypes.contains ((m.cap 2).getD [])
       | none => false) then
    some { st with isSkippedType := true }
  else if startsWith line "a=fmtp".toList && st.payloadType.isSome && !st.isSkippedType then
    if !fmtpPattern.test line then
      some { st with errors := st.errors ++ [Finding.fmtpError (x + 1) line] }
    else extractFmtp st x line
  else some st

/-- The loop of extractMTParams over the lines from index `x` on. -/
def extractLoop : ExtractState → Nat → List Str → Option ExtractState
  | st, _, [] => some st
  | st, x, l :: ls =>
    match extractStep st x l with
    | none => none
    | some st1 => extractLoop st1 (x + 1) ls

/-- The state in which extractMTParams enters its loop, `li` the `lastIndex` that the
shared expression `fmtpParams` holds at the call. -/
def extractInit (li : Nat) : ExtractState :=
  { mtParams := [], errors := [], isSkippedType := false, streamCount := 0,
    payloadType := none, lastIndex := li }

/-- The function extractMTParams run with `fmtpParams.lastIndex = li`: the final state of
its loop.  The parameter `params` of the source is read nowhere in the body. -/
def extractRun (li : Nat) (sdp : Str) (_params : Params) : Option ExtractState :=
  match splitLines sdp with
  | none => none
  | some lines => extractLoop (extractInit li) 0 lines

/-- The function extractMTParams (called with `fmtpParams.lastIndex = 0`, the value every
completed call leaves): the pair `[mtParams, errors]`. -/
def extractMTParams (sdp : Str) (params : Params) : Option (List StreamParams × List Finding) :=
  (extractRun 0 sdp params).map (fun st => (st.mtParams, st.errors))

/-- `const mustHaves20` -/
def mustHaves20 : List Str :=
  ["sampling".toList, "depth".toList, "width".toList, "height".toList,
   "exactframerate".toList, "colorimetry".toList, "PM".toList, "SSN".toList]

/-- The body of the loop of test_20_72_1 for one stream. -/
def check_20_72_1 (stream : StreamParams) : List Finding :=
  (mustHaves20.filter (fun param => !stream.hasKey param)).map
    (fun param => Finding.paramMissing stream._line stream._streamNumber param)

/-- Test ST 2110-20 Section 7.2 Test 1 - Test all required parameters are present. -/
def test_20_72_1 (sdp : Str) (_params : Params) : Option (List Finding) :=
  (extractMTParams sdp { checkDups := true }).map
    (fun r => r.2 ++ r.1.flatMap check_20_72_1)

/-! ## Frame rate -/

/-- The remainder `a % b` for a `b` other than zero, as greatestCommonDivisor passes it to
its next call.  The remainder of a number by `Infinity` is the number.  The remainder of
`Infinity` is `NaN`, which is held as `0`: the next call reads it only in `!b`, which is
true of `NaN` as it is of `0`. -/
def remainder (a b : Nat) : Nat :=
  if a = Infinity then 0 else if b = Infinity then a else a % b

/-- The recursion of greatestCommonDivisor, with a counter of the calls that remain. -/
def gcdLoop : Nat → Nat → Nat → Nat
  | 0, a, _ => a
  | fuel + 1, a, b => if b = 0 then a else gcdLoop fuel b (remainder a b)

/-- `const greatestCommonDivisor = (a, b) => !b ? a : greatestCommonDivisor(b, a % b)`.
The second argument decreases at every call, or is `Infinity` at the first call only, so
`b + 1` calls are enough. -/
def greatestCommonDivisor (a b : Nat) : Nat := gcdLoop (b + 1) a b

/-- The least `s` from `s` on, at most `fuel` further, with `2 ^ 52 ≤ (n / d) * 2 ^ s`. -/
def binaryScale (n d : Nat) : Nat → Nat → Nat
  | 0, s => s
  | fuel + 1, s => if d * 2 ^ 52 ≤ n * 2 ^ s then s else binaryScale n d fuel (s + 1)

/-- The binary64 number nearest to the quotient `n / d` of two natural numbers is an
integer.  That number is `m / 2 ^ s`, where `m` is `n * 2 ^ s / d` rounded to the nearest
integer (ties to even) and `s` scales the quotient into the 53 bits of a significand
(`s` is at most 1074, the scale of the subnormal numbers).  A quotient of `2 ^ 53` or more
is an integer; a division by zero gives `Infinity` or `NaN`, which are not. -/
def quotientIsInteger (n d : Nat) : Bool :=
  if d = 0 then false
  else if n = 0 then true
  else if d * 2 ^ 53 ≤ n then true
  else roundHalfEven (n * 2 ^ binaryScale n d 1074 0) d % 2 ^ binaryScale n d 1074 0 == 0

/-- `Number.isInteger(n / d)` for two numbers obtained by unary `+` from digits: the
quotient of `Infinity` is `Infinity` or `NaN`, no integer; the quotient of a finite number
by `Infinity` is zero; the quotient of two finite numbers is the binary64 number nearest to
their quotient. -/
def divisionIsInteger (n d : Nat) : Bool :=
  if n = Infinity then false
  else if d = Infinity then true
  else quotientIsInteger n d

/-- `isNaN(v)` for a number `v` obtained by unary `+` from a capture of digits: such a
number is never `NaN`. -/
def isNaNOfDigits (_v : Nat) : Bool := false

/-- The body of the loop of test_20_72_3 for one stream. -/
def check_20_72_3 (stream : StreamParams) : List Finding :=
  match stream.get "exactframerate" with
  | none => []
  | some exactframerate =>
    match frameRatePattern.exec exactframerate with
    | none => [Finding.frameRatePatternBad stream._line stream._streamNumber]
    | some frMatch =>
      let numerator := toNumber ((frMatch.cap 1).getD [])
      (if isNaNOfDigits numerator then
        [Finding.frameRateNumerator stream._line stream._streamNumber] else []) ++
      (if !truthy (frMatch.cap 2) then []
       else
        let denominator := toNumber ((frMatch.cap 2).getD [])
        if isNaNOfDigits denominator then
          [Finding.frameRateDenominator stream._line stream._streamNumber]
        else
          (if divisionIsInteger numerator denominator then
            [Finding.frameRateInteger stream._line stream._streamNumber] else []) ++
          (if decide (numerator < denominator) then
            [Finding.frameRateSlow stream._line stream._streamNumber] else []) ++
          (if greatestCommonDivisor numerator denominator != 1 then
            [Finding.frameRateNotMinimal stream._line stream._streamNumber] else []))

/-- Test ST 2110-20 Section 7.2 Test 3 - Exactframerate is as specified. -/
def test_20_72_3 (sdp : Str) (params : Params) : Option (List Finding) :=
  (extractMTParams sdp params).map (fun r => r.2 ++ r.1.flatMap check_20_72_3)


/-! ## Further pattern constants (lines 25 to 47 of the source) -/

/-- The class `[\s\S]`: every character. -/
def isAny (c : Char) : Bool := isSpace c || !isSpace c

/-- The class `.`: every character but the line terminators. -/
def isDot (c : Char) : Bool :=
  !(c.toNat == 10 || c.toNat == 13 || c.toNat == 8232 || c.toNat == 8233)

/-- An alternation of several expressions, the leftmost first. -/
def Re.alts : List Re → Re
  | [] => .cls (fun _ => false)
  | [r] => r
  | r :: rs => .alt r (Re.alts rs)

/-- `/[\r\n]m=[\s\S]+a=ssrc-group:DUP|[\r\n]a=group:DUP[\s\S]+m=/` -/
def dupPattern : Re :=
  .alt (.cat [.cls isCRLF, .lit "m=".toList, .plus (.cls isAny), .lit "a=ssrc-group:DUP".toList])
    (.cat [.cls isCRLF, .lit "a=group:DUP".toList, .plus (.cls isAny), .lit "m=".toList])

/-- `/a=ssrc-group:DUP\s+(\d+)\s+(\d+)/` -/
def ssrcGroupPattern : Re :=
  .cat [.lit "a=ssrc-group:DUP".toList, .plus (.cls isSpace), .grp 1 (.plus (.cls isDigit)),
    .plus (.cls isSpace), .grp 2 (.plus (.cls isDigit))]

/-- `/a=group:DUP\s+(\S+)\s+(\S+)/` -/
def groupPattern : Re :=
  .cat [.lit "a=group:DUP".toList, .plus (.cls isSpace),
    .grp 1 (.plus (.cls (fun c => !isSpace c))), .plus (.cls isSpace),
    .grp 2 (.plus (.cls (fun c => !isSpace c)))]

/-- `/a=ssrc:(\d+)\s/` -/
def ssrcPattern : Re :=
  .cat [.lit "a=ssrc:".toList, .grp 1 (.plus (.cls isDigit)), .cls isSpace]

/-- `/b=([a-zA-Z]+):(\d*\s*$)/` -/
def bandwidthPattern : Re :=
  .cat [.lit "b=".toList, .grp 1 (.plus (.cls isAlpha)), .chr ':',
    .grp 2 (.cat [.star (.cls isDigit), .star (.cls isSpace), .eol])]

/-- `/a=framerate:\d*.\d*$/`.  The `.` takes one UTF-16 code unit.  A character outside
the Basic Multilingual Plane is two code units, neither of them a digit: `.` would take
the first and `\d*$` stop at the second, so such a character is not in the class. -/
def frameRateAttributePattern : Re :=
  .cat [.lit "a=framerate:".toList, .star (.cls isDigit),
    .cls (fun c => isDot c && decide (c.toNat < 65536)), .star (.cls isDigit), .eol]

/-- `/^([1-9]\d*):([1-9]\d*)$/` -/
def parPattern : Re :=
  .cat [.bol, .grp 1 (.seq (.cls isDigit19) (.star (.cls isDigit))), .chr ':',
    .grp 2 (.seq (.cls isDigit19) (.star (.cls isDigit))), .eol]

/-- `/a=rtpmap:(\d+)\s+(L16|L24|AM824)\/([1-9]\d*)\/([1-9]\d*)/` -/
def rtpmapSound : Re :=
  .cat [.lit "a=rtpmap:".toList, .grp 1 (.plus (.cls isDigit)), .plus (.cls isSpace),
    .grp 2 (.alts [.lit "L16".toList, .lit "L24".toList, .lit "AM824".toList]), .chr '/',
    .grp 3 (.seq (.cls isDigit19) (.star (.cls isDigit))), .chr '/',
    .grp 4 (.seq (.cls isDigit19) (.star (.cls isDigit)))]

/-- The group `(\d+(?:\.\d+)?)` of ptimePattern and maxptimePattern. -/
def decimalGroup : Re :=
  .grp 1 (.seq (.plus (.cls isDigit)) (.opt (.seq (.chr '.') (.plus (.cls isDigit)))))

/-- `/^a=ptime:(\d+(?:\.\d+)?)$/` -/
def ptimePattern : Re := .cat [.bol, .lit "a=ptime:".toList, decimalGroup, .eol]

/-- `/^a=maxptime:(\d+(?:\.\d+)?)$/` -/
def maxptimePattern : Re := .cat [.bol, .lit "a=maxptime:".toList, decimalGroup, .eol]

/-- `/audio\s+(\d+)(\/\d+)?\s+(RTP\/S?AVP)\s+(\d+)/` -/
def audioPattern : Re :=
  .cat [.lit "audio".toList, .plus (.cls isSpace), .grp 1 (.plus (.cls isDigit)),
    .opt (.grp 2 (.seq (.chr '/') (.plus (.cls isDigit)))), .plus (.cls isSpace),
    .grp 3 (.cat [.lit "RTP/".toList, .opt (.chr 'S'), .lit "AVP".toList]),
    .plus (.cls isSpace), .grp 4 (.plus (.cls isDigit))]

/-- `/^a=fmtp:(\d+)\s+.*channel-order=([^\s;]+).*$/` -/
def channelOrderPattern : Re :=
  .cat [.bol, .lit "a=fmtp:".toList, .grp 1 (.plus (.cls isDigit)), .plus (.cls isSpace),
    .star (.cls isDot), .lit "channel-order=".toList,
    .grp 2 (.plus (.cls (fun c => !(isSpace c || c == ';')))), .star (.cls isDot), .eol]

/-- The alternation `M|DM|ST|LtRt|51|71|222|SGRP|U\d\d` of smpteChannelPattern. -/
def channelSymbol : Re :=
  .alts [.lit "M".toList, .lit "DM".toList, .lit "ST".toList, .lit "LtRt".toList,
    .lit "51".toList, .lit "71".toList, .lit "222".toList, .lit "SGRP".toList,
    .cat [.chr 'U', .cls isDigit, .cls isDigit]]

/-- `/SMPTE2110\.\((M|DM|ST|LtRt|51|71|222|SGRP|U\d\d)(,(M|DM|ST|LtRt|51|71|222|SGRP|U\d\d))*\)/` -/
def smpteChannelPattern : Re :=
  .cat [.lit "SMPTE2110.(".toList, .grp 1 channelSymbol,
    .star (.grp 2 (.seq (.chr ',') (.grp 3 channelSymbol))), .chr ')']
/-! ## Numbers from arbitrary texts -/

/-- The value of unary `+` on a text (StringToNumber of the ECMAScript specification)
before it is rounded to a binary64 number: not a number, an infinity, or a sign and the
magnitude `p / q`. -/
inductive NumberValue where
  | nan
  | infinity (negative : Bool)
  | finite (negative : Bool) (p q : Nat)
  deriving DecidableEq, Repr

/-- The value of a digit in a radix up to 16, if it is one. -/
def digitValue (radix : Nat) (c : Char) : Option Nat :=
  let v :=
    if isDigit c then c.toNat - 48
    else if decide (97 ≤ c.toNat) && decide (c.toNat ≤ 102) then c.toNat - 87
    else if decide (65 ≤ c.toNat) && decide (c.toNat ≤ 70) then c.toNat - 55
    else 16
  if v < radix then some v else none

/-- The value of a non-empty text of digits in the radix, from the value `acc` of the
digits read so far. -/
def radixValue (radix : Nat) : Nat → Str → Option Nat
  | acc, [] => some acc
  | acc, c :: cs =>
    match digitValue radix c with
    | none => none
    | some v => radixValue radix (radix * acc + v) cs

/-- NonDecimalIntegerLiteral: `0x`, `0o` or `0b` (in either case) and at least one digit. -/
def nonDecimalLiteral (s : Str) : Option Nat :=
  match s with
  | '0' :: r :: d :: ds =>
    if r == 'x' || r == 'X' then radixValue 16 0 (d :: ds)
    else if r == 'o' || r == 'O' then radixValue 8 0 (d :: ds)
    else if r == 'b' || r == 'B' then radixValue 2 0 (d :: ds)
    else none
  | _ => none

/-- DecimalDigits: a non-empty text of decimal digits. -/
def decimalDigits (s : Str) : Bool := !s.isEmpty && s.all isDigit

/-- SignedInteger of an ExponentPart: digits with an optional sign. -/
def signedInteger (s : Str) : Option Int :=
  match s with
  | '+' :: ds => if decimalDigits ds then some (digitsValue ds : Int) else none
  | '-' :: ds => if decimalDigits ds then some (-(digitsValue ds : Int)) else none
  | ds => if decimalDigits ds then some (digitsValue ds : Int) else none

/-- The exponent that follows the digits of a decimal literal: nothing, or `e` or `E` and
a SignedInteger. -/
def exponentPart (s : Str) : Option Int :=
  match s with
  | [] => some 0
  | c :: cs => if c == 'e' || c == 'E' then signedInteger cs else none

/-- The magnitude `m * 10 ^ e` as a fraction. -/
def scaled (m : Nat) (e : Int) : Nat × Nat :=
  match e with
  | Int.ofNat k => (m * 10 ^ k, 1)
  | Int.negSucc k => (m, 10 ^ (k + 1))

/-- StrUnsignedDecimalLiteral: `Infinity`, or digits with an optional fraction and an
optional exponent, at least one digit before or after the point. -/
def unsignedDecimal (negative : Bool) (s : Str) : NumberValue :=
  if s == "Infinity".toList then .infinity negative
  else
    let intPart := s.takeWhile isDigit
    let rest := s.dropWhile isDigit
    let fracPart := match rest with
      | '.' :: r => r.takeWhile isDigit
      | _ => []
    let tail := match rest with
      | '.' :: r => r.dropWhile isDigit
      | _ => rest
    if intPart.isEmpty && fracPart.isEmpty then .nan
    else
      match exponentPart tail with
      | none => .nan
      | some e =>
        let r := scaled (digitsValue (intPart ++ fracPart)) (e - (fracPart.length : Int))
        .finite negative r.1 r.2

/-- StringToNumber: the text without the white space at its ends is empty (zero), a
NonDecimalIntegerLiteral, or a StrDecimalLiteral with an optional sign; anything else is
not a number. -/
def stringToNumber (s : Str) : NumberValue :=
  match trim s with
  | [] => .finite false 0 1
  | '+' :: t => unsignedDecimal false t
  | '-' :: t => unsignedDecimal true t
  | t =>
    match nonDecimalLiteral t with
    | some v => .finite false v 1
    | none => unsignedDecimal false t

/-- `isNaN(v)` -/
def NumberValue.isNaN : NumberValue → Bool
  | .nan => true
  | _ => false

/-- The magnitude `p / q` is rounded to `Infinity`: it is at least `2 ^ 1024 - 2 ^ 970`,
half a unit above the greatest binary64 number. -/
def roundsToInfinity (p q : Nat) : Bool := decide (q * (2 ^ 1024 - 2 ^ 970) ≤ p)

/-- `v < 0` for the binary64 number nearest to the value: a negative magnitude above
`2 ^ (-1075)`, half the least positive binary64 number (at or below it the number is `-0`). -/
def NumberValue.ltZero : NumberValue → Bool
  | .nan => false
  | .infinity negative => negative
  | .finite negative p q => negative && decide (q < p * 2 ^ 1075)

/-- `Number.isInteger(v)` for the binary64 number nearest to the value. -/
def NumberValue.isInteger : NumberValue → Bool
  | .nan => false
  | .infinity _ => false
  | .finite _ p q => !roundsToInfinity p q && quotientIsInteger p q

/-- `v < 1` for the binary64 number nearest to the value: a magnitude below
`1 - 2 ^ (-54)`, the middle of `1` and the binary64 number before it, is rounded below `1`. -/
def NumberValue.ltOne : NumberValue → Bool
  | .nan => false
  | .infinity negative => negative
  | .finite negative p q => negative || decide (p * 2 ^ 54 < q * (2 ^ 54 - 1))
/-! ## ST 2110-10, section 8.3 -/

/-- The loop `for (let x = 0; x < lines.length; x++)` over the lines from index `x` on,
with the variables `st` of the loop: the variables after the last line and the Findings
pushed, in order. -/
def forLines {σ : Type} (body : σ → Nat → Str → σ × List Finding) :
    σ → Nat → List Str → σ × List Finding
  | st, _, [] => (st, [])
  | st, x, l :: ls =>
    ((forLines body (body st x l).1 (x + 1) ls).1,
      (body st x l).2 ++ (forLines body (body st x l).1 (x + 1) ls).2)

/-- Test ST 2110-10 Section 8.3 Test 1 - Duplication expected, is it present? -/
def test_10_83_1 (sdp : Str) (params : Params) : List Finding :=
  if !params.duplicate then []
  else if dupPattern.test sdp then []
  else [Finding.duplicateExpected]

/-- The call `ssrcs[streamCounter].push(v)`. -/
def pushAt (ssrcs : List (List Nat)) (streamCounter v : Nat) : List (List Nat) :=
  (indexed 0 ssrcs).map (fun p => if p.1 == streamCounter then p.2 ++ [v] else p.2)

/-- The body of the first loop of test_10_83_2: the variables are `ssrcs` and
`streamCounter`. -/
def ssrcStep (st : List (List Nat) × Nat) (x : Nat) (line : Str) :
    (List (List Nat) × Nat) × List Finding :=
  let st1 := if startsWith line "m=".toList then (st.1 ++ [[]], st.2 + 1) else st
  if startsWith line "a=ssrc:".toList then
    match ssrcPattern.exec line with
    | none => (st1, [Finding.ssrcNotInteger (x + 1)])
    | some ssrcMatch => ((pushAt st1.1 st1.2 (toNumber ((ssrcMatch.cap 1).getD [])), st1.2), [])
  else (st1, [])

/-- The body of the second loop of test_10_83_2: the variable is `streamCounter`. -/
def ssrcGroupStep (ssrcs : List (List Nat)) (streamCounter : Nat) (x : Nat) (line : Str) :
    Nat × List Finding :=
  let sc := if startsWith line "m=".toList then streamCounter + 1 else streamCounter
  if !startsWith line "a=ssrc-group".toList || sc == 0 then (sc, [])
  else
    match ssrcGroupPattern.exec line with
    | none => (sc, [Finding.ssrcGroupPatternBad (x + 1)])
    | some groupMatch =>
      (sc, ([(groupMatch.cap 1).getD [], (groupMatch.cap 2).getD []].filter
          (fun groupID => !(ssrcs.getD sc []).contains (toNumber groupID))).map
        (fun groupID => Finding.ssrcGroupDangling (x + 1) groupID sc))

/-- Test ST 2110-10 Section 8.3 Test 2 - Separate source addresses - RFC 7104 section
4.1. -/
def test_10_83_2 (sdp : Str) (_params : Params) : Option (List Finding) :=
  if !(Re.lit "a=ssrc-group".toList).test sdp then some []
  else
    (splitLines sdp).map (fun lines =>
      (forLines ssrcStep ([[]], 0) 0 lines).2 ++
        (forLines (ssrcGroupStep (forLines ssrcStep ([[]], 0) 0 lines).1.1) 0 0 lines).2)

/-- The body of the first loop of test_10_83_3: the variables are `mids` and
`streamCounter`. -/
def midStep (st : List Str × Nat) (x : Nat) (line : Str) : (List Str × Nat) × List Finding :=
  let st1 :=
    if startsWith line "m=".toList then
      (if !truthy (st.1.get? st.2) then st.1 ++ [[]] else st.1, st.2 + 1)
    else st
  if startsWith line "a=mid:".toList then
    let mid := slice line 6
    if st1.1.contains mid then (st1, [Finding.midDuplicate (x + 1) mid])
    else if truthy (st1.1.get? st1.2) then
      (st1, [Finding.midTwo (x + 1) mid ((st1.1.get? st1.2).getD [])])
    else ((st1.1 ++ [mid], st1.2), [])
  else (st1, [])

/-- The second loop of test_10_83_3 over the lines from index `x` on, `doneOne` its
variable: the loop ends at the first line that starts with `m=`. -/
def groupLoop (mids : List Str) : Bool → Nat → List Str → List Finding
  | _, _, [] => []
  | doneOne, x, l :: ls =>
    if startsWith l "m=".toList then
      if !doneOne then [Finding.groupNotFound (x + 1)] else []
    else if !startsWith l "a=group".toList then groupLoop mids doneOne (x + 1) ls
    else
      match groupPattern.exec l with
      | none => Finding.groupPatternBad (x + 1) :: groupLoop mids doneOne (x + 1) ls
      | some groupMatch =>
        ([(groupMatch.cap 1).getD [], (groupMatch.cap 2).getD []].filter
            (fun groupId => !mids.contains groupId)).map
          (fun groupId => Finding.groupDangling (x + 1) groupId) ++
        groupLoop mids true (x + 1) ls

/-- Test ST 2110-10 Section 8.3 Test 3 - Separate destination addresses - RFC 7104
Section 4.2. -/
def test_10_83_3 (sdp : Str) (_params : Params) : Option (List Finding) :=
  if !(Re.lit "a=group".toList).test sdp then some []
  else
    (splitLines sdp).map (fun lines =>
      (forLines midStep ([], 0) 0 lines).2 ++
        groupLoop (forLines midStep ([], 0) 0 lines).1.1 false 0 lines)

/-- `section_10_83` -/
def section_10_83 (sdp : Str) (params : Params) : Option (List Finding) :=
  concatResults [some (test_10_83_1 sdp params), test_10_83_2 sdp params,
    test_10_83_3 sdp params]

/-! ## ST 2110-10 section 6.2 and ST 2110-20 section 7.1 -/

/-- Test ST 2110-20 Section 7.1 Test 1 - If required, check all streams are video. -/
def test_20_71_1 (sdp : Str) (params : Params) : List Finding :=
  if params.videoOnly then
    (indexed 1 ((streamSep.split sdp).drop 1)).flatMap (fun p =>
      if !startsWith p.2 "video".toList then [Finding.notVideo p.1] else [])
  else []

/-- The checks of test_10_62_1 and of test_20_71_2 on a line that starts with `m=video`. -/
def checkVideoLine (x : Nat) (line : Str) : List Finding :=
  match videoPattern.exec line with
  | none => [Finding.videoPatternBad (x + 1)]
  | some videoMatch =>
    let port := toNumber ((videoMatch.cap 1).getD [])
    let payloadType := toNumber ((videoMatch.cap 4).getD [])
    (if isNaNOfDigits port || decide (port < 0) || decide (65535 < port) then
      [Finding.videoPort (x + 1) port] else []) ++
    (if videoMatch.cap 3 == some "RTP/SAVP".toList then [Finding.srtp (x + 1)] else []) ++
    (if isNaNOfDigits payloadType || decide (payloadType < 96) || decide (127 < payloadType)
      then [Finding.videoPayloadType (x + 1)] else [])

/-- The body of the loop of test_10_62_1: the variable is `videoPresent`. -/
def videoStep (videoPresent : Bool) (x : Nat) (line : Str) : Bool × List Finding :=
  if !startsWith line "m=video".toList then (videoPresent, [])
  else (true, checkVideoLine x line)

/-- Test ST 2110-10 Section 6,2 Test 1 - For all video streams, check video params. -/
def test_10_62_1 (sdp : Str) (_params : Params) : Option (List Finding) :=
  (splitLines sdp).map (fun lines =>
    (forLines videoStep false 0 lines).2 ++
      (if (forLines videoStep false 0 lines).1 == false then [Finding.videoExpected] else []))

/-- Test ST 2110-20 Section 7.1 Test 2 - For all video streams, check video params. -/
def test_20_71_2 (sdp : Str) (_params : Params) : Option (List Finding) :=
  (splitLines sdp).map (fun lines =>
    (forLines (fun (_ : Unit) x line =>
      if !startsWith line "m=video".toList then ((), []) else ((), checkVideoLine x line))
      () 0 lines).2)

/-- The variables of the loop of checkStreamsRtpMap; `payloadType` is `none` for `-1`. -/
structure RtpMapState where
  rtpmapInStream : Bool
  payloadType : Option Nat
  streamCount : Nat
  deriving DecidableEq, Repr

/-- The body of the loop of checkStreamsRtpMap. -/
def rtpMapStep (type clockRate specification : Str) (st : RtpMapState) (x : Nat) (line : Str) :
    RtpMapState × List Finding :=
  if startsWith line "m=".toList then
    ({ rtpmapInStream := false
       payloadType := (videoPattern.exec line).map (fun m => toNumber ((m.cap 4).getD []))
       streamCount := st.streamCount + 1 },
     if !st.rtpmapInStream && st.payloadType.isSome then
       [Finding.rtpmapMissing (x + 1) st.streamCount] else [])
  else if startsWith line "a=rtpmap".toList && st.payloadType.isSome then
    if st.rtpmapInStream then (st, [Finding.rtpmapRepeated (x + 1) st.streamCount])
    else
      ({ st with rtpmapInStream := true },
        match rtpmapPattern.exec line with
        | none => [Finding.rtpmapPatternBad (x + 1) st.streamCount]
        | some rtpmapMatch =>
          (if some (toNumber ((rtpmapMatch.cap 1).getD [])) != st.payloadType then
            [Finding.rtpmapPayloadType (x + 1) st.streamCount ((rtpmapMatch.cap 1).getD [])
              (st.payloadType.getD 0)] else []) ++
          (if skipVideoTypes.contains ((rtpmapMatch.cap 2).getD []) then []
           else
            (if (rtpmapMatch.cap 2).getD [] != type then
              [Finding.rtpmapEncoding (x + 1) st.streamCount type specification] else []) ++
            (if (rtpmapMatch.cap 3).getD [] != clockRate then
              [Finding.rtpmapClockRate (x + 1) st.streamCount clockRate specification]
             else [])))
  else (st, [])

/-- Function to check that rtpmap is present and has passed in type and clockRate. -/
def checkStreamsRtpMap (sdp : Str) (_params : Params) (type clockRate specification : Str) :
    Option (List Finding) :=
  (splitLines sdp).map (fun lines =>
    let r := forLines (rtpMapStep type clockRate specification)
      { rtpmapInStream := true, payloadType := none, streamCount := 0 } 0 lines
    r.2 ++ (if !r.1.rtpmapInStream && r.1.payloadType.isSome then
      [Finding.rtpmapMissing lines.length r.1.streamCount] else []))

/-- Test ST 2110-20 Section 7.1 - All video streams have rtpmap entry raw/90000. -/
def test_20_71_3 (sdp : Str) (params : Params) : Option (List Finding) :=
  checkStreamsRtpMap sdp params "raw".toList "90000".toList "ST2110-20 Section 7.1".toList

/-- The variables of the loop of test_20_71_4; `payloadType` is `none` for `-1`. -/
structure FmtpState where
  fmtpInStream : Bool
  isSkippedType : Bool
  payloadType : Option Nat
  streamCount : Nat
  deriving DecidableEq, Repr

/-- The `a=fmtp` branch of the body of the loop of test_20_71_4. -/
def fmtpCheck (st : FmtpState) (x : Nat) (line : Str) : FmtpState × List Finding :=
  if startsWith line "a=fmtp".toList && st.payloadType.isSome then
    if st.fmtpInStream then (st, [Finding.fmtpRepeated (x + 1) st.streamCount])
    else
      ({ st with fmtpInStream := true },
        match fmtpPattern.exec line with
        | none => [Finding.fmtpPatternBad (x + 1) st.streamCount]
        | some fmtpMatch =>
          if some (toNumber ((fmtpMatch.cap 1).getD [])) != st.payloadType then
            [Finding.fmtpPayloadType (x + 1) st.streamCount ((fmtpMatch.cap 1).getD [])
              (st.payloadType.getD 0)] else [])
  else (st, [])

/-- The body of the loop of test_20_71_4. -/
def fmtpStep (st : FmtpState) (x : Nat) (line : Str) : FmtpState × List Finding :=
  if startsWith line "m=".toList then
    ({ fmtpInStream := false, isSkippedType := false
       payloadType := (videoPattern.exec line).map (fun m => toNumber ((m.cap 4).getD []))
       streamCount := st.streamCount + 1 },
     if !st.fmtpInStream && st.payloadType.isSome && !st.isSkippedType then
       [Finding.fmtpMissing (x + 1) st.streamCount] else [])
  else if startsWith line "a=rtpmap".toList && st.payloadType.isSome && !st.isSkippedType then
    match rtpmapPattern.exec line with
    | none => (st, [])
    | some rtpmapMatch =>
      if skipVideoTypes.contains ((rtpmapMatch.cap 2).getD []) then
        ({ st with isSkippedType := true }, [])
      else fmtpCheck st x line
  else fmtpCheck st x line

/-- Test ST 2110-20 Section 7.1 Test 4 - All video streams have format parameters. -/
def test_20_71_4 (sdp : Str) (_params : Params) : Option (List Finding) :=
  (splitLines sdp).map (fun lines =>
    let r := forLines fmtpStep
      { fmtpInStream := true, isSkippedType := false, payloadType := none, streamCount := 0 }
      0 lines
    r.2 ++ (if !r.1.fmtpInStream && r.1.payloadType.isSome && !r.1.isSkippedType then
      [Finding.fmtpMissing lines.length r.1.streamCount] else []))

/-- `section_10_62` -/
def section_10_62 (sdp : Str) (params : Params) : Option (List Finding) :=
  concatResults [test_10_62_1 sdp params]

/-- `section_20_71` -/
def section_20_71 (sdp : Str) (params : Params) : Option (List Finding) :=
  concatResults [some (test_20_71_1 sdp params), test_20_71_2 sdp params,
    test_20_71_3 sdp params, test_20_71_4 sdp params]

/-! ## ST 2110-20, sections 7.2 to 7.6 -/

/-- A rule that runs `check` on every object of extractMTParams, after the Findings of
extractMTParams itself: `let [mtParams, errors] = extractMTParams(sdp, params); for (let
stream of mtParams) ...; return errors`. -/
def forStreams (check : StreamParams → List Finding) (sdp : Str) (params : Params) :
    Option (List Finding) :=
  (extractMTParams sdp params).map (fun r => r.2 ++ r.1.flatMap check)

/-- The body of the loop of test_20_72_2.  Where the range is tested the text matches
integerPattern, so the number is that of unary `+` on digits. -/
def check_20_72_2 (stream : StreamParams) : List Finding :=
  match stream.get "width", stream.get "height" with
  | some width, some height =>
    (if (stringToNumber width).isNaN || integerPattern.test width == false then
      [Finding.widthNotInteger stream._line stream._streamNumber]
     else if decide (toNumber width < 1) || decide (32767 < toNumber width) then
      [Finding.widthRange stream._line stream._streamNumber (toNumber width)]
     else []) ++
    (if (stringToNumber height).isNaN || integerPattern.test height == false then
      [Finding.heightNotInteger stream._line stream._streamNumber]
     else if decide (toNumber height < 1) || decide (32767 < toNumber height) then
      [Finding.heightRange stream._line stream._streamNumber (toNumber height)]
     else [])
  | _, _ => []

/-- Test ST 2110-20 Section 7.2 Test 2 - Check width and height are within bounds. -/
def test_20_72_2 (sdp : Str) (params : Params) : Option (List Finding) :=
  forStreams check_20_72_2 sdp params

/-- `const packingModes` -/
def packingModes : List Str := ["2110GPM".toList, "2110BPM".toList]

/-- The body of the loop of test_20_72_4. -/
def check_20_72_4 (stream : StreamParams) : List Finding :=
  match stream.get "PM" with
  | some pm =>
    if !packingModes.contains pm then [Finding.packingMode stream._line stream._streamNumber]
    else []
  | none => []

/-- Test ST 2110-20 Section 7.2 Test 4 - Check packing mode as per spec. -/
def test_20_72_4 (sdp : Str) (params : Params) : Option (List Finding) :=
  forStreams check_20_72_4 sdp params

/-- The body of the loop of test_20_72_5. -/
def check_20_72_5 (stream : StreamParams) : List Finding :=
  match stream.get "SSN" with
  | some ssn =>
    if ssn != "ST2110-20:2017".toList then [Finding.ssnValue stream._line stream._streamNumber]
    else []
  | none => []

/-- Test ST 2110-20 Section 7.2 Test 5 - Check SSN is the required fixed value. -/
def test_20_72_5 (sdp : Str) (params : Params) : Option (List Finding) :=
  forStreams check_20_72_5 sdp params

/-- `section_20_72` -/
def section_20_72 (sdp : Str) (params : Params) : Option (List Finding) :=
  concatResults [test_20_72_1 sdp params, test_20_72_2 sdp params, test_20_72_3 sdp params,
    test_20_72_4 sdp params, test_20_72_5 sdp params]

/-- The body of the loop of test_20_73_1. -/
def check_20_73_1 (stream : StreamParams) : List Finding :=
  match stream.get "interlace" with
  | some interlace =>
    if interlace != [] then [Finding.interlaceValue stream._line stream._streamNumber] else []
  | none => []

/-- Test ST 2110-20 Section 7.3 Test 1 - Interlace is name only. -/
def test_20_73_1 (sdp : Str) (params : Params) : Option (List Finding) :=
  forStreams check_20_73_1 sdp params

/-- The body of the loop of test_20_73_2. -/
def check_20_73_2 (stream : StreamParams) : List Finding :=
  match stream.get "segmented" with
  | some segmented =>
    (if segmented != [] then [Finding.segmentedValue stream._line stream._streamNumber]
     else []) ++
    (if (stream.get "interlace").isNone then
      [Finding.segmentedWithoutInterlace stream._line stream._streamNumber] else [])
  | none => []

/-- Test ST 2110-20 Section 7.3 Test 2- Segmented is name only and interlace is also
signalled. -/
def test_20_73_2 (sdp : Str) (params : Params) : Option (List Finding) :=
  forStreams check_20_73_2 sdp params

/-- `const rangePermitted` -/
def rangePermitted : List Str := ["NARROW".toList, "FULLPROTECT".toList, "FULL".toList]

/-- The body of the loop of test_20_73_3. -/
def check_20_73_3 (stream : StreamParams) : List Finding :=
  match stream.get "RANGE" with
  | some range =>
    if stream.get "colorimetry" == some "BT2100".toList then
      if range != "FULL".toList && range != "NARROW".toList then
        [Finding.rangeBT2100 stream._line stream._streamNumber range]
      else []
    else if !rangePermitted.contains range then
      [Finding.rangeValue stream._line stream._streamNumber range]
    else []
  | none => []

/-- Test ST 2110-20 Section 7.3 Test 3 - RANGE has acceptable values in colorimetry
context. -/
def test_20_73_3 (sdp : Str) (params : Params) : Option (List Finding) :=
  forStreams check_20_73_3 sdp params

/-- `const maxudpPermitted` -/
def maxudpPermitted : List Str := ["1460".toList, "8960".toList]

/-- The body of the loop of test_20_73_4. -/
def check_20_73_4 (stream : StreamParams) : List Finding :=
  match stream.get "MAXUDP" with
  | some maxudp =>
    if !maxudpPermitted.contains maxudp then
      [Finding.maxudpValue stream._line stream._streamNumber maxudp]
    else []
  | none => []

/-- Test ST 2110-20 Section 7.3 Test 4 - MAXUDP has acceptable values wrt ST 2110-10. -/
def test_20_73_4 (sdp : Str) (params : Params) : Option (List Finding) :=
  forStreams check_20_73_4 sdp params

/-- The body of the loop of test_20_73_5. -/
def check_20_73_5 (stream : StreamParams) : List Finding :=
  match stream.get "PAR" with
  | some par =>
    match parPattern.exec par with
    | none => [Finding.parPatternBad stream._line stream._streamNumber]
    | some parMatch =>
      if decide (1 < greatestCommonDivisor (toNumber ((parMatch.cap 1).getD []))
          (toNumber ((parMatch.cap 2).getD []))) then
        [Finding.parNotMinimal stream._line stream._streamNumber par]
      else []
  | none => []

/-- Test ST 2110-20 Section 7.3 Test 5 - PAR is an acceptable value. -/
def test_20_73_5 (sdp : Str) (params : Params) : Option (List Finding) :=
  forStreams check_20_73_5 sdp params

/-- `section_20_73` -/
def section_20_73 (sdp : Str) (params : Params) : Option (List Finding) :=
  concatResults [test_20_73_1 sdp params, test_20_73_2 sdp params, test_20_73_3 sdp params,
    test_20_73_4 sdp params, test_20_73_5 sdp params]
/-- `const samplingPermitted` -/
def samplingPermitted : List Str :=
  ["YCbCr-4:4:4".toList, "YCbCr-4:2:2".toList, "YCbCr-4:2:0".toList,
   "CLYCbCr-4:4:4".toList, "CLYCbCr-4:2:2".toList, "CLYCbCr-4:2:0".toList,
   "ICtCp-4:4:4".toList, "ICtCp-4:2:2".toList, "ICtCp-4:2:0".toList,
   "RGB".toList, "XYZ".toList, "KEY".toList]

/-- The body of the loop of a rule that reports `finding` when the parameter `name` is
present with a value outside the list `permitted`: `if (typeof stream[name] !==
'undefined') { if (permitted.indexOf(stream[name]) < 0) errors.push(...) }`. -/
def checkPermitted (name : String) (permitted : List Str) (finding : Nat → Nat → Finding)
    (stream : StreamParams) : List Finding :=
  match stream.get name with
  | some v => if !permitted.contains v then [finding stream._line stream._streamNumber] else []
  | none => []

/-- Test ST 2110-20 Section 7.4 Test 1 - Sampling is a defined value. -/
def test_20_74_1 (sdp : Str) (params : Params) : Option (List Finding) :=
  forStreams (checkPermitted "sampling" samplingPermitted Finding.samplingValue) sdp params

/-- `const depthPermitted` -/
def depthPermitted : List Str :=
  ["8".toList, "10".toList, "12".toList, "16".toList, "16f".toList]

/-- Test ST 2110-20 Section 7.4 Test 2 - Bit depth is a permitted value. -/
def test_20_74_2 (sdp : Str) (params : Params) : Option (List Finding) :=
  forStreams (checkPermitted "depth" depthPermitted Finding.depthValue) sdp params

/-- `section_20_74` -/
def section_20_74 (sdp : Str) (params : Params) : Option (List Finding) :=
  concatResults [test_20_74_1 sdp params, test_20_74_2 sdp params]

/-- `const colorPermitted` -/
def colorPermitted : List Str :=
  ["BT601".toList, "BT709".toList, "BT2020".toList, "BT2100".toList, "ST2065-1".toList,
   "ST2065-3".toList, "UNSPECIFIED".toList, "XYZ".toList]

/-- Test ST 2110-20 Section 7.5 Test 1 - Colorimetry is a permitted value. -/
def test_20_75_1 (sdp : Str) (params : Params) : Option (List Finding) :=
  forStreams (checkPermitted "colorimetry" colorPermitted Finding.colorimetryValue) sdp params

/-- The body of the loop of test_20_75_2. -/
def check_20_75_2 (stream : StreamParams) : List Finding :=
  match stream.get "colorimetry" with
  | some colorimetry =>
    if colorimetry == "BT2100".toList && (stream.get "RANGE").isNone then
      [Finding.rangeShould stream._line stream._streamNumber]
    else []
  | none => []

/-- Test ST 2110-20 Section 7.5 Test 2 - Signals using BT.2100 should specify RANGE. -/
def test_20_75_2 (sdp : Str) (params : Params) : Option (List Finding) :=
  if params.should == false then some []
  else forStreams check_20_75_2 sdp params

/-- `section_20_75` -/
def section_20_75 (sdp : Str) (params : Params) : Option (List Finding) :=
  concatResults [test_20_75_1 sdp params, test_20_75_2 sdp params]

/-- `const tcsPermitted` -/
def tcsPermitted : List Str :=
  ["SDR".toList, "PQ".toList, "HLG".toList, "LINEAR".toList, "BT2100LINPQ".toList,
   "BT2100LINHLG".toList, "ST2065-1".toList, "ST428-1".toList, "DENSITY".toList,
   "UNSPECIFIED".toList]

/-- Test ST 2110-20 Section 7.6 Test 1 - TCS is a permitted value. -/
def test_20_76_1 (sdp : Str) (params : Params) : Option (List Finding) :=
  forStreams (checkPermitted "TCS" tcsPermitted Finding.tcsValue) sdp params

/-- `section_20_76` -/
def section_20_76 (sdp : Str) (params : Params) : Option (List Finding) :=
  concatResults [test_20_76_1 sdp params]

/-! ## ST 2110-30, section 6.2 -/

/-- `const sampleRatePermitted` -/
def sampleRatePermitted : List Str := ["44100".toList, "48000".toList, "96000".toList]

/-- The variables of the loops of test_30_62_1, test_30_62_3 and test_30_62_4: the flag
(`hasRtpmap`, `hasPTime`, `hasFmtp`), `payloadType` (`none` for `-1`) and `streamCount`. -/
structure AudioState where
  has : Bool
  payloadType : Option Nat
  streamCount : Nat
  deriving DecidableEq, Repr

/-- The state in which the three loops start. -/
def audioInit : AudioState := { has := true, payloadType := none, streamCount := 0 }

/-- The state after a line that starts with `m=`. -/
def audioMedia (st : AudioState) (line : Str) : AudioState :=
  { has := false
    payloadType := (audioPattern.exec line).map (fun m => toNumber ((m.cap 4).getD []))
    streamCount := st.streamCount + 1 }

/-- The Findings of test_30_62_1 for an `a=rtpmap` line that matches rtpmapSound. -/
def checkSound (st : AudioState) (x : Nat) (soundMatch : Match) : List Finding :=
  (if st.has then [Finding.audioRtpmapDuplicated (x + 1) st.streamCount] else []) ++
  (if st.payloadType != some (toNumber ((soundMatch.cap 1).getD [])) then
    [Finding.audioRtpmapPayloadType (x + 1) st.streamCount ((soundMatch.cap 1).getD [])
      (st.payloadType.getD 0)] else []) ++
  (if !sampleRatePermitted.contains ((soundMatch.cap 3).getD []) then
    [Finding.audioSampleRate (x + 1) st.streamCount ((soundMatch.cap 3).getD [])] else []) ++
  (if toNumber ((soundMatch.cap 3).getD []) == 48000 then []
   else if toNumber ((soundMatch.cap 3).getD []) == 96000 then
    (if soundMatch.cap 2 == some "L16".toList then
      [Finding.audioL16At96000 (x + 1) st.streamCount] else [])
   else if toNumber ((soundMatch.cap 3).getD []) == 44100 then
    (if soundMatch.cap 2 == some "L24".toList then
      [Finding.audioL24At44100 (x + 1) st.streamCount] else [])
   else [])

/-- The body of the loop of test_30_62_1. -/
def soundStep (st : AudioState) (x : Nat) (line : Str) : AudioState × List Finding :=
  if startsWith line "m=".toList then
    (audioMedia st line,
      if st.has == false && st.payloadType.isSome then
        [Finding.audioRtpmapMissing (x + 1) st.streamCount] else [])
  else if st.payloadType.isSome && startsWith line "a=rtpmap".toList then
    match rtpmapSound.exec line with
    | none => (st, [Finding.audioRtpmapPatternBad (x + 1) st.streamCount])
    | some soundMatch => ({ st with has := true }, checkSound st x soundMatch)
  else (st, [])

/-- Test ST 2110-30 Section 6.2.1 Test 1 - Compliance with AES-67 Section 7.1. -/
def test_30_62_1 (sdp : Str) (_params : Params) : Option (List Finding) :=
  (splitLines sdp).map (fun lines =>
    let r := forLines soundStep audioInit 0 lines
    r.2 ++ (if r.1.has == false && r.1.payloadType.isSome then
      [Finding.audioRtpmapMissing lines.length r.1.streamCount] else []))

/-- The checks of test_30_62_2 on a line that starts with `m=audio`. -/
def checkAudioLine (x : Nat) (line : Str) : List Finding :=
  match audioPattern.exec line with
  | none => [Finding.audioPatternBad (x + 1)]
  | some audioMatch =>
    let port := toNumber ((audioMatch.cap 1).getD [])
    let payloadType := toNumber ((audioMatch.cap 4).getD [])
    (if isNaNOfDigits port || decide (port < 0) || decide (65535 < port) then
      [Finding.audioPort (x + 1) port] else []) ++
    (if audioMatch.cap 3 == some "RTP/SAVP".toList then [Finding.srtp (x + 1)] else []) ++
    (if isNaNOfDigits payloadType || decide (payloadType < 96) || decide (127 < payloadType)
      then [Finding.audioPayloadType (x + 1)] else [])

/-- Test ST 2110-30 Section 6.2.1 Test 2 - Valid audio SDP. -/
def test_30_62_2 (sdp : Str) (_params : Params) : Option (List Finding) :=
  (splitLines sdp).map (fun lines =>
    (forLines (fun (_ : Unit) x line =>
      if !startsWith line "m=audio".toList then ((), []) else ((), checkAudioLine x line))
      () 0 lines).2)

/-- The `a=maxptime` check that ends the body of the loop of test_30_62_3. -/
def checkMaxptime (st : AudioState) (x : Nat) (line : Str) : List Finding :=
  if startsWith line "a=maxptime".toList then
    if !maxptimePattern.test line then [Finding.maxptimePatternBad (x + 1) st.streamCount]
    else []
  else []

/-- The body of the loop of test_30_62_3. -/
def ptimeStep (st : AudioState) (x : Nat) (line : Str) : AudioState × List Finding :=
  if startsWith line "m=".toList then
    (audioMedia st line,
      if !st.has && st.payloadType.isSome then
        [Finding.ptimeMissing (x + 1) st.streamCount] else [])
  else if startsWith line "a=ptime".toList && st.payloadType.isSome then
    match ptimePattern.exec line with
    | none => (st, [Finding.ptimePatternBad (x + 1) st.streamCount])
    | some _ =>
      if st.has then (st, [Finding.ptimeDuplicated (x + 1) st.streamCount])
      else ({ st with has := true }, checkMaxptime { st with has := true } x line)
  else (st, checkMaxptime st x line)

/-- Test ST 2110-30 Section 6.2.1 Test 3 - SDP conformance - packet time signalling. -/
def test_30_62_3 (sdp : Str) (_params : Params) : Option (List Finding) :=
  (splitLines sdp).map (fun lines =>
    let r := forLines ptimeStep audioInit 0 lines
    r.2 ++ (if !r.1.has && r.1.payloadType.isSome then
      [Finding.ptimeMissingAtEnd lines.length r.1.streamCount] else []))
/-- The Findings of test_30_62_4 for an `a=fmtp` line that matches channelOrderPattern. -/
def checkChannelOrder (params : Params) (st : AudioState) (x : Nat) (fmtpMatch : Match) :
    List Finding :=
  let order := (fmtpMatch.cap 2).getD []
  (if st.has then [Finding.audioFmtpDuplicate (x + 1) st.streamCount] else []) ++
  (if st.payloadType != some (toNumber ((fmtpMatch.cap 1).getD [])) then
    [Finding.audioFmtpPayloadType (x + 1) st.streamCount ((fmtpMatch.cap 1).getD [])
      (st.payloadType.getD 0)] else []) ++
  (if params.should == true && !startsWith order "SMPTE2110".toList then
    [Finding.channelOrderConvention (x + 1) st.streamCount
      ((splitChar '.' order).headD [])] else []) ++
  (if startsWith order "SMPTE2110".toList && !smpteChannelPattern.test order then
    [Finding.channelOrderBad (x + 1) st.streamCount] else [])

/-- The body of the loop of test_30_62_4. -/
def channelOrderStep (params : Params) (st : AudioState) (x : Nat) (line : Str) :
    AudioState × List Finding :=
  if startsWith line "m=".toList then
    (audioMedia st line,
      if params.channelOrder == true && st.has == false && st.payloadType.isSome then
        [Finding.channelOrderMissing (x + 1) st.streamCount] else [])
  else if startsWith line "a=fmtp".toList && st.payloadType.isSome then
    match channelOrderPattern.exec line with
    | none =>
      ({ st with has := true },
        if params.channelOrder == true then
          [Finding.channelOrderAbsent (x + 1) st.streamCount] else [])
    | some fmtpMatch => ({ st with has := true }, checkChannelOrder params st x fmtpMatch)
  else (st, [])

/-- Test ST 2110-30 Section 6.2.2 Test 4 - Channel order format - where present.  The
message after the loop interpolates `lines.lengths`, which is `undefined`. -/
def test_30_62_4 (sdp : Str) (params : Params) : Option (List Finding) :=
  (splitLines sdp).map (fun lines =>
    let r := forLines (channelOrderStep params) audioInit 0 lines
    r.2 ++ (if params.channelOrder == true && r.1.has == false && r.1.payloadType.isSome then
      [Finding.channelOrderMissingAtEnd r.1.streamCount] else []))

/-- Test ST 2110-20 Section 7.1 Test 1 - If required, check all streams are audio. -/
def test_30_62_5 (sdp : Str) (params : Params) : List Finding :=
  if params.audioOnly then
    (indexed 1 ((streamSep.split sdp).drop 1)).flatMap (fun p =>
      if !startsWith p.2 "audio".toList then [Finding.notAudio p.1] else [])
  else []

/-- `section_30_62` -/
def section_30_62 (sdp : Str) (params : Params) : Option (List Finding) :=
  concatResults [test_30_62_1 sdp params, test_30_62_2 sdp params, test_30_62_3 sdp params,
    test_30_62_4 sdp params, some (test_30_62_5 sdp params)]

/-! ## ST 2110-21, sections 8.1 and 8.2 -/

/-- The guard `params.shaping === false || params.audioOnly === true` of the traffic
shaping rules. -/
def shapingSkipped (params : Params) : Bool := params.shaping == false || params.audioOnly == true

/-- The body of the loop of test_21_81_1. -/
def check_21_81_1 (stream : StreamParams) : List Finding :=
  if (stream.get "TP").isNone then [Finding.tpMissing stream._line stream._streamNumber]
  else []

/-- Test ST 2110-21 Section 8.1 Test 1 - When traffic shaping, TP parameter is specified. -/
def test_21_81_1 (sdp : Str) (params : Params) : Option (List Finding) :=
  if shapingSkipped params then some [] else forStreams check_21_81_1 sdp params

/-- `const typesPermitted` -/
def typesPermitted : List Str := ["2110TPN".toList, "2110TPNL".toList, "2110TPW".toList]

/-- Test ST 2110-21 Section 8.1 Test 2- When traffic shaping, TP parameter is an acceptable
value. -/
def test_21_81_2 (sdp : Str) (params : Params) : Option (List Finding) :=
  if shapingSkipped params then some []
  else forStreams (checkPermitted "TP" typesPermitted Finding.tpValue) sdp params

/-- The body of the loop of test_21_82_1. -/
def check_21_82_1 (stream : StreamParams) : List Finding :=
  match stream.get "TROFF" with
  | some troff =>
    if (stringToNumber troff).isNaN then
      [Finding.troffNotNumber stream._line stream._streamNumber]
    else if (stringToNumber troff).ltZero then
      [Finding.troffNegative stream._line stream._streamNumber]
    else []
  | none => []

/-- Test ST 2110-21 Section 8.2 Test 1 - When traffic shaping and TROFF parameter
specified, it is an acceptable value. -/
def test_21_82_1 (sdp : Str) (params : Params) : Option (List Finding) :=
  if shapingSkipped params then some [] else forStreams check_21_82_1 sdp params

/-- The body of the loop of test_21_82_2. -/
def check_21_82_2 (stream : StreamParams) : List Finding :=
  match stream.get "CMAX" with
  | some cmax =>
    if (stringToNumber cmax).isNaN then
      [Finding.cmaxNotNumber stream._line stream._streamNumber]
    else
      (if (stringToNumber cmax).isInteger == false then
        [Finding.cmaxNotInteger stream._line stream._streamNumber] else []) ++
      (if (stringToNumber cmax).ltOne then
        [Finding.cmaxNotPositive stream._line stream._streamNumber] else [])
  | none => []

/-- Test ST 2110-21 Section 8.2 - When traffic shaping and CMAX parameter specified, it is
an acceptable value. -/
def test_21_82_2 (sdp : Str) (params : Params) : Option (List Finding) :=
  if shapingSkipped params then some [] else forStreams check_21_82_2 sdp params

/-- `section_21_81` -/
def section_21_81 (sdp : Str) (params : Params) : Option (List Finding) :=
  concatResults [test_21_81_1 sdp params, test_21_81_2 sdp params]

/-- `section_21_82` -/
def section_21_82 (sdp : Str) (params : Params) : Option (List Finding) :=
  concatResults [test_21_82_1 sdp params, test_21_82_2 sdp params]

/-! ## ST 2110-22 -/

/-- `const typesPermitted22` (the source declares it and reads it nowhere). -/
def typesPermitted22 : List Str := ["2110TPNL".toList, "2110TPW".toList]

/-- Test ST 2110-22 Section 5.3 -Traffic Shaping and Delivery Timing - Must include
2110TPNL or TP=2110TPW.  The list that the source searches is `typesPermitted`. -/
def test_22_53_1 (sdp : Str) (params : Params) : Option (List Finding) :=
  if shapingSkipped params then some []
  else forStreams (checkPermitted "TP" typesPermitted Finding.tpValue22) sdp params

/-- Test ST 2110-22 Section 6  -  Must have subtype  jxsv and clockrate 90000. -/
def test_22_6 (sdp : Str) (params : Params) : Option (List Finding) :=
  checkStreamsRtpMap sdp params "jxsv".toList "90000".toList "ST2110-22 Section 6".toList

/-- Test ST 2110-22 Section 7.1-  Must indicate media type video. -/
def test_22_71_1 (sdp : Str) (params : Params) : Option (List Finding) :=
  test_10_62_1 sdp params

/-- `const mustHaves22` -/
def mustHaves22 : List Str := ["width".toList, "height".toList, "TP".toList]

/-- The body of the loop of test_22_72_1 for one stream. -/
def check_22_72_1 (stream : StreamParams) : List Finding :=
  (mustHaves22.filter (fun param => !stream.hasKey param)).map
    (fun param => Finding.paramMissing22 stream._line stream._streamNumber param)

/-- Test ST 2110-22 Section 7.2 Test 1 - Test all required parameters are present. -/
def test_22_72_1 (sdp : Str) (_params : Params) : Option (List Finding) :=
  forStreams check_22_72_1 sdp { checkDups := true }

/-- The body of the loop of test_22_73_1: the variable is `bandwidthPresent`. -/
def bandwidthStep (bandwidthPresent : Bool) (x : Nat) (line : Str) : Bool × List Finding :=
  if startsWith line "b=".toList then
    match bandwidthPattern.exec line with
    | none => (bandwidthPresent, [Finding.bandwidthForm (x + 1)])
    | some bandwidthMatch =>
      (true,
        (if bandwidthMatch.cap 1 != some "AS".toList then [Finding.bandwidthType (x + 1)]
         else []) ++
        (if (stringToNumber ((bandwidthMatch.cap 2).getD [])).isInteger == false then
          [Finding.bandwidthInteger (x + 1)] else []))
  else (bandwidthPresent, [])

/-- Test ST 2110-22 Section 73 -  Check for mandatory bitrate attribute in correct
format. -/
def test_22_73_1 (sdp : Str) (_params : Params) : Option (List Finding) :=
  (splitLines sdp).map (fun lines =>
    (forLines bandwidthStep false 0 lines).2 ++
      (if !(forLines bandwidthStep false 0 lines).1 then [Finding.bandwidthMissing] else []))
/-- The body of the loop of test_22_74_1: the variable is `framerateAttributePresent`. -/
def framerateStep (framerateAttributePresent : Bool) (x : Nat) (line : Str) :
    Bool × List Finding :=
  if startsWith line "a=framerate".toList then
    match frameRateAttributePattern.exec line with
    | none => (framerateAttributePresent, [Finding.framerateForm (x + 1)])
    | some _ => (true, [])
  else (framerateAttributePresent, [])

/-- The variable `framerateParameterPresent` of test_22_74_1 after the test of
`mtParams`. -/
def framerateParameterPresent (mtParams : List StreamParams) : Bool :=
  match mtParams with
  | [stream] => (stream.get "exactframerate").isSome
  | _ => false

/-- Test ST 2110-22 Section 74 Test 1-  Check that framerate is specified by one of
accepted methods. -/
def test_22_74_1 (sdp : Str) (params : Params) : Option (List Finding) :=
  match splitLines sdp, extractMTParams sdp params with
  | some lines, some r =>
    let inAttribute := (forLines framerateStep false 0 lines).1
    let inParameter := framerateParameterPresent r.1
    some (r.2 ++ (if r.1.length == 1 then [] else [Finding.singleStream]) ++
      (forLines framerateStep false 0 lines).2 ++
      (if !inAttribute && !inParameter then [Finding.framerateMissing] else []) ++
      (if inAttribute && inParameter then [Finding.framerateBoth] else []))
  | _, _ => none

/-- `section_22_53` -/
def section_22_53 (sdp : Str) (params : Params) : Option (List Finding) :=
  concatResults [test_22_53_1 sdp params]

/-- `section_22_6` -/
def section_22_6 (sdp : Str) (params : Params) : Option (List Finding) :=
  concatResults [test_22_6 sdp params]

/-- `section_22_71` -/
def section_22_71 (sdp : Str) (params : Params) : Option (List Finding) :=
  concatResults [test_22_71_1 sdp params]

/-- `section_22_72` -/
def section_22_72 (sdp : Str) (params : Params) : Option (List Finding) :=
  concatResults [test_22_72_1 sdp params]

/-- `section_22_73` -/
def section_22_73 (sdp : Str) (params : Params) : Option (List Finding) :=
  concatResults [test_22_73_1 sdp params]

/-- `section_22_74` -/
def section_22_74 (sdp : Str) (params : Params) : Option (List Finding) :=
  concatResults [test_22_74_1 sdp params]

/-! ## All sections -/

/-- The function allSections: the sections of the profile, in order, and the copy test
last when `noCopy` is set. -/
def allSections (sdp : Str) (params : Params) : Option (List Finding) :=
  if params.smpte2110_22 then
    concatResults
      ([section_10_74 sdp params, section_10_81 sdp params, section_10_82 sdp params,
        section_10_83 sdp params, section_22_53 sdp params, section_22_6 sdp params,
        section_22_71 sdp params, section_22_72 sdp params, section_22_73 sdp params,
        section_22_74 sdp params] ++
       (if params.noCopy then [no_copy_22 sdp] else []))
  else
    concatResults
      ([section_10_62 sdp params, section_10_74 sdp params, section_10_81 sdp params,
        section_10_82 sdp params, section_10_83 sdp params, section_20_71 sdp params,
        section_20_72 sdp params, section_20_73 sdp params, section_20_74 sdp params,
        section_20_75 sdp params, section_20_76 sdp params, section_30_62 sdp params,
        section_21_81 sdp params, section_21_82 sdp params] ++
       (if params.noCopy then [no_copy_20 sdp] else []))

/-! ## The state that outlives a call

The rules once more, with the state that a call of a rule finds and leaves made explicit:
the `lastIndex` of the three expressions that carry the `g` flag and are shared by all
calls, and the two variables that the source assigns without declaring them, which makes
them properties of the global object.  The expressions written as literals inside a
function are new objects at every evaluation and hold no state between calls. -/

/-- The state shared by the calls. -/
structure Globals where
  /-- `fmtpParams.lastIndex` -/
  fmtpParams : Nat
  /-- `mediaclkTypePattern.lastIndex` -/
  mediaclkTypePattern : Nat
  /-- `mediaclkDirectPattern.lastIndex` -/
  mediaclkDirectPattern : Nat
  /-- The global variable `videoPresent` of test_10_62_1, `none` before its first
  assignment. -/
  videoPresent : Option Bool
  /-- The global variable `errors` of test_20_71_3 and test_22_6, `none` before its first
  assignment. -/
  errors : Option (List Finding)
  deriving DecidableEq, Repr

/-- The state when the module has been loaded. -/
def Globals.initial : Globals :=
  { fmtpParams := 0, mediaclkTypePattern := 0, mediaclkDirectPattern := 0,
    videoPresent := none, errors := none }

namespace Stateful

/-- A rule run in a state: the state it leaves and what it returns, `none` when it
throws. -/
abbrev Rule := Globals → Globals × Option (List Finding)

/-- A rule that reads and writes no shared state. -/
def unchanged (r : Option (List Finding)) : Rule := fun g => (g, r)

/-- `concat(tests.map(t => t(sdp, params)))`: the rules run in order, each in the state
the one before left; the first that throws ends the call. -/
def concat : List Rule → Rule
  | [], g => (g, some [])
  | t :: ts, g =>
    match (t g).2 with
    | none => ((t g).1, none)
    | some fs =>
      match (concat ts (t g).1).2 with
      | none => ((concat ts (t g).1).1, none)
      | some gs => ((concat ts (t g).1).1, some (fs ++ gs))

/-- The function extractMTParams in a state: its loop starts with the `lastIndex` that
`fmtpParams` holds and leaves the one its last `exec` set.  Where it throws, which is at
`lines.length` before any `exec`, the state is as found. -/
def extractMTParams (sdp : Str) (params : Params) (g : Globals) :
    Globals × Option (List StreamParams × List Finding) :=
  match extractRun g.fmtpParams sdp params with
  | some st => ({ g with fmtpParams := st.lastIndex }, some (st.mtParams, st.errors))
  | none => (g, none)

/-- A rule of the form `let [mtParams, errors] = extractMTParams(sdp, params); for (let
stream of mtParams) ...; return errors`. -/
def forStreams (check : StreamParams → List Finding) (sdp : Str) (params : Params) : Rule :=
  fun g =>
    ((extractMTParams sdp params g).1,
      (extractMTParams sdp params g).2.map (fun r => r.2 ++ r.1.flatMap check))

/-- test_10_74_1: `streams[s].match(mediaclkDirectPattern)`, for an expression with the
`g` flag, sets `lastIndex` to zero before its first search and leaves it zero after the
last; what the call returns does not depend on the `lastIndex` it finds. -/
def test_10_74_1 (sdp : Str) (params : Params) : Rule := fun g =>
  ({ g with mediaclkDirectPattern :=
      if (streamsOf sdp).isEmpty then g.mediaclkDirectPattern else 0 },
    some (SDPoker.test_10_74_1 sdp params))

/-- test_10_81_2: `sdp.match(mediaclkTypePattern)`, unless the rule is skipped. -/
def test_10_81_2 (sdp : Str) (params : Params) : Rule := fun g =>
  (if !params.should && params.verbose then g else { g with mediaclkTypePattern := 0 },
    some (SDPoker.test_10_81_2 sdp params))

/-- test_10_62_1: `videoPresent = false` is assigned before `lines.length` is read. -/
def test_10_62_1 (sdp : Str) (params : Params) : Rule := fun g =>
  match splitLines sdp with
  | none => ({ g with videoPresent := some false }, none)
  | some lines =>
    ({ g with videoPresent := some (forLines videoStep false 0 lines).1 },
      SDPoker.test_10_62_1 sdp params)

/-- test_20_71_3: `errors = checkStreamsRtpMap(...)`. -/
def test_20_71_3 (sdp : Str) (params : Params) : Rule := fun g =>
  match SDPoker.test_20_71_3 sdp params with
  | none => (g, none)
  | some e => ({ g with errors := some e }, some e)

/-- test_22_6: `errors = checkStreamsRtpMap(...)`. -/
def test_22_6 (sdp : Str) (params : Params) : Rule := fun g =>
  match SDPoker.test_22_6 sdp params with
  | none => (g, none)
  | some e => ({ g with errors := some e }, some e)

/-- test_20_72_1 -/
def test_20_72_1 (sdp : Str) (_params : Params) : Rule :=
  forStreams check_20_72_1 sdp { checkDups := true }

/-- test_20_75_2 -/
def test_20_75_2 (sdp : Str) (params : Params) : Rule :=
  if params.should == false then unchanged (some []) else forStreams check_20_75_2 sdp params

/-- A traffic shaping rule: the guard, then the rule on the objects of extractMTParams. -/
def shaping (check : StreamParams → List Finding) (sdp : Str) (params : Params) : Rule :=
  if shapingSkipped params then unchanged (some []) else forStreams check sdp params

/-- test_22_74_1 -/
def test_22_74_1 (sdp : Str) (params : Params) : Rule := fun g =>
  match splitLines sdp, (extractMTParams sdp params g).2 with
  | some lines, some r =>
    ((extractMTParams sdp params g).1,
      some (r.2 ++ (if r.1.length == 1 then [] else [Finding.singleStream]) ++
        (forLines framerateStep false 0 lines).2 ++
        (if !(forLines framerateStep false 0 lines).1 && !framerateParameterPresent r.1 then
          [Finding.framerateMissing] else []) ++
        (if (forLines framerateStep false 0 lines).1 && framerateParameterPresent r.1 then
          [Finding.framerateBoth] else [])))
  | _, _ => ((extractMTParams sdp params g).1, none)
/-- `section_10_62` -/
def section_10_62 (sdp : Str) (params : Params) : Rule := concat [test_10_62_1 sdp params]

/-- `section_10_74` -/
def section_10_74 (sdp : Str) (params : Params) : Rule := concat [test_10_74_1 sdp params]

/-- `section_10_81` -/
def section_10_81 (sdp : Str) (params : Params) : Rule :=
  concat [unchanged (some (SDPoker.test_10_81_1 sdp params)), test_10_81_2 sdp params]

/-- `section_10_82` -/
def section_10_82 (sdp : Str) (params : Params) : Rule :=
  concat [unchanged (some (test_10_82_1 sdp params)), unchanged (test_10_82_2 sdp params),
    unchanged (test_10_82_3 sdp params), unchanged (test_10_82_4 sdp params)]

/-- `section_10_83` -/
def section_10_83 (sdp : Str) (params : Params) : Rule :=
  concat [unchanged (some (test_10_83_1 sdp params)), unchanged (test_10_83_2 sdp params),
    unchanged (test_10_83_3 sdp params)]

/-- `section_20_71` -/
def section_20_71 (sdp : Str) (params : Params) : Rule :=
  concat [unchanged (some (test_20_71_1 sdp params)), unchanged (test_20_71_2 sdp params),
    test_20_71_3 sdp params, unchanged (test_20_71_4 sdp params)]

/-- `section_20_72` -/
def section_20_72 (sdp : Str) (params : Params) : Rule :=
  concat [test_20_72_1 sdp params, forStreams check_20_72_2 sdp params,
    forStreams check_20_72_3 sdp params, forStreams check_20_72_4 sdp params,
    forStreams check_20_72_5 sdp params]

/-- `section_20_73` -/
def section_20_73 (sdp : Str) (params : Params) : Rule :=
  concat [forStreams check_20_73_1 sdp params, forStreams check_20_73_2 sdp params,
    forStreams check_20_73_3 sdp params, forStreams check_20_73_4 sdp params,
    forStreams check_20_73_5 sdp params]

/-- `section_20_74` -/
def section_20_74 (sdp : Str) (params : Params) : Rule :=
  concat [forStreams (checkPermitted "sampling" samplingPermitted Finding.samplingValue) sdp
      params,
    forStreams (checkPermitted "depth" depthPermitted Finding.depthValue) sdp params]

/-- `section_20_75` -/
def section_20_75 (sdp : Str) (params : Params) : Rule :=
  concat [forStreams (checkPermitted "colorimetry" colorPermitted Finding.colorimetryValue)
      sdp params,
    test_20_75_2 sdp params]

/-- `section_20_76` -/
def section_20_76 (sdp : Str) (params : Params) : Rule :=
  concat [forStreams (checkPermitted "TCS" tcsPermitted Finding.tcsValue) sdp params]

/-- `section_30_62` -/
def section_30_62 (sdp : Str) (params : Params) : Rule :=
  concat [unchanged (test_30_62_1 sdp params), unchanged (test_30_62_2 sdp params),
    unchanged (test_30_62_3 sdp params), unchanged (test_30_62_4 sdp params),
    unchanged (some (test_30_62_5 sdp params))]

/-- `section_21_81` -/
def section_21_81 (sdp : Str) (params : Params) : Rule :=
  concat [shaping check_21_81_1 sdp params,
    shaping (checkPermitted "TP" typesPermitted Finding.tpValue) sdp params]

/-- `section_21_82` -/
def section_21_82 (sdp : Str) (params : Params) : Rule :=
  concat [shaping check_21_82_1 sdp params, shaping check_21_82_2 sdp params]

/-- `section_22_53` -/
def section_22_53 (sdp : Str) (params : Params) : Rule :=
  concat [shaping (checkPermitted "TP" typesPermitted Finding.tpValue22) sdp params]

/-- `section_22_6` -/
def section_22_6 (sdp : Str) (params : Params) : Rule := concat [test_22_6 sdp params]

/-- `section_22_71`: test_22_71_1 calls test_10_62_1. -/
def section_22_71 (sdp : Str) (params : Params) : Rule := concat [test_10_62_1 sdp params]

/-- `section_22_72` -/
def section_22_72 (sdp : Str) (_params : Params) : Rule :=
  concat [forStreams check_22_72_1 sdp { checkDups := true }]

/-- `section_22_73` -/
def section_22_73 (sdp : Str) (params : Params) : Rule :=
  concat [unchanged (test_22_73_1 sdp params)]

/-- `section_22_74` -/
def section_22_74 (sdp : Str) (params : Params) : Rule := concat [test_22_74_1 sdp params]

/-- The function allSections in a state. -/
def allSections (sdp : Str) (params : Params) : Rule :=
  if params.smpte2110_22 then
    concat
      ([section_10_74 sdp params, section_10_81 sdp params, section_10_82 sdp params,
        section_10_83 sdp params, section_22_53 sdp params, section_22_6 sdp params,
        section_22_71 sdp params, section_22_72 sdp params, section_22_73 sdp params,
        section_22_74 sdp params] ++
       (if params.noCopy then [unchanged (no_copy_22 sdp)] else []))
  else
    concat
      ([section_10_62 sdp params, section_10_74 sdp params, section_10_81 sdp params,
        section_10_82 sdp params, section_10_83 sdp params, section_20_71 sdp params,
        section_20_72 sdp params, section_20_73 sdp params, section_20_74 sdp params,
        section_20_75 sdp params, section_20_76 sdp params, section_30_62 sdp params,
        section_21_81 sdp params, section_21_82 sdp params] ++
       (if params.noCopy then [unchanged (no_copy_20 sdp)] else []))

end Stateful

/-! ## Vocabulary of the properties -/

/-- The line number that a Finding cites at the head of its message (`Line n:`), if any. -/
def Finding.citedLine : Finding → Option Nat
  | .tsrefclkForm l => some l
  | .ptpTraceable l => some l
  | .ptpVersion l => some l
  | .ptpServer l => some l
  | .ptpDomainRange l => some l
  | .ptpDomainMissing l => some l
  | .localmacInvalid l => some l
  | .fmtpError l _ => some l
  | .paramDuplicate l _ _ => some l
  | .paramMissing l _ _ => some l
  | .frameRatePatternBad l _ => some l
  | .frameRateNumerator l _ => some l
  | .frameRateDenominator l _ => some l
  | .frameRateInteger l _ => some l
  | .frameRateSlow l _ => some l
  | .frameRateNotMinimal l _ => some l
  | .ssrcNotInteger l => some l
  | .ssrcGroupPatternBad l => some l
  | .ssrcGroupDangling l _ _ => some l
  | .midDuplicate l _ => some l
  | .midTwo l _ _ => some l
  | .groupPatternBad l => some l
  | .groupDangling l _ => some l
  | .videoPatternBad l => some l
  | .videoPort l _ => some l
  | .srtp l => some l
  | .videoPayloadType l => some l
  | .rtpmapMissing l _ => some l
  | .rtpmapRepeated l _ => some l
  | .rtpmapPatternBad l _ => some l
  | .rtpmapPayloadType l _ _ _ => some l
  | .rtpmapEncoding l _ _ _ => some l
  | .rtpmapClockRate l _ _ _ => some l
  | .fmtpMissing l _ => some l
  | .fmtpRepeated l _ => some l
  | .fmtpPatternBad l _ => some l
  | .fmtpPayloadType l _ _ _ => some l
  | .widthNotInteger l _ => some l
  | .widthRange l _ _ => some l
  | .heightNotInteger l _ => some l
  | .heightRange l _ _ => some l
  | .packingMode l _ => some l
  | .ssnValue l _ => some l
  | .interlaceValue l _ => some l
  | .segmentedValue l _ => some l
  | .segmentedWithoutInterlace l _ => some l
  | .rangeBT2100 l _ _ => some l
  | .rangeValue l _ _ => some l
  | .maxudpValue l _ _ => some l
  | .parPatternBad l _ => some l
  | .parNotMinimal l _ _ => some l
  | .samplingValue l _ => some l
  | .depthValue l _ => some l
  | .colorimetryValue l _ => some l
  | .rangeShould l _ => some l
  | .tcsValue l _ => some l
  | .audioRtpmapMissing l _ => some l
  | .audioRtpmapPatternBad l _ => some l
  | .audioRtpmapDuplicated l _ => some l
  | .audioRtpmapPayloadType l _ _ _ => some l
  | .audioSampleRate l _ _ => some l
  | .audioL16At96000 l _ => some l
  | .audioL24At44100 l _ => some l
  | .audioPatternBad l => some l
  | .audioPort l _ => some l
  | .audioPayloadType l => some l
  | .ptimeMissing l _ => some l
  | .ptimeMissingAtEnd l _ => some l
  | .ptimePatternBad l _ => some l
  | .ptimeDuplicated l _ => some l
  | .maxptimePatternBad l _ => some l
  | .channelOrderMissing l _ => some l
  | .channelOrderAbsent l _ => some l
  | .audioFmtpDuplicate l _ => some l
  | .audioFmtpPayloadType l _ _ _ => some l
  | .channelOrderConvention l _ _ => some l
  | .channelOrderBad l _ => some l
  | .tpMissing l _ => some l
  | .tpValue l _ => some l
  | .troffNotNumber l _ => some l
  | .troffNegative l _ => some l
  | .cmaxNotNumber l _ => some l
  | .cmaxNotInteger l _ => some l
  | .cmaxNotPositive l _ => some l
  | .tpValue22 l _ => some l
  | .paramMissing22 l _ _ => some l
  | .bandwidthForm l => some l
  | .bandwidthType l => some l
  | .bandwidthInteger l => some l
  | .framerateForm l => some l
  | _ => none

/-- Line `x` (counted from 0) is at media level: an earlier line starts with `m=`. -/
def mediaLevel (lines : List Str) (x : Nat) : Prop :=
  ∃ j, j < x ∧ startsWith (lines.getD j []) "m=".toList = true

/-- A clock identity of `n + 1` octets: two upper-case hexadecimal digits each, separated
by hyphens. -/
def isOctets : Nat → Str → Bool
  | 0, [a, b] => isHexUpper a && isHexUpper b
  | n + 1, a :: b :: c :: rest => isHexUpper a && isHexUpper b && c == '-' && isOctets n rest
  | _, _ => false

/-- A non-empty string of decimal digits. -/
def isDigits (s : Str) : Bool := !s.isEmpty && s.all isDigit

/-- The end of a PTP reference clock line after the clock identity: nothing, or a colon
and the domain. -/
def domainSuffix : Option Str → Str
  | none => []
  | some ds => ':' :: ds

/-- `Den r pos w rest`: the expression `r` matches the word `w` where the input, from
index `pos` on, is `w ++ rest`. -/
inductive Den : Re → Nat → Str → Str → Prop
  | eps (pos : Nat) (rest : Str) : Den .eps pos [] rest
  | cls (p : Char → Bool) (c : Char) (pos : Nat) (rest : Str) :
      p c = true → Den (.cls p) pos [c] rest
  | bol (rest : Str) : Den .bol 0 [] rest
  | eol (pos : Nat) : Den .eol pos [] []
  | seq (a b : Re) (pos : Nat) (w1 w2 rest : Str) :
      Den a pos w1 (w2 ++ rest) → Den b (pos + w1.length) w2 rest →
      Den (.seq a b) pos (w1 ++ w2) rest
  | altL (a b : Re) (pos : Nat) (w rest : Str) : Den a pos w rest → Den (.alt a b) pos w rest
  | altR (a b : Re) (pos : Nat) (w rest : Str) : Den b pos w rest → Den (.alt a b) pos w rest
  | starNil (a : Re) (pos : Nat) (rest : Str) : Den (.star a) pos [] rest
  | starCons (a : Re) (pos : Nat) (w1 w2 rest : Str) :
      w1 ≠ [] → Den a pos w1 (w2 ++ rest) → Den (.star a) (pos + w1.length) w2 rest →
      Den (.star a) pos (w1 ++ w2) rest
  | grp (i : Nat) (a : Re) (pos : Nat) (w rest : Str) :
      Den a pos w rest → Den (.grp i a) pos w rest

/-- What a successful run tells: a word of the expression was consumed and the
continuation succeeded after it. -/
def RunSound (r : Re) (st : MState) (k : MState → Option MState) (res : MState) : Prop :=
  ∃ w rest caps1, st.rem = w ++ rest ∧ Den r st.pos w rest ∧
    k ⟨st.pos + w.length, rest, caps1⟩ = some res

/-- What a word of the expression guarantees: the run succeeds whenever the continuation
succeeds after the word, whatever the captures. -/
def RunComplete (r : Re) : Prop :=
  ∀ (pos : Nat) (w rest : Str), Den r pos w rest → ∀ (caps : List (Nat × Str))
    (k : MState → Option MState),
    (∀ caps1, (k ⟨pos + w.length, rest, caps1⟩).isSome = true) →
    (r.run ⟨pos, w ++ rest, caps⟩ k).isSome = true

/-- A Finding with the message that a parameter appears more than once. -/
def Finding.isParamDuplicate : Finding → Bool
  | .paramDuplicate _ _ _ => true
  | _ => false

/-- The pairs `[key, value]` that extractMTParams reads from an `a=fmtp` line that matches
fmtpPattern: the text after the first `a=fmtp:<digits><white space>` of the line, cut by the
loop over fmtpParams (`lastIndex` zero at its start). -/
def fmtpPairs (line : Str) : List (Str × Str) :=
  match (fmtpHead.split line).get? 1 with
  | none => []
  | some params =>
    match fmtpParams.execLoop params (params.length + 1) 0 with
    | none => []
    | some (ms, _) => ms.map splitParam

/-- The keys of an `a=fmtp` line, as extractMTParams reads them. -/
def fmtpKeys (line : Str) : List Str := (fmtpPairs line).map (fun p => p.1)

/-- The object that extractMTParams builds from the pairs of an `a=fmtp` line. -/
def fmtpProps (line : Str) : List (Str × Str) :=
  (fmtpPairs line).foldl (fun o p => setProp o p.1 p.2) []

/-- The stream number of line `x`: the number of lines before it that start with `m=`. -/
def streamNumberAt (lines : List Str) (x : Nat) : Nat :=
  ((lines.take x).filter (fun l => startsWith l "m=".toList)).length

/-- A line that marks a video media section as one of the skipped types: an `a=rtpmap`
line whose encoding name is in skipVideoTypes. -/
def isSkipLine (l : Str) : Bool :=
  startsWith l "a=rtpmap".toList &&
    (match rtpmapPattern.exec l with
     | some m => skipVideoTypes.contains ((m.cap 2).getD [])
     | none => false)

/-- Line `x` lies in the media section that starts at line `j`; the media line is a video
line (videoPattern matches it) and no line of the section before `x` marks it skipped. -/
def inVideoSection (lines : List Str) (j x : Nat) : Prop :=
  j < x ∧ startsWith (lines.getD j []) "m=".toList = true ∧
  videoPattern.test (lines.getD j []) = true ∧
  ∀ i, j < i → i < x →
    startsWith (lines.getD i []) "m=".toList = false ∧ isSkipLine (lines.getD i []) = false

/-- A positive decimal integer without leading zeros: the strings of `[1-9]\d*`. -/
def isPositiveDecimal : Str → Bool
  | [] => false
  | c :: cs => isDigit19 c && cs.all isDigit

/-- A media section of the lines of an SDP: a line that starts with `m=` and the lines
that follow it up to, and not including, the next line that starts with `m=`, or up to the
end. -/
def IsMediaSection (lines : List Str) (m : Str) (body : List Str) : Prop :=
  ∃ pre post, lines = pre ++ m :: body ++ post ∧ startsWith m "m=".toList = true ∧
    (∀ l ∈ body, startsWith l "m=".toList = false) ∧
    (∀ l post1, post = l :: post1 → startsWith l "m=".toList = true)

/-- A line `a=ts-refclk:ptp=IEEE1588-2008:<id>:0` with `<id>` eight hyphen-separated
upper-case hexadecimal octets. -/
def IsPtpClockLine (l : Str) : Prop :=
  ∃ id, isOctets 7 id = true ∧ l = "a=ts-refclk:ptp=IEEE1588-2008:".toList ++ id ++ ":0".toList

/-- The text has no occurrence of the separator `[\r\n]m=`. -/
def NoSep (u : Str) : Prop := ∀ a c b, u = a ++ c :: 'm' :: '=' :: b → isCRLF c = false

/-- The pieces of a text between the occurrences of the separator `[\r\n]m=`, from left
to right. -/
inductive Pieces : Str → List Str → Prop
  | last (s : Str) : NoSep s → Pieces s [s]
  | cons (u : Str) (c : Char) (rest : Str) (ps : List Str) :
      isCRLF c = true → NoSep u → Pieces rest ps →
      Pieces (u ++ c :: 'm' :: '=' :: rest) (u :: ps)

/-- The sections that the claim on allSections lists for the profile the configuration
selects, in its order. -/
def profileSections (params : Params) : List (Str → Params → Option (List Finding)) :=
  if params.smpte2110_22 then
    [section_10_74, section_10_81, section_10_82, section_10_83, section_22_53, section_22_6,
     section_22_71, section_22_72, section_22_73, section_22_74]
  else
    [section_10_62, section_10_74, section_10_81, section_10_82, section_10_83, section_20_71,
     section_20_72, section_20_73, section_20_74, section_20_75, section_20_76, section_30_62,
     section_21_81, section_21_82]

/-- The copy test that follows the sections: that of the profile, exactly when `noCopy` is
set. -/
def profileCopy (params : Params) : List (Str → Params → Option (List Finding)) :=
  if params.noCopy then
    [if params.smpte2110_22 then fun sdp _ => no_copy_22 sdp else fun sdp _ => no_copy_20 sdp]
  else []

/-- The Finding is one of test_30_62_5: media type is not audio. -/
def Finding.isNotAudio : Finding → Bool
  | .notAudio _ => true
  | _ => false

/-- The rule `t` in a state and the value `r`: in every state in which
`fmtpParams.lastIndex` is zero, the rule returns `r` (or throws where `r` is `none`) and
leaves `fmtpParams.lastIndex` zero. -/
def Agrees (t : Stateful.Rule) (r : Option (List Finding)) : Prop :=
  ∀ g : Globals, g.fmtpParams = 0 → (t g).2 = r ∧ (t g).1.fmtpParams = 0

/-- The identifier of line `j` (counted from 0) if it is an `a=mid:` line: the rest of the
line, as test_10_83_3 reads it. -/
def midAt (lines : List Str) (j : Nat) : Option Str :=
  match lines.get? j with
  | some l => if startsWith l "a=mid:".toList then some (slice l 6) else none
  | none => none

/-- The `a=mid:` lines carry pairwise different, non-empty identifiers, at most one in
each media section and at most one before the first media line.  `seen` tells that the
section at hand has had its `a=mid:` line, `ids` are the identifiers of the lines before. -/
def midsWellFormed : Bool → List Str → List Str → Bool
  | _, _, [] => true
  | seen, ids, l :: ls =>
    if startsWith l "m=".toList then midsWellFormed false ids ls
    else if startsWith l "a=mid:".toList then
      !seen && !(slice l 6).isEmpty && !ids.contains (slice l 6) &&
        midsWellFormed true (slice l 6 :: ids) ls
    else midsWellFormed seen ids ls

/-- The stream that a Finding of checkStreamsRtpMap names. -/
def Finding.rtpmapStream : Finding → Option Nat
  | .rtpmapMissing _ s => some s
  | .rtpmapRepeated _ s => some s
  | .rtpmapPatternBad _ s => some s
  | .rtpmapPayloadType _ s _ _ => some s
  | .rtpmapEncoding _ s _ _ => some s
  | .rtpmapClockRate _ s _ _ => some s
  | _ => none

/-- The Finding says that stream `s` does not have an `rtpmap` attribute. -/
def Finding.isRtpmapMissingOf (s : Nat) : Finding → Bool
  | .rtpmapMissing _ n => n == s
  | _ => false

/-- The Finding says that more than one `rtpmap` attribute was found for stream `s`. -/
def Finding.isRtpmapRepeatedOf (s : Nat) : Finding → Bool
  | .rtpmapRepeated _ n => n == s
  | _ => false

/-- The Findings of checkStreamsRtpMap from line `x` on, `st` the variables of its loop
there and `len` the number of lines: those of the rest of the loop, then that of the
check after the loop. -/
def rtpMapFrom (type clockRate specification : Str) (st : RtpMapState) (x len : Nat)
    (ls : List Str) : List Finding :=
  (forLines (rtpMapStep type clockRate specification) st x ls).2 ++
    (if !(forLines (rtpMapStep type clockRate specification) st x ls).1.rtpmapInStream &&
        (forLines (rtpMapStep type clockRate specification) st x ls).1.payloadType.isSome then
      [Finding.rtpmapMissing len
        (forLines (rtpMapStep type clockRate specification) st x ls).1.streamCount]
     else [])

/-- The lines of a text as the specification counts them, from the text `rest` on: `cur`
is the part of the line at hand read so far, `afterCR` tells that the character before was
a CR, so that an LF that follows belongs to the same terminator.  LF, CR and CRLF each end
a line; what follows the last terminator is a line only if it is not empty. -/
def textLinesFrom : Bool → Str → Str → List Str
  | _, cur, [] => if cur.isEmpty then [] else [cur]
  | afterCR, cur, c :: rest =>
    if c.toNat == 10 then
      if afterCR then textLinesFrom false [] rest
      else cur :: textLinesFrom false [] rest
    else if c.toNat == 13 then cur :: textLinesFrom true [] rest
    else textLinesFrom false (cur ++ [c]) rest

/-- The lines of a text with LF, CR or CRLF terminators, blank lines included: element `i`
is the line at position `i + 1` of the text. -/
def textLines (text : Str) : List Str := textLinesFrom false [] text

/-- The parameter `name` is present among the properties with a value outside the list
`permitted`. -/
def outsidePermitted (props : List (Str × Str)) (name : String) (permitted : List Str) : Bool :=
  match props.lookup name.toList with
  | some v => !permitted.contains v
  | none => false

/-- The stream that a Finding of test_30_62_4 reports as an audio stream without the
channel order that the test parameters require. -/
def Finding.channelOrderMissingStream : Finding → Option Nat
  | .channelOrderMissing _ s => some s
  | .channelOrderMissingAtEnd s => some s
  | _ => none

/-- The numbers of the audio media sections of the lines: a media section is one more
than the number `n` of the lines before it that start with `m=`, and it is an audio
section if audioPattern matches its media line. -/
def audioSectionNumbers : Nat → List Str → List Nat
  | _, [] => []
  | n, l :: ls =>
    if startsWith l "m=".toList then
      (if audioPattern.test l then [n + 1] else []) ++ audioSectionNumbers (n + 1) ls
    else audioSectionNumbers n ls

/-- No audio media section of the lines has a line that starts with `a=fmtp`; `inAudio`
tells that the lines start inside an audio media section. -/
def audioFmtpFree : Bool → List Str → Bool
  | _, [] => true
  | inAudio, l :: ls =>
    if startsWith l "m=".toList then audioFmtpFree (audioPattern.test l) ls
    else !(inAudio && startsWith l "a=fmtp".toList) && audioFmtpFree inAudio ls

/-- The Findings of test_30_62_4 from line `x` on, `st` the variables of its loop there:
those of the rest of the loop, then that of the check after the loop. -/
def channelOrderFrom (params : Params) (st : AudioState) (x : Nat) (ls : List Str) :
    List Finding :=
  (forLines (channelOrderStep params) st x ls).2 ++
    (if params.channelOrder == true && (forLines (channelOrderStep params) st x ls).1.has == false &&
        (forLines (channelOrderStep params) st x ls).1.payloadType.isSome then
      [Finding.channelOrderMissingAtEnd
        (forLines (channelOrderStep params) st x ls).1.streamCount]
     else [])

/-- The text of an element of a format-parameter line: a key, or a key, `=` and a
value. -/
def elementText (e : Str × Option Str) : Str :=
  e.1 ++ (match e.2 with
    | some v => '=' :: v
    | none => [])

/-- An element of a format-parameter line: the key is not empty and has no white space,
`=` or `;`; the value, if there is one, is not empty and has no white space or `;`. -/
def isElement (e : Str × Option Str) : Bool :=
  !e.1.isEmpty && e.1.all (fun c => !(isSpace c || c == '=' || c == ';')) &&
    (match e.2 with
     | some v => !v.isEmpty && v.all (fun c => !(isSpace c || c == ';'))
     | none => true)

/-- The line `a=fmtp:<pt><ws><first>` followed, for each `(w, e)` of `more`, by `;`, the
white space `w` and the element `e`, and then, if `last` is white space `w`, by `;` and
`w`. -/
def fmtpLine (pt ws : Str) (first : Str × Option Str) (more : List (Str × (Str × Option Str)))
    (last : Option Str) : Str :=
  "a=fmtp:".toList ++ (pt ++ (ws ++ (elementText first ++
    (more.flatMap (fun p => ';' :: (p.1 ++ elementText p.2)) ++
      (match last with
       | some w => ';' :: w
       | none => [])))))

/-- The parts of a format-parameter line are as they should be: `pt` is a non-empty text
of digits, `ws` non-empty white space, the elements are elements, and what follows a
semicolon before the next element or the end is white space (possibly none). -/
def isFmtpLine (pt ws : Str) (first : Str × Option Str)
    (more : List (Str × (Str × Option Str))) (last : Option Str) : Bool :=
  !pt.isEmpty && pt.all isDigit && !ws.isEmpty && ws.all isSpace && isElement first &&
    more.all (fun p => p.1.all isSpace && isElement p.2) &&
    (match last with
     | some w => w.all isSpace
     | none => true)

/-- A hardware address of `n + 1` octets: two hexadecimal digits each, of either case,
separated by hyphens. -/
def isMacOctets : Nat → Str → Bool
  | 0, [a, b] => isHex a && isHex b
  | n + 1, a :: b :: c :: rest => isHex a && isHex b && c == '-' && isMacOctets n rest
  | _, _ => false

/-- The text `s` contains the word `w`. -/
def containsWord (w s : Str) : Prop := ∃ u v, s = u ++ (w ++ v)

/-- The text ends with a clock identity of eight octets followed by nothing or by a colon
and decimal digits. -/
def endsWithClock (s : Str) : Prop :=
  ∃ u id dom, s = u ++ (id ++ domainSuffix dom) ∧ isOctets 7 id = true ∧
    ∀ ds, dom = some ds → isDigits ds = true

/-- The text contains a hardware address of six octets. -/
def containsMac (s : Str) : Prop := ∃ u m v, s = u ++ (m ++ v) ∧ isMacOctets 5 m = true

/-- The parameter string of a format-parameter line: the element `first` followed, for each
`(w, e)` of `more`, by `;`, the white space `w` and the element `e`, and then, if `last` is
white space `w`, by `;` and `w`. -/
def paramsText (first : Str × Option Str) (more : List (Str × (Str × Option Str)))
    (last : Option Str) : Str :=
  elementText first ++
    (more.flatMap (fun p => ';' :: (p.1 ++ elementText p.2)) ++
      (match last with
       | some w => ';' :: w
       | none => []))

/-- The parts of a parameter string are as they should be: the elements are elements, and
what follows a semicolon before the next element or the end is white space (possibly
none). -/
def isParamsText (first : Str × Option Str) (more : List (Str × (Str × Option Str)))
    (last : Option Str) : Bool :=
  isElement first && more.all (fun p => p.1.all isSpace && isElement p.2) &&
    (match last with
     | some w => w.all isSpace
     | none => true)

/-- The pair of key and value that an element stands for: the value of a name-only element
is the empty string. -/
def elementPair (e : Str × Option Str) : Str × Str := (e.1, e.2.getD [])

/-- The value of the last pair with key `k`, if there is one. -/
def lastValue (k : Str) (ps : List (Str × Str)) : Option Str := ps.reverse.lookup k

/-- White space stands in the text only after a semicolon or after white space; `a` is the
character before the text. -/
def spaceAfterSemicolon : Char → Str → Bool
  | _, [] => true
  | a, b :: t => (!isSpace b || a == ';' || isSpace a) && spaceAfterSemicolon b t

/-! # Properties -/

/-! ## Lines and trimming: basic facts -/

theorem isSpace_of_isCRLF {c : Char} (h : isCRLF c = true) : isSpace c = true := by
  simp only [isCRLF, Bool.or_eq_true, beq_iff_eq] at h
  rcases h with h | h <;> simp [isSpace, h]

theorem mem_dropWhile_of_false {p : Char → Bool} {c : Char} :
    ∀ {l : Str}, c ∈ l → p c = false → c ∈ l.dropWhile p
  | [], h, _ => by simp at h
  | a :: l, h, hc => by
    rw [List.dropWhile_cons]
    by_cases ha : p a = true
    · simp only [ha, if_true]
      rcases List.mem_cons.1 h with rfl | h1
      · simp [hc] at ha
      · exact mem_dropWhile_of_false h1 hc
    · simp only [ha, if_false]
      exact h

theorem trim_nonspace {s : Str} (h : ∃ c ∈ s, isSpace c = false) :
    ∃ c ∈ trim s, isSpace c = false := by
  obtain ⟨c, hc, hs⟩ := h
  refine ⟨c, ?_, hs⟩
  unfold trim
  rw [List.mem_reverse]
  apply mem_dropWhile_of_false _ hs
  rw [List.mem_reverse]
  exact mem_dropWhile_of_false hc hs

theorem lineRuns_ne_nil : ∀ {s : Str}, (∃ c ∈ s, isCRLF c = false) → lineRuns s ≠ []
  | [], h => by simp at h
  | a :: s, h => by
    unfold lineRuns
    by_cases ha : isCRLF a = true
    · simp only [ha, if_true]
      apply lineRuns_ne_nil
      obtain ⟨c, hc, hs⟩ := h
      rcases List.mem_cons.1 hc with rfl | h1
      · simp [hs] at ha
      · exact ⟨c, h1, hs⟩
    · simp only [ha]
      cases s with
      | nil => simp
      | cons d s1 =>
        by_cases hd : isCRLF d = true
        · simp [hd]
        · simp only [hd]
          cases lineRuns (d :: s1) <;> simp

theorem splitLines_isSome {s : Str} (h : ∃ c ∈ s, isCRLF c = false) :
    splitLines s = some (lineRuns s) := by
  have := lineRuns_ne_nil h
  unfold splitLines
  cases hl : lineRuns s with
  | nil => exact absurd hl this
  | cons a l => rfl

theorem noCopyLoop_iff : ∀ (lines exlines : List Str),
    noCopyLoop lines exlines = true ↔
      ∀ x, x < min lines.length exlines.length →
        startsWith ((Re.plus (.cls isSpace)).replaceG (lines.getD x []) " ".toList)
          (exlines.getD x []) = true
  | [], _ => by simp [noCopyLoop]
  | _ :: _, [] => by simp [noCopyLoop]
  | l :: ls, e :: es => by
    rw [noCopyLoop]
    by_cases h : startsWith ((Re.plus (.cls isSpace)).replaceG l " ".toList) e = true
    · simp only [h, Bool.not_true, Bool.false_eq_true, if_false, noCopyLoop_iff ls es]
      constructor
      · intro H x hx
        cases x with
        | zero => simpa using h
        | succ n =>
          simp only [List.getD_cons_succ]
          apply H
          simp only [List.length_cons] at hx
          omega
      · intro H x hx
        have := H (x + 1) (by simp only [List.length_cons]; omega)
        simpa only [List.getD_cons_succ] using this
    · simp only [h, Bool.not_false, if_true, Bool.false_eq_true, false_iff]
      intro H
      apply h
      have := H 0 (by simp)
      simpa using this

/-- C9 (amended): for every submission with a character that is not white space and every
reference text with a non-empty line, no_copy returns exactly the one copy Finding if every
line of the trimmed submission, white space collapsed, starts with the line of the
reference at the same index, over the indices below the smaller line count, and returns the
empty sequence otherwise. -/
theorem no_copy_prefix_rule (sdp specSDP : Str)
    (hs : ∃ c ∈ sdp, isSpace c = false) (hr : ∃ c ∈ specSDP, isCRLF c = false) :
    ((∀ x, x < min (lineRuns (trim sdp)).length (lineRuns specSDP).length →
        startsWith ((Re.plus (.cls isSpace)).replaceG ((lineRuns (trim sdp)).getD x []) " ".toList)
          ((lineRuns specSDP).getD x []) = true) →
      no_copy sdp specSDP = some [Finding.copy]) ∧
    (¬ (∀ x, x < min (lineRuns (trim sdp)).length (lineRuns specSDP).length →
        startsWith ((Re.plus (.cls isSpace)).replaceG ((lineRuns (trim sdp)).getD x []) " ".toList)
          ((lineRuns specSDP).getD x []) = true) →
      no_copy sdp specSDP = some []) := by
  have h1 : splitLines (trim sdp) = some (lineRuns (trim sdp)) := by
    apply splitLines_isSome
    obtain ⟨c, hc, hsp⟩ := trim_nonspace hs
    refine ⟨c, hc, ?_⟩
    cases hcr : isCRLF c with
    | false => rfl
    | true => rw [isSpace_of_isCRLF hcr] at hsp; cases hsp
  have h2 := splitLines_isSome hr
  unfold no_copy
  rw [h1, h2]
  rw [← noCopyLoop_iff]
  constructor
  · intro h; simp [h]
  · intro h; simp [h]

/-- Witness for C9: a two-line submission that is shorter than the ST 2110-20 example and
matches it line by line is flagged. -/
theorem no_copy_prefix_rule_witness :
    no_copy "v=0\no=- 123456 11 IN IP4 192.168.100.2 \n".toList specExample20 =
      some [Finding.copy] :=
  (no_copy_prefix_rule "v=0\no=- 123456 11 IN IP4 192.168.100.2 \n".toList specExample20
    ⟨'v', by decide!, by decide!⟩ ⟨'v', by decide!, by decide!⟩).1 (by decide!)

/-- C9 (counterexample): a submission of one blank has one non-empty line, and no_copy
returns neither one Finding nor the empty sequence on it: it throws. -/
theorem no_copy_blank_line_throws :
    lineRuns " ".toList = [" ".toList] ∧ no_copy " ".toList specExample20 = none := by
  decide!

/-! ## The matcher on deterministic pieces -/

theorem clearCaps_nil (caps : List (Nat × Str)) : clearCaps [] caps = caps := by
  simp [clearCaps]

theorem lookup_filter_ne {i j : Nat} (h : i ≠ j) : ∀ (caps : List (Nat × Str)),
    (caps.filter (fun p => p.1 != j)).lookup i = caps.lookup i
  | [] => rfl
  | (a, s) :: caps => by
    by_cases ha : a = j
    · subst ha
      have : (i == a) = false := by simpa using h
      simp [List.filter_cons, List.lookup_cons, this, lookup_filter_ne h caps]
    · have h1 : (a != j) = true := by simpa using ha
      simp only [List.filter_cons, h1, if_true, List.lookup_cons, lookup_filter_ne h caps]

theorem lookup_setCap_ne {i j : Nat} (h : i ≠ j) (s : Str) (caps : List (Nat × Str)) :
    (setCap j s caps).lookup i = caps.lookup i := by
  have : (i == j) = false := by simpa using h
  simp [setCap, List.lookup_cons, this, lookup_filter_ne h]

theorem lookup_setCap_self (i : Nat) (s : Str) (caps : List (Nat × Str)) :
    (setCap i s caps).lookup i = some s := by
  simp [setCap, List.lookup_cons]

/-- A greedy star over a character class takes a whole run of the class when the
continuation accepts what follows the run. -/
theorem starLoop_cls (p : Char → Bool) (rest : Str) (caps : List (Nat × Str))
    (k : MState → Option MState) (hrest : ∀ c r, rest = c :: r → p c = false) :
    ∀ (ds : Str) (fuel pos : Nat), ds.length ≤ fuel → (∀ c ∈ ds, p c = true) →
      (k ⟨pos + ds.length, rest, caps⟩).isSome = true →
      starLoop (Re.cls p).run [] fuel ⟨pos, ds ++ rest, caps⟩ k = k ⟨pos + ds.length, rest, caps⟩
  | [], fuel, pos, _, _, _ => by
    cases fuel with
    | zero => simp [starLoop]
    | succ n =>
      cases rest with
      | nil => simp [starLoop, Re.run]
      | cons c r => simp [starLoop, Re.run, hrest c r rfl]
  | d :: ds, fuel, pos, hf, hp, hk => by
    cases fuel with
    | zero => simp at hf
    | succ n =>
      have hd : p d = true := hp d (by simp)
      have ih := starLoop_cls p rest caps k hrest ds n (pos + 1) (by simpa using hf)
        (fun c hc => hp c (by simp [hc]))
        (by simpa [Nat.add_assoc, Nat.add_comm 1] using hk)
      have e : pos + 1 + ds.length = pos + (d :: ds).length := by simp; omega
      rw [e] at ih
      cases hh : k ⟨pos + (d :: ds).length, rest, caps⟩ with
      | none => rw [hh] at hk; cases hk
      | some r =>
        rw [hh] at ih
        rw [starLoop]
        simp only [Re.run, clearCaps_nil, List.cons_append, hd, if_true,
          List.length_cons, Nat.lt_succ_self] at ih ⊢
        rw [ih]

theorem run_star_cls (p : Char → Bool) (ds rest : Str) (pos : Nat) (caps : List (Nat × Str))
    (k : MState → Option MState) (hrest : ∀ c r, rest = c :: r → p c = false)
    (hp : ∀ c ∈ ds, p c = true) (hk : (k ⟨pos + ds.length, rest, caps⟩).isSome = true) :
    (Re.star (.cls p)).run ⟨pos, ds ++ rest, caps⟩ k = k ⟨pos + ds.length, rest, caps⟩ := by
  simp only [Re.run, Re.groups]
  exact starLoop_cls p rest caps k hrest ds _ pos (by simp) hp hk

/-! ## The loop over media-level lines -/

theorem mediaLevelLoop_cited (body : Nat → Str → List Finding)
    (hb : ∀ x l f, f ∈ body x l → f.citedLine = some (x + 1)) :
    ∀ (lines : List Str) (x0 : Nat) (flag : Bool) (f : Finding),
      f ∈ mediaLevelLoop body x0 flag lines → ∃ n, f.citedLine = some n ∧ x0 < n
  | [], _, _, f, h => by simp [mediaLevelLoop] at h
  | l :: ls, x0, false, f, h => by
    rw [mediaLevelLoop] at h
    obtain ⟨n, hn, hlt⟩ := mediaLevelLoop_cited body hb ls (x0 + 1) _ f h
    exact ⟨n, hn, by omega⟩
  | l :: ls, x0, true, f, h => by
    rw [mediaLevelLoop] at h
    rcases List.mem_append.1 h with h1 | h1
    · exact ⟨x0 + 1, hb x0 l f h1, by omega⟩
    · obtain ⟨n, hn, hlt⟩ := mediaLevelLoop_cited body hb ls (x0 + 1) _ f h1
      exact ⟨n, hn, by omega⟩

theorem filter_cited_eq_self (body : Nat → Str → List Finding)
    (hb : ∀ x l f, f ∈ body x l → f.citedLine = some (x + 1)) (x : Nat) (l : Str) :
    (body x l).filter (fun f => f.citedLine == some (x + 1)) = body x l := by
  apply List.filter_eq_self.2
  intro f hf
  simp [hb x l f hf]

theorem filter_cited_eq_nil (body : Nat → Str → List Finding)
    (hb : ∀ x l f, f ∈ body x l → f.citedLine = some (x + 1)) (x y : Nat) (l : Str)
    (hxy : x ≠ y) :
    (body x l).filter (fun f => f.citedLine == some (y + 1)) = [] := by
  apply List.filter_eq_nil_iff.2
  intro f hf
  simp [hb x l f hf, hxy]

/-- The Findings of the loop that cite line `x0 + i + 1` are those of the body on line `i`,
when that line is at media level. -/
theorem mediaLevelLoop_filter (body : Nat → Str → List Finding)
    (hb : ∀ x l f, f ∈ body x l → f.citedLine = some (x + 1)) :
    ∀ (lines : List Str) (x0 : Nat) (flag : Bool) (i : Nat), i < lines.length →
      (flag = true ∨ mediaLevel lines i) →
      (mediaLevelLoop body x0 flag lines).filter (fun f => f.citedLine == some (x0 + i + 1)) =
        body (x0 + i) (lines.getD i [])
  | [], _, _, i, hi, _ => by simp at hi
  | l :: ls, x0, false, i, hi, hm => by
    rw [mediaLevelLoop]
    rcases hm with hm | ⟨j, hj, hs⟩
    · cases hm
    · cases i with
      | zero => omega
      | succ i1 =>
        have := mediaLevelLoop_filter body hb ls (x0 + 1) (startsWith l "m=".toList) i1
          (by simpa using hi)
          (by
            cases j with
            | zero => left; simpa using hs
            | succ j1 => right; exact ⟨j1, by omega, by simpa using hs⟩)
        simpa [Nat.add_assoc, Nat.add_comm 1] using this
  | l :: ls, x0, true, i, hi, _ => by
    rw [mediaLevelLoop, List.filter_append]
    cases i with
    | zero =>
      have h2 : (mediaLevelLoop body (x0 + 1) true ls).filter
          (fun f => f.citedLine == some (x0 + 0 + 1)) = [] := by
        apply List.filter_eq_nil_iff.2
        intro f hf
        obtain ⟨n, hn, hlt⟩ := mediaLevelLoop_cited body hb ls (x0 + 1) true f hf
        simp [hn]; omega
      rw [h2, filter_cited_eq_self body hb]
      simp
    | succ i1 =>
      have := mediaLevelLoop_filter body hb ls (x0 + 1) true i1 (by simpa using hi) (Or.inl rfl)
      rw [filter_cited_eq_nil body hb x0 (x0 + (i1 + 1)) l (by omega)]
      simpa [Nat.add_assoc, Nat.add_comm 1] using this

theorem check_10_82_3_cited (x : Nat) (l : Str) (f : Finding) (h : f ∈ check_10_82_3 x l) :
    f.citedLine = some (x + 1) := by
  unfold check_10_82_3 at h
  split at h
  · simp only at h
    split at h
    · simp at h; subst h; rfl
    · split at h
      · simp at h; subst h; rfl
      · split at h
        · simp at h; subst h; rfl
        · split at h
          · split at h
            · simp at h; subst h; rfl
            · simp at h
          · split at h
            · simp at h; subst h; rfl
            · simp at h
  · simp at h

theorem check_10_82_2_cited (x : Nat) (l : Str) (f : Finding) (h : f ∈ check_10_82_2 x l) :
    f.citedLine = some (x + 1) := by
  unfold check_10_82_2 at h
  split at h
  · split at h
    · simp at h; subst h; rfl
    · simp at h
  · simp at h

theorem check_10_82_4_cited (x : Nat) (l : Str) (f : Finding) (h : f ∈ check_10_82_4 x l) :
    f.citedLine = some (x + 1) := by
  unfold check_10_82_4 at h
  split at h
  · split at h
    · simp at h; subst h; rfl
    · simp at h
  · simp at h

theorem lineRuns_of_get {s : Str} {x : Nat} {l : Str} (h : (lineRuns s).get? x = some l) :
    splitLines s = some (lineRuns s) ∧ x < (lineRuns s).length ∧ (lineRuns s).getD x [] = l := by
  have hx : x < (lineRuns s).length := by
    by_contra hc
    rw [List.get?_eq_none.2 (by omega)] at h
    cases h
  refine ⟨?_, hx, ?_⟩
  · unfold splitLines
    cases hl : lineRuns s with
    | nil => rw [hl] at hx; simp at hx
    | cons a t => rfl
  · rw [List.getD_eq_getElem?_getD, ← List.get?_eq_getElem?, h]
    rfl

theorem concatResults_some4 (a b c d : List Finding) :
    concatResults [some a, some b, some c, some d] = some (a ++ (b ++ (c ++ (d ++ [])))) := rfl

/-- C5 (amended): for every SDP that contains the line `a=ts-refclk:ptp=traceable` after
the first line starting with `m=` (at media level), test_10_82_3 reports, for that line,
exactly the Finding with the deprecated-form message, and section_10_82 reports it too. -/
theorem traceable_flagged_at_media_level (sdp : Str) (params : Params) (x : Nat)
    (hline : (lineRuns sdp).get? x = some "a=ts-refclk:ptp=traceable".toList)
    (hmedia : mediaLevel (lineRuns sdp) x) :
    (∃ fs, test_10_82_3 sdp params = some fs ∧
      fs.filter (fun f => f.citedLine == some (x + 1)) = [Finding.ptpTraceable (x + 1)]) ∧
    (∃ gs, section_10_82 sdp params = some gs ∧ Finding.ptpTraceable (x + 1) ∈ gs) := by
  obtain ⟨hsl, hx, hget⟩ := lineRuns_of_get hline
  have key : (mediaLevelLoop check_10_82_3 0 false (lineRuns sdp)).filter
      (fun f => f.citedLine == some (x + 1)) = [Finding.ptpTraceable (x + 1)] := by
    have := mediaLevelLoop_filter check_10_82_3 check_10_82_3_cited (lineRuns sdp) 0 false x hx
      (Or.inr hmedia)
    simp only [Nat.zero_add] at this
    rw [this, hget]
    simp [check_10_82_3, startsWith, slice]
  constructor
  · exact ⟨_, by simp [test_10_82_3, hsl], key⟩
  · refine ⟨test_10_82_1 sdp params ++ (mediaLevelLoop check_10_82_2 0 false (lineRuns sdp) ++
      (mediaLevelLoop check_10_82_3 0 false (lineRuns sdp) ++
        (mediaLevelLoop check_10_82_4 0 false (lineRuns sdp) ++ []))), by
      simp only [section_10_82, test_10_82_2, test_10_82_3, test_10_82_4, hsl,
        Option.map_some', concatResults_some4], ?_⟩
    have : Finding.ptpTraceable (x + 1) ∈ (mediaLevelLoop check_10_82_3 0 false (lineRuns sdp)).filter
        (fun f => f.citedLine == some (x + 1)) := by rw [key]; simp
    have := (List.mem_filter.1 this).1
    simp [this]

/-- Witness for C5: the line at index 2, after a media line. -/
theorem traceable_flagged_at_media_level_witness :
    ∃ gs, section_10_82 "v=0\nm=video 50000 RTP/AVP 112\na=ts-refclk:ptp=traceable\n".toList {} =
      some gs ∧ Finding.ptpTraceable 3 ∈ gs :=
  (traceable_flagged_at_media_level
    "v=0\nm=video 50000 RTP/AVP 112\na=ts-refclk:ptp=traceable\n".toList {} 2
    (by decide!) ⟨1, by decide, by decide!⟩).2

/-- C5 (counterexample): the line stands at session level, before the first media line, and
neither test_10_82_3 nor section_10_82 reports anything. -/
theorem traceable_at_session_level_unflagged :
    (lineRuns "v=0\na=ts-refclk:ptp=traceable\nm=video 50000 RTP/AVP 112\n".toList).get? 1 =
      some "a=ts-refclk:ptp=traceable".toList ∧
    test_10_82_3 "v=0\na=ts-refclk:ptp=traceable\nm=video 50000 RTP/AVP 112\n".toList {} = some [] ∧
    section_10_82 "v=0\na=ts-refclk:ptp=traceable\nm=video 50000 RTP/AVP 112\n".toList {} =
      some [] := by
  decide!

/-! ## One step of the matcher, by constructor -/

theorem run_eps (st : MState) (k : MState → Option MState) : Re.eps.run st k = k st := by
  rw [Re.run]

theorem run_cls_nil (p : Char → Bool) (pos : Nat) (caps : List (Nat × Str))
    (k : MState → Option MState) : (Re.cls p).run ⟨pos, [], caps⟩ k = none := by
  rw [Re.run]

theorem run_cls_cons (p : Char → Bool) (pos : Nat) (c : Char) (cs : Str)
    (caps : List (Nat × Str)) (k : MState → Option MState) :
    (Re.cls p).run ⟨pos, c :: cs, caps⟩ k = if p c then k ⟨pos + 1, cs, caps⟩ else none := by
  rw [Re.run]

theorem run_chr_cons (a : Char) (pos : Nat) (c : Char) (cs : Str)
    (caps : List (Nat × Str)) (k : MState → Option MState) :
    (Re.chr a).run ⟨pos, c :: cs, caps⟩ k = if c == a then k ⟨pos + 1, cs, caps⟩ else none := by
  rw [Re.chr, Re.run]

theorem run_chr_nil (a : Char) (pos : Nat) (caps : List (Nat × Str))
    (k : MState → Option MState) : (Re.chr a).run ⟨pos, [], caps⟩ k = none := by
  rw [Re.chr, Re.run]

theorem run_bol (st : MState) (k : MState → Option MState) :
    Re.bol.run st k = if st.pos = 0 then k st else none := by
  rw [Re.run]

theorem run_eol (st : MState) (k : MState → Option MState) :
    Re.eol.run st k = if st.rem.isEmpty then k st else none := by
  rw [Re.run]

theorem run_seq (a b : Re) (st : MState) (k : MState → Option MState) :
    (Re.seq a b).run st k = a.run st (fun st1 => b.run st1 k) := by
  rw [Re.run]

theorem run_alt (a b : Re) (st : MState) (k : MState → Option MState) :
    (Re.alt a b).run st k = (match a.run st k with
      | some r => some r
      | none => b.run st k) := by
  rw [Re.run]

theorem run_grp (i : Nat) (a : Re) (st : MState) (k : MState → Option MState) :
    (Re.grp i a).run st k = a.run st (fun st1 =>
      k { st1 with caps := setCap i (st.rem.take (st.rem.length - st1.rem.length)) st1.caps }) := by
  rw [Re.run]

theorem run_opt (a : Re) (st : MState) (k : MState → Option MState) :
    (Re.opt a).run st k = (match a.run st k with
      | some r => some r
      | none => k st) := by
  rw [Re.opt, Re.run, Re.run]

theorem run_plus (a : Re) (st : MState) (k : MState → Option MState) :
    (Re.plus a).run st k = a.run st (fun st1 => (Re.star a).run st1 k) := by
  rw [Re.plus, Re.run]

theorem run_cat_nil (st : MState) (k : MState → Option MState) :
    (Re.cat []).run st k = k st := by
  rw [Re.cat, Re.run]

theorem run_cat_cons (r : Re) (rs : List Re) (st : MState) (k : MState → Option MState) :
    (Re.cat (r :: rs)).run st k = r.run st (fun st1 => (Re.cat rs).run st1 k) := by
  rw [Re.cat, Re.run]

theorem run_lit_nil (st : MState) (k : MState → Option MState) :
    (Re.lit []).run st k = k st := by
  rw [Re.lit, Re.run]

theorem run_lit_cons (c : Char) (cs : Str) (st : MState) (k : MState → Option MState) :
    (Re.lit (c :: cs)).run st k = (Re.chr c).run st (fun st1 => (Re.lit cs).run st1 k) := by
  rw [Re.lit, Re.run]

/-- A literal at the head of the input is consumed. -/
theorem run_lit_append : ∀ (w rest : Str) (pos : Nat) (caps : List (Nat × Str))
    (k : MState → Option MState),
    (Re.lit w).run ⟨pos, w ++ rest, caps⟩ k = k ⟨pos + w.length, rest, caps⟩
  | [], rest, pos, caps, k => by simp [run_lit_nil]
  | c :: w, rest, pos, caps, k => by
    rw [run_lit_cons, List.cons_append, run_chr_cons]
    simp only [beq_self_eq_true, if_true]
    rw [run_lit_append w rest (pos + 1) caps k]
    simp only [List.length_cons]
    congr 2
    omega

theorem exec_of_run {r : Re} {s : Str} {st : MState} (h : r.run ⟨0, s, []⟩ some = some st) :
    r.exec s = some ⟨0, st.pos, s.take (st.pos - 0), st.caps⟩ := by
  unfold Re.exec
  cases s with
  | nil => rw [Re.searchFrom, Re.matchAt, h]
  | cons c cs => rw [Re.searchFrom, Re.matchAt, h]
/-! ## The PTP clock pattern on a well-formed clock identity -/

theorem isHexUpper_ne_t {a : Char} (h : isHexUpper a = true) : (a == 't') = false := by
  cases hc : a == 't' with
  | false => rfl
  | true =>
    have : a = 't' := by simpa using hc
    subst this
    revert h
    decide

theorem isDigit_ne_colon {a : Char} (h : isDigit a = true) : (a == ':') = false := by
  cases hc : a == ':' with
  | false => rfl
  | true =>
    have : a = ':' := by simpa using hc
    subst this
    revert h
    decide

theorem run_octets : ∀ (n : Nat) (id rest : Str) (pos : Nat) (caps : List (Nat × Str)),
    isOctets n id = true →
    ∃ caps1, (∀ i, i ≠ 3 → caps1.lookup i = caps.lookup i) ∧
      ∀ k, (Re.seq (Re.rep n (.grp 3 (.cat [.cls isHexUpper, .cls isHexUpper, .chr '-'])))
          (.seq (.cls isHexUpper) (.cls isHexUpper))).run ⟨pos, id ++ rest, caps⟩ k =
        k ⟨pos + id.length, rest, caps1⟩
  | 0, id, rest, pos, caps, h => by
    match id, h with
    | [a, b], h =>
      simp only [isOctets, Bool.and_eq_true] at h
      refine ⟨caps, fun _ _ => rfl, fun k => ?_⟩
      simp [Re.rep, Re.run, h.1, h.2]
  | n + 1, id, rest, pos, caps, h => by
    match id, h with
    | a :: b :: c :: id1, h =>
      simp only [isOctets, Bool.and_eq_true, beq_iff_eq] at h
      obtain ⟨⟨⟨ha, hb⟩, hc⟩, hrec⟩ := h
      subst hc
      obtain ⟨caps1, hl, hk⟩ := run_octets n id1 rest (pos + 1 + 1 + 1)
        (setCap 3 [a, b, '-'] caps) hrec
      refine ⟨caps1, fun i hi => by rw [hl i hi, lookup_setCap_ne hi], fun k => ?_⟩
      have := hk k
      simp only [Re.run, Re.cat, Re.chr] at this
      simp only [Re.rep, Re.run, Re.cat, Re.chr, List.cons_append, ha, hb, if_true, beq_self_eq_true]
      simp only [List.length_cons, List.length_append] at this ⊢
      have e : id1.length + rest.length + 1 + 1 + 1 - (id1.length + rest.length) = 3 := by omega
      rw [e]
      simp only [List.take_succ_cons, List.take_zero]
      rw [this]
      congr 2
      omega

theorem run_ptpIdentity (id rest : Str) (pos : Nat) (caps : List (Nat × Str))
    (h : isOctets 7 id = true) :
    ∃ caps1, (∀ i, i ≠ 3 → i ≠ 2 → caps1.lookup i = caps.lookup i) ∧
      caps1.lookup 2 = some id ∧
      ∀ k, ptpIdentity.run ⟨pos, id ++ rest, caps⟩ k = k ⟨pos + id.length, rest, caps1⟩ := by
  obtain ⟨caps1, hl, hk⟩ := run_octets 7 id rest pos caps h
  refine ⟨setCap 2 id caps1, fun i h3 h2 => by rw [lookup_setCap_ne h2, hl i h3],
    lookup_setCap_self _ _ _, fun k => ?_⟩
  unfold ptpIdentity
  rw [Re.run, hk]
  simp

theorem isOctets_cons {n : Nat} {id : Str} (h : isOctets n id = true) :
    ∃ a t, id = a :: t ∧ isHexUpper a = true := by
  cases n with
  | zero =>
    match id, h with
    | [a, b], h =>
      simp only [isOctets, Bool.and_eq_true] at h
      exact ⟨a, _, rfl, h.1⟩
  | succ n =>
    match id, h with
    | a :: b :: c :: id1, h =>
      simp only [isOctets, Bool.and_eq_true] at h
      exact ⟨a, _, rfl, h.1.1.1⟩

theorem isDigits_cons {ds : Str} (h : isDigits ds = true) :
    ∃ d t, ds = d :: t ∧ isDigit d = true ∧ ∀ c ∈ t, isDigit c = true := by
  cases ds with
  | nil => simp [isDigits] at h
  | cons d t =>
    simp only [isDigits, List.isEmpty_cons, Bool.not_false, List.all_cons, Bool.true_and,
      Bool.and_eq_true, List.all_eq_true] at h
    exact ⟨d, t, rfl, h.1, h.2⟩

/-- The pattern on a clock identity without a domain: group 2 is the identity, group 5 is
undefined. -/
theorem ptpPattern_exec_identity (id : Str) (h : isOctets 7 id = true) :
    ∃ m, ptpPattern.exec id = some m ∧ m.cap 5 = none ∧ m.cap 2 = some id := by
  obtain ⟨a, t, hid, ha⟩ := isOctets_cons h
  obtain ⟨caps1, hl, h2, hk⟩ := run_ptpIdentity id [] 0 [] h
  have ht : "traceable".toList = ['t', 'r', 'a', 'c', 'e', 'a', 'b', 'l', 'e'] := rfl
  simp only [List.append_nil] at hk
  have hrun : ptpPattern.run ⟨0, id, []⟩ some =
      some ⟨0 + id.length, [], setCap 1 id caps1⟩ := by
    unfold ptpPattern
    rw [Re.run]
    have h1 : (Re.lit "traceable".toList).run ⟨0, id, []⟩ some = none := by
      rw [ht, hid]
      simp [Re.lit, Re.run, Re.chr, isHexUpper_ne_t ha]
    rw [h1]
    simp only [run_seq, run_grp, run_opt, hk, run_chr_nil, run_eol]
    simp
  refine ⟨_, exec_of_run hrun, ?_, ?_⟩
  · show (setCap 1 id caps1).lookup 5 = none
    rw [lookup_setCap_ne (by decide), hl 5 (by decide) (by decide)]
    rfl
  · show (setCap 1 id caps1).lookup 2 = some id
    rw [lookup_setCap_ne (by decide), h2]

/-- The pattern on a clock identity followed by a colon and digits: group 5 is the
digits. -/
theorem ptpPattern_exec_domain (id ds : Str) (h : isOctets 7 id = true)
    (hd : isDigits ds = true) :
    ∃ m, ptpPattern.exec (id ++ ':' :: ds) = some m ∧ m.cap 5 = some ds := by
  obtain ⟨a, t, hid, ha⟩ := isOctets_cons h
  obtain ⟨d, dt, hds, hd0, hdt⟩ := isDigits_cons hd
  subst hds
  obtain ⟨caps1, hl, h2, hk⟩ := run_ptpIdentity id (':' :: d :: dt) 0 [] h
  have ht : "traceable".toList = ['t', 'r', 'a', 'c', 'e', 'a', 'b', 'l', 'e'] := rfl
  have hstar := fun k hk1 => run_star_cls isDigit dt [] (0 + id.length + 1 + 1) caps1 k
    (by simp) hdt hk1
  simp only [List.append_nil] at hstar
  have hrun : ptpPattern.run ⟨0, id ++ ':' :: d :: dt, []⟩ some =
      some ⟨0 + id.length + 1 + 1 + dt.length, [],
        setCap 1 (id ++ ':' :: d :: dt) (setCap 4 (':' :: d :: dt) (setCap 5 (d :: dt) caps1))⟩ := by
    unfold ptpPattern
    rw [Re.run]
    have h1 : (Re.lit "traceable".toList).run ⟨0, id ++ ':' :: d :: dt, []⟩ some = none := by
      rw [ht, hid]
      simp [Re.lit, Re.run, Re.chr, isHexUpper_ne_t ha]
    rw [h1]
    simp only [run_seq, run_grp, run_opt, run_plus, hk, run_chr_cons, run_cls_cons,
      beq_self_eq_true, if_true, hd0]
    rw [hstar]
    · simp only [run_eol, List.isEmpty_nil, if_true, List.length_append, List.length_cons,
        List.length_nil, Nat.sub_zero, Option.some.injEq, MState.mk.injEq, true_and]
      congr 1
      · apply List.take_of_length_le; simp
      · congr 1
        · simp
        · simp
    · simp [run_eol]
  refine ⟨_, exec_of_run hrun, ?_⟩
  · show (setCap 1 (id ++ ':' :: d :: dt) (setCap 4 (':' :: d :: dt)
      (setCap 5 (d :: dt) caps1))).lookup 5 = some (d :: dt)
    rw [lookup_setCap_ne (by decide), lookup_setCap_ne (by decide), lookup_setCap_self]
theorem isDigits_truthy {ds : Str} (h : isDigits ds = true) : truthy (some ds) = true := by
  obtain ⟨d, t, rfl, _, _⟩ := isDigits_cons h
  rfl

theorem check_10_82_3_identity (x : Nat) (id : Str) (hid : isOctets 7 id = true) :
    check_10_82_3 x ("a=ts-refclk:ptp=IEEE1588-2008:".toList ++ id) =
      [Finding.ptpDomainMissing (x + 1)] := by
  obtain ⟨m, hm, h5, h2⟩ := ptpPattern_exec_identity id hid
  obtain ⟨a, t, hat, _⟩ := isOctets_cons hid
  have ht : truthy (some id) = true := by rw [hat]; rfl
  have hn : truthy none = false := rfl
  simp [check_10_82_3, startsWith, slice, hm, h5, h2, ht, hn]

theorem check_10_82_3_domain (x : Nat) (id ds : Str) (hid : isOctets 7 id = true)
    (hds : isDigits ds = true) :
    check_10_82_3 x ("a=ts-refclk:ptp=IEEE1588-2008:".toList ++ id ++ ':' :: ds) =
      if 127 < toNumber ds then [Finding.ptpDomainRange (x + 1)] else [] := by
  obtain ⟨m, hm, h5⟩ := ptpPattern_exec_domain id ds hid hds
  have ht := isDigits_truthy hds
  simp [check_10_82_3, startsWith, slice, hm, h5, ht]

/-- C8: for every media-level line `a=ts-refclk:ptp=IEEE1588-2008:<id>` or
`a=ts-refclk:ptp=IEEE1588-2008:<id>:<d>`, with `<id>` eight hyphen-separated upper-case
hexadecimal octets and `<d>` decimal digits, the Findings of test_10_82_3 that cite the line
are: the domain-must-be-specified Finding when the domain is absent, the
between-0-and-127 Finding when `d > 127`, and none when `d ≤ 127`. -/
theorem ptp_domain_rule (sdp : Str) (params : Params) (x : Nat) (id : Str) (dom : Option Str)
    (hid : isOctets 7 id = true) (hdom : ∀ ds, dom = some ds → isDigits ds = true)
    (hline : (lineRuns sdp).get? x =
      some ("a=ts-refclk:ptp=IEEE1588-2008:".toList ++ id ++ domainSuffix dom))
    (hmedia : mediaLevel (lineRuns sdp) x) :
    ∃ fs, test_10_82_3 sdp params = some fs ∧
      fs.filter (fun f => f.citedLine == some (x + 1)) =
        (match dom with
         | none => [Finding.ptpDomainMissing (x + 1)]
         | some ds => if 127 < toNumber ds then [Finding.ptpDomainRange (x + 1)] else []) := by
  obtain ⟨hsl, hx, hget⟩ := lineRuns_of_get hline
  refine ⟨mediaLevelLoop check_10_82_3 0 false (lineRuns sdp), by simp [test_10_82_3, hsl], ?_⟩
  have := mediaLevelLoop_filter check_10_82_3 check_10_82_3_cited (lineRuns sdp) 0 false x hx
    (Or.inr hmedia)
  simp only [Nat.zero_add] at this
  rw [this, hget]
  cases dom with
  | none => simpa [domainSuffix] using check_10_82_3_identity x id hid
  | some ds => simpa [domainSuffix] using check_10_82_3_domain x id ds hid (hdom ds rfl)

/-- Witness for C8: domain 37 on line 3 gives no Finding for the line. -/
theorem ptp_domain_rule_witness :
    ∃ fs, test_10_82_3
        "v=0\nm=video 50000 RTP/AVP 112\na=ts-refclk:ptp=IEEE1588-2008:39-A7-94-FF-FE-07-CB-D0:37\n".toList
        {} = some fs ∧
      fs.filter (fun f => f.citedLine == some (2 + 1)) =
        (if 127 < toNumber "37".toList then [Finding.ptpDomainRange (2 + 1)] else []) :=
  ptp_domain_rule
    "v=0\nm=video 50000 RTP/AVP 112\na=ts-refclk:ptp=IEEE1588-2008:39-A7-94-FF-FE-07-CB-D0:37\n".toList
    {} 2 "39-A7-94-FF-FE-07-CB-D0".toList (some "37".toList) (by decide!)
    (by intro ds h; cases h; decide!) (by decide!) ⟨1, by decide, by decide!⟩

/-! ## The matcher and the words an expression denotes -/

theorem starLoop_sound (a : Re) (gs : List Nat)
    (ha : ∀ st k res, a.run st k = some res → RunSound a st k res) :
    ∀ (fuel : Nat) (st : MState) (k : MState → Option MState) (res : MState),
      starLoop a.run gs fuel st k = some res → RunSound (.star a) st k res
  | 0, st, k, res, h => by
    rw [starLoop] at h
    exact ⟨[], st.rem, st.caps, rfl, Den.starNil _ _ _, by simpa using h⟩
  | n + 1, st, k, res, h => by
    rw [starLoop] at h
    split at h
    · rename_i r hr
      cases h
      obtain ⟨w1, rest1, caps1, hrem, hden, hk⟩ := ha _ _ _ hr
      simp only at hrem hden hk
      split at hk
      · rename_i hlt
        obtain ⟨w2, rest, caps2, hrem2, hden2, hk2⟩ := starLoop_sound a gs ha n _ k _ hk
        simp only at hrem2 hden2 hk2
        subst hrem2
        refine ⟨w1 ++ w2, rest, caps2, by rw [hrem, List.append_assoc], ?_, ?_⟩
        · apply Den.starCons _ _ _ _ _ _ hden hden2
          intro hw
          subst hw
          rw [hrem] at hlt
          simp at hlt
        · rw [← hk2]
          simp [Nat.add_assoc]
      · cases hk
    · exact ⟨[], st.rem, st.caps, rfl, Den.starNil _ _ _, by simpa using h⟩

theorem run_sound : ∀ (r : Re) (st : MState) (k : MState → Option MState) (res : MState),
    r.run st k = some res → RunSound r st k res
  | .eps, st, k, res, h => by
    rw [Re.run] at h
    exact ⟨[], st.rem, st.caps, rfl, Den.eps _ _, by simpa using h⟩
  | .cls p, st, k, res, h => by
    rw [Re.run] at h
    split at h
    · cases h
    · rename_i c cs hrem
      split at h
      · rename_i hp
        exact ⟨[c], cs, st.caps, by simpa using hrem, Den.cls _ _ _ _ hp, by simpa using h⟩
      · cases h
  | .bol, st, k, res, h => by
    rw [Re.run] at h
    split at h
    · rename_i hp
      refine ⟨[], st.rem, st.caps, rfl, ?_, by simpa using h⟩
      rw [hp]
      exact Den.bol _
    · cases h
  | .eol, st, k, res, h => by
    rw [Re.run] at h
    split at h
    · rename_i hp
      have hnil : st.rem = [] := by simpa using hp
      refine ⟨[], [], st.caps, by simpa using hnil, Den.eol _, ?_⟩
      rw [← h]
      congr 1
      cases st
      simp only at hnil
      simp [hnil]
    · cases h
  | .seq a b, st, k, res, h => by
    rw [Re.run] at h
    obtain ⟨w1, rest1, caps1, hrem, hden, hk⟩ := run_sound a st _ res h
    obtain ⟨w2, rest, caps2, hrem2, hden2, hk2⟩ := run_sound b _ k res hk
    simp only at hrem2 hden2 hk2
    subst hrem2
    exact ⟨w1 ++ w2, rest, caps2, by rw [hrem, List.append_assoc], Den.seq _ _ _ _ _ _ hden hden2,
      by rw [← hk2]; simp [Nat.add_assoc]⟩
  | .alt a b, st, k, res, h => by
    rw [Re.run] at h
    split at h
    · rename_i r hr
      cases h
      obtain ⟨w, rest, caps1, hrem, hden, hk⟩ := run_sound a st k _ hr
      exact ⟨w, rest, caps1, hrem, Den.altL _ _ _ _ _ hden, hk⟩
    · obtain ⟨w, rest, caps1, hrem, hden, hk⟩ := run_sound b st k _ h
      exact ⟨w, rest, caps1, hrem, Den.altR _ _ _ _ _ hden, hk⟩
  | .star a, st, k, res, h => by
    rw [Re.run] at h
    exact starLoop_sound a _ (fun st k res => run_sound a st k res) _ st k res h
  | .grp i a, st, k, res, h => by
    rw [Re.run] at h
    obtain ⟨w, rest, caps1, hrem, hden, hk⟩ := run_sound a st _ res h
    exact ⟨w, rest, _, hrem, Den.grp _ _ _ _ _ hden, hk⟩

theorem starLoop_complete (a : Re) (gs : List Nat) (ha : RunComplete a) :
    ∀ (r : Re) (pos : Nat) (w rest : Str), Den r pos w rest → r = .star a →
      ∀ (fuel : Nat), w.length ≤ fuel → ∀ (caps : List (Nat × Str))
        (k : MState → Option MState),
        (∀ caps1, (k ⟨pos + w.length, rest, caps1⟩).isSome = true) →
        (starLoop a.run gs fuel ⟨pos, w ++ rest, caps⟩ k).isSome = true := by
  intro r pos w rest h
  induction h with
  | eps => intro hr; cases hr
  | cls => intro hr; cases hr
  | bol => intro hr; cases hr
  | eol => intro hr; cases hr
  | seq => intro hr; cases hr
  | altL => intro hr; cases hr
  | altR => intro hr; cases hr
  | grp => intro hr; cases hr
  | starNil a1 pos rest =>
    intro _ fuel _ caps k hk
    have hk0 := hk caps
    simp only [List.length_nil, Nat.add_zero] at hk0
    cases fuel with
    | zero => simpa [starLoop] using hk0
    | succ n =>
      rw [starLoop]
      split
      · rfl
      · simpa using hk0
  | starCons a1 pos w1 w2 rest hne hd1 _ _ ih2 =>
    intro hr fuel hf caps k hk
    cases hr
    cases fuel with
    | zero =>
      cases w1 with
      | nil => exact absurd rfl hne
      | cons c t => simp at hf
    | succ n =>
      rw [starLoop]
      have hlen : 0 < w1.length := by
        cases w1 with
        | nil => exact absurd rfl hne
        | cons c t => simp
      have hstep := ha pos w1 (w2 ++ rest) hd1 (clearCaps gs caps)
        (fun st1 => if st1.rem.length < (w1 ++ w2 ++ rest).length then
          starLoop a.run gs n st1 k else none)
        (by
          intro caps1
          have hlt : (w2 ++ rest).length < (w1 ++ w2 ++ rest).length := by
            simp only [List.length_append]; omega
          simp only [hlt, if_true]
          apply ih2 rfl n (by simp only [List.length_append] at hf; omega)
          intro caps2
          have := hk caps2
          simpa [Nat.add_assoc] using this)
      simp only [List.append_assoc] at hstep ⊢
      cases hs : a.run { pos := pos, rem := w1 ++ (w2 ++ rest), caps := clearCaps gs caps }
          (fun st1 => if st1.rem.length < (w1 ++ (w2 ++ rest)).length then
            starLoop a.run gs n st1 k else none) with
      | none => rw [hs] at hstep; cases hstep
      | some r => rfl

theorem run_complete : ∀ (r : Re), RunComplete r
  | .eps => by
    intro pos w rest h caps k hk
    cases h
    rw [Re.run]
    simpa using hk caps
  | .cls p => by
    intro pos w rest h caps k hk
    cases h with
    | cls _ c _ _ hp =>
      rw [Re.run]
      simp only [List.cons_append, List.nil_append, hp, if_true]
      simpa using hk caps
  | .bol => by
    intro pos w rest h caps k hk
    cases h
    rw [Re.run]
    simpa using hk caps
  | .eol => by
    intro pos w rest h caps k hk
    cases h
    rw [Re.run]
    simpa using hk caps
  | .seq a b => by
    intro pos w rest h caps k hk
    cases h with
    | seq _ _ _ w1 w2 _ h1 h2 =>
      rw [Re.run, List.append_assoc]
      apply run_complete a pos w1 (w2 ++ rest) h1
      intro caps1
      apply run_complete b (pos + w1.length) w2 rest h2
      intro caps2
      simpa [Nat.add_assoc] using hk caps2
  | .alt a b => by
    intro pos w rest h caps k hk
    rw [Re.run]
    cases h with
    | altL _ _ _ _ _ h1 =>
      have := run_complete a pos w rest h1 caps k hk
      cases hs : a.run { pos := pos, rem := w ++ rest, caps := caps } k with
      | none => rw [hs] at this; cases this
      | some r => rfl
    | altR _ _ _ _ _ h1 =>
      cases hs : a.run { pos := pos, rem := w ++ rest, caps := caps } k with
      | none => exact run_complete b pos w rest h1 caps k hk
      | some r => rfl
  | .star a => by
    intro pos w rest h caps k hk
    rw [Re.run]
    exact starLoop_complete a _ (run_complete a) _ pos w rest h rfl _
      (by simp) caps k hk
  | .grp i a => by
    intro pos w rest h caps k hk
    cases h with
    | grp _ _ _ _ _ h1 =>
      rw [Re.run]
      apply run_complete a pos w rest h1
      intro caps1
      exact hk _

/-! ## Searching -/

theorem matchAt_some {r : Re} {pos : Nat} {rest : Str} {m : Match}
    (h : r.matchAt pos rest = some m) :
    ∃ w v, rest = w ++ v ∧ Den r pos w v ∧ m.index = pos ∧ m.stop = pos + w.length ∧
      m.text = w := by
  unfold Re.matchAt at h
  split at h
  · rename_i st hst
    cases h
    obtain ⟨w, v, caps1, hrem, hden, hk⟩ := run_sound r _ _ _ hst
    simp only at hrem hden hk
    cases hk
    exact ⟨w, v, hrem, hden, rfl, rfl, by simp [hrem]⟩
  · cases h

theorem matchAt_none {r : Re} {pos : Nat} {rest : Str} (h : r.matchAt pos rest = none)
    (w v : Str) (hw : rest = w ++ v) : ¬ Den r pos w v := by
  intro hden
  have := run_complete r pos w v hden [] some (fun _ => rfl)
  unfold Re.matchAt at h
  rw [hw] at h
  split at h
  · cases h
  · rename_i hn
    rw [hn] at this
    cases this

theorem matchAt_isSome_of_den {r : Re} {pos : Nat} {w v : Str} (hden : Den r pos w v) :
    (r.matchAt pos (w ++ v)).isSome = true := by
  cases h : r.matchAt pos (w ++ v) with
  | some m => rfl
  | none => exact absurd hden (matchAt_none h w v rfl)

/-- A successful search: the match starts after a prefix `u` at no position of which the
expression matches. -/
theorem searchFrom_some {r : Re} : ∀ {rest : Str} {pos : Nat} {m : Match},
    r.searchFrom pos rest = some m →
    ∃ u w v, rest = u ++ (w ++ v) ∧ Den r (pos + u.length) w v ∧ m.index = pos + u.length ∧
      m.stop = pos + u.length + w.length ∧ m.text = w ∧
      r.matchAt (pos + u.length) (w ++ v) = some m ∧
      ∀ u1 t, u = u1 ++ t → t ≠ [] → r.matchAt (pos + u1.length) (t ++ (w ++ v)) = none
  | [], pos, m, h => by
    rw [Re.searchFrom] at h
    obtain ⟨w, v, hrem, hden, hi, hs, ht⟩ := matchAt_some h
    refine ⟨[], w, v, by simpa using hrem, by simpa using hden, by simpa using hi,
      by simpa using hs, ht, by simpa [← hrem] using h, ?_⟩
    intro u1 t hu ht
    cases u1 <;> cases t <;> simp at hu ht
  | c :: cs, pos, m, h => by
    rw [Re.searchFrom] at h
    split at h
    · rename_i m1 hm
      cases h
      obtain ⟨w, v, hrem, hden, hi, hs, ht⟩ := matchAt_some hm
      refine ⟨[], w, v, by simpa using hrem, by simpa using hden, by simpa using hi,
        by simpa using hs, ht, by simpa [← hrem] using hm, ?_⟩
      intro u1 t hu ht
      cases u1 <;> cases t <;> simp at hu ht
    · rename_i hn
      obtain ⟨u, w, v, hrem, hden, hi, hs, ht, hma, hleft⟩ := searchFrom_some h
      refine ⟨c :: u, w, v, by simp [hrem], ?_, ?_, ?_, ht, ?_, ?_⟩
      · simpa [Nat.add_assoc, Nat.add_comm 1] using hden
      · simpa [Nat.add_assoc, Nat.add_comm 1] using hi
      · simpa [Nat.add_assoc, Nat.add_comm 1] using hs
      · simpa [Nat.add_assoc, Nat.add_comm 1] using hma
      · intro u1 t hu ht
        cases u1 with
        | nil =>
          simp only [List.nil_append] at hu
          subst hu
          simpa [hrem] using hn
        | cons a u2 =>
          simp only [List.cons_append, List.cons.injEq] at hu
          have := hleft u2 t hu.2 ht
          simpa [Nat.add_assoc, Nat.add_comm 1] using this

theorem searchFrom_none {r : Re} : ∀ {rest : Str} {pos : Nat},
    r.searchFrom pos rest = none →
    ∀ u w v, rest = u ++ (w ++ v) → ¬ Den r (pos + u.length) w v
  | [], pos, h, u, w, v, hrest => by
    rw [Re.searchFrom] at h
    have hu : u = [] := by cases u <;> simp at hrest ⊢
    subst hu
    simpa using matchAt_none h w v (by simpa using hrest)
  | c :: cs, pos, h, u, w, v, hrest => by
    rw [Re.searchFrom] at h
    split at h
    · cases h
    · rename_i hn
      cases u with
      | nil => simpa using matchAt_none hn w v (by simpa using hrest)
      | cons a u1 =>
        simp only [List.cons_append, List.cons.injEq] at hrest
        have := searchFrom_none h u1 w v hrest.2
        simpa [Nat.add_assoc, Nat.add_comm 1] using this

theorem test_eq_true_iff {r : Re} {s : Str} :
    r.test s = true ↔ ∃ u w v, s = u ++ (w ++ v) ∧ Den r u.length w v := by
  unfold Re.test Re.exec
  constructor
  · intro h
    cases hs : r.searchFrom 0 s with
    | none => rw [hs] at h; cases h
    | some m =>
      obtain ⟨u, w, v, hrem, hden, _⟩ := searchFrom_some hs
      exact ⟨u, w, v, hrem, by simpa using hden⟩
  · rintro ⟨u, w, v, hs, hden⟩
    cases hs1 : r.searchFrom 0 s with
    | some m => rfl
    | none =>
      exact absurd (by simpa using hden) (searchFrom_none hs1 u w v hs)

/-! ## Words of the building blocks -/

theorem den_eps {pos : Nat} {w rest : Str} : Den .eps pos w rest ↔ w = [] := by
  constructor
  · intro h; cases h; rfl
  · rintro rfl; exact Den.eps _ _

theorem den_cls {p : Char → Bool} {pos : Nat} {w rest : Str} :
    Den (.cls p) pos w rest ↔ ∃ c, w = [c] ∧ p c = true := by
  constructor
  · intro h
    cases h with
    | cls _ c _ _ hp => exact ⟨c, rfl, hp⟩
  · rintro ⟨c, rfl, hp⟩; exact Den.cls _ _ _ _ hp

theorem den_chr {a : Char} {pos : Nat} {w rest : Str} :
    Den (Re.chr a) pos w rest ↔ w = [a] := by
  unfold Re.chr
  rw [den_cls]
  constructor
  · rintro ⟨c, rfl, hp⟩
    simp at hp
    rw [hp]
  · rintro rfl
    exact ⟨a, rfl, by simp⟩

theorem den_eol {pos : Nat} {w rest : Str} : Den .eol pos w rest ↔ w = [] ∧ rest = [] := by
  constructor
  · intro h; cases h; exact ⟨rfl, rfl⟩
  · rintro ⟨rfl, rfl⟩; exact Den.eol _

theorem den_bol {pos : Nat} {w rest : Str} : Den .bol pos w rest ↔ w = [] ∧ pos = 0 := by
  constructor
  · intro h; cases h; exact ⟨rfl, rfl⟩
  · rintro ⟨rfl, rfl⟩; exact Den.bol _

theorem den_seq {a b : Re} {pos : Nat} {w rest : Str} :
    Den (.seq a b) pos w rest ↔
      ∃ w1 w2, w = w1 ++ w2 ∧ Den a pos w1 (w2 ++ rest) ∧ Den b (pos + w1.length) w2 rest := by
  constructor
  · intro h
    cases h with
    | seq _ _ _ w1 w2 _ h1 h2 => exact ⟨w1, w2, rfl, h1, h2⟩
  · rintro ⟨w1, w2, rfl, h1, h2⟩; exact Den.seq _ _ _ _ _ _ h1 h2

theorem den_alt {a b : Re} {pos : Nat} {w rest : Str} :
    Den (.alt a b) pos w rest ↔ Den a pos w rest ∨ Den b pos w rest := by
  constructor
  · intro h
    cases h with
    | altL _ _ _ _ _ h1 => exact Or.inl h1
    | altR _ _ _ _ _ h1 => exact Or.inr h1
  · rintro (h | h)
    · exact Den.altL _ _ _ _ _ h
    · exact Den.altR _ _ _ _ _ h

theorem den_grp {i : Nat} {a : Re} {pos : Nat} {w rest : Str} :
    Den (.grp i a) pos w rest ↔ Den a pos w rest := by
  constructor
  · intro h
    cases h with
    | grp _ _ _ _ _ h1 => exact h1
  · intro h; exact Den.grp _ _ _ _ _ h

theorem den_opt {a : Re} {pos : Nat} {w rest : Str} :
    Den (Re.opt a) pos w rest ↔ Den a pos w rest ∨ w = [] := by
  unfold Re.opt
  rw [den_alt, den_eps]

theorem den_cat_nil {pos : Nat} {w rest : Str} : Den (Re.cat []) pos w rest ↔ w = [] := by
  rw [Re.cat]
  exact den_eps

theorem den_cat_cons {r : Re} {rs : List Re} {pos : Nat} {w rest : Str} :
    Den (Re.cat (r :: rs)) pos w rest ↔
      ∃ w1 w2, w = w1 ++ w2 ∧ Den r pos w1 (w2 ++ rest) ∧
        Den (Re.cat rs) (pos + w1.length) w2 rest := by
  rw [Re.cat]
  exact den_seq

theorem den_lit : ∀ {s : Str} {pos : Nat} {w rest : Str}, Den (Re.lit s) pos w rest ↔ w = s
  | [], pos, w, rest => by rw [Re.lit]; exact den_eps
  | c :: cs, pos, w, rest => by
    rw [Re.lit, den_seq]
    constructor
    · rintro ⟨w1, w2, rfl, h1, h2⟩
      rw [den_chr.1 h1, den_lit.1 h2]
      rfl
    · rintro rfl
      exact ⟨[c], cs, rfl, den_chr.2 rfl, den_lit.2 rfl⟩

theorem den_star_cls {p : Char → Bool} {pos : Nat} {w rest : Str} :
    Den (.star (.cls p)) pos w rest ↔ ∀ c ∈ w, p c = true := by
  constructor
  · intro h
    generalize hr : Re.star (.cls p) = r at h
    induction h with
    | eps => cases hr
    | cls => cases hr
    | bol => cases hr
    | eol => cases hr
    | seq => cases hr
    | altL => cases hr
    | altR => cases hr
    | grp => cases hr
    | starNil => simp
    | starCons a pos w1 w2 rest _ h1 _ _ ih2 =>
      cases hr
      obtain ⟨c, rfl, hp⟩ := den_cls.1 h1
      intro x hx
      rcases List.mem_append.1 hx with hx1 | hx2
      · simp at hx1; rw [hx1]; exact hp
      · exact ih2 rfl x hx2
  · intro h
    induction w generalizing pos with
    | nil => exact Den.starNil _ _ _
    | cons c t ih =>
      have := Den.starCons (.cls p) pos [c] t rest (by simp)
        (Den.cls _ _ _ _ (h c (by simp))) (ih (fun x hx => h x (by simp [hx])))
      simpa using this

theorem den_plus_cls {p : Char → Bool} {pos : Nat} {w rest : Str} :
    Den (Re.plus (.cls p)) pos w rest ↔ w ≠ [] ∧ ∀ c ∈ w, p c = true := by
  unfold Re.plus
  rw [den_seq]
  constructor
  · rintro ⟨w1, w2, rfl, h1, h2⟩
    obtain ⟨c, rfl, hp⟩ := den_cls.1 h1
    refine ⟨by simp, ?_⟩
    intro x hx
    rcases List.mem_append.1 hx with hx1 | hx2
    · simp at hx1; rw [hx1]; exact hp
    · exact den_star_cls.1 h2 x hx2
  · rintro ⟨hne, h⟩
    cases w with
    | nil => exact absurd rfl hne
    | cons c t =>
      exact ⟨[c], t, rfl, den_cls.2 ⟨c, rfl, h c (by simp)⟩,
        den_star_cls.2 (fun x hx => h x (by simp [hx]))⟩

/-! ## extractMTParams returns -/

theorem execLoop_returns (r : Re) (s : Str) (hne : ∀ pos w v, Den r pos w v → w ≠ []) :
    ∀ (fuel li : Nat), 1 ≤ fuel → (li ≤ s.length → s.length - li + 1 ≤ fuel) →
      ∃ ms, r.execLoop s fuel li = some (ms, 0)
  | 0, _, h, _ => by omega
  | n + 1, li, _, hf => by
    rw [Re.execLoop]
    unfold Re.execG
    by_cases hli : s.length < li
    · simp [hli]
    · simp only [hli, if_false]
      cases hs : r.searchFrom li (s.drop li) with
      | none => simp
      | some m =>
        obtain ⟨u, w, v, hrem, hden, _, hstop, _⟩ := searchFrom_some hs
        have hw : 0 < w.length := by
          have := hne _ _ _ hden
          cases w with
          | nil => exact absurd rfl this
          | cons c t => simp
        have hlen : (s.drop li).length = u.length + (w.length + v.length) := by
          rw [hrem]; simp
        rw [List.length_drop] at hlen
        have h1 := hf (by omega)
        obtain ⟨ms, hms⟩ := execLoop_returns r s hne n m.stop (by omega) (by intro _; omega)
        simp [hms]

theorem fmtpElement_nonempty {i j pos : Nat} {w rest : Str}
    (h : Den (fmtpElement i j) pos w rest) : w ≠ [] := by
  unfold fmtpElement at h
  obtain ⟨w1, w2, rfl, h1, _⟩ := den_seq.1 h
  have := (den_plus_cls.1 (den_grp.1 h1)).1
  cases w1 with
  | nil => exact absurd rfl this
  | cons c t => simp

theorem fmtpParams_nonempty {pos : Nat} {w rest : Str} (h : Den fmtpParams pos w rest) :
    w ≠ [] := by
  unfold fmtpParams at h
  obtain ⟨w1, w2, rfl, h1, _⟩ := den_seq.1 h
  have := fmtpElement_nonempty h1
  cases w1 with
  | nil => exact absurd rfl this
  | cons c t => simp

theorem fmtpHead_nonempty {pos : Nat} {w rest : Str} (h : Den fmtpHead pos w rest) :
    w ≠ [] := by
  unfold fmtpHead at h
  obtain ⟨w1, w2, rfl, h1, _⟩ := den_cat_cons.1 h
  rw [den_lit.1 h1]
  simp

theorem splitGo_ne_nil (r : Re) : ∀ (fuel p q : Nat) (fromP fromQ : Str),
    splitGo r fuel p q fromP fromQ ≠ []
  | 0, _, _, _, _ => by simp [splitGo]
  | _ + 1, _, _, _, [] => by simp [splitGo]
  | fuel + 1, p, q, fromP, c :: cs => by
    rw [splitGo]
    split
    · exact splitGo_ne_nil r fuel _ _ _ _
    · split
      · exact splitGo_ne_nil r fuel _ _ _ _
      · simp

theorem splitGo_two_pieces (r : Re) (hne : ∀ pos w v, Den r pos w v → w ≠ []) :
    ∀ (fromQ : Str) (fuel p q : Nat) (fromP : Str), fromQ.length < fuel → p ≤ q →
      (∃ u w v, fromQ = u ++ (w ++ v) ∧ Den r (q + u.length) w v) →
      ∃ a b t, splitGo r fuel p q fromP fromQ = a :: b :: t
  | [], fuel, p, q, fromP, _, _, ⟨u, w, v, h, hden⟩ => by
    have := hne _ _ _ hden
    cases u <;> cases w <;> simp at h this
  | c :: cs, fuel, p, q, fromP, hf, hpq, ⟨u, w, v, h, hden⟩ => by
    cases fuel with
    | zero => omega
    | succ n =>
      rw [splitGo]
      have hrec : r.matchAt q (c :: cs) = none →
          ∃ a b t, splitGo r n p (q + 1) fromP cs = a :: b :: t := by
        intro hn
        cases u with
        | nil =>
          exact absurd (by simpa using hden) (matchAt_none hn w v (by simpa using h))
        | cons a u1 =>
          simp only [List.cons_append, List.cons.injEq] at h
          exact splitGo_two_pieces r hne cs n p (q + 1) fromP
            (by simp only [List.length_cons] at hf; omega) (by omega)
            ⟨u1, w, v, h.2, by simpa [Nat.add_assoc, Nat.add_comm 1] using hden⟩
      cases hm : r.matchAt q (c :: cs) with
      | none => simpa using hrec hm
      | some m =>
        obtain ⟨w1, v1, _, hd1, _, hstop, _⟩ := matchAt_some hm
        have hw : 0 < w1.length := by
          have := hne _ _ _ hd1
          cases w1 with
          | nil => exact absurd rfl this
          | cons c t => simp
        have hp : m.stop ≠ p := by omega
        simp only [hp, if_false]
        cases hsg : splitGo r n m.stop m.stop (List.drop (m.stop - q) (c :: cs))
            (List.drop (m.stop - q) (c :: cs)) with
        | nil => exact absurd hsg (splitGo_ne_nil r _ _ _ _ _)
        | cons b t => exact ⟨_, b, t, rfl⟩

theorem split_get_one (r : Re) (hne : ∀ pos w v, Den r pos w v → w ≠ []) (s : Str)
    (h : ∃ u w v, s = u ++ (w ++ v) ∧ Den r u.length w v) :
    ∃ piece, (r.split s).get? 1 = some piece := by
  obtain ⟨u, w, v, hs, hden⟩ := h
  cases s with
  | nil =>
    have := hne _ _ _ hden
    cases u <;> cases w <;> simp at hs this
  | cons c cs =>
    unfold Re.split
    obtain ⟨a, b, t, hsp⟩ := splitGo_two_pieces r hne (c :: cs) ((c :: cs).length + 1) 0 0
      (c :: cs) (by omega) (Nat.le_refl 0) ⟨u, w, v, hs, by simpa using hden⟩
    simp only [hsp]
    exact ⟨b, rfl⟩

theorem fmtpPattern_has_head {line : Str} (h : fmtpPattern.test line = true) :
    ∃ u w v, line = u ++ (w ++ v) ∧ Den fmtpHead u.length w v := by
  obtain ⟨u, w, v, hl, hden⟩ := test_eq_true_iff.1 h
  unfold fmtpPattern at hden
  obtain ⟨w1, r1, rfl, h1, hden⟩ := den_cat_cons.1 hden
  obtain ⟨w2, r2, rfl, h2, hden⟩ := den_cat_cons.1 hden
  obtain ⟨w3, r3, rfl, h3, hden⟩ := den_cat_cons.1 hden
  refine ⟨u, w1 ++ (w2 ++ w3), r3 ++ v, by simp [hl], ?_⟩
  unfold fmtpHead
  rw [den_lit.1 h1] at h2 h3 ⊢
  refine den_cat_cons.2 ⟨_, _, rfl, den_lit.2 rfl, ?_⟩
  have h2b := den_plus_cls.1 (den_grp.1 h2)
  have h3b := den_plus_cls.1 h3
  refine den_cat_cons.2 ⟨w2, w3, rfl, den_plus_cls.2 h2b, ?_⟩
  exact den_cat_cons.2 ⟨w3, [], by simp, den_plus_cls.2 h3b, den_cat_nil.2 rfl⟩

/-- The `a=fmtp` branch returns, and leaves `lastIndex` at zero. -/
theorem extractFmtp_returns (st : ExtractState) (x : Nat) (line : Str)
    (hpt : st.payloadType.isSome = true) (ht : fmtpPattern.test line = true) :
    ∃ st1, extractFmtp st x line = some st1 ∧ st1.lastIndex = 0 ∧
      st1.isSkippedType = st.isSkippedType ∧ st1.streamCount = st.streamCount ∧
      st1.payloadType = st.payloadType := by
  obtain ⟨piece, hp⟩ := split_get_one fmtpHead (fun _ _ _ h => fmtpHead_nonempty h) line
    (fmtpPattern_has_head ht)
  obtain ⟨ms, hms⟩ := execLoop_returns fmtpParams piece (fun _ _ _ h => fmtpParams_nonempty h)
    (piece.length + 1) st.lastIndex (by omega) (by intro _; omega)
  cases hpt1 : st.payloadType with
  | none => rw [hpt1] at hpt; cases hpt
  | some pt =>
    unfold extractFmtp
    simp only [hp, hms, hpt1]
    exact ⟨_, rfl, rfl, rfl, rfl, rfl⟩

/-- One turn of the loop returns; if `lastIndex` is zero before, it is zero after. -/
theorem extractStep_returns (st : ExtractState) (x : Nat) (line : Str) :
    ∃ st1, extractStep st x line = some st1 ∧ (st.lastIndex = 0 → st1.lastIndex = 0) := by
  unfold extractStep
  split
  · exact ⟨_, rfl, fun h => h⟩
  · split
    · exact ⟨_, rfl, fun h => h⟩
    · split
      · rename_i hc
        simp only [Bool.and_eq_true] at hc
        split
        · exact ⟨_, rfl, fun h => h⟩
        · rename_i ht
          obtain ⟨st1, h1, h2, _⟩ := extractFmtp_returns st x line hc.1.2 (by simpa using ht)
          exact ⟨st1, h1, fun _ => h2⟩
      · exact ⟨_, rfl, fun h => h⟩

theorem extractLoop_returns : ∀ (lines : List Str) (st : ExtractState) (x : Nat),
    ∃ st1, extractLoop st x lines = some st1 ∧ (st.lastIndex = 0 → st1.lastIndex = 0)
  | [], st, x => ⟨st, rfl, fun h => h⟩
  | l :: ls, st, x => by
    obtain ⟨st1, h1, h2⟩ := extractStep_returns st x l
    obtain ⟨st2, h3, h4⟩ := extractLoop_returns ls st1 (x + 1)
    exact ⟨st2, by rw [extractLoop, h1]; exact h3, fun h => h4 (h2 h)⟩

/-! ## Duplicate parameters -/

theorem extractFmtp_shape (st : ExtractState) (x : Nat) (line : Str) (st1 : ExtractState)
    (h : extractFmtp st x line = some st1) :
    st1.errors = st.errors ∧ st1.isSkippedType = st.isSkippedType ∧
    st1.streamCount = st.streamCount ∧ st1.payloadType = st.payloadType ∧
    ∃ o, st1.mtParams = st.mtParams ++ [o] ∧ o._line = x + 1 := by
  unfold extractFmtp at h
  simp only [checkDupsOfString, Bool.false_eq_true, if_false, List.append_nil] at h
  cases h1 : (fmtpHead.split line).get? 1 with
  | none => rw [h1] at h; cases h
  | some piece =>
    rw [h1] at h
    simp only at h
    cases h2 : fmtpParams.execLoop piece (piece.length + 1) st.lastIndex with
    | none => rw [h2] at h; cases h
    | some r =>
      obtain ⟨ms, li⟩ := r
      rw [h2] at h
      simp only at h
      cases h3 : st.payloadType with
      | none => rw [h3] at h; cases h
      | some pt =>
        rw [h3] at h
        cases h
        exact ⟨rfl, rfl, rfl, rfl, _, rfl, rfl⟩

theorem extractStep_errors (st : ExtractState) (x : Nat) (line : Str) (st1 : ExtractState)
    (h : extractStep st x line = some st1) :
    st1.errors = st.errors ∨ st1.errors = st.errors ++ [Finding.fmtpError (x + 1) line] := by
  unfold extractStep at h
  split at h
  · cases h; left; rfl
  · split at h
    · cases h; left; rfl
    · split at h
      · split at h
        · cases h; right; rfl
        · left; exact (extractFmtp_shape st x line st1 h).1
      · cases h; left; rfl

theorem extractLoop_no_duplicate : ∀ (lines : List Str) (st : ExtractState) (x : Nat)
    (st1 : ExtractState), extractLoop st x lines = some st1 →
    (∀ f ∈ st.errors, f.isParamDuplicate = false) →
    ∀ f ∈ st1.errors, f.isParamDuplicate = false
  | [], st, x, st1, h, hinv => by
    rw [extractLoop] at h
    cases h
    exact hinv
  | l :: ls, st, x, st1, h, hinv => by
    rw [extractLoop] at h
    split at h
    · cases h
    · rename_i st2 hst
      apply extractLoop_no_duplicate ls st2 (x + 1) st1 h
      rcases extractStep_errors st x l st2 hst with he | he
      · rw [he]; exact hinv
      · rw [he]
        intro f hf
        rcases List.mem_append.1 hf with h1 | h1
        · exact hinv f h1
        · simp at h1
          rw [h1]
          rfl

theorem extractRun_returns (sdp : Str) (params : Params) (h : ∃ c ∈ sdp, isCRLF c = false) :
    ∃ st, extractRun 0 sdp params = some st ∧ st.lastIndex = 0 := by
  unfold extractRun
  rw [splitLines_isSome h]
  obtain ⟨st1, h1, h2⟩ := extractLoop_returns (lineRuns sdp) (extractInit 0) 0
  exact ⟨st1, h1, h2 rfl⟩

/-- C3: when duplicate-checking is not requested, extractMTParams produces no
appears-more-than-once Finding, for any SDP; and it returns on every SDP with a non-empty
line. -/
theorem no_duplicate_finding_unrequested (sdp : Str) (params : Params)
    (_hc : params.checkDups = false) :
    ((∃ c ∈ sdp, isCRLF c = false) → ∃ r, extractMTParams sdp params = some r) ∧
    ∀ r, extractMTParams sdp params = some r → ∀ f ∈ r.2, f.isParamDuplicate = false := by
  constructor
  · intro h
    obtain ⟨st, hst, _⟩ := extractRun_returns sdp params h
    exact ⟨(st.mtParams, st.errors), by simp [extractMTParams, hst]⟩
  · intro r hr f hf
    unfold extractMTParams at hr
    cases hrun : extractRun 0 sdp params with
    | none => rw [hrun] at hr; cases hr
    | some st =>
      rw [hrun] at hr
      cases hr
      unfold extractRun at hrun
      split at hrun
      · cases hrun
      · exact extractLoop_no_duplicate _ _ _ _ hrun (by simp [extractInit]) f hf

/-- Witness for C3: an `a=fmtp` line with `width` three times, no duplicate Finding. -/
theorem no_duplicate_finding_unrequested_witness :
    (extractMTParams
        "v=0\nm=video 50000 RTP/AVP 112\na=fmtp:112 width=1280; width=5; width=7\n".toList
        {}).map (fun r => r.2.filter Finding.isParamDuplicate) = some [] := by
  have h := no_duplicate_finding_unrequested
    "v=0\nm=video 50000 RTP/AVP 112\na=fmtp:112 width=1280; width=5; width=7\n".toList {} rfl
  obtain ⟨r, hr⟩ := h.1 ⟨'v', by decide!, by decide!⟩
  rw [hr, Option.map_some']
  congr 1
  exact List.filter_eq_nil_iff.2 (fun f hf => by simp [h.2 r hr f hf])

/-- C2 (the code at the failing input): `width` occurs twice in the `a=fmtp` line; with
`checkDups` set extractMTParams returns no Finding, and test_20_72_1 returns none either. -/
theorem duplicate_key_not_reported :
    (extractMTParams
      ("v=0\nm=video 50000 RTP/AVP 112\na=rtpmap:112 raw/90000\n" ++
       "a=fmtp:112 sampling=YCbCr-4:2:2; width=1280; width=5; height=720; " ++
       "exactframerate=60000/1001; depth=10; colorimetry=BT709; PM=2110GPM; " ++
       "SSN=ST2110-20:2017\n").toList { checkDups := true }).map (fun r => r.2) = some [] ∧
    test_20_72_1
      ("v=0\nm=video 50000 RTP/AVP 112\na=rtpmap:112 raw/90000\n" ++
       "a=fmtp:112 sampling=YCbCr-4:2:2; width=1280; width=5; height=720; " ++
       "exactframerate=60000/1001; depth=10; colorimetry=BT709; PM=2110GPM; " ++
       "SSN=ST2110-20:2017\n").toList {} = some [] ∧
    fmtpKeys ("a=fmtp:112 sampling=YCbCr-4:2:2; width=1280; width=5; height=720; " ++
      "exactframerate=60000/1001; depth=10; colorimetry=BT709; PM=2110GPM; " ++
      "SSN=ST2110-20:2017").toList =
      ["sampling".toList, "width".toList, "width".toList, "height".toList,
       "exactframerate".toList, "depth".toList, "colorimetry".toList, "PM".toList,
       "SSN".toList] := by
  decide!

/-- C6 (the code at the failing input): a PTP-referenced media section whose
`a=mediaclk:direct=5` line ends the text without a terminator yields no Finding from
test_10_74_1; the same text with a final line feed yields the Finding. -/
theorem mediaclk_offset_missed_at_end_of_text :
    test_10_74_1
      ("v=0\nm=video 50000 RTP/AVP 112\n" ++
       "a=ts-refclk:ptp=IEEE1588-2008:39-A7-94-FF-FE-07-CB-D0:37\n" ++
       "a=mediaclk:direct=5").toList {} = [] ∧
    section_10_74
      ("v=0\nm=video 50000 RTP/AVP 112\n" ++
       "a=ts-refclk:ptp=IEEE1588-2008:39-A7-94-FF-FE-07-CB-D0:37\n" ++
       "a=mediaclk:direct=5").toList {} = some [] ∧
    test_10_74_1
      ("v=0\nm=video 50000 RTP/AVP 112\n" ++
       "a=ts-refclk:ptp=IEEE1588-2008:39-A7-94-FF-FE-07-CB-D0:37\n" ++
       "a=mediaclk:direct=5\n").toList {} = [Finding.mediaclkOffset 0] := by
  decide!

/-! ## The loop of extractMTParams, line by line -/

theorem extractLoop_append : ∀ (l1 l2 : List Str) (st : ExtractState) (x : Nat),
    extractLoop st x (l1 ++ l2) =
      (extractLoop st x l1).bind (fun st1 => extractLoop st1 (x + l1.length) l2)
  | [], l2, st, x => by simp [extractLoop]
  | l :: l1, l2, st, x => by
    rw [List.cons_append, extractLoop, extractLoop]
    cases h : extractStep st x l with
    | none => rfl
    | some st1 =>
      simp only
      rw [extractLoop_append l1 l2 st1 (x + 1)]
      simp [Nat.add_assoc, Nat.add_comm 1]

theorem extractLoop_single (st : ExtractState) (x : Nat) (l : Str) :
    extractLoop st x [l] = extractStep st x l := by
  rw [extractLoop]
  cases extractStep st x l with
  | none => rfl
  | some st1 => simp only [extractLoop]

theorem take_succ_getD (lines : List Str) (n : Nat) (hn : n < lines.length) :
    lines.take (n + 1) = lines.take n ++ [lines.getD n []] := by
  rw [List.take_succ]
  congr 1
  rw [List.getD_eq_getElem?_getD, List.getElem?_eq_getElem hn]
  rfl

/-- The state of the loop after the first `n + 1` lines. -/
theorem extractLoop_take_succ (lines : List Str) (n : Nat) (hn : n < lines.length)
    (st0 : ExtractState) :
    extractLoop st0 0 (lines.take (n + 1)) =
      (extractLoop st0 0 (lines.take n)).bind (fun st => extractStep st n (lines.getD n [])) := by
  have hl : (lines.take n).length = n := by
    rw [List.length_take]; omega
  rw [take_succ_getD lines n hn, extractLoop_append]
  simp only [hl, Nat.zero_add, extractLoop_single]

theorem startsWith_iff {l p : Str} : startsWith l p = true ↔ ∃ t, l = p ++ t := by
  unfold startsWith
  rw [List.isPrefixOf_iff_prefix]
  constructor
  · rintro ⟨t, ht⟩; exact ⟨t, ht.symm⟩
  · rintro ⟨t, ht⟩; exact ⟨t, ht.symm⟩

theorem extractFmtp_eq (st : ExtractState) (x : Nat) (line : Str) (pt : Nat)
    (hli : st.lastIndex = 0) (hpt : st.payloadType = some pt)
    (ht : fmtpPattern.test line = true) :
    extractFmtp st x line = some { st with
      mtParams := st.mtParams ++ [StreamParams.mk (fmtpProps line) pt (x + 1) st.streamCount] } := by
  obtain ⟨piece, hp⟩ := split_get_one fmtpHead (fun _ _ _ h => fmtpHead_nonempty h) line
    (fmtpPattern_has_head ht)
  obtain ⟨ms, hms⟩ := execLoop_returns fmtpParams piece (fun _ _ _ h => fmtpParams_nonempty h)
    (piece.length + 1) 0 (by omega) (by intro _; omega)
  unfold extractFmtp fmtpProps fmtpPairs
  simp only [hp, hli, hms, hpt, checkDupsOfString, Bool.false_eq_true, if_false,
    List.append_nil]

theorem extractStep_fmtp (st : ExtractState) (x : Nat) (line : Str) (pt : Nat)
    (hli : st.lastIndex = 0) (hpt : st.payloadType = some pt) (hsk : st.isSkippedType = false)
    (hf : startsWith line "a=fmtp".toList = true) (ht : fmtpPattern.test line = true) :
    extractStep st x line = some { st with
      mtParams := st.mtParams ++ [StreamParams.mk (fmtpProps line) pt (x + 1) st.streamCount] } := by
  obtain ⟨t, rfl⟩ := startsWith_iff.1 hf
  have h1 : startsWith ("a=fmtp".toList ++ t) "m=".toList = false := by
    simp [startsWith, List.isPrefixOf]
  have h2 : startsWith ("a=fmtp".toList ++ t) "a=rtpmap".toList = false := by
    simp [startsWith, List.isPrefixOf]
  unfold extractStep
  simp only [h1, h2, hf, hpt, hsk, ht, Bool.false_eq_true, if_false, Bool.false_and,
    Option.isSome_some, Bool.not_false, Bool.and_self, if_true, Bool.not_true]
  rw [extractFmtp_eq st x _ pt hli hpt ht]
  simp [hsk, hpt]

theorem extractStep_media (st : ExtractState) (x : Nat) (line : Str)
    (hm : startsWith line "m=".toList = true) (hv : videoPattern.test line = true) :
    ∃ st1, extractStep st x line = some st1 ∧ st1.payloadType.isSome = true ∧
      st1.isSkippedType = false ∧ st1.lastIndex = st.lastIndex := by
  unfold extractStep
  simp only [hm, if_true]
  refine ⟨_, rfl, ?_, rfl, rfl⟩
  unfold Re.test at hv
  cases hx : videoPattern.exec line with
  | none => rw [hx] at hv; cases hv
  | some m => simp

theorem extractStep_inside (st : ExtractState) (x : Nat) (line : Str) (st1 : ExtractState)
    (hm : startsWith line "m=".toList = false) (hs : isSkipLine line = false)
    (h : extractStep st x line = some st1) :
    st1.payloadType = st.payloadType ∧ st1.isSkippedType = st.isSkippedType := by
  unfold extractStep at h
  simp only [hm, Bool.false_eq_true, if_false] at h
  have hcond : (startsWith line "a=rtpmap".toList && st.payloadType.isSome &&
      (match rtpmapPattern.exec line with
       | some m => skipVideoTypes.contains ((m.cap 2).getD [])
       | none => false)) = false := by
    unfold isSkipLine at hs
    cases h1 : startsWith line "a=rtpmap".toList with
    | false => simp
    | true =>
      rw [h1] at hs
      simp only [Bool.true_and] at hs
      rw [hs]
      simp
  rw [hcond] at h
  simp only [Bool.false_eq_true, if_false] at h
  split at h
  · split at h
    · cases h; exact ⟨rfl, rfl⟩
    · obtain ⟨_, h2, _, h4, _⟩ := extractFmtp_shape st x line st1 h
      exact ⟨h4, h2⟩
  · cases h; exact ⟨rfl, rfl⟩

/-- What one turn of the loop adds: objects and Findings of its own line only. -/
theorem extractStep_adds (st : ExtractState) (x : Nat) (line : Str) (st1 : ExtractState)
    (h : extractStep st x line = some st1) :
    (∃ M, st1.mtParams = st.mtParams ++ M ∧ ∀ o ∈ M, o._line = x + 1) ∧
    (∃ E, st1.errors = st.errors ++ E ∧ ∀ f ∈ E, f = Finding.fmtpError (x + 1) line) ∧
    st1.streamCount =
      st.streamCount + (if startsWith line "m=".toList = true then 1 else 0) := by
  unfold extractStep at h
  split at h
  · rename_i hm
    cases h
    exact ⟨⟨[], by simp, by simp⟩, ⟨[], by simp, by simp⟩, by rw [if_pos hm]⟩
  · rename_i hm
    simp only [hm, if_false, Nat.add_zero]
    split at h
    · cases h
      exact ⟨⟨[], by simp, by simp⟩, ⟨[], by simp, by simp⟩, rfl⟩
    · split at h
      · split at h
        · cases h
          exact ⟨⟨[], by simp, by simp⟩, ⟨[_], rfl, by simp⟩, rfl⟩
        · obtain ⟨h1, _, h3, _, o, h5, h6⟩ := extractFmtp_shape st x line st1 h
          exact ⟨⟨[o], h5, by simp [h6]⟩, ⟨[], by simp [h1], by simp⟩, h3⟩
      · cases h
        exact ⟨⟨[], by simp, by simp⟩, ⟨[], by simp, by simp⟩, rfl⟩

/-- What the loop adds over lines `x0, x0 + 1, ...`: objects and Findings that cite those
lines. -/
theorem extractLoop_adds : ∀ (lines : List Str) (st : ExtractState) (x0 : Nat)
    (st1 : ExtractState), extractLoop st x0 lines = some st1 →
    (∃ M, st1.mtParams = st.mtParams ++ M ∧ ∀ o ∈ M, x0 < o._line) ∧
    (∃ E, st1.errors = st.errors ++ E ∧ ∀ f ∈ E, ∃ n, f.citedLine = some n ∧ x0 < n)
  | [], st, x0, st1, h => by
    rw [extractLoop] at h
    cases h
    exact ⟨⟨[], by simp, by simp⟩, ⟨[], by simp, by simp⟩⟩
  | l :: ls, st, x0, st1, h => by
    rw [extractLoop] at h
    cases hs : extractStep st x0 l with
    | none => rw [hs] at h; cases h
    | some st2 =>
      rw [hs] at h
      simp only at h
      obtain ⟨⟨M1, hM1, hM1l⟩, ⟨E1, hE1, hE1l⟩, _⟩ := extractStep_adds st x0 l st2 hs
      obtain ⟨⟨M2, hM2, hM2l⟩, ⟨E2, hE2, hE2l⟩⟩ := extractLoop_adds ls st2 (x0 + 1) st1 h
      refine ⟨⟨M1 ++ M2, by rw [hM2, hM1, List.append_assoc], ?_⟩,
        ⟨E1 ++ E2, by rw [hE2, hE1, List.append_assoc], ?_⟩⟩
      · intro o ho
        rcases List.mem_append.1 ho with h1 | h1
        · rw [hM1l o h1]; omega
        · have := hM2l o h1; omega
      · intro f hf
        rcases List.mem_append.1 hf with h1 | h1
        · rw [hE1l f h1]; exact ⟨x0 + 1, rfl, by omega⟩
        · obtain ⟨n, hn, hlt⟩ := hE2l f h1
          exact ⟨n, hn, by omega⟩

/-- The state after the first `n` lines: `lastIndex` zero, the stream count, and objects
and Findings that cite the first `n` lines only. -/
theorem extractLoop_prefix (lines : List Str) : ∀ (n : Nat), n ≤ lines.length →
    ∃ st, extractLoop (extractInit 0) 0 (lines.take n) = some st ∧ st.lastIndex = 0 ∧
      st.streamCount = streamNumberAt lines n ∧ (∀ o ∈ st.mtParams, o._line ≤ n) ∧
      (∀ f ∈ st.errors, ∃ m, f.citedLine = some m ∧ m ≤ n)
  | 0, _ => ⟨extractInit 0, by simp [extractLoop], rfl, by simp [extractInit, streamNumberAt],
      by simp [extractInit], by simp [extractInit]⟩
  | n + 1, hn => by
    obtain ⟨st, hst, hli, hsc, hM, hE⟩ := extractLoop_prefix lines n (by omega)
    obtain ⟨st1, hst1, hli1⟩ := extractStep_returns st n (lines.getD n [])
    obtain ⟨⟨M1, hM1, hM1l⟩, ⟨E1, hE1, hE1l⟩, hsc1⟩ := extractStep_adds st n _ st1 hst1
    refine ⟨st1, by rw [extractLoop_take_succ lines n (by omega), hst]; exact hst1, hli1 hli,
      ?_, ?_, ?_⟩
    · rw [hsc1, hsc]
      unfold streamNumberAt
      rw [take_succ_getD lines n (by omega), List.filter_append, List.length_append]
      congr 1
      by_cases hm : startsWith (lines.getD n []) "m=".toList = true
      · simp only [hm, if_true, List.filter_cons, List.filter_nil, List.length_singleton]
      · simp only [hm, if_false, List.filter_cons, List.filter_nil, List.length_nil,
          Bool.false_eq_true]
    · intro o ho
      rw [hM1] at ho
      rcases List.mem_append.1 ho with h1 | h1
      · have := hM o h1; omega
      · rw [hM1l o h1]
    · intro f hf
      rw [hE1] at hf
      rcases List.mem_append.1 hf with h1 | h1
      · obtain ⟨m, hm, hle⟩ := hE f h1
        exact ⟨m, hm, by omega⟩
      · rw [hE1l f h1]
        exact ⟨n + 1, rfl, Nat.le_refl _⟩

/-- Inside a video media section that is not marked skipped, the loop holds a payload type
and `isSkippedType` is false. -/
theorem extractLoop_in_section (lines : List Str) (j x : Nat) (hx : x ≤ lines.length)
    (hsec : inVideoSection lines j x) :
    ∀ (n : Nat), j < n → n ≤ x → ∀ st,
      extractLoop (extractInit 0) 0 (lines.take n) = some st →
      st.payloadType.isSome = true ∧ st.isSkippedType = false
  | 0, hj, _, _, _ => by omega
  | n + 1, hj, hn, st1, hst1 => by
    obtain ⟨hjx, hm, hv, hmid⟩ := hsec
    rw [extractLoop_take_succ lines n (by omega)] at hst1
    cases hs : extractLoop (extractInit 0) 0 (lines.take n) with
    | none => rw [hs] at hst1; cases hst1
    | some st =>
      rw [hs] at hst1
      simp only [Option.some_bind] at hst1
      by_cases hjn : j = n
      · subst hjn
        obtain ⟨st2, h2, h3, h4, _⟩ := extractStep_media st j (lines.getD j []) hm hv
        rw [h2] at hst1
        cases hst1
        exact ⟨h3, h4⟩
      · have ih := extractLoop_in_section lines j x hx ⟨hjx, hm, hv, hmid⟩ n (by omega)
          (by omega) st hs
        obtain ⟨h1, h2⟩ := hmid n (by omega) (by omega)
        obtain ⟨h3, h4⟩ := extractStep_inside st n _ st1 h1 h2 hst1
        rw [h3, h4]
        exact ih

/-- The object built for an accepted `a=fmtp` line of a video media section: the final
`mtParams` holds it, no other object and no Finding of extractMTParams cites its line. -/
theorem extractRun_at_line (sdp : Str) (params : Params) (x j : Nat) (line : Str)
    (hline : (lineRuns sdp).get? x = some line)
    (hsec : inVideoSection (lineRuns sdp) j x)
    (hf : startsWith line "a=fmtp".toList = true) (ht : fmtpPattern.test line = true) :
    ∃ st pt A B, extractRun 0 sdp params = some st ∧
      st.mtParams = A ++
        StreamParams.mk (fmtpProps line) pt (x + 1) (streamNumberAt (lineRuns sdp) x) :: B ∧
      (∀ o ∈ A, o._line ≠ x + 1) ∧ (∀ o ∈ B, o._line ≠ x + 1) ∧
      (∀ f ∈ st.errors, f.citedLine ≠ some (x + 1)) := by
  obtain ⟨hsl, hx, hget⟩ := lineRuns_of_get hline
  obtain ⟨st0, hst0, hli, hsc, hM, hE⟩ := extractLoop_prefix (lineRuns sdp) x (by omega)
  obtain ⟨hpt, hsk⟩ := extractLoop_in_section (lineRuns sdp) j x (by omega) hsec x hsec.1
    (Nat.le_refl _) st0 hst0
  cases hp : st0.payloadType with
  | none => rw [hp] at hpt; cases hpt
  | some pt =>
    have hstep := extractStep_fmtp st0 x line pt hli hp hsk hf ht
    have h1 := extractLoop_take_succ (lineRuns sdp) x hx (extractInit 0)
    rw [hst0, hget] at h1
    simp only [Option.some_bind] at h1
    rw [hstep] at h1
    obtain ⟨st2, hst2, _⟩ := extractLoop_returns ((lineRuns sdp).drop (x + 1))
      { st0 with mtParams := st0.mtParams ++
        [StreamParams.mk (fmtpProps line) pt (x + 1) st0.streamCount] } (0 + (x + 1))
    obtain ⟨⟨M, hM2, hM2l⟩, ⟨E, hE2, hE2l⟩⟩ := extractLoop_adds _ _ _ _ hst2
    have hlen : ((lineRuns sdp).take (x + 1)).length = x + 1 := by
      rw [List.length_take]; omega
    have hrun : extractLoop (extractInit 0) 0 (lineRuns sdp) = some st2 := by
      conv => lhs; rw [← List.take_append_drop (x + 1) (lineRuns sdp)]
      rw [extractLoop_append, h1, hlen]
      exact hst2
    refine ⟨st2, pt, st0.mtParams, M, ?_, ?_, ?_, ?_, ?_⟩
    · unfold extractRun
      rw [hsl]
      exact hrun
    · rw [hM2, ← hsc]
      simp
    · intro o ho
      have := hM o ho
      omega
    · intro o ho
      have := hM2l o ho
      omega
    · intro f hf1
      rw [hE2] at hf1
      simp only at hf1
      rcases List.mem_append.1 hf1 with h2 | h2
      · obtain ⟨m, hm, hle⟩ := hE f h2
        rw [hm]
        intro hc
        cases hc
        omega
      · obtain ⟨m, hm, hlt⟩ := hE2l f h2
        rw [hm]
        intro hc
        cases hc
        omega

theorem filter_flatMap_cited (check : StreamParams → List Finding)
    (hc : ∀ o f, f ∈ check o → f.citedLine = some o._line) (n : Nat) :
    ∀ (os : List StreamParams), (∀ o ∈ os, o._line ≠ n) →
      (os.flatMap check).filter (fun f => f.citedLine == some n) = []
  | [], _ => rfl
  | o :: os, h => by
    rw [List.flatMap_cons, List.filter_append,
      filter_flatMap_cited check hc n os (fun o1 h1 => h o1 (by simp [h1]))]
    rw [List.append_nil]
    apply List.filter_eq_nil_iff.2
    intro f hf
    rw [hc o f hf]
    have := h o (by simp)
    simpa using this

/-- The Findings of a rule of the form `errors ++ mtParams.flatMap check` that cite the
line of an accepted `a=fmtp` line are the Findings of `check` on the object of that line. -/
theorem findings_at_line (check : StreamParams → List Finding)
    (hc : ∀ o f, f ∈ check o → f.citedLine = some o._line)
    (sdp : Str) (params : Params) (x j : Nat) (line : Str)
    (hline : (lineRuns sdp).get? x = some line)
    (hsec : inVideoSection (lineRuns sdp) j x)
    (hf : startsWith line "a=fmtp".toList = true) (ht : fmtpPattern.test line = true) :
    ∃ r pt, extractMTParams sdp params = some r ∧
      (r.2 ++ r.1.flatMap check).filter (fun f => f.citedLine == some (x + 1)) =
        check (StreamParams.mk (fmtpProps line) pt (x + 1) (streamNumberAt (lineRuns sdp) x)) := by
  obtain ⟨st, pt, A, B, hrun, hmt, hA, hB, hE⟩ :=
    extractRun_at_line sdp params x j line hline hsec hf ht
  refine ⟨(st.mtParams, st.errors), pt, by simp [extractMTParams, hrun], ?_⟩
  simp only
  rw [List.filter_append, hmt, List.flatMap_append, List.flatMap_cons, List.filter_append,
    List.filter_append, filter_flatMap_cited check hc (x + 1) A hA,
    filter_flatMap_cited check hc (x + 1) B hB]
  have h1 : st.errors.filter (fun f => f.citedLine == some (x + 1)) = [] := by
    apply List.filter_eq_nil_iff.2
    intro f hf1
    simpa using hE f hf1
  rw [h1]
  simp only [List.nil_append, List.append_nil]
  apply List.filter_eq_self.2
  intro f hf1
  simp [hc _ f hf1]

/-! ## Required parameters -/

theorem keys_setProp (o : List (Str × Str)) (k v n : Str) (hn : n ≠ "__proto__".toList) :
    n ∈ (setProp o k v).map (fun p => p.1) ↔ n ∈ o.map (fun p => p.1) ∨ n = k := by
  unfold setProp
  by_cases hk : k = "__proto__".toList
  · have : (k == "__proto__".toList) = true := by simpa using hk
    rw [if_pos this]
    constructor
    · intro h; exact Or.inl h
    · rintro (h | h)
      · exact h
      · rw [h, hk] at hn; exact absurd rfl hn
  · have : (k == "__proto__".toList) = false := by simpa using hk
    rw [this]
    simp only [Bool.false_eq_true, if_false]
    by_cases ha : o.any (fun p => p.1 == k) = true
    · rw [if_pos ha]
      have hmap : (o.map (fun p => if (p.1 == k) = true then (k, v) else p)).map (fun p => p.1) =
          o.map (fun p => p.1) := by
        rw [List.map_map]
        apply List.map_congr_left
        intro p _
        simp only [Function.comp]
        by_cases hp : p.1 = k
        · simp [hp]
        · have : (p.1 == k) = false := by simpa using hp
          simp [this]
      rw [hmap]
      constructor
      · intro h; exact Or.inl h
      · rintro (h | h)
        · exact h
        · rw [h]
          obtain ⟨p, hp, hpk⟩ := List.any_eq_true.1 ha
          have : p.1 = k := by simpa using hpk
          rw [← this]
          exact List.mem_map_of_mem _ hp
    · rw [if_neg ha]
      simp

theorem keys_foldl_setProp (n : Str) (hn : n ≠ "__proto__".toList) :
    ∀ (pairs o : List (Str × Str)),
      n ∈ (pairs.foldl (fun o p => setProp o p.1 p.2) o).map (fun p => p.1) ↔
        n ∈ o.map (fun p => p.1) ∨ n ∈ pairs.map (fun p => p.1)
  | [], o => by simp
  | p :: ps, o => by
    rw [List.foldl_cons, keys_foldl_setProp n hn ps, keys_setProp o p.1 p.2 n hn]
    simp only [List.map_cons, List.mem_cons]
    tauto

theorem check_20_72_1_cited (o : StreamParams) (f : Finding) (h : f ∈ check_20_72_1 o) :
    f.citedLine = some o._line := by
  unfold check_20_72_1 at h
  obtain ⟨p, _, rfl⟩ := List.mem_map.1 h
  rfl

/-- C4: for every SDP and every accepted `a=fmtp` line of a video media section that is
not marked skipped, test_20_72_1 returns, and its Findings that cite the line are exactly
one required-parameter-is-missing Finding, with the line number and the stream number, for
each name of mustHaves20 that is not a key of the line. -/
theorem required_parameters_reported (sdp : Str) (params : Params) (x j : Nat) (line : Str)
    (hline : (lineRuns sdp).get? x = some line)
    (hsec : inVideoSection (lineRuns sdp) j x)
    (hf : startsWith line "a=fmtp".toList = true) (ht : fmtpPattern.test line = true) :
    ∃ fs, test_20_72_1 sdp params = some fs ∧
      fs.filter (fun f => f.citedLine == some (x + 1)) =
        (mustHaves20.filter (fun name => !(fmtpKeys line).contains name)).map
          (fun name => Finding.paramMissing (x + 1) (streamNumberAt (lineRuns sdp) x) name) := by
  obtain ⟨r, pt, hr, hfil⟩ := findings_at_line check_20_72_1 check_20_72_1_cited sdp
    { checkDups := true } x j line hline hsec hf ht
  refine ⟨r.2 ++ r.1.flatMap check_20_72_1, by simp [test_20_72_1, hr], ?_⟩
  rw [hfil]
  unfold check_20_72_1
  simp only
  congr 1
  apply List.filter_congr
  intro name hname
  have h1 : name ≠ "__proto__".toList ∧
      ["_payloadType".toList, "_line".toList, "_streamNumber".toList].contains name = false := by
    revert name
    decide!
  unfold StreamParams.hasKey
  simp only [h1.2, Bool.or_false]
  congr 1
  have := keys_foldl_setProp name h1.1 (fmtpPairs line) []
  simp only [List.map_nil, List.not_mem_nil, false_or] at this
  unfold fmtpProps fmtpKeys
  rw [Bool.eq_iff_iff]
  simpa using this

/-- Witness for C4: a section that lacks only `width` yields exactly the one Finding for
`width`; the same SDP with `width` added yields none. -/
theorem required_parameters_reported_witness :
    (∃ fs, test_20_72_1
        ("v=0\nm=video 50000 RTP/AVP 112\na=rtpmap:112 raw/90000\n" ++
         "a=fmtp:112 sampling=YCbCr-4:2:2; height=720; exactframerate=60000/1001; " ++
         "depth=10; colorimetry=BT709; PM=2110GPM; SSN=ST2110-20:2017\n").toList {} = some fs ∧
      fs.filter (fun f => f.citedLine == some (3 + 1)) =
        [Finding.paramMissing 4 1 "width".toList]) ∧
    test_20_72_1
      ("v=0\nm=video 50000 RTP/AVP 112\na=rtpmap:112 raw/90000\n" ++
       "a=fmtp:112 sampling=YCbCr-4:2:2; width=1280; height=720; exactframerate=60000/1001; " ++
       "depth=10; colorimetry=BT709; PM=2110GPM; SSN=ST2110-20:2017\n").toList {} = some [] := by
  constructor
  · have h := required_parameters_reported
      ("v=0\nm=video 50000 RTP/AVP 112\na=rtpmap:112 raw/90000\n" ++
       "a=fmtp:112 sampling=YCbCr-4:2:2; height=720; exactframerate=60000/1001; " ++
       "depth=10; colorimetry=BT709; PM=2110GPM; SSN=ST2110-20:2017\n").toList {} 3 1
      ("a=fmtp:112 sampling=YCbCr-4:2:2; height=720; exactframerate=60000/1001; " ++
       "depth=10; colorimetry=BT709; PM=2110GPM; SSN=ST2110-20:2017").toList
      (by decide!)
      ⟨by decide, by decide!, by decide!, fun i h1 h2 => by
        have : i = 2 := by omega
        subst this
        decide!⟩
      (by decide!) (by decide!)
    have e : (mustHaves20.filter (fun name => !(fmtpKeys
        ("a=fmtp:112 sampling=YCbCr-4:2:2; height=720; exactframerate=60000/1001; " ++
         "depth=10; colorimetry=BT709; PM=2110GPM; SSN=ST2110-20:2017").toList).contains name)).map
        (fun name => Finding.paramMissing (3 + 1) (streamNumberAt (lineRuns
          ("v=0\nm=video 50000 RTP/AVP 112\na=rtpmap:112 raw/90000\n" ++
           "a=fmtp:112 sampling=YCbCr-4:2:2; height=720; exactframerate=60000/1001; " ++
           "depth=10; colorimetry=BT709; PM=2110GPM; SSN=ST2110-20:2017\n").toList) 3) name) =
        [Finding.paramMissing 4 1 "width".toList] := by decide!
    rw [e] at h
    exact h
  · decide!

/-! ## Arithmetic of the frame rate rule -/

theorem pow_two_lt (j k : Nat) (h : j < k) : 2 ^ j < 2 ^ k :=
  Nat.pow_lt_pow_right (by decide) h

theorem pow_two_pos (k : Nat) : 0 < 2 ^ k := Nat.pow_pos (by decide)

theorem two53_lt_Infinity : 2 ^ 53 < Infinity := pow_two_lt 53 1024 (by decide)

theorem Infinity_pos : 0 < Infinity := pow_two_pos 1024

theorem lt_Infinity {n : Nat} (h : n < 2 ^ 53) : n < Infinity :=
  Nat.lt_trans h two53_lt_Infinity

theorem roundBinary64_of_lt {n : Nat} (h : n < 2 ^ 53) : roundBinary64 n = n := by
  unfold roundBinary64
  rw [if_pos h]

theorem le_roundHalfEven (a b : Nat) : a / b ≤ roundHalfEven a b := by
  unfold roundHalfEven
  split
  · exact Nat.le_refl _
  · split <;> omega

theorem excessBits_spec (n : Nat) : ∀ (fuel e : Nat), 2 ^ (52 + e) ≤ n →
    2 ^ (52 + excessBits n fuel e) ≤ n ∧ e ≤ excessBits n fuel e
  | 0, e, h => ⟨h, Nat.le_refl _⟩
  | fuel + 1, e, h => by
    rw [excessBits]
    split
    · exact ⟨h, Nat.le_refl _⟩
    · rename_i hc
      have h1 : 2 ^ (52 + (e + 1)) ≤ n := by
        have e1 : 52 + (e + 1) = 53 + e := by omega
        rw [e1]
        omega
      obtain ⟨h2, h3⟩ := excessBits_spec n fuel (e + 1) h1
      exact ⟨h2, by omega⟩

/-- A number of `2 ^ 53` or more is rounded to a number of `2 ^ 53` or more. -/
theorem le_roundBinary64 {n : Nat} (h : 2 ^ 53 ≤ n) : 2 ^ 53 ≤ roundBinary64 n := by
  have hinf : 2 ^ 53 ≤ Infinity := Nat.le_of_lt two53_lt_Infinity
  unfold roundBinary64
  rw [if_neg (by omega)]
  split
  · exact hinf
  · split
    · have h0 : excessBits n 971 0 = excessBits n 970 1 := by
        rw [excessBits, if_neg (by omega)]
      obtain ⟨h1, h2⟩ := excessBits_spec n 970 1 (by simpa using h)
      rw [h0]
      generalize excessBits n 970 1 = e at h1 h2
      have hsplit : 2 ^ (52 + e) = 2 ^ 52 * 2 ^ e := Nat.pow_add 2 52 e
      have hq : 2 ^ 52 ≤ n / 2 ^ e := by
        rw [Nat.le_div_iff_mul_le (Nat.pow_pos (by decide))]
        rw [← hsplit]
        exact h1
      have hr := le_roundHalfEven n (2 ^ e)
      have h3 : 2 ^ 52 * 2 ^ e ≤ roundHalfEven n (2 ^ e) * 2 ^ e :=
        Nat.mul_le_mul_right _ (Nat.le_trans hq hr)
      have h4 : 2 ^ 53 ≤ 2 ^ (52 + e) := Nat.pow_le_pow_right (by decide) (by omega)
      omega
    · exact hinf

/-- Below `2 ^ 53` unary `+` gives the number that the digits denote, and it gives a number
below `2 ^ 53` for no other digits. -/
theorem toNumber_lt_iff (s : Str) :
    toNumber s < 2 ^ 53 ↔ digitsValue s < 2 ^ 53 ∧ toNumber s = digitsValue s := by
  unfold toNumber
  constructor
  · intro h
    by_cases hc : digitsValue s < 2 ^ 53
    · exact ⟨hc, roundBinary64_of_lt hc⟩
    · have := le_roundBinary64 (Nat.le_of_not_lt hc)
      omega
  · rintro ⟨h1, h2⟩
    rw [h2]
    exact h1

/-- The rounding at some numbers: the first natural number that binary64 does not hold is
rounded to `2 ^ 53`, a tie to the even significand; the numbers that JavaScript prints as
`1e+30` and as `1.7976931348623157e+308`, the greatest; and `Infinity` from half a unit
above the greatest on. -/
theorem roundBinary64_examples :
    roundBinary64 (2 ^ 53 + 1) = 2 ^ 53 ∧ roundBinary64 (2 ^ 53 + 3) = 2 ^ 53 + 4 ∧
    roundBinary64 (10 ^ 30) = 1000000000000000019884624838656 ∧
    roundBinary64 (2 ^ 1024 - 2 ^ 970 - 1) = 2 ^ 1024 - 2 ^ 971 ∧
    roundBinary64 (2 ^ 1024 - 2 ^ 970) = Infinity ∧ roundBinary64 (10 ^ 330) = Infinity := by
  decide!

theorem roundBinary64_pos {n : Nat} (h : 0 < n) : 0 < roundBinary64 n := by
  by_cases hc : n < 2 ^ 53
  · rw [roundBinary64_of_lt hc]
    exact h
  · have := le_roundBinary64 (Nat.le_of_not_lt hc)
    have h2 : 0 < 2 ^ 53 := by decide
    omega

theorem remainder_of_lt {a b : Nat} (ha : a < Infinity) (hb : b < Infinity) :
    remainder a b = a % b := by
  unfold remainder
  rw [if_neg (by omega), if_neg (by omega)]

theorem gcdLoop_eq_gcd : ∀ (fuel a b : Nat), b < fuel → a < Infinity → b < Infinity →
    gcdLoop fuel a b = Nat.gcd a b
  | 0, _, _, h, _, _ => by omega
  | fuel + 1, a, b, h, ha, hbi => by
    rw [gcdLoop]
    by_cases hb : b = 0
    · simp [hb]
    · have hm := Nat.mod_lt a (Nat.pos_of_ne_zero hb)
      rw [if_neg hb, remainder_of_lt ha hbi, gcdLoop_eq_gcd fuel b (a % b) (by omega) hbi
        (by omega)]
      rw [Nat.gcd_comm b (a % b), ← Nat.gcd_rec, Nat.gcd_comm]

theorem greatestCommonDivisor_eq_gcd (a b : Nat) (ha : a < Infinity) (hb : b < Infinity) :
    greatestCommonDivisor a b = Nat.gcd a b :=
  gcdLoop_eq_gcd (b + 1) a b (Nat.lt_succ_self b) ha hb

/-- The recursion on `Infinity`: the remainder of `Infinity` is `NaN`, which ends the
recursion at the next call, and the remainder by `Infinity` is the number itself. -/
theorem greatestCommonDivisor_Infinity :
    (∀ b, greatestCommonDivisor Infinity b = if b = 0 then Infinity else b) ∧
    (∀ a, a < Infinity → greatestCommonDivisor a Infinity = if a = 0 then Infinity else a) := by
  have hpos := Infinity_pos
  have h2 : 2 ≤ Infinity := by
    have := two53_lt_Infinity
    have h3 : 2 ≤ 2 ^ 53 := by decide
    omega
  constructor
  · intro b
    unfold greatestCommonDivisor
    rw [gcdLoop]
    by_cases hb : b = 0
    · rw [if_pos hb, if_pos hb]
    · rw [if_neg hb, if_neg hb]
      obtain ⟨k, hk⟩ : ∃ k, b = k + 1 := ⟨b - 1, by omega⟩
      have hr : remainder Infinity b = 0 := by
        unfold remainder
        rw [if_pos rfl]
      rw [hr, hk, gcdLoop, if_pos rfl]
  · intro a ha
    unfold greatestCommonDivisor
    have hr : remainder a Infinity = a := by
      unfold remainder
      rw [if_neg (by omega), if_pos rfl]
    have hr2 : remainder Infinity a = 0 := by
      unfold remainder
      rw [if_pos rfl]
    rw [gcdLoop, if_neg (by omega), hr]
    obtain ⟨k, hk⟩ : ∃ k, Infinity = k + 2 := ⟨Infinity - 2, by omega⟩
    have e1 : gcdLoop Infinity Infinity a = if a = 0 then Infinity else a := by
      by_cases h0 : a = 0
      · rw [if_pos h0, h0, hk, gcdLoop, if_pos rfl]
      · rw [if_neg h0]
        have e2 : gcdLoop (k + 2) Infinity a = gcdLoop (k + 1) a (remainder Infinity a) := by
          rw [gcdLoop, if_neg h0]
        have e3 : gcdLoop (k + 1) a 0 = a := by
          rw [gcdLoop, if_pos rfl]
        have e4 : gcdLoop Infinity Infinity a = gcdLoop (k + 2) Infinity a := by
          rw [← hk]
        rw [e4, e2, hr2, e3]
    exact e1

theorem divisionIsInteger_of_lt {n d : Nat} (hn : n < Infinity) (hd : d < Infinity) :
    divisionIsInteger n d = quotientIsInteger n d := by
  unfold divisionIsInteger
  rw [if_neg (by omega), if_neg (by omega)]

theorem binaryScale_spec (n d : Nat) : ∀ (fuel s0 : Nat),
    d * 2 ^ 52 ≤ n * 2 ^ (s0 + fuel) → d * 2 ^ 52 ≤ n * 2 ^ binaryScale n d fuel s0
  | 0, s0, h => by simpa [binaryScale] using h
  | fuel + 1, s0, h => by
    rw [binaryScale]
    by_cases hc : d * 2 ^ 52 ≤ n * 2 ^ s0
    · rw [if_pos hc]; exact hc
    · rw [if_neg hc]
      apply binaryScale_spec n d fuel (s0 + 1)
      have : s0 + 1 + fuel = s0 + (fuel + 1) := by omega
      rw [this]
      exact h

/-- Rounding a scaled quotient of numbers below `2 ^ 53` gives a multiple of the scale only
when the division is exact. -/
theorem round_scaled_dvd (n d P : Nat) (hd : 0 < d) (hn : n < 2 ^ 53)
    (hs : d * 2 ^ 52 ≤ n * P) (h : roundHalfEven (n * P) d % P = 0) : d ∣ n := by
  obtain ⟨k, hk⟩ := Nat.dvd_of_mod_eq_zero h
  have hdm := Nat.div_add_mod (n * P) d
  have hr := Nat.mod_lt (n * P) hd
  generalize hq : n * P / d = q at hk hdm
  generalize hrr : n * P % d = r at hk hdm hr
  -- the distance between n * P and d * (P * k) is at most d / 2
  have hclose : 2 * (n * P) ≤ 2 * (d * (P * k)) + d ∧ 2 * (d * (P * k)) ≤ 2 * (n * P) + d := by
    rw [← hk]
    unfold roundHalfEven
    rw [hq, hrr]
    by_cases h1 : 2 * r < d
    · rw [if_pos h1]
      constructor <;> omega
    · rw [if_neg h1]
      by_cases h2 : d < 2 * r
      · rw [if_pos h2, Nat.mul_add]
        constructor <;> omega
      · rw [if_neg h2]
        rcases Nat.mod_two_eq_zero_or_one q with h3 | h3
        · rw [h3, Nat.add_zero]
          constructor <;> omega
        · rw [h3, Nat.mul_add]
          constructor <;> omega
  rcases Nat.lt_trichotomy n (d * k) with hlt | heq | hgt
  · -- d * k - n ≥ 1, so d * P * k - n * P ≥ P
    exfalso
    have h1 : n + 1 ≤ d * k := hlt
    have h2 : (n + 1) * P ≤ d * k * P := Nat.mul_le_mul_right P h1
    have h3 : d * (P * k) = d * k * P := by ring
    have h4 : (n + 1) * P = n * P + P := by ring
    have h5 : 2 * P ≤ d := by omega
    have h6 : n * (2 * P) ≤ n * d := Nat.mul_le_mul_left n h5
    have h7 : n * d < 2 ^ 53 * d := Nat.mul_lt_mul_of_pos_right hn hd
    have h8 : n * (2 * P) = 2 * (n * P) := by ring
    have h9 : 2 ^ 53 * d = 2 * (d * 2 ^ 52) := by ring
    omega
  · exact ⟨k, heq⟩
  · exfalso
    have h1 : d * k + 1 ≤ n := hgt
    have h2 : (d * k + 1) * P ≤ n * P := Nat.mul_le_mul_right P h1
    have h3 : d * (P * k) = d * k * P := by ring
    have h4 : (d * k + 1) * P = d * k * P + P := by ring
    have h5 : 2 * P ≤ d := by omega
    have h6 : n * (2 * P) ≤ n * d := Nat.mul_le_mul_left n h5
    have h7 : n * d < 2 ^ 53 * d := Nat.mul_lt_mul_of_pos_right hn hd
    have h8 : n * (2 * P) = 2 * (n * P) := by ring
    have h9 : 2 ^ 53 * d = 2 * (d * 2 ^ 52) := by ring
    omega

theorem round_exact (n d P : Nat) (hd : 0 < d) (h : d ∣ n) :
    roundHalfEven (n * P) d % P = 0 := by
  obtain ⟨k, rfl⟩ := h
  have h1 : d * k * P % d = 0 := by
    rw [Nat.mul_assoc]; exact Nat.mul_mod_right d (k * P)
  have h2 : d * k * P / d = k * P := by
    rw [Nat.mul_assoc]; exact Nat.mul_div_cancel_left (k * P) hd
  unfold roundHalfEven
  rw [h1, h2, if_pos (by omega)]
  exact Nat.mul_mod_left k P

theorem scale_bound (n d e : Nat) (hn0 : 0 < n) (hd : d < 2 ^ 53) (he : 105 ≤ e) :
    d * 2 ^ 52 ≤ n * 2 ^ e := by
  have a1 : d * 2 ^ 52 ≤ 2 ^ 53 * 2 ^ 52 := Nat.mul_le_mul_right _ (Nat.le_of_lt hd)
  have a2 : (2 : Nat) ^ 53 * 2 ^ 52 ≤ 2 ^ e :=
    Nat.le_trans (Nat.le_of_eq (Nat.pow_add 2 53 52).symm) (Nat.pow_le_pow_right (by decide) he)
  have a3 : 2 ^ e ≤ n * 2 ^ e := Nat.le_mul_of_pos_left _ hn0
  exact Nat.le_trans (Nat.le_trans a1 a2) a3

/-- For two positive numbers below `2 ^ 53`, `Number.isInteger(n / d)` holds exactly when
`d` divides `n`. -/
theorem quotientIsInteger_iff (n d : Nat) (hn0 : 0 < n) (hd0 : 0 < d) (hn : n < 2 ^ 53)
    (hd : d < 2 ^ 53) : quotientIsInteger n d = true ↔ d ∣ n := by
  unfold quotientIsInteger
  have h1 : ¬ d = 0 := by omega
  have h2 : ¬ n = 0 := by omega
  have h3 : ¬ d * 2 ^ 53 ≤ n := by
    have : 1 * 2 ^ 53 ≤ d * 2 ^ 53 := Nat.mul_le_mul_right _ hd0
    omega
  rw [if_neg h1, if_neg h2, if_neg h3]
  have hs : d * 2 ^ 52 ≤ n * 2 ^ binaryScale n d 1074 0 :=
    binaryScale_spec n d 1074 0 (scale_bound n d _ hn0 hd (by decide))
  constructor
  · intro h
    exact round_scaled_dvd n d _ hd0 hn hs (by simpa using h)
  · intro h
    simpa using round_exact n d (2 ^ binaryScale n d 1074 0) hd0 h

theorem toNumber_foldl_pos : ∀ (cs : Str) (acc : Nat), 0 < acc →
    0 < cs.foldl (fun acc c => 10 * acc + (c.toNat - 48)) acc
  | [], acc, h => h
  | c :: cs, acc, h => by
    rw [List.foldl_cons]
    exact toNumber_foldl_pos cs _ (by omega)

theorem toNumber_pos {ns : Str} (h : isPositiveDecimal ns = true) : 0 < toNumber ns := by
  cases ns with
  | nil => cases h
  | cons c cs =>
    simp only [isPositiveDecimal, isDigit19, Bool.and_eq_true, decide_eq_true_eq] at h
    unfold toNumber
    apply roundBinary64_pos
    unfold digitsValue
    rw [List.foldl_cons]
    apply toNumber_foldl_pos
    omega

/-! ## The frame rate pattern on a rational -/

theorem run_star_cls_end (p : Char → Bool) (ds : Str) (pos : Nat) (caps : List (Nat × Str))
    (k : MState → Option MState) (hp : ∀ c ∈ ds, p c = true)
    (hk : (k ⟨pos + ds.length, [], caps⟩).isSome = true) :
    (Re.star (.cls p)).run ⟨pos, ds, caps⟩ k = k ⟨pos + ds.length, [], caps⟩ := by
  have := run_star_cls p ds [] pos caps k (by simp) hp hk
  simpa using this

theorem isPositiveDecimal_cons {ns : Str} (h : isPositiveDecimal ns = true) :
    ∃ c cs, ns = c :: cs ∧ isDigit19 c = true ∧ ∀ x ∈ cs, isDigit x = true := by
  cases ns with
  | nil => cases h
  | cons c cs =>
    simp only [isPositiveDecimal, Bool.and_eq_true, List.all_eq_true] at h
    exact ⟨c, cs, rfl, h.1, h.2⟩

/-- The pattern on `n/d`: group 1 is the numerator, group 2 the denominator. -/
theorem frameRatePattern_exec_rational (ns ds : Str) (hn : isPositiveDecimal ns = true)
    (hd : isPositiveDecimal ds = true) :
    ∃ m, frameRatePattern.exec (ns ++ '/' :: ds) = some m ∧ m.cap 1 = some ns ∧
      m.cap 2 = some ds := by
  obtain ⟨c, cs, rfl, hc, hcs⟩ := isPositiveDecimal_cons hn
  obtain ⟨e, es, rfl, he, hes⟩ := isPositiveDecimal_cons hd
  have hslash : ∀ (x : Char) (r : Str), '/' :: e :: es = x :: r → isDigit x = false := by
    intro x r hx
    cases hx
    decide
  have hrun : frameRatePattern.run ⟨0, (c :: cs) ++ '/' :: e :: es, []⟩ some =
      some ⟨0 + 1 + cs.length + 1 + 1 + es.length, [],
        setCap 2 (e :: es) (setCap 1 (c :: cs) [])⟩ := by
    unfold frameRatePattern
    simp only [run_cat_cons, run_cat_nil, run_bol, run_grp, run_seq, run_opt, run_cls_cons,
      run_chr_cons, List.cons_append, hc, if_true]
    rw [run_star_cls isDigit cs ('/' :: e :: es) _ _ _ hslash hcs]
    · simp only [run_chr_cons, beq_self_eq_true, if_true, run_cls_cons, he]
      rw [run_star_cls_end isDigit es _ _ _ hes]
      · simp only [run_eol, List.isEmpty_nil, if_true, List.length_cons, List.length_append,
          List.length_nil, Nat.sub_zero]
        have e1 : cs.length + (es.length + 1 + 1) + 1 - (es.length + 1 + 1) = cs.length + 1 := by
          omega
        have e2 : (c :: (cs ++ '/' :: e :: es)).take (cs.length + 1) = c :: cs := by
          rw [List.take_succ_cons, List.take_left']
          rfl
        have e3 : (e :: es).take (es.length + 1) = e :: es := List.take_of_length_le (by simp)
        simp only [e1, e2, e3]
      · simp [run_eol]
    · simp only [run_chr_cons, beq_self_eq_true, if_true, run_cls_cons, he]
      rw [run_star_cls_end isDigit es _ _ _ hes]
      · simp [run_eol]
      · simp [run_eol]
  refine ⟨_, exec_of_run hrun, ?_, ?_⟩
  · show (setCap 2 (e :: es) (setCap 1 (c :: cs) [])).lookup 1 = some (c :: cs)
    rw [lookup_setCap_ne (by decide), lookup_setCap_self]
  · show (setCap 2 (e :: es) (setCap 1 (c :: cs) [])).lookup 2 = some (e :: es)
    rw [lookup_setCap_self]

theorem check_20_72_3_cited (o : StreamParams) (f : Finding) (h : f ∈ check_20_72_3 o) :
    f.citedLine = some o._line := by
  unfold check_20_72_3 at h
  split at h
  · simp at h
  · split at h
    · simp at h; subst h; rfl
    · simp only [isNaNOfDigits, Bool.false_eq_true, if_false, List.nil_append] at h
      split at h
      · simp at h
      · rcases List.mem_append.1 h with h1 | h1
        · rcases List.mem_append.1 h1 with h2 | h2
          · split at h2
            · simp at h2; subst h2; rfl
            · simp at h2
          · split at h2
            · simp at h2; subst h2; rfl
            · simp at h2
        · split at h1
          · simp at h1; subst h1; rfl
          · simp at h1

theorem check_20_72_3_unmatched (o : StreamParams) (v : Str)
    (hv : o.get "exactframerate" = some v) (hp : frameRatePattern.test v = false) :
    check_20_72_3 o = [Finding.frameRatePatternBad o._line o._streamNumber] := by
  unfold check_20_72_3
  rw [hv]
  unfold Re.test at hp
  cases hx : frameRatePattern.exec v with
  | none => simp only [hx]
  | some m => rw [hx] at hp; cases hp

theorem check_20_72_3_rational (o : StreamParams) (ns ds : Str)
    (hv : o.get "exactframerate" = some (ns ++ '/' :: ds))
    (hn : isPositiveDecimal ns = true) (hd : isPositiveDecimal ds = true)
    (hn53 : toNumber ns < 2 ^ 53) (hd53 : toNumber ds < 2 ^ 53) :
    check_20_72_3 o = [] ↔
      Nat.gcd (toNumber ns) (toNumber ds) = 1 ∧ toNumber ds ≤ toNumber ns ∧
        ¬ toNumber ds ∣ toNumber ns := by
  obtain ⟨m, hm, h1, h2⟩ := frameRatePattern_exec_rational ns ds hn hd
  obtain ⟨e, es, hds, _, _⟩ := isPositiveDecimal_cons hd
  have ht : truthy (some ds) = true := by rw [hds]; rfl
  have hq := quotientIsInteger_iff (toNumber ns) (toNumber ds) (toNumber_pos hn)
    (toNumber_pos hd) hn53 hd53
  have hg := greatestCommonDivisor_eq_gcd (toNumber ns) (toNumber ds) (lt_Infinity hn53)
    (lt_Infinity hd53)
  have hdiv := divisionIsInteger_of_lt (lt_Infinity hn53) (lt_Infinity hd53)
  unfold check_20_72_3
  rw [hv]
  simp only [hm, h1, h2, ht, isNaNOfDigits, Option.getD_some, Bool.false_eq_true, if_false,
    List.nil_append, Bool.not_true, hg, hdiv, List.append_eq_nil]
  by_cases c1 : quotientIsInteger (toNumber ns) (toNumber ds) = true
  · have := hq.1 c1
    simp [c1, this]
  · have c1n : ¬ toNumber ds ∣ toNumber ns := fun h => c1 (hq.2 h)
    by_cases c2 : toNumber ns < toNumber ds
    · simp [c2]
    · by_cases c3 : Nat.gcd (toNumber ns) (toNumber ds) = 1
      · simp [c1, c2, c3, c1n]
        omega
      · simp [c3]

/-- C1 (amended): for every accepted `a=fmtp` line of a video media section that no
`a=rtpmap` line of a skipped type precedes in the section, whose parameter
`exactframerate` has the value `v`, test_20_72_3 returns, and of its Findings that cite the
line: if `v` does not match frameRatePattern there is exactly the one
does-not-match-an-acceptable-pattern Finding; if `v` is `n/d` with `n` and `d` positive
decimal integers without leading zeros below `2 ^ 53`, there is none if and only if
`gcd(n, d) = 1`, `d ≤ n` and `d` does not divide `n`. -/
theorem exactframerate_rule (sdp : Str) (params : Params) (x j : Nat) (line v : Str)
    (hline : (lineRuns sdp).get? x = some line)
    (hsec : inVideoSection (lineRuns sdp) j x)
    (hf : startsWith line "a=fmtp".toList = true) (ht : fmtpPattern.test line = true)
    (hv : (fmtpProps line).lookup "exactframerate".toList = some v) :
    ∃ fs, test_20_72_3 sdp params = some fs ∧
      (frameRatePattern.test v = false →
        fs.filter (fun f => f.citedLine == some (x + 1)) =
          [Finding.frameRatePatternBad (x + 1) (streamNumberAt (lineRuns sdp) x)]) ∧
      (∀ ns ds, v = ns ++ '/' :: ds → isPositiveDecimal ns = true →
        isPositiveDecimal ds = true → toNumber ns < 2 ^ 53 → toNumber ds < 2 ^ 53 →
        (fs.filter (fun f => f.citedLine == some (x + 1)) = [] ↔
          Nat.gcd (toNumber ns) (toNumber ds) = 1 ∧ toNumber ds ≤ toNumber ns ∧
            ¬ toNumber ds ∣ toNumber ns)) := by
  obtain ⟨r, pt, hr, hfil⟩ := findings_at_line check_20_72_3 check_20_72_3_cited sdp
    params x j line hline hsec hf ht
  refine ⟨r.2 ++ r.1.flatMap check_20_72_3, by simp [test_20_72_3, hr], ?_, ?_⟩
  · intro hp
    rw [hfil]
    exact check_20_72_3_unmatched _ v hv hp
  · intro ns ds hvs hn hd hn53 hd53
    rw [hfil]
    exact check_20_72_3_rational _ ns ds (by rw [← hvs]; exact hv) hn hd hn53 hd53

/-- Witness for C1: `60000/1001` gives no Finding for its line; and, by evaluation,
`5/1` and `30/15` give Findings and `0/1` gives exactly the pattern Finding. -/
theorem exactframerate_rule_witness :
    (∃ fs, test_20_72_3
        ("v=0\nm=video 50000 RTP/AVP 112\n" ++
         "a=fmtp:112 width=1280; exactframerate=60000/1001; depth=10\n").toList {} = some fs ∧
      fs.filter (fun f => f.citedLine == some (2 + 1)) = []) ∧
    test_20_72_3
      ("v=0\nm=video 50000 RTP/AVP 112\n" ++
       "a=fmtp:112 width=1280; exactframerate=5/1; depth=10\n").toList {} =
      some [Finding.frameRateInteger 3 1] ∧
    test_20_72_3
      ("v=0\nm=video 50000 RTP/AVP 112\n" ++
       "a=fmtp:112 width=1280; exactframerate=30/15; depth=10\n").toList {} =
      some [Finding.frameRateInteger 3 1, Finding.frameRateNotMinimal 3 1] ∧
    test_20_72_3
      ("v=0\nm=video 50000 RTP/AVP 112\n" ++
       "a=fmtp:112 width=1280; exactframerate=0/1; depth=10\n").toList {} =
      some [Finding.frameRatePatternBad 3 1] := by
  refine ⟨?_, by decide!, by decide!, by decide!⟩
  obtain ⟨fs, hfs, _, h2⟩ := exactframerate_rule
    ("v=0\nm=video 50000 RTP/AVP 112\n" ++
     "a=fmtp:112 width=1280; exactframerate=60000/1001; depth=10\n").toList {} 2 1
    "a=fmtp:112 width=1280; exactframerate=60000/1001; depth=10".toList "60000/1001".toList
    (by decide!) ⟨by decide, by decide!, by decide!, fun i h1 h2 => by omega⟩
    (by decide!) (by decide!) (by decide!)
  exact ⟨fs, hfs, (h2 "60000".toList "1001".toList (by decide!) (by decide!) (by decide!)
    (by decide!) (by decide!)).2 ⟨by decide!, by decide!, by decide!⟩⟩

/-- C1 (counterexample): the `a=fmtp` line of a video media section follows an `a=rtpmap`
line of the skipped type `smpte291`: extractMTParams builds no object for it, and
test_20_72_3 reports nothing for `exactframerate=30/15`, which it reports twice where the
type is `raw`. -/
theorem skipped_section_frame_rate_unreported :
    test_20_72_3
      ("v=0\nm=video 50000 RTP/AVP 100\na=rtpmap:100 smpte291/90000\n" ++
       "a=fmtp:100 exactframerate=30/15\n").toList {} = some [] ∧
    test_20_72_3
      ("v=0\nm=video 50000 RTP/AVP 100\na=rtpmap:100 raw/90000\n" ++
       "a=fmtp:100 exactframerate=30/15\n").toList {} =
      some [Finding.frameRateInteger 4 1, Finding.frameRateNotMinimal 4 1] := by
  decide!

/-! ## Lines of a text -/

theorem lineRuns_nil : lineRuns [] = [] := by
  unfold lineRuns
  rfl

theorem lineRuns_cons_crlf {c : Char} (cs : Str) (h : isCRLF c = true) :
    lineRuns (c :: cs) = lineRuns cs := by
  rw [lineRuns.eq_def]
  simp only [h, if_true]

theorem lineRuns_singleton {c : Char} (h : isCRLF c = false) : lineRuns [c] = [[c]] := by
  rw [lineRuns.eq_def]
  simp only [h, Bool.false_eq_true, if_false]

theorem lineRuns_cons_break {c d : Char} (cs : Str) (h : isCRLF c = false)
    (hd : isCRLF d = true) : lineRuns (c :: d :: cs) = [c] :: lineRuns cs := by
  rw [lineRuns.eq_def]
  simp only [h, Bool.false_eq_true, if_false, hd, if_true]
  rw [lineRuns_cons_crlf cs hd]

theorem lineRuns_cons_ne_nil {c : Char} (cs : Str) (h : isCRLF c = false) :
    lineRuns (c :: cs) ≠ [] :=
  lineRuns_ne_nil ⟨c, by simp, h⟩

theorem lineRuns_cons_cont {c d : Char} (cs : Str) (h : isCRLF c = false)
    (hd : isCRLF d = false) :
    ∃ l t, lineRuns (d :: cs) = l :: t ∧ lineRuns (c :: d :: cs) = (c :: l) :: t := by
  cases hl : lineRuns (d :: cs) with
  | nil => exact absurd hl (lineRuns_cons_ne_nil cs hd)
  | cons l t =>
    refine ⟨l, t, rfl, ?_⟩
    rw [lineRuns.eq_def]
    simp only [h, Bool.false_eq_true, if_false, hd, hl]

/-- A line of non-terminators followed by a terminator or the end is the first line. -/
theorem lineRuns_line_append : ∀ (w v : Str), w ≠ [] → (∀ c ∈ w, isCRLF c = false) →
    (∀ c r, v = c :: r → isCRLF c = true) → lineRuns (w ++ v) = w :: lineRuns v
  | [], _, h, _, _ => absurd rfl h
  | [a], v, _, hw, hv => by
    have ha := hw a (by simp)
    cases v with
    | nil => rw [List.append_nil, lineRuns_singleton ha, lineRuns_nil]
    | cons d r =>
      have hd := hv d r rfl
      simp only [List.singleton_append]
      rw [lineRuns_cons_break r ha hd, lineRuns_cons_crlf r hd]
  | a :: b :: w, v, _, hw, hv => by
    have ha := hw a (by simp)
    have hb := hw b (by simp)
    have ih := lineRuns_line_append (b :: w) v (by simp) (fun c hc => hw c (by simp [hc])) hv
    obtain ⟨l, t, h1, h2⟩ := lineRuns_cons_cont (w ++ v) ha hb
    simp only [List.cons_append] at ih ⊢
    rw [h2]
    rw [ih] at h1
    cases h1
    rfl

/-- A terminator separates the lines before it from the lines after it. -/
theorem lineRuns_append_break : ∀ (u : Str) (c : Char) (v : Str), isCRLF c = true →
    lineRuns (u ++ c :: v) = lineRuns u ++ lineRuns v
  | [], c, v, hc => by
    rw [List.nil_append, lineRuns_cons_crlf v hc, lineRuns_nil, List.nil_append]
  | [a], c, v, hc => by
    by_cases ha : isCRLF a = true
    · simp only [List.singleton_append]
      rw [lineRuns_cons_crlf _ ha, lineRuns_cons_crlf _ hc, lineRuns_cons_crlf _ ha,
        lineRuns_nil, List.nil_append]
    · have ha1 : isCRLF a = false := by simpa using ha
      simp only [List.singleton_append]
      rw [lineRuns_cons_break v ha1 hc, lineRuns_singleton ha1]
      rfl
  | a :: d :: u, c, v, hc => by
    have ih := lineRuns_append_break (d :: u) c v hc
    by_cases ha : isCRLF a = true
    · simp only [List.cons_append] at ih ⊢
      rw [lineRuns_cons_crlf _ ha, lineRuns_cons_crlf _ ha, ih]
    · have ha1 : isCRLF a = false := by simpa using ha
      by_cases hd : isCRLF d = true
      · simp only [List.cons_append] at ih ⊢
        rw [lineRuns_cons_break _ ha1 hd, lineRuns_cons_break _ ha1 hd]
        rw [lineRuns_cons_crlf _ hd, lineRuns_cons_crlf _ hd] at ih
        rw [ih]
        rfl
      · have hd1 : isCRLF d = false := by simpa using hd
        obtain ⟨l, t, h1, h2⟩ := lineRuns_cons_cont (u ++ c :: v) ha1 hd1
        obtain ⟨l1, t1, h3, h4⟩ := lineRuns_cons_cont u ha1 hd1
        simp only [List.cons_append] at ih ⊢
        rw [h2, h4]
        rw [ih, h3] at h1
        cases h1
        rfl

theorem lineRuns_dropWhile : ∀ (s : Str), lineRuns s = lineRuns (s.dropWhile isCRLF)
  | [] => rfl
  | c :: cs => by
    by_cases hc : isCRLF c = true
    · rw [lineRuns_cons_crlf _ hc, List.dropWhile_cons, if_pos hc]
      exact lineRuns_dropWhile cs
    · rw [List.dropWhile_cons, if_neg hc]

/-- The first line of a text: it stands after terminators only, and the other lines are
the lines of what follows it. -/
theorem lineRuns_eq_cons {s l : Str} {t : List Str} (h : lineRuns s = l :: t) :
    ∃ u v, s = u ++ (l ++ v) ∧ (∀ c ∈ u, isCRLF c = true) ∧ l ≠ [] ∧
      (∀ c ∈ l, isCRLF c = false) ∧ (∀ c r, v = c :: r → isCRLF c = true) ∧
      lineRuns v = t := by
  have hs1 : s = s.takeWhile isCRLF ++ s.dropWhile isCRLF :=
    (List.takeWhile_append_dropWhile _ _).symm
  have hhead : ∀ d s1, s.dropWhile isCRLF = d :: s1 → isCRLF d = false := by
    intro d s1 hd
    have := List.head_dropWhile_not isCRLF s (by rw [hd]; simp)
    simp only [hd, List.head_cons] at this
    simpa using this
  rw [lineRuns_dropWhile] at h
  generalize s.dropWhile isCRLF = s2 at hs1 hhead h
  cases s2 with
  | nil => rw [lineRuns_nil] at h; cases h
  | cons d s1 =>
    have hdn : isCRLF d = false := hhead d s1 rfl
    have hw : (d :: s1) = (d :: s1).takeWhile (fun c => !isCRLF c) ++
        (d :: s1).dropWhile (fun c => !isCRLF c) := (List.takeWhile_append_dropWhile _ _).symm
    have hw1 : (d :: s1).takeWhile (fun c => !isCRLF c) ≠ [] := by
      simp [List.takeWhile_cons, hdn]
    have hw2 : ∀ c ∈ (d :: s1).takeWhile (fun c => !isCRLF c), isCRLF c = false := by
      intro c hc
      have := List.mem_takeWhile_imp hc
      simpa using this
    have hv : ∀ c r, (d :: s1).dropWhile (fun c => !isCRLF c) = c :: r → isCRLF c = true := by
      intro c r hr
      have := List.head_dropWhile_not (fun c => !isCRLF c) (d :: s1) (by rw [hr]; simp)
      simp only [hr, List.head_cons] at this
      simpa using this
    have hl := lineRuns_line_append _ _ hw1 hw2 hv
    rw [← hw, h] at hl
    cases hl
    refine ⟨s.takeWhile isCRLF, (d :: s1).dropWhile (fun c => !isCRLF c), ?_, ?_, hw1, hw2, hv,
      rfl⟩
    · rw [← hw]
      exact hs1
    · intro c hc
      exact List.mem_takeWhile_imp hc

/-- A line of a text that starts with a terminator stands after a terminator. -/
theorem lineRuns_mem_after_break : ∀ (n : Nat) (v l : Str), v.length ≤ n →
    (∀ c r, v = c :: r → isCRLF c = true) → l ∈ lineRuns v →
    ∃ u c v1, v = u ++ c :: (l ++ v1) ∧ isCRLF c = true ∧
      (∀ c1 r, v1 = c1 :: r → isCRLF c1 = true)
  | 0, v, l, hn, _, hl => by
    have : v = [] := List.length_eq_zero.1 (by omega)
    subst this
    simp [lineRuns] at hl
  | n + 1, v, l, hn, hv, hl => by
    cases hlr : lineRuns v with
    | nil => rw [hlr] at hl; simp at hl
    | cons l0 t0 =>
      obtain ⟨u0, v0, hs, hu0, hl0, hl0c, hv0, ht0⟩ := lineRuns_eq_cons hlr
      have hu0ne : u0 ≠ [] := by
        intro hu
        subst hu
        cases l0 with
        | nil => exact hl0 rfl
        | cons e l1 =>
          have h1 := hv e (l1 ++ v0) (by simpa using hs)
          rw [hl0c e (by simp)] at h1
          cases h1
      rw [hlr] at hl
      rcases List.mem_cons.1 hl with h1 | h1
      · subst h1
        refine ⟨u0.dropLast, u0.getLast hu0ne, v0, ?_, hu0 _ (List.getLast_mem hu0ne), hv0⟩
        rw [hs]
        conv => lhs; rw [← List.dropLast_append_getLast hu0ne]
        simp
      · rw [← ht0] at h1
        have hlen : v0.length ≤ n := by
          have := congrArg List.length hs
          simp only [List.length_append] at this
          have := List.length_pos.2 hu0ne
          omega
        obtain ⟨u1, c, v1, h2, h3, h4⟩ := lineRuns_mem_after_break n v0 l hlen hv0 h1
        exact ⟨u0 ++ (l0 ++ u1), c, v1, by rw [hs, h2]; simp, h3, h4⟩

/-- A line other than the first stands after a terminator. -/
theorem lineRuns_tail_mem {s l l0 : Str} {t : List Str} (h : lineRuns s = l0 :: t)
    (hl : l ∈ t) :
    ∃ u c v, s = u ++ c :: (l ++ v) ∧ isCRLF c = true ∧
      (∀ c1 r, v = c1 :: r → isCRLF c1 = true) := by
  obtain ⟨u0, v0, hs, _, _, _, hv0, ht0⟩ := lineRuns_eq_cons h
  rw [← ht0] at hl
  obtain ⟨u1, c, v1, h2, h3, h4⟩ := lineRuns_mem_after_break _ v0 l (Nat.le_refl _) hv0 hl
  exact ⟨u0 ++ (l0 ++ u1), c, v1, by rw [hs, h2]; simp, h3, h4⟩

/-- The line that starts right after a terminator is a line of the text. -/
theorem lineRuns_mem_of_break (u : Str) (c : Char) (w v : Str) (hc : isCRLF c = true)
    (hw : w ≠ []) (hwc : ∀ x ∈ w, isCRLF x = false)
    (hv : ∀ c1 r, v = c1 :: r → isCRLF c1 = true) :
    w ∈ lineRuns (u ++ c :: (w ++ v)) := by
  rw [lineRuns_append_break u c _ hc, lineRuns_line_append w v hw hwc hv]
  simp

/-! ## The streams of a text -/

theorem den_streamSep {pos : Nat} {w v : Str} :
    Den streamSep pos w v ↔ ∃ c, isCRLF c = true ∧ w = [c, 'm', '='] := by
  unfold streamSep
  rw [den_seq]
  constructor
  · rintro ⟨w1, w2, rfl, h1, h2⟩
    obtain ⟨c, rfl, hc⟩ := den_cls.1 h1
    rw [den_lit.1 h2]
    exact ⟨c, hc, rfl⟩
  · rintro ⟨c, hc, rfl⟩
    exact ⟨[c], ['m', '='], rfl, den_cls.2 ⟨c, rfl, hc⟩, den_lit.2 rfl⟩

theorem matchAt_streamSep_some {q : Nat} {t : Str} {m : Match}
    (h : streamSep.matchAt q t = some m) :
    ∃ c rest, t = c :: 'm' :: '=' :: rest ∧ isCRLF c = true ∧ m.stop = q + 3 := by
  obtain ⟨w, v, ht, hden, _, hstop, _⟩ := matchAt_some h
  obtain ⟨c, hc, rfl⟩ := den_streamSep.1 hden
  exact ⟨c, v, by simpa using ht, hc, by simpa using hstop⟩

theorem matchAt_streamSep_none {q : Nat} {t : Str} (h : streamSep.matchAt q t = none)
    (c : Char) (rest : Str) (ht : t = c :: 'm' :: '=' :: rest) : isCRLF c = false := by
  cases hc : isCRLF c with
  | false => rfl
  | true =>
    exact absurd (den_streamSep.2 ⟨c, hc, rfl⟩)
      (matchAt_none h [c, 'm', '='] rest (by simpa using ht))

theorem splitGo_pieces : ∀ (fuel : Nat) (fromQ : Str) (p q : Nat) (acc : Str),
    fromQ.length < fuel → q = p + acc.length →
    (∀ a c r, acc ++ fromQ = a ++ c :: 'm' :: '=' :: r → a.length < acc.length →
      isCRLF c = false) →
    Pieces (acc ++ fromQ) (splitGo streamSep fuel p q (acc ++ fromQ) fromQ)
  | 0, _, _, _, _, hf, _, _ => by omega
  | n + 1, [], p, q, acc, _, _, hinv => by
    rw [splitGo]
    apply Pieces.last
    intro a c b hab
    apply hinv a c b hab
    have := congrArg List.length hab
    simp only [List.length_append, List.length_cons, List.length_nil] at this
    omega
  | n + 1, x :: cs, p, q, acc, hf, hq, hinv => by
    rw [splitGo]
    cases hm : streamSep.matchAt q (x :: cs) with
    | none =>
      simp only
      have e : acc ++ x :: cs = (acc ++ [x]) ++ cs := by simp
      rw [e]
      apply splitGo_pieces n cs p (q + 1) (acc ++ [x]) (by simp only [List.length_cons] at hf; omega)
        (by simp only [List.length_append, List.length_singleton]; omega)
      intro a c r hab hlt
      rw [← e] at hab
      by_cases ha : a.length < acc.length
      · exact hinv a c r hab ha
      · have hal : a.length = acc.length := by
          simp only [List.length_append, List.length_singleton] at hlt
          omega
        obtain ⟨h1, h2⟩ := List.append_inj hab hal.symm
        exact matchAt_streamSep_none hm c r h2
    | some m =>
      obtain ⟨c, rest, ht, hc, hstop⟩ := matchAt_streamSep_some hm
      have hp : m.stop ≠ p := by omega
      simp only [hp, if_false]
      have e1 : m.stop - q = 3 := by omega
      have e2 : q - p = acc.length := by omega
      rw [e1, e2, ht]
      simp only [List.drop_succ_cons, List.drop_zero, List.take_left']
      cases ht
      have := splitGo_pieces n rest m.stop m.stop [] (by
        simp only [List.length_cons] at hf; omega) (by simp) (by
        intro a c r _ hlt
        simp at hlt)
      simp only [List.nil_append] at this
      apply Pieces.cons acc x rest _ hc _ this
      intro a c b hab
      apply hinv a c (b ++ x :: 'm' :: '=' :: rest) (by rw [hab]; simp)
      have := congrArg List.length hab
      simp only [List.length_append, List.length_cons] at this
      omega

/-- The pieces that `sdp.split(/[\r\n]m=/)` returns. -/
theorem split_pieces (s : Str) : Pieces s (streamSep.split s) := by
  cases s with
  | nil =>
    unfold Re.split
    have : streamSep.matchAt 0 [] = none := by
      cases h : streamSep.matchAt 0 [] with
      | none => rfl
      | some m =>
        obtain ⟨c, rest, ht, _⟩ := matchAt_streamSep_some h
        cases ht
    simp only [this, Option.isSome_none, Bool.false_eq_true, if_false]
    apply Pieces.last
    intro a c b hab
    cases a <;> simp at hab
  | cons x cs =>
    unfold Re.split
    have := splitGo_pieces ((x :: cs).length + 1) (x :: cs) 0 0 [] (by omega) (by simp) (by
      intro a c r _ hlt
      simp at hlt)
    simpa using this

theorem pieces_mem : ∀ {s : Str} {ps : List Str}, Pieces s ps → ∀ P ∈ ps,
    ∃ X Y, s = X ++ (P ++ Y) ∧ NoSep P ∧
      (X = [] ∨ ∃ X1 c, X = X1 ++ [c, 'm', '='] ∧ isCRLF c = true) ∧
      (Y = [] ∨ ∃ c Y1, Y = c :: 'm' :: '=' :: Y1 ∧ isCRLF c = true) := by
  intro s ps h
  induction h with
  | last s hs =>
    intro P hP
    simp at hP
    subst hP
    exact ⟨[], [], by simp, hs, Or.inl rfl, Or.inl rfl⟩
  | cons u c rest ps hc hu _ ih =>
    intro P hP
    rcases List.mem_cons.1 hP with h1 | h1
    · subst h1
      exact ⟨[], c :: 'm' :: '=' :: rest, by simp, hu, Or.inl rfl, Or.inr ⟨c, rest, rfl, hc⟩⟩
    · obtain ⟨X, Y, hs, hP1, hX, hY⟩ := ih P h1
      refine ⟨u ++ c :: 'm' :: '=' :: X, Y, by rw [hs]; simp, hP1, Or.inr ?_, hY⟩
      rcases hX with hX | ⟨X1, c1, hX, hc1⟩
      · subst hX
        exact ⟨u, c, by simp, hc⟩
      · subst hX
        exact ⟨u ++ c :: 'm' :: '=' :: X1, c1, by simp, hc1⟩

/-- A stream text follows a separator, holds none, and is followed by a separator or the
end of the text. -/
theorem streamsOf_mem {s P : Str} (h : P ∈ streamsOf s) :
    ∃ X c Y, s = X ++ c :: 'm' :: '=' :: (P ++ Y) ∧ isCRLF c = true ∧ NoSep P ∧
      (Y = [] ∨ ∃ c1 Y1, Y = c1 :: 'm' :: '=' :: Y1 ∧ isCRLF c1 = true) := by
  unfold streamsOf at h
  have hp := split_pieces s
  generalize streamSep.split s = ps at hp h
  cases hp with
  | last s hs => simp at h
  | cons u c rest ps hc hu hrest =>
    simp only [List.drop_succ_cons, List.drop_zero] at h
    obtain ⟨X, Y, hs, hP1, hX, hY⟩ := pieces_mem hrest P h
    rcases hX with hX | ⟨X1, c1, hX, hc1⟩
    · subst hX
      exact ⟨u, c, Y, by rw [hs]; simp, hc, hP1, hY⟩
    · subst hX
      exact ⟨u ++ c :: 'm' :: '=' :: X1, c1, Y, by rw [hs]; simp, hc1, hP1, hY⟩

theorem streamsOf_nil_of_noSep {s : Str} (h : NoSep s) : streamsOf s = [] := by
  unfold streamsOf
  have hp := split_pieces s
  generalize streamSep.split s = ps at hp
  cases hp with
  | last s hs => rfl
  | cons u c rest ps hc hu hrest =>
    exact absurd hc (by rw [h u c rest rfl]; simp)

/-! ## Streams and media sections -/

theorem strip_media_marker {P u t : Str} {c : Char} (h : 'm' :: '=' :: P = u ++ c :: t)
    (hc : isCRLF c = true) : ∃ u2, u = 'm' :: '=' :: u2 ∧ P = u2 ++ c :: t := by
  cases u with
  | nil =>
    simp only [List.nil_append, List.cons.injEq] at h
    rw [← h.1] at hc
    exact absurd hc (by decide)
  | cons a u1 =>
    simp only [List.cons_append, List.cons.injEq] at h
    obtain ⟨ha, h1⟩ := h
    cases u1 with
    | nil =>
      simp only [List.nil_append, List.cons.injEq] at h1
      rw [← h1.1] at hc
      exact absurd hc (by decide)
    | cons b u2 =>
      simp only [List.cons_append, List.cons.injEq] at h1
      exact ⟨u2, by rw [← ha, ← h1.1], h1.2⟩

theorem media_line_first {T l : Str} {t : List Str} (h : lineRuns ('m' :: '=' :: T) = l :: t) :
    startsWith l "m=".toList = true := by
  obtain ⟨u, v, hs, hu, hl, hlc, hv, _⟩ := lineRuns_eq_cons h
  cases u with
  | cons a u1 =>
    simp only [List.cons_append, List.cons.injEq] at hs
    have := hu a (by simp)
    rw [← hs.1] at this
    exact absurd this (by decide)
  | nil =>
    simp only [List.nil_append] at hs
    cases l with
    | nil => exact absurd rfl hl
    | cons a l1 =>
      simp only [List.cons_append, List.cons.injEq] at hs
      obtain ⟨ha, h1⟩ := hs
      cases l1 with
      | nil =>
        simp only [List.nil_append] at h1
        have := hv '=' T h1.symm
        exact absurd this (by decide)
      | cons b l2 =>
        simp only [List.cons_append, List.cons.injEq] at h1
        rw [← ha, ← h1.1]
        simp [startsWith, List.isPrefixOf]

theorem lineRuns_media_ne_nil (T : Str) : ∃ l t, lineRuns ('m' :: '=' :: T) = l :: t := by
  cases h : lineRuns ('m' :: '=' :: T) with
  | nil => exact absurd h (lineRuns_cons_ne_nil _ (by decide))
  | cons l t => exact ⟨l, t, rfl⟩

/-- A stream text is the text of a media section: its lines, after the media line, are
the lines of the section, each after a terminator of the stream text. -/
theorem stream_section {s X P Y : Str} {c : Char}
    (hs : s = X ++ c :: 'm' :: '=' :: (P ++ Y)) (hc : isCRLF c = true) (hP : NoSep P)
    (hY : Y = [] ∨ ∃ c1 Y1, Y = c1 :: 'm' :: '=' :: Y1 ∧ isCRLF c1 = true) :
    ∃ mline body, IsMediaSection (lineRuns s) mline body ∧
      ∀ l ∈ body, ∃ u c1 v, P = u ++ c1 :: (l ++ v) ∧ isCRLF c1 = true ∧
        (∀ c2 r, v = c2 :: r → isCRLF c2 = true) := by
  obtain ⟨mline, body, hmb⟩ := lineRuns_media_ne_nil P
  have hm := media_line_first hmb
  have hbody : ∀ l ∈ body, (∃ u c1 v, P = u ++ c1 :: (l ++ v) ∧ isCRLF c1 = true ∧
      (∀ c2 r, v = c2 :: r → isCRLF c2 = true)) ∧ startsWith l "m=".toList = false := by
    intro l hl
    obtain ⟨u, c1, v, h1, h2, h3⟩ := lineRuns_tail_mem hmb hl
    obtain ⟨u2, _, h5⟩ := strip_media_marker h1 h2
    refine ⟨⟨u2, c1, v, h5, h2, h3⟩, ?_⟩
    cases hsw : startsWith l "m=".toList with
    | false => rfl
    | true =>
      obtain ⟨t, ht⟩ := startsWith_iff.1 hsw
      have := hP u2 c1 (t ++ v) (by rw [h5, ht]; simp)
      rw [this] at h2
      cases h2
  refine ⟨mline, body, ?_, fun l hl => (hbody l hl).1⟩
  rcases hY with hY | ⟨c1, Y1, hY, hc1⟩
  · subst hY
    refine ⟨lineRuns X, [], ?_, hm, fun l hl => (hbody l hl).2, by intro l p h; cases h⟩
    rw [hs, lineRuns_append_break X c _ hc, List.append_nil, hmb]
    simp
  · subst hY
    obtain ⟨pl, pt, hpl⟩ := lineRuns_media_ne_nil Y1
    refine ⟨lineRuns X, pl :: pt, ?_, hm, fun l hl => (hbody l hl).2, ?_⟩
    · rw [hs, lineRuns_append_break X c _ hc]
      have e : 'm' :: '=' :: (P ++ c1 :: 'm' :: '=' :: Y1) =
          ('m' :: '=' :: P) ++ c1 :: ('m' :: '=' :: Y1) := by simp
      rw [e, lineRuns_append_break _ c1 _ hc1, hmb, hpl]
      simp
    · intro l p h
      cases h
      exact media_line_first hpl

/-- The claim's premise on an SDP: every media section holds the line
`a=mediaclk:direct=0` and a line `a=ts-refclk:ptp=IEEE1588-2008:<id>:0`. -/
theorem stream_has_mediaclk {s P : Str}
    (H : ∀ m body, IsMediaSection (lineRuns s) m body →
      "a=mediaclk:direct=0".toList ∈ body ∧ ∃ l ∈ body, IsPtpClockLine l)
    (hP : P ∈ streamsOf s) : mediaclkPattern.test P = true := by
  obtain ⟨X, c, Y, hs, hc, hnP, hY⟩ := streamsOf_mem hP
  obtain ⟨mline, body, hsec, hbody⟩ := stream_section hs hc hnP hY
  obtain ⟨u, c1, v, hPu, hc1, _⟩ := hbody _ (H mline body hsec).1
  apply test_eq_true_iff.2
  refine ⟨u, c1 :: "a=mediaclk".toList, ":direct=0".toList ++ v, by rw [hPu]; simp, ?_⟩
  unfold mediaclkPattern
  exact den_seq.2 ⟨[c1], "a=mediaclk".toList, rfl, den_cls.2 ⟨c1, rfl, hc1⟩, den_lit.2 rfl⟩

theorem text_has_tsrefclk {s P : Str}
    (H : ∀ m body, IsMediaSection (lineRuns s) m body →
      "a=mediaclk:direct=0".toList ∈ body ∧ ∃ l ∈ body, IsPtpClockLine l)
    (hP : P ∈ streamsOf s) : tsrefclkPattern.test s = true := by
  obtain ⟨X, c, Y, hs, hc, hnP, hY⟩ := streamsOf_mem hP
  obtain ⟨mline, body, hsec, hbody⟩ := stream_section hs hc hnP hY
  obtain ⟨l, hl, id, _, hlid⟩ := (H mline body hsec).2
  obtain ⟨u, c1, v, hPu, hc1, _⟩ := hbody l hl
  apply test_eq_true_iff.2
  refine ⟨X ++ c :: 'm' :: '=' :: u, c1 :: "a=ts-refclk".toList,
    ":ptp=IEEE1588-2008:".toList ++ id ++ ":0".toList ++ v ++ Y, ?_, ?_⟩
  · rw [hs, hPu, hlid]
    simp
  · unfold tsrefclkPattern
    exact den_seq.2 ⟨[c1], "a=ts-refclk".toList, rfl, den_cls.2 ⟨c1, rfl, hc1⟩, den_lit.2 rfl⟩

/-! ## Global matches -/

theorem allFrom_mem (r : Re) : ∀ (fuel pos : Nat) (rest : Str) (m : Match),
    m ∈ r.allFrom fuel pos rest →
    ∃ u w v, rest = u ++ (w ++ v) ∧ Den r (pos + u.length) w v ∧ m.text = w ∧
      r.matchAt (pos + u.length) (w ++ v) = some m
  | 0, _, _, m, h => by simp [Re.allFrom] at h
  | fuel + 1, pos, rest, m, h => by
    rw [Re.allFrom] at h
    cases hs : r.searchFrom pos rest with
    | none => rw [hs] at h; simp at h
    | some m0 =>
      rw [hs] at h
      simp only at h
      obtain ⟨u0, w0, v0, hrest, hden, hidx, hstop, htext, hma, _⟩ := searchFrom_some hs
      have hdrop : rest.drop (m0.stop - pos) = v0 := by
        have : m0.stop - pos = (u0 ++ w0).length := by
          simp only [List.length_append]; omega
        rw [this, hrest, ← List.append_assoc, List.drop_left]
      rw [hdrop] at h
      have hfirst : m = m0 → ∃ u w v, rest = u ++ (w ++ v) ∧ Den r (pos + u.length) w v ∧
          m.text = w ∧ r.matchAt (pos + u.length) (w ++ v) = some m := by
        intro hm
        subst hm
        exact ⟨u0, w0, v0, hrest, hden, htext, hma⟩
      split at h
      · cases hv : v0 with
        | nil =>
          rw [hv] at h
          simp only [List.mem_singleton] at h
          exact hfirst h
        | cons x t =>
          rw [hv] at h
          simp only [List.mem_cons] at h
          rcases h with h | h
          · exact hfirst h
          · obtain ⟨u, w, v, h1, h2, h3, h4⟩ := allFrom_mem r fuel (m0.stop + 1) t m h
            refine ⟨u0 ++ (w0 ++ (x :: u)), w, v, by rw [hrest, hv, h1]; simp, ?_, h3, ?_⟩
            · have e : pos + (u0 ++ (w0 ++ x :: u)).length = m0.stop + 1 + u.length := by
                simp only [List.length_append, List.length_cons]; omega
              rw [e]; exact h2
            · have e : pos + (u0 ++ (w0 ++ x :: u)).length = m0.stop + 1 + u.length := by
                simp only [List.length_append, List.length_cons]; omega
              rw [e]; exact h4
      · simp only [List.mem_cons] at h
        rcases h with h | h
        · exact hfirst h
        · obtain ⟨u, w, v, h1, h2, h3, h4⟩ := allFrom_mem r fuel m0.stop v0 m h
          refine ⟨u0 ++ (w0 ++ u), w, v, by rw [hrest, h1]; simp, ?_, h3, ?_⟩
          · have e : pos + (u0 ++ (w0 ++ u)).length = m0.stop + u.length := by
              simp only [List.length_append]; omega
            rw [e]; exact h2
          · have e : pos + (u0 ++ (w0 ++ u)).length = m0.stop + u.length := by
              simp only [List.length_append]; omega
            rw [e]; exact h4

/-- Every text that `s.match(r)` returns for an expression with the `g` flag is a word of
the expression that stands in `s`, matched there by the expression. -/
theorem matchG_mem {r : Re} {s : Str} {zs : List Str} (h : r.matchG s = some zs) (z : Str)
    (hz : z ∈ zs) :
    ∃ u v m, s = u ++ (z ++ v) ∧ Den r u.length z v ∧ m.text = z ∧
      r.matchAt u.length (z ++ v) = some m := by
  unfold Re.matchG at h
  split at h
  · cases h
  · cases h
    obtain ⟨m, hm, rfl⟩ := List.mem_map.1 hz
    obtain ⟨u, w, v, h1, h2, h3, h4⟩ := allFrom_mem r _ 0 s m hm
    subst h3
    exact ⟨u, v, m, h1, by simpa using h2, rfl, by simpa using h4⟩

/-! ## Trimming and taking -/

theorem dropWhile_append_all {p : Char → Bool} : ∀ (l1 l2 : Str), (∀ x ∈ l1, p x = true) →
    (l1 ++ l2).dropWhile p = l2.dropWhile p
  | [], _, _ => rfl
  | a :: l1, l2, h => by
    rw [List.cons_append, List.dropWhile_cons, if_pos (h a (by simp))]
    exact dropWhile_append_all l1 l2 (fun x hx => h x (by simp [hx]))

theorem takeWhile_append_all {p : Char → Bool} : ∀ (l1 l2 : Str), (∀ x ∈ l1, p x = true) →
    (l1 ++ l2).takeWhile p = l1 ++ l2.takeWhile p
  | [], _, _ => rfl
  | a :: l1, l2, h => by
    rw [List.cons_append, List.takeWhile_cons, if_pos (h a (by simp)),
      takeWhile_append_all l1 l2 (fun x hx => h x (by simp [hx]))]
    rfl

theorem trim_padded (pre body post : Str) (a b : Char) (t1 t2 : Str)
    (hpre : ∀ x ∈ pre, isSpace x = true) (hpost : ∀ x ∈ post, isSpace x = true)
    (hb : body = a :: t1) (ha : isSpace a = false) (hr : body.reverse = b :: t2)
    (hbs : isSpace b = false) : trim (pre ++ (body ++ post)) = body := by
  unfold trim
  rw [dropWhile_append_all pre _ hpre]
  have h1 : (body ++ post).dropWhile isSpace = body ++ post := by
    rw [hb, List.cons_append, List.dropWhile_cons]
    simp [ha]
  rw [h1, List.reverse_append, dropWhile_append_all post.reverse _
    (fun x hx => hpost x (List.mem_reverse.1 hx))]
  have h2 : body.reverse.dropWhile isSpace = body.reverse := by
    rw [hr, List.dropWhile_cons]
    simp [hbs]
  rw [h2, List.reverse_reverse]

theorem isDigit_not_crlf {x : Char} (h : isDigit x = true) : (!isCRLF x) = true := by
  simp only [isDigit, Bool.and_eq_true, decide_eq_true_eq] at h
  simp only [isCRLF, Bool.not_eq_true', Bool.or_eq_false_iff, beq_eq_false_iff_ne, ne_eq]
  omega

/-- The line that starts right after a terminator, cut at the next terminator, is a line
of the text. -/
theorem line_after_break (U : Str) (c : Char) (T : Str) (a : Char) (T1 : Str)
    (hc : isCRLF c = true) (hT : T = a :: T1) (ha : isCRLF a = false) :
    T.takeWhile (fun x => !isCRLF x) ∈ lineRuns (U ++ c :: T) := by
  have hsplit : T = T.takeWhile (fun x => !isCRLF x) ++ T.dropWhile (fun x => !isCRLF x) :=
    (List.takeWhile_append_dropWhile _ _).symm
  have := lineRuns_mem_of_break U c (T.takeWhile (fun x => !isCRLF x))
    (T.dropWhile (fun x => !isCRLF x)) hc
    (by rw [hT]; simp [List.takeWhile_cons, ha])
    (by
      intro x hx
      have := List.mem_takeWhile_imp hx
      simpa using this)
    (by
      intro c1 r hr
      have := List.head_dropWhile_not (fun x => !isCRLF x) T (by rw [hr]; simp)
      simp only [hr, List.head_cons] at this
      simpa using this)
  rw [← hsplit] at this
  exact this

/-! ## The clock rules on well-formed clock lines -/

theorem offsetNonZero_zero (c : Char) (ws : Str) (hc : isCRLF c = true)
    (hws : ∀ x ∈ ws, isSpace x = true) :
    offsetNonZero (c :: ("a=mediaclk:direct=0".toList ++ ws)) = false := by
  have ht : trim (c :: ("a=mediaclk:direct=0".toList ++ ws)) = "a=mediaclk:direct=0".toList :=
    trim_padded [c] "a=mediaclk:direct=0".toList ws 'a' '0' "=mediaclk:direct=0".toList
      "=tcerid:klcaidem=a".toList (by intro x hx; simp at hx; rw [hx]; exact isSpace_of_isCRLF hc)
      hws rfl (by decide) (by decide) (by decide)
  unfold offsetNonZero
  rw [ht]
  decide

/-- Every match of mediaclkDirectPattern in a part of the text has offset zero, when every
mediaclk line of the text is `a=mediaclk:direct=0`. -/
theorem direct_matches_zero {s A P B : Str} (hs : s = A ++ (P ++ B))
    (hmc : ∀ l ∈ lineRuns s, startsWith l "a=mediaclk".toList = true →
      l = "a=mediaclk:direct=0".toList)
    {zs : List Str} (hz : mediaclkDirectPattern.matchG P = some zs) :
    ∀ z ∈ zs, offsetNonZero z = false := by
  intro z hzm
  obtain ⟨u, v, m, hP, hden, _, _⟩ := matchG_mem hz z hzm
  unfold mediaclkDirectPattern at hden
  obtain ⟨w1, r1, rfl, h1, hden⟩ := den_cat_cons.1 hden
  obtain ⟨w2, r2, rfl, h2, hden⟩ := den_cat_cons.1 hden
  obtain ⟨w3, r3, rfl, h3, hden⟩ := den_cat_cons.1 hden
  obtain ⟨w4, r4, rfl, h4, hden⟩ := den_cat_cons.1 hden
  obtain ⟨c, rfl, hc⟩ := den_cls.1 h1
  have hr4 := den_cat_nil.1 hden
  subst hr4
  have hw2 := den_lit.1 h2
  subst hw2
  obtain ⟨hw3n, hw3⟩ := den_plus_cls.1 h3
  obtain ⟨_, hw4⟩ := den_plus_cls.1 h4
  -- the line of the text that starts after `c`
  have hline := line_after_break (A ++ u) c
    ("a=mediaclk:direct=".toList ++ (w3 ++ (w4 ++ (v ++ B)))) 'a' _ hc rfl (by decide)
  have hs2 : s = (A ++ u) ++ c :: ("a=mediaclk:direct=".toList ++ (w3 ++ (w4 ++ (v ++ B)))) := by
    rw [hs, hP]; simp
  rw [← hs2] at hline
  have htw : ("a=mediaclk:direct=".toList ++ (w3 ++ (w4 ++ (v ++ B)))).takeWhile
      (fun x => !isCRLF x) = "a=mediaclk:direct=".toList ++ (w3 ++
        (w4 ++ (v ++ B)).takeWhile (fun x => !isCRLF x)) := by
    rw [takeWhile_append_all _ _ (by decide), takeWhile_append_all _ _
      (fun x hx => isDigit_not_crlf (hw3 x hx))]
  rw [htw] at hline
  have heq := hmc _ hline (by simp [startsWith, List.isPrefixOf])
  have heq2 : w3 ++ (w4 ++ (v ++ B)).takeWhile (fun x => !isCRLF x) = ['0'] := by
    have e : "a=mediaclk:direct=0".toList = "a=mediaclk:direct=".toList ++ ['0'] := rfl
    rw [e] at heq
    exact List.append_cancel_left heq
  have hw3z : w3 = ['0'] := by
    cases w3 with
    | nil => exact absurd rfl hw3n
    | cons d t =>
      simp only [List.cons_append, List.cons.injEq, List.append_eq_nil] at heq2
      rw [heq2.1, heq2.2.1]
  subst hw3z
  have := offsetNonZero_zero c w4 hc hw4
  simpa using this

theorem check_10_74_1_nil {s A P B : Str} (idx : Nat) (hs : s = A ++ (P ++ B))
    (hmc : ∀ l ∈ lineRuns s, startsWith l "a=mediaclk".toList = true →
      l = "a=mediaclk:direct=0".toList) : check_10_74_1 idx P = [] := by
  unfold check_10_74_1
  cases hz : mediaclkDirectPattern.matchG P with
  | none => rfl
  | some zs =>
    simp only
    have hf : zs.filter offsetNonZero = [] := by
      apply List.filter_eq_nil_iff.2
      intro z hzm
      simp [direct_matches_zero hs hmc hz z hzm]
    rw [hf]
    simp

theorem flatMap_indexed_nil {α : Type} (f : Nat × α → List Finding) :
    ∀ (l : List α) (i : Nat), (∀ j a, a ∈ l → f (j, a) = []) → (indexed i l).flatMap f = []
  | [], _, _ => rfl
  | a :: l, i, h => by
    rw [indexed, List.flatMap_cons, h i a (by simp),
      flatMap_indexed_nil f l (i + 1) (fun j b hb => h j b (by simp [hb]))]
    rfl

theorem mem_takeWhile_true (p : Char → Bool) (l : Str) (x : Char)
    (h : x ∈ l.takeWhile p) : p x = true := List.mem_takeWhile_imp h

theorem head_dropWhile_false (p : Char → Bool) (l : Str) (c : Char) (r : Str)
    (h : l.dropWhile p = c :: r) : p c = false := by
  have := List.head_dropWhile_not p l (by rw [h]; simp)
  simp only [h, List.head_cons] at this
  simpa using this

/-- The match of a class, a literal and a greedy `+` of a class: the `+` takes the
longest run of its class. -/
theorem matchAt_cls_lit_plus (p0 p : Char → Bool) (w : Str) (q : Nat) (c : Char) (t : Str)
    (m : Match)
    (h : (Re.cat [.cls p0, .lit w, .plus (.cls p)]).matchAt q (c :: (w ++ t)) = some m) :
    m.text = c :: (w ++ t.takeWhile p) := by
  unfold Re.matchAt at h
  cases hc : p0 c with
  | false => simp [run_cat_cons, run_cls_cons, hc] at h
  | true =>
    simp only [run_cat_cons, run_cls_cons, hc, if_true, run_lit_append, run_plus,
      run_cat_nil] at h
    cases t with
    | nil => simp [run_cls_nil] at h
    | cons x t1 =>
      rw [run_cls_cons] at h
      cases hx : p x with
      | false => simp [hx] at h
      | true =>
        simp only [hx, if_true] at h
        have hsplit : t1 = t1.takeWhile p ++ t1.dropWhile p :=
          (List.takeWhile_append_dropWhile _ _).symm
        have hstar := run_star_cls p (t1.takeWhile p) (t1.dropWhile p)
          (q + 1 + w.length + 1) [] (fun st1 => some st1)
          (head_dropWhile_false p t1) (mem_takeWhile_true p t1) rfl
        rw [← hsplit] at hstar
        rw [hstar] at h
        simp only [Option.some.injEq] at h
        rw [← h]
        simp only [List.takeWhile_cons, hx, if_true]
        have e : q + 1 + w.length + 1 + (t1.takeWhile p).length - q =
            ((c :: (w ++ x :: t1.takeWhile p)).length) := by
          simp only [List.length_cons, List.length_append]; omega
        rw [e]
        have e2 : c :: (w ++ x :: t1)
            = (c :: (w ++ x :: t1.takeWhile p)) ++ t1.dropWhile p := by
          conv => lhs; rw [hsplit]
          simp
        rw [e2, List.take_left]

/-- Every match of mediaclkTypePattern in the text is `a=mediaclk:direct` after its
terminator, when every mediaclk line of the text is `a=mediaclk:direct=0`. -/
theorem type_matches_direct {s : Str}
    (hmc : ∀ l ∈ lineRuns s, startsWith l "a=mediaclk".toList = true →
      l = "a=mediaclk:direct=0".toList)
    {zs : List Str} (hz : mediaclkTypePattern.matchG s = some zs) :
    ∀ z ∈ zs, startsWith (slice z 1) "a=mediaclk:direct".toList = true := by
  intro z hzm
  obtain ⟨u, v, m, hs, hden, hm, hma⟩ := matchG_mem hz z hzm
  unfold mediaclkTypePattern at hden
  obtain ⟨w1, r1, rfl, h1, hden⟩ := den_cat_cons.1 hden
  obtain ⟨w2, r2, rfl, h2, hden⟩ := den_cat_cons.1 hden
  obtain ⟨c, rfl, hc⟩ := den_cls.1 h1
  have hw2 := den_lit.1 h2
  subst hw2
  have hma2 : mediaclkTypePattern.matchAt u.length
      (c :: ("a=mediaclk".toList ++ (r2 ++ v))) = some m := by
    rw [← hma]; simp
  have htext := matchAt_cls_lit_plus _ _ _ _ c (r2 ++ v) m hma2
  have hline := line_after_break u c ("a=mediaclk".toList ++ (r2 ++ v)) 'a' _ hc rfl (by decide)
  have hs2 : s = u ++ c :: ("a=mediaclk".toList ++ (r2 ++ v)) := by rw [hs]; simp
  rw [← hs2, takeWhile_append_all _ _ (by decide)] at hline
  have heq := hmc _ hline (by simp [startsWith, List.isPrefixOf])
  have heq2 : (r2 ++ v).takeWhile (fun x => !isCRLF x) = ":direct=0".toList := by
    have e : "a=mediaclk:direct=0".toList = "a=mediaclk".toList ++ ":direct=0".toList := rfl
    rw [e] at heq
    exact List.append_cancel_left heq
  have hsplit : r2 ++ v = ":direct=0".toList ++ (r2 ++ v).dropWhile (fun x => !isCRLF x) := by
    rw [← heq2]
    exact (List.takeWhile_append_dropWhile _ _).symm
  have htw : (r2 ++ v).takeWhile (fun c => !(isSpace c || c == '=')) = ":direct".toList := by
    rw [hsplit]
    simp [List.takeWhile_cons, isSpace]
  rw [← hm, htext, htw]
  simp [slice, startsWith]

theorem mediaLevelLoop_nil (body : Nat → Str → List Finding) :
    ∀ (lines : List Str) (x : Nat) (flag : Bool), (∀ y l, l ∈ lines → body y l = []) →
      mediaLevelLoop body x flag lines = []
  | [], _, _, _ => by simp [mediaLevelLoop]
  | l :: ls, x, false, h => by
    rw [mediaLevelLoop]
    exact mediaLevelLoop_nil body ls _ _ (fun y l1 h1 => h y l1 (by simp [h1]))
  | l :: ls, x, true, h => by
    rw [mediaLevelLoop, h x l (by simp),
      mediaLevelLoop_nil body ls _ _ (fun y l1 h1 => h y l1 (by simp [h1]))]
    rfl

theorem startsWith_trans {l p q : Str} (h : startsWith l p = true)
    (hq : startsWith p q = true) : startsWith l q = true := by
  obtain ⟨t, rfl⟩ := startsWith_iff.1 h
  obtain ⟨t1, rfl⟩ := startsWith_iff.1 hq
  exact startsWith_iff.2 ⟨t1 ++ t, by simp⟩

theorem check_10_82_2_ptp (x : Nat) (l : Str)
    (hts : startsWith l "a=ts-refclk".toList = true → IsPtpClockLine l) :
    check_10_82_2 x l = [] := by
  unfold check_10_82_2
  by_cases h : startsWith l "a=ts-refclk".toList = true
  · obtain ⟨id, _, rfl⟩ := hts h
    simp [startsWith]
  · rw [if_neg h]

theorem check_10_82_3_ptp (x : Nat) (l : Str)
    (hts : startsWith l "a=ts-refclk".toList = true → IsPtpClockLine l) :
    check_10_82_3 x l = [] := by
  by_cases h : startsWith l "a=ts-refclk:ptp=".toList = true
  · obtain ⟨id, hid, rfl⟩ := hts (startsWith_trans h (by decide))
    have := check_10_82_3_domain x id "0".toList hid (by decide)
    have e : ":0".toList = ':' :: "0".toList := rfl
    have hz : ¬ 127 < toNumber "0".toList := by decide
    rw [e, this, if_neg hz]
  · unfold check_10_82_3
    rw [if_neg h]

theorem check_10_82_4_ptp (x : Nat) (l : Str)
    (hts : startsWith l "a=ts-refclk".toList = true → IsPtpClockLine l) :
    check_10_82_4 x l = [] := by
  unfold check_10_82_4
  by_cases h : startsWith l "a=ts-refclk:localmac=".toList = true
  · obtain ⟨id, _, rfl⟩ := hts (startsWith_trans h (by decide))
    simp [startsWith, List.isPrefixOf] at h
  · rw [if_neg h]

/-- C7: for every SDP with at least one non-empty line in which every media section holds
the line `a=mediaclk:direct=0` and a line `a=ts-refclk:ptp=IEEE1588-2008:<id>:0`, and which
has no other mediaclk or ts-refclk line, section_10_74, section_10_81 and section_10_82
return the empty Finding sequence, for every configuration. -/
theorem clock_lines_pass (sdp : Str) (params : Params)
    (hne : ∃ c ∈ sdp, isCRLF c = false)
    (hsec : ∀ m body, IsMediaSection (lineRuns sdp) m body →
      "a=mediaclk:direct=0".toList ∈ body ∧ ∃ l ∈ body, IsPtpClockLine l)
    (hmc : ∀ l ∈ lineRuns sdp, startsWith l "a=mediaclk".toList = true →
      l = "a=mediaclk:direct=0".toList)
    (hts : ∀ l ∈ lineRuns sdp, startsWith l "a=ts-refclk".toList = true → IsPtpClockLine l) :
    section_10_74 sdp params = some [] ∧ section_10_81 sdp params = some [] ∧
      section_10_82 sdp params = some [] := by
  have hsub : ∀ P ∈ streamsOf sdp, ∃ A B, sdp = A ++ (P ++ B) := by
    intro P hP
    obtain ⟨X, c, Y, hs, _⟩ := streamsOf_mem hP
    exact ⟨X ++ [c, 'm', '='], Y, by rw [hs]; simp⟩
  have h74 : test_10_74_1 sdp params = [] := by
    unfold test_10_74_1
    apply flatMap_indexed_nil
    intro j P hP
    obtain ⟨A, B, hs⟩ := hsub P hP
    exact check_10_74_1_nil j hs hmc
  have h811 : test_10_81_1 sdp params = [] := by
    unfold test_10_81_1
    apply flatMap_indexed_nil
    intro j P hP
    simp [stream_has_mediaclk hsec hP]
  have h812 : test_10_81_2 sdp params = [] := by
    unfold test_10_81_2
    split
    · rfl
    · cases hz : mediaclkTypePattern.matchG sdp with
      | none => rfl
      | some zs =>
        simp only
        have hf : zs.filter (fun x => !startsWith (slice x 1) "a=mediaclk:direct".toList) = [] := by
          apply List.filter_eq_nil_iff.2
          intro z hzm
          rw [type_matches_direct hmc hz z hzm]
          decide
        rw [hf]
        rfl
  have h821 : test_10_82_1 sdp params = [] := by
    unfold test_10_82_1
    apply flatMap_indexed_nil
    intro j P hP
    simp [text_has_tsrefclk hsec hP]
  have hsl := splitLines_isSome hne
  have h822 : test_10_82_2 sdp params = some [] := by
    unfold test_10_82_2
    rw [hsl]
    simp only [Option.map_some']
    rw [mediaLevelLoop_nil check_10_82_2 _ _ _
      (fun y l hl => check_10_82_2_ptp y l (hts l hl))]
  have h823 : test_10_82_3 sdp params = some [] := by
    unfold test_10_82_3
    rw [hsl]
    simp only [Option.map_some']
    rw [mediaLevelLoop_nil check_10_82_3 _ _ _
      (fun y l hl => check_10_82_3_ptp y l (hts l hl))]
  have h824 : test_10_82_4 sdp params = some [] := by
    unfold test_10_82_4
    rw [hsl]
    simp only [Option.map_some']
    rw [mediaLevelLoop_nil check_10_82_4 _ _ _
      (fun y l hl => check_10_82_4_ptp y l (hts l hl))]
  refine ⟨?_, ?_, ?_⟩
  · unfold section_10_74
    rw [h74]
    rfl
  · unfold section_10_81
    rw [h811, h812]
    rfl
  · unfold section_10_82
    rw [h821, h822, h823, h824]
    rfl

/-- C7 (counterexample): the empty text has no line at all, hence no media section and no
mediaclk or ts-refclk line, and section_10_82 does not return on it: it throws. -/
theorem clock_lines_empty_text_throws :
    (∀ m body, IsMediaSection (lineRuns []) m body →
      "a=mediaclk:direct=0".toList ∈ body ∧ ∃ l ∈ body, IsPtpClockLine l) ∧
    (∀ l ∈ lineRuns [], startsWith l "a=mediaclk".toList = true →
      l = "a=mediaclk:direct=0".toList) ∧
    (∀ l ∈ lineRuns [], startsWith l "a=ts-refclk".toList = true → IsPtpClockLine l) ∧
    section_10_82 [] {} = none := by
  have hL : lineRuns [] = [] := by decide!
  rw [hL]
  refine ⟨?_, ?_, ?_, by decide!⟩
  · rintro m body ⟨pre, post, h, -⟩
    cases pre <;> simp at h
  · intro l hl
    cases hl
  · intro l hl
    cases hl

/-- C7 (witness): a session line, one media line and the two clock lines. -/
theorem clock_lines_pass_witness :
    section_10_74 ("v=0\nm=video 50000 RTP/AVP 112\n" ++
        "a=ts-refclk:ptp=IEEE1588-2008:39-A7-94-FF-FE-07-CB-D0:0\n" ++
        "a=mediaclk:direct=0\n").toList {} = some [] ∧
    section_10_81 ("v=0\nm=video 50000 RTP/AVP 112\n" ++
        "a=ts-refclk:ptp=IEEE1588-2008:39-A7-94-FF-FE-07-CB-D0:0\n" ++
        "a=mediaclk:direct=0\n").toList {} = some [] ∧
    section_10_82 ("v=0\nm=video 50000 RTP/AVP 112\n" ++
        "a=ts-refclk:ptp=IEEE1588-2008:39-A7-94-FF-FE-07-CB-D0:0\n" ++
        "a=mediaclk:direct=0\n").toList {} = some [] := by
  have hL : lineRuns ("v=0\nm=video 50000 RTP/AVP 112\n" ++
        "a=ts-refclk:ptp=IEEE1588-2008:39-A7-94-FF-FE-07-CB-D0:0\n" ++
        "a=mediaclk:direct=0\n").toList =
      ["v=0".toList, "m=video 50000 RTP/AVP 112".toList,
        "a=ts-refclk:ptp=IEEE1588-2008:39-A7-94-FF-FE-07-CB-D0:0".toList,
        "a=mediaclk:direct=0".toList] := by decide!
  have hclk : IsPtpClockLine "a=ts-refclk:ptp=IEEE1588-2008:39-A7-94-FF-FE-07-CB-D0:0".toList :=
    ⟨"39-A7-94-FF-FE-07-CB-D0".toList, by decide!, by decide!⟩
  refine clock_lines_pass _ {} ⟨'v', by decide!, by decide!⟩ ?_ ?_ ?_
  · rw [hL]
    rintro m body ⟨pre, post, h, hm, hb, hp⟩
    rcases pre with _ | ⟨p0, _ | ⟨p1, _ | ⟨p2, _ | ⟨p3, pre⟩⟩⟩⟩
    · simp only [List.nil_append, List.cons_append, List.cons.injEq] at h
      rw [← h.1] at hm
      exact absurd hm (by decide!)
    · simp only [List.nil_append, List.cons_append, List.cons.injEq] at h
      obtain ⟨-, -, h⟩ := h
      rcases body with _ | ⟨b0, _ | ⟨b1, _ | ⟨b2, body⟩⟩⟩
      · simp only [List.nil_append] at h
        have := hp _ _ h.symm
        exact absurd this (by decide!)
      · simp only [List.nil_append, List.cons_append, List.cons.injEq] at h
        have := hp _ _ h.2.symm
        exact absurd this (by decide!)
      · simp only [List.nil_append, List.cons_append, List.cons.injEq] at h
        obtain ⟨h0, h1, -⟩ := h
        subst h0 h1
        exact ⟨by simp, _, List.mem_cons_self _ _, hclk⟩
      · simp only [List.cons_append, List.cons.injEq] at h
        exact absurd h.2.2 (by simp)
    · simp only [List.nil_append, List.cons_append, List.cons.injEq] at h
      rw [← h.2.2.1] at hm
      exact absurd hm (by decide!)
    · simp only [List.nil_append, List.cons_append, List.cons.injEq] at h
      rw [← h.2.2.2.1] at hm
      exact absurd hm (by decide!)
    · simp only [List.cons_append, List.cons.injEq] at h
      exact absurd h.2.2.2.2 (by simp)
  · rw [hL]
    decide!
  · rw [hL]
    intro l hl h
    simp only [List.mem_cons, List.mem_singleton, List.not_mem_nil, or_false] at hl
    rcases hl with rfl | rfl | rfl | rfl
    · exact absurd h (by decide!)
    · exact absurd h (by decide!)
    · exact hclk
    · exact absurd h (by decide!)

/-! ## Every section returns on a text with a non-empty line -/

theorem concatResults_cons_isSome (r : Option (List Finding)) (rs : List (Option (List Finding))) :
    (concatResults (r :: rs)).isSome = (r.isSome && (concatResults rs).isSome) := by
  cases r with
  | none => rfl
  | some fs =>
    cases h : concatResults rs with
    | none => simp [concatResults, h]
    | some gs => simp [concatResults, h]

theorem concatResults_nil_isSome : (concatResults []).isSome = true := rfl

theorem concatResults_append_one (rs : List (Option (List Finding))) (fs : List Finding)
    (h : (concatResults rs).isSome = true) :
    ∃ gs, concatResults (rs ++ [some fs]) = some (gs ++ fs) := by
  induction rs with
  | nil => exact ⟨[], by simp [concatResults]⟩
  | cons r rs ih =>
    rw [concatResults_cons_isSome, Bool.and_eq_true] at h
    obtain ⟨gs, hgs⟩ := ih h.2
    cases r with
    | none => simp at h
    | some es => exact ⟨es ++ gs, by simp [concatResults, hgs]⟩

theorem extractMTParams_isSome (sdp : Str) (params : Params)
    (h : ∃ c ∈ sdp, isCRLF c = false) : (extractMTParams sdp params).isSome = true := by
  obtain ⟨st, hst, _⟩ := extractRun_returns sdp params h
  simp [extractMTParams, hst]

theorem forStreams_isSome (check : StreamParams → List Finding) (sdp : Str) (params : Params)
    (h : ∃ c ∈ sdp, isCRLF c = false) : (forStreams check sdp params).isSome = true := by
  simp [forStreams, extractMTParams_isSome sdp params h]

theorem section_10_62_isSome (sdp : Str) (params : Params) (h : ∃ c ∈ sdp, isCRLF c = false) :
    (section_10_62 sdp params).isSome = true := by
  simp [section_10_62, concatResults_cons_isSome, concatResults_nil_isSome, test_10_62_1,
    splitLines_isSome h]

theorem section_10_74_isSome (sdp : Str) (params : Params) :
    (section_10_74 sdp params).isSome = true := by
  simp [section_10_74, concatResults_cons_isSome, concatResults_nil_isSome]

theorem section_10_81_isSome (sdp : Str) (params : Params) :
    (section_10_81 sdp params).isSome = true := by
  simp [section_10_81, concatResults_cons_isSome, concatResults_nil_isSome]

theorem section_10_82_isSome (sdp : Str) (params : Params) (h : ∃ c ∈ sdp, isCRLF c = false) :
    (section_10_82 sdp params).isSome = true := by
  simp [section_10_82, concatResults_cons_isSome, concatResults_nil_isSome, test_10_82_2,
    test_10_82_3, test_10_82_4, splitLines_isSome h]

theorem section_10_83_isSome (sdp : Str) (params : Params) (h : ∃ c ∈ sdp, isCRLF c = false) :
    (section_10_83 sdp params).isSome = true := by
  have h2 : (test_10_83_2 sdp params).isSome = true := by
    unfold test_10_83_2
    split <;> simp [splitLines_isSome h]
  have h3 : (test_10_83_3 sdp params).isSome = true := by
    unfold test_10_83_3
    split <;> simp [splitLines_isSome h]
  simp [section_10_83, concatResults_cons_isSome, concatResults_nil_isSome, h2, h3]

theorem section_20_71_isSome (sdp : Str) (params : Params) (h : ∃ c ∈ sdp, isCRLF c = false) :
    (section_20_71 sdp params).isSome = true := by
  simp [section_20_71, concatResults_cons_isSome, concatResults_nil_isSome, test_20_71_2,
    test_20_71_3, test_20_71_4, checkStreamsRtpMap, splitLines_isSome h]

theorem section_20_72_isSome (sdp : Str) (params : Params) (h : ∃ c ∈ sdp, isCRLF c = false) :
    (section_20_72 sdp params).isSome = true := by
  have h1 : (test_20_72_1 sdp params).isSome = true := by
    simp [test_20_72_1, extractMTParams_isSome sdp _ h]
  have h3 : (test_20_72_3 sdp params).isSome = true := by
    simp [test_20_72_3, extractMTParams_isSome sdp _ h]
  simp [section_20_72, concatResults_cons_isSome, concatResults_nil_isSome, h1, h3,
    test_20_72_2, test_20_72_4, test_20_72_5, forStreams_isSome _ sdp params h]

theorem section_20_73_isSome (sdp : Str) (params : Params) (h : ∃ c ∈ sdp, isCRLF c = false) :
    (section_20_73 sdp params).isSome = true := by
  simp [section_20_73, concatResults_cons_isSome, concatResults_nil_isSome,
    test_20_73_1, test_20_73_2, test_20_73_3, test_20_73_4, test_20_73_5,
    forStreams_isSome _ sdp params h]

theorem section_20_74_isSome (sdp : Str) (params : Params) (h : ∃ c ∈ sdp, isCRLF c = false) :
    (section_20_74 sdp params).isSome = true := by
  simp [section_20_74, concatResults_cons_isSome, concatResults_nil_isSome,
    test_20_74_1, test_20_74_2, forStreams_isSome _ sdp params h]

theorem section_20_75_isSome (sdp : Str) (params : Params) (h : ∃ c ∈ sdp, isCRLF c = false) :
    (section_20_75 sdp params).isSome = true := by
  have h2 : (test_20_75_2 sdp params).isSome = true := by
    unfold test_20_75_2
    split
    · rfl
    · exact forStreams_isSome _ sdp params h
  simp [section_20_75, concatResults_cons_isSome, concatResults_nil_isSome,
    test_20_75_1, h2, forStreams_isSome _ sdp params h]

theorem section_20_76_isSome (sdp : Str) (params : Params) (h : ∃ c ∈ sdp, isCRLF c = false) :
    (section_20_76 sdp params).isSome = true := by
  simp [section_20_76, concatResults_cons_isSome, concatResults_nil_isSome,
    test_20_76_1, forStreams_isSome _ sdp params h]

theorem section_30_62_isSome (sdp : Str) (params : Params) (h : ∃ c ∈ sdp, isCRLF c = false) :
    (section_30_62 sdp params).isSome = true := by
  simp [section_30_62, concatResults_cons_isSome, concatResults_nil_isSome, test_30_62_1,
    test_30_62_2, test_30_62_3, test_30_62_4, splitLines_isSome h]

theorem shaping_isSome (check : StreamParams → List Finding) (sdp : Str) (params : Params)
    (h : ∃ c ∈ sdp, isCRLF c = false) :
    (if shapingSkipped params then some [] else forStreams check sdp params).isSome = true := by
  split
  · rfl
  · exact forStreams_isSome _ sdp params h

theorem section_21_81_isSome (sdp : Str) (params : Params) (h : ∃ c ∈ sdp, isCRLF c = false) :
    (section_21_81 sdp params).isSome = true := by
  simp only [section_21_81, concatResults_cons_isSome, concatResults_nil_isSome, test_21_81_1,
    test_21_81_2, shaping_isSome _ sdp params h, Bool.and_self]

theorem section_21_82_isSome (sdp : Str) (params : Params) (h : ∃ c ∈ sdp, isCRLF c = false) :
    (section_21_82 sdp params).isSome = true := by
  simp only [section_21_82, concatResults_cons_isSome, concatResults_nil_isSome, test_21_82_1,
    test_21_82_2, shaping_isSome _ sdp params h, Bool.and_self]

/-- Under the ST 2110-20 profile with `noCopy` set, allSections returns on every text with
a non-empty line on which no_copy_20 returns, and its output ends with that of
no_copy_20. -/
theorem allSections_20_ends_with_copy (sdp : Str) (params : Params) (fs : List Finding)
    (h : ∃ c ∈ sdp, isCRLF c = false) (h22 : params.smpte2110_22 = false)
    (hc : params.noCopy = true) (hn : no_copy_20 sdp = some fs) :
    ∃ gs, allSections sdp params = some (gs ++ fs) := by
  unfold allSections
  rw [h22, hc, hn]
  simp only [Bool.false_eq_true, if_false, if_true]
  apply concatResults_append_one
  simp only [concatResults_cons_isSome, concatResults_nil_isSome, section_10_62_isSome sdp params h,
    section_10_74_isSome, section_10_81_isSome, section_10_82_isSome sdp params h,
    section_10_83_isSome sdp params h, section_20_71_isSome sdp params h,
    section_20_72_isSome sdp params h, section_20_73_isSome sdp params h,
    section_20_74_isSome sdp params h, section_20_75_isSome sdp params h,
    section_20_76_isSome sdp params h, section_30_62_isSome sdp params h,
    section_21_81_isSome sdp params h, section_21_82_isSome sdp params h, Bool.and_self]

/-- C10: specExample20 submitted unmodified yields exactly the one copy Finding from
no_copy_20, and for every configuration of the ST 2110-20 profile with noCopy set
allSections returns on it a sequence that ends with that copy Finding; specExample22
submitted unmodified yields exactly the one copy Finding from no_copy_22. -/
theorem examples_flagged_as_copies (params : Params) :
    no_copy_20 specExample20 = some [Finding.copy] ∧
    (∃ gs, allSections specExample20 { params with smpte2110_22 := false, noCopy := true } =
      some (gs ++ [Finding.copy])) ∧
    no_copy_22 specExample22 = some [Finding.copy] := by
  have h20 : no_copy_20 specExample20 = some [Finding.copy] := by decide!
  exact ⟨h20,
    allSections_20_ends_with_copy specExample20 _ [Finding.copy] ⟨'v', by decide!, by decide!⟩
      rfl rfl h20,
    by decide!⟩

/-! ## Altering a line of a copy -/

theorem splitLines_of_ne_nil {s : Str} (h : lineRuns s ≠ []) :
    splitLines s = some (lineRuns s) := by
  unfold splitLines
  cases hl : lineRuns s with
  | nil => exact absurd hl h
  | cons a l => rfl

/-- C11 (amended): for every submission, flagged or not, and every index `x` below the two
line counts, a text whose lines are those of the trimmed submission with line `x` replaced
by a line that, white space collapsed, does not start with line `x` of the reference, is
not flagged: no_copy returns the empty sequence. -/
theorem altered_line_defeats_copy (sdp altered specSDP : Str) (x : Nat) (line : Str)
    (hx : x < (lineRuns (trim sdp)).length) (hxe : x < (lineRuns specSDP).length)
    (hrep : lineRuns (trim altered) = (lineRuns (trim sdp)).set x line)
    (hline : startsWith ((Re.plus (.cls isSpace)).replaceG line " ".toList)
      ((lineRuns specSDP).getD x []) = false) :
    no_copy altered specSDP = some [] := by
  have hlen : (lineRuns (trim altered)).length = (lineRuns (trim sdp)).length := by
    rw [hrep, List.length_set]
  have h1 : lineRuns (trim altered) ≠ [] := by
    intro h0
    rw [h0] at hlen
    simp only [List.length_nil] at hlen
    omega
  have h2 : lineRuns specSDP ≠ [] := by
    intro h0
    rw [h0] at hxe
    simp at hxe
  have hloop : noCopyLoop (lineRuns (trim altered)) (lineRuns specSDP) = false := by
    cases hl : noCopyLoop (lineRuns (trim altered)) (lineRuns specSDP) with
    | false => rfl
    | true =>
      have h := (noCopyLoop_iff _ _).1 hl x (by rw [hlen]; exact lt_min hx hxe)
      have hg : (lineRuns (trim altered)).getD x [] = line := by
        rw [hrep, List.getD_eq_getElem?_getD, List.getElem?_set_self hx]
        rfl
      rw [hg, hline] at h
      cases h
  unfold no_copy
  rw [splitLines_of_ne_nil h1, splitLines_of_ne_nil h2]
  simp [hloop]

/-- C11 (witness): the second line of a flagged two-line submission is replaced. -/
theorem altered_line_defeats_copy_witness :
    no_copy "v=0\ns=mine\n".toList specExample20 = some [] :=
  altered_line_defeats_copy "v=0\no=- 123456 11 IN IP4 192.168.100.2\n".toList
    "v=0\ns=mine\n".toList specExample20 1 "s=mine".toList (by decide!) (by decide!)
    (by decide!) (by decide!)

/-- C11 (counterexample): the submission `v=0`, `o=- 123456 11 IN IP4 192.168.100.2` is
flagged; its line 0 replaced by the different line `v=0 and more`, it is flagged still. -/
theorem altered_line_still_copy :
    no_copy "v=0\no=- 123456 11 IN IP4 192.168.100.2\n".toList specExample20 =
      some [Finding.copy] ∧
    lineRuns (trim "v=0 and more\no=- 123456 11 IN IP4 192.168.100.2\n".toList) =
      (lineRuns (trim "v=0\no=- 123456 11 IN IP4 192.168.100.2\n".toList)).set 0
        "v=0 and more".toList ∧
    (lineRuns (trim "v=0\no=- 123456 11 IN IP4 192.168.100.2\n".toList)).get? 0 ≠
      some "v=0 and more".toList ∧
    no_copy "v=0 and more\no=- 123456 11 IN IP4 192.168.100.2\n".toList specExample20 =
      some [Finding.copy] := by
  decide!

/-! ## The composition of allSections -/

theorem concatResults_map_iff {α : Type} (g : α → Option (List Finding)) :
    ∀ (fs : List α) (out : List Finding),
      concatResults (fs.map g) = some out ↔
        ∃ outs, List.Forall₂ (fun s o => g s = some o) fs outs ∧ out = outs.flatten
  | [], out => by
    simp only [List.map_nil, concatResults, Option.some.injEq]
    constructor
    · intro h
      exact ⟨[], List.Forall₂.nil, by simp [← h]⟩
    · rintro ⟨outs, h, rfl⟩
      cases h
      rfl
  | f :: fs, out => by
    simp only [List.map_cons, concatResults]
    cases hg : g f with
    | none =>
      constructor
      · intro h; cases h
      · rintro ⟨outs, h, -⟩
        cases h with
        | cons h1 _ => rw [hg] at h1; cases h1
    | some o1 =>
      cases hc : concatResults (fs.map g) with
      | none =>
        constructor
        · intro h; cases h
        · rintro ⟨outs, h, -⟩
          cases h with
          | cons h1 h2 =>
            have := (concatResults_map_iff g fs _).2 ⟨_, h2, rfl⟩
            rw [hc] at this
            cases this
      | some o2 =>
        obtain ⟨outs, h2, e2⟩ := (concatResults_map_iff g fs o2).1 hc
        simp only [Option.some.injEq]
        constructor
        · intro h
          exact ⟨o1 :: outs, List.Forall₂.cons hg h2, by simp [← h, e2]⟩
        · rintro ⟨outs1, h, rfl⟩
          cases h with
          | cons h1 h3 =>
            rw [hg] at h1
            cases h1
            have := (concatResults_map_iff g fs _).2 ⟨_, h3, rfl⟩
            rw [hc] at this
            cases this
            simp

/-- C12: for every SDP and configuration, allSections returns a sequence exactly when
every section of the selected profile, and the copy test of the profile when noCopy is
set, returns one, and the sequence is then the concatenation of theirs in the listed
order: the ST 2110-20 list holds no section_22 and the ST 2110-22 list no section_20,
section_30 or section_21. -/
theorem allSections_is_concatenation (sdp : Str) (params : Params) (out : List Finding) :
    allSections sdp params = some out ↔
      ∃ outs, List.Forall₂ (fun s o => s sdp params = some o)
        (profileSections params ++ profileCopy params) outs ∧ out = outs.flatten := by
  have h := concatResults_map_iff (fun (s : Str → Params → Option (List Finding)) => s sdp params)
    (profileSections params ++ profileCopy params) out
  rw [← h]
  unfold allSections profileSections profileCopy
  cases params.smpte2110_22 <;> cases params.noCopy <;> rfl

/-! ## Where the sections return -/

theorem section_22_53_isSome (sdp : Str) (params : Params) (h : ∃ c ∈ sdp, isCRLF c = false) :
    (section_22_53 sdp params).isSome = true := by
  simp only [section_22_53, concatResults_cons_isSome, concatResults_nil_isSome, test_22_53_1,
    shaping_isSome _ sdp params h, Bool.and_self]

theorem section_22_6_isSome (sdp : Str) (params : Params) (h : ∃ c ∈ sdp, isCRLF c = false) :
    (section_22_6 sdp params).isSome = true := by
  simp [section_22_6, concatResults_cons_isSome, concatResults_nil_isSome, test_22_6,
    checkStreamsRtpMap, splitLines_isSome h]

theorem section_22_71_isSome (sdp : Str) (params : Params) (h : ∃ c ∈ sdp, isCRLF c = false) :
    (section_22_71 sdp params).isSome = true := by
  simp [section_22_71, concatResults_cons_isSome, concatResults_nil_isSome, test_22_71_1,
    test_10_62_1, splitLines_isSome h]

theorem section_22_72_isSome (sdp : Str) (params : Params) (h : ∃ c ∈ sdp, isCRLF c = false) :
    (section_22_72 sdp params).isSome = true := by
  simp [section_22_72, concatResults_cons_isSome, concatResults_nil_isSome, test_22_72_1,
    forStreams_isSome _ sdp _ h]

theorem section_22_73_isSome (sdp : Str) (params : Params) (h : ∃ c ∈ sdp, isCRLF c = false) :
    (section_22_73 sdp params).isSome = true := by
  simp [section_22_73, concatResults_cons_isSome, concatResults_nil_isSome, test_22_73_1,
    splitLines_isSome h]

theorem section_22_74_isSome (sdp : Str) (params : Params) (h : ∃ c ∈ sdp, isCRLF c = false) :
    (section_22_74 sdp params).isSome = true := by
  have h1 := extractMTParams_isSome sdp params h
  obtain ⟨r, hr⟩ := Option.isSome_iff_exists.1 h1
  simp [section_22_74, concatResults_cons_isSome, concatResults_nil_isSome, test_22_74_1,
    splitLines_isSome h, hr]

theorem section_10_83_always (sdp : Str) (params : Params) :
    (section_10_83 sdp params).isSome = true := by
  have hline : ∀ w : Str, (Re.lit w).test sdp = true → w ≠ [] → (∀ c ∈ w, isCRLF c = false) →
      ∃ c ∈ sdp, isCRLF c = false := by
    intro w ht hw hc
    obtain ⟨u, w1, v, hs, hd⟩ := test_eq_true_iff.1 ht
    have hu := den_lit.1 hd
    cases w with
    | nil => exact absurd rfl hw
    | cons c cs =>
      refine ⟨c, ?_, hc c (List.mem_cons_self _ _)⟩
      rw [hs, hu]
      simp
  have h2 : (test_10_83_2 sdp params).isSome = true := by
    unfold test_10_83_2
    split
    · rfl
    · rename_i ht
      have ht1 : (Re.lit "a=ssrc-group".toList).test sdp = true := by simpa using ht
      have := hline _ ht1 (by decide) (by decide)
      simp [splitLines_isSome this]
  have h3 : (test_10_83_3 sdp params).isSome = true := by
    unfold test_10_83_3
    split
    · rfl
    · rename_i ht
      have ht1 : (Re.lit "a=group".toList).test sdp = true := by simpa using ht
      have := hline _ ht1 (by decide) (by decide)
      simp [splitLines_isSome this]
  simp [section_10_83, concatResults_cons_isSome, concatResults_nil_isSome, h2, h3]

theorem no_copy_isSome (sdp specSDP : Str) (hs : ∃ c ∈ sdp, isSpace c = false)
    (hr : ∃ c ∈ specSDP, isCRLF c = false) : (no_copy sdp specSDP).isSome = true := by
  have h1 : splitLines (trim sdp) = some (lineRuns (trim sdp)) := by
    apply splitLines_isSome
    obtain ⟨c, hc, hsp⟩ := trim_nonspace hs
    refine ⟨c, hc, ?_⟩
    cases hcr : isCRLF c with
    | false => rfl
    | true => rw [isSpace_of_isCRLF hcr] at hsp; cases hsp
  have h2 := splitLines_isSome hr
  unfold no_copy
  rw [h1, h2]
  rfl

/-- C13 (amended): on every text with a non-empty line every exported section returns a
Finding sequence, for every configuration, and so does allSections when noCopy is not
set; on every text with a character that is not white space no_copy_20, no_copy_22 and
allSections return a Finding sequence, for every configuration; section_10_74,
section_10_81 and section_10_83 return on every text. -/
theorem sections_return_on_lines (sdp : Str) (params : Params) :
    ((section_10_74 sdp params).isSome = true ∧ (section_10_81 sdp params).isSome = true ∧
      (section_10_83 sdp params).isSome = true) ∧
    ((∃ c ∈ sdp, isCRLF c = false) →
      (section_10_62 sdp params).isSome = true ∧ (section_10_82 sdp params).isSome = true ∧
      (section_20_71 sdp params).isSome = true ∧ (section_20_72 sdp params).isSome = true ∧
      (section_20_73 sdp params).isSome = true ∧ (section_20_74 sdp params).isSome = true ∧
      (section_20_75 sdp params).isSome = true ∧ (section_20_76 sdp params).isSome = true ∧
      (section_22_53 sdp params).isSome = true ∧ (section_22_6 sdp params).isSome = true ∧
      (section_22_71 sdp params).isSome = true ∧ (section_22_72 sdp params).isSome = true ∧
      (section_22_73 sdp params).isSome = true ∧ (section_22_74 sdp params).isSome = true ∧
      (section_30_62 sdp params).isSome = true ∧ (section_21_81 sdp params).isSome = true ∧
      (section_21_82 sdp params).isSome = true ∧
      (params.noCopy = false → (allSections sdp params).isSome = true)) ∧
    ((∃ c ∈ sdp, isSpace c = false) →
      (no_copy_20 sdp).isSome = true ∧ (no_copy_22 sdp).isSome = true ∧
      (allSections sdp params).isSome = true) := by
  have hall : (∃ c ∈ sdp, isCRLF c = false) →
      (params.noCopy = true → (no_copy_20 sdp).isSome = true) →
      (params.noCopy = true → (no_copy_22 sdp).isSome = true) →
      (allSections sdp params).isSome = true := by
    intro h h20 h22
    have app : ∀ (rs ts : List (Option (List Finding))),
        (concatResults (rs ++ ts)).isSome = ((concatResults rs).isSome && (concatResults ts).isSome) := by
      intro rs ts
      induction rs with
      | nil => simp [concatResults_nil_isSome]
      | cons r rs ih => simp [concatResults_cons_isSome, ih, Bool.and_assoc]
    unfold allSections
    cases hc : params.noCopy <;> split <;>
      simp only [app, concatResults_cons_isSome, concatResults_nil_isSome,
        section_10_62_isSome sdp params h,
        section_10_74_isSome, section_10_81_isSome, section_10_82_isSome sdp params h,
        section_10_83_isSome sdp params h, section_20_71_isSome sdp params h,
        section_20_72_isSome sdp params h, section_20_73_isSome sdp params h,
        section_20_74_isSome sdp params h, section_20_75_isSome sdp params h,
        section_20_76_isSome sdp params h, section_30_62_isSome sdp params h,
        section_21_81_isSome sdp params h, section_21_82_isSome sdp params h,
        section_22_53_isSome sdp params h, section_22_6_isSome sdp params h,
        section_22_71_isSome sdp params h, section_22_72_isSome sdp params h,
        section_22_73_isSome sdp params h, section_22_74_isSome sdp params h, Bool.and_self,
        Bool.false_eq_true, if_false, if_true, Bool.true_and, Bool.and_true] <;>
      first | rfl | exact h20 hc | exact h22 hc
  refine ⟨⟨section_10_74_isSome sdp params, section_10_81_isSome sdp params,
    section_10_83_always sdp params⟩, ?_, ?_⟩
  · intro h
    refine ⟨section_10_62_isSome sdp params h, section_10_82_isSome sdp params h,
      section_20_71_isSome sdp params h, section_20_72_isSome sdp params h,
      section_20_73_isSome sdp params h, section_20_74_isSome sdp params h,
      section_20_75_isSome sdp params h, section_20_76_isSome sdp params h,
      section_22_53_isSome sdp params h, section_22_6_isSome sdp params h,
      section_22_71_isSome sdp params h, section_22_72_isSome sdp params h,
      section_22_73_isSome sdp params h, section_22_74_isSome sdp params h,
      section_30_62_isSome sdp params h, section_21_81_isSome sdp params h,
      section_21_82_isSome sdp params h, ?_⟩
    intro hc
    apply hall h <;> intro hc1 <;> rw [hc] at hc1 <;> cases hc1
  · intro hs
    have h : ∃ c ∈ sdp, isCRLF c = false := by
      obtain ⟨c, hc, hsp⟩ := hs
      refine ⟨c, hc, ?_⟩
      cases hcr : isCRLF c with
      | false => rfl
      | true => rw [isSpace_of_isCRLF hcr] at hsp; cases hsp
    have h20 : (no_copy_20 sdp).isSome = true :=
      no_copy_isSome sdp specExample20 hs ⟨'v', by decide!, by decide!⟩
    have h22 : (no_copy_22 sdp).isSome = true :=
      no_copy_isSome sdp specExample22 hs ⟨'v', by decide!, by decide!⟩
    exact ⟨h20, h22, hall h (fun _ => h20) (fun _ => h22)⟩

/-- C13 (witness): a text of one line. -/
theorem sections_return_on_lines_witness :
    (allSections "v=0".toList {}).isSome = true :=
  ((sections_return_on_lines "v=0".toList {}).2.2 ⟨'v', by decide!, by decide!⟩).2.2

/-- C13 (counterexample): on the empty text, and on a text of one line terminator,
allSections and section_10_62 do not return; on a text of one blank no_copy_20 does not
return, nor allSections with noCopy set. -/
theorem sections_throw_on_empty_text :
    allSections [] {} = none ∧ section_10_62 [] {} = none ∧
    allSections "\n".toList {} = none ∧ section_10_82 "\n".toList {} = none ∧
    no_copy_20 " ".toList = none ∧ allSections " ".toList { noCopy := true } = none := by
  decide!

/-! ## The options should, verbose and shaping -/

theorem forLines_all {σ : Type} (body : σ → Nat → Str → σ × List Finding) (P : Finding → Prop)
    (h : ∀ st x l, ∀ f ∈ (body st x l).2, P f) :
    ∀ (ls : List Str) (st : σ) (x : Nat), ∀ f ∈ (forLines body st x ls).2, P f
  | [], _, _ => by simp [forLines]
  | l :: ls, st, x => by
    intro f hf
    rw [forLines, List.mem_append] at hf
    rcases hf with hf | hf
    · exact h st x l f hf
    · exact forLines_all body P h ls _ _ f hf

/-- Without `should`, test_20_75_2 returns the empty sequence. -/
theorem test_20_75_2_skipped (sdp : Str) (params : Params) (h : params.should = false) :
    test_20_75_2 sdp params = some [] := by
  simp [test_20_75_2, h]

/-- Without `should`, test_30_62_4 reports no Finding about the SMPTE2110 convention. -/
theorem test_30_62_4_no_convention (sdp : Str) (params : Params) (h : params.should = false)
    (fs : List Finding) (hfs : test_30_62_4 sdp params = some fs) (line stream : Nat)
    (found : Str) : Finding.channelOrderConvention line stream found ∉ fs := by
  unfold test_30_62_4 at hfs
  cases hl : splitLines sdp with
  | none => rw [hl] at hfs; cases hfs
  | some lines =>
    rw [hl] at hfs
    simp only [Option.map_some', Option.some.injEq] at hfs
    subst hfs
    intro hmem
    rw [List.mem_append] at hmem
    rcases hmem with hmem | hmem
    · refine forLines_all (channelOrderStep params)
        (fun f => f ≠ Finding.channelOrderConvention line stream found) ?_ lines _ _ _ hmem rfl
      intro st x l f hf hcon
      subst hcon
      unfold channelOrderStep checkChannelOrder at hf
      simp only [h] at hf
      repeat' split at hf
      all_goals simp_all
    · split at hmem
      · simp only [List.mem_singleton] at hmem; cases hmem
      · cases hmem

/-- C14 (the code at the failing input): neither `should` nor `verbose` is set, and
test_10_81_2 reports the mediaclk line that does not use the direct reference; with
`verbose` set as well it returns the empty sequence. -/
theorem mediaclk_should_rule_runs_unrequested :
    test_10_81_2 "v=0\nm=video 50000 RTP/AVP 112\na=mediaclk:sender\n".toList
      { should := false, verbose := false } =
      [Finding.mediaclkNotDirect "a=mediaclk:sender".toList] ∧
    test_10_81_2 "v=0\nm=video 50000 RTP/AVP 112\na=mediaclk:sender\n".toList
      { should := false, verbose := true } = [] := by
  decide!

/-- C15 (the code at the failing input): two configurations that differ only in `verbose`
and two different Finding sequences of allSections. -/
theorem verbose_changes_findings :
    allSections
      ("v=0\nm=video 50000 RTP/AVP 112\na=rtpmap:112 raw/90000\n" ++
       "a=fmtp:112 sampling=YCbCr-4:2:2; width=1280; height=720; " ++
       "exactframerate=60000/1001; depth=10; TCS=SDR; colorimetry=BT709; PM=2110GPM; " ++
       "SSN=ST2110-20:2017;\n" ++
       "a=ts-refclk:ptp=IEEE1588-2008:39-A7-94-FF-FE-07-CB-D0:37\n" ++
       "a=mediaclk:sender\n").toList { verbose := false } =
      some [Finding.mediaclkNotDirect "a=mediaclk:sender".toList] ∧
    allSections
      ("v=0\nm=video 50000 RTP/AVP 112\na=rtpmap:112 raw/90000\n" ++
       "a=fmtp:112 sampling=YCbCr-4:2:2; width=1280; height=720; " ++
       "exactframerate=60000/1001; depth=10; TCS=SDR; colorimetry=BT709; PM=2110GPM; " ++
       "SSN=ST2110-20:2017;\n" ++
       "a=ts-refclk:ptp=IEEE1588-2008:39-A7-94-FF-FE-07-CB-D0:37\n" ++
       "a=mediaclk:sender\n").toList { verbose := true } = some [] := by
  decide!

/-- C16: when `shaping` is false, test_21_81_1, test_21_81_2, test_21_82_1, test_21_82_2
and test_22_53_1 each return the empty Finding sequence, for every SDP and every value of
the other options. -/
theorem shaping_rules_off (sdp : Str) (params : Params) (h : params.shaping = false) :
    test_21_81_1 sdp params = some [] ∧ test_21_81_2 sdp params = some [] ∧
    test_21_82_1 sdp params = some [] ∧ test_21_82_2 sdp params = some [] ∧
    test_22_53_1 sdp params = some [] := by
  simp [test_21_81_1, test_21_81_2, test_21_82_1, test_21_82_2, test_22_53_1, shapingSkipped, h]

/-- C16 (witness): a stream without TP, with a TROFF that is no number and a negative
CMAX. -/
theorem shaping_rules_off_witness :
    test_21_81_1 "v=0\nm=video 50000 RTP/AVP 112\na=fmtp:112 TROFF=x; CMAX=-1\n".toList {} =
      some [] ∧
    test_21_81_2 "v=0\nm=video 50000 RTP/AVP 112\na=fmtp:112 TROFF=x; CMAX=-1\n".toList {} =
      some [] ∧
    test_21_82_1 "v=0\nm=video 50000 RTP/AVP 112\na=fmtp:112 TROFF=x; CMAX=-1\n".toList {} =
      some [] ∧
    test_21_82_2 "v=0\nm=video 50000 RTP/AVP 112\na=fmtp:112 TROFF=x; CMAX=-1\n".toList {} =
      some [] ∧
    test_22_53_1 "v=0\nm=video 50000 RTP/AVP 112\na=fmtp:112 TROFF=x; CMAX=-1\n".toList {} =
      some [] :=
  shaping_rules_off "v=0\nm=video 50000 RTP/AVP 112\na=fmtp:112 TROFF=x; CMAX=-1\n".toList {} rfl

/-! ## The option audioOnly -/

theorem concatResults_filter_congr (p : Finding → Bool) :
    ∀ (rs ts : List (Option (List Finding))),
      List.Forall₂ (fun r t => r.map (List.filter p) = t.map (List.filter p)) rs ts →
      (concatResults rs).map (List.filter p) = (concatResults ts).map (List.filter p)
  | _, _, .nil => rfl
  | r :: rs, t :: ts, .cons h hs => by
    have ih := concatResults_filter_congr p rs ts hs
    cases r <;> cases t <;> simp only [Option.map_none', Option.map_some', concatResults] at h ⊢
    · cases h
    · cases h
    · cases hr : concatResults rs <;> cases ht : concatResults ts <;>
        rw [hr, ht] at ih <;> simp only [Option.map_none', Option.map_some'] at ih ⊢
      · cases ih
      · cases ih
      · simp only [Option.some.injEq] at h ih
        simp [List.filter_append, h, ih]

theorem test_30_62_5_only_notAudio (sdp : Str) (params : Params) :
    (test_30_62_5 sdp params).filter (fun f => !f.isNotAudio) = [] := by
  rw [List.filter_eq_nil_iff]
  intro f hf
  unfold test_30_62_5 at hf
  split at hf
  · rw [List.mem_flatMap] at hf
    obtain ⟨p, -, hp⟩ := hf
    split at hp
    · simp only [List.mem_singleton] at hp
      subst hp
      simp [Finding.isNotAudio]
    · cases hp
  · cases hf

/-- C17 (amended): for every SDP and every two configurations that differ only in
audioOnly, every section other than section_30_62 and the traffic shaping sections, and
the rules test_30_62_1 to test_30_62_4, return the same; the traffic shaping rules return
the empty sequence when audioOnly is set; and when shaping is false the traffic shaping
sections return the same as well, and the outputs of allSections differ only by the
Findings of test_30_62_5. -/
theorem audioOnly_frame (sdp : Str) (params : Params) (a b : Bool) :
    (section_10_62 sdp { params with audioOnly := a } =
        section_10_62 sdp { params with audioOnly := b } ∧
      section_10_74 sdp { params with audioOnly := a } =
        section_10_74 sdp { params with audioOnly := b } ∧
      section_10_81 sdp { params with audioOnly := a } =
        section_10_81 sdp { params with audioOnly := b } ∧
      section_10_82 sdp { params with audioOnly := a } =
        section_10_82 sdp { params with audioOnly := b } ∧
      section_10_83 sdp { params with audioOnly := a } =
        section_10_83 sdp { params with audioOnly := b } ∧
      section_20_71 sdp { params with audioOnly := a } =
        section_20_71 sdp { params with audioOnly := b } ∧
      section_20_72 sdp { params with audioOnly := a } =
        section_20_72 sdp { params with audioOnly := b } ∧
      section_20_73 sdp { params with audioOnly := a } =
        section_20_73 sdp { params with audioOnly := b } ∧
      section_20_74 sdp { params with audioOnly := a } =
        section_20_74 sdp { params with audioOnly := b } ∧
      section_20_75 sdp { params with audioOnly := a } =
        section_20_75 sdp { params with audioOnly := b } ∧
      section_20_76 sdp { params with audioOnly := a } =
        section_20_76 sdp { params with audioOnly := b } ∧
      section_22_6 sdp { params with audioOnly := a } =
        section_22_6 sdp { params with audioOnly := b } ∧
      section_22_71 sdp { params with audioOnly := a } =
        section_22_71 sdp { params with audioOnly := b } ∧
      section_22_72 sdp { params with audioOnly := a } =
        section_22_72 sdp { params with audioOnly := b } ∧
      section_22_73 sdp { params with audioOnly := a } =
        section_22_73 sdp { params with audioOnly := b } ∧
      section_22_74 sdp { params with audioOnly := a } =
        section_22_74 sdp { params with audioOnly := b } ∧
      test_30_62_1 sdp { params with audioOnly := a } =
        test_30_62_1 sdp { params with audioOnly := b } ∧
      test_30_62_2 sdp { params with audioOnly := a } =
        test_30_62_2 sdp { params with audioOnly := b } ∧
      test_30_62_3 sdp { params with audioOnly := a } =
        test_30_62_3 sdp { params with audioOnly := b } ∧
      test_30_62_4 sdp { params with audioOnly := a } =
        test_30_62_4 sdp { params with audioOnly := b }) ∧
    (test_21_81_1 sdp { params with audioOnly := true } = some [] ∧
      test_21_81_2 sdp { params with audioOnly := true } = some [] ∧
      test_21_82_1 sdp { params with audioOnly := true } = some [] ∧
      test_21_82_2 sdp { params with audioOnly := true } = some [] ∧
      test_22_53_1 sdp { params with audioOnly := true } = some []) ∧
    (params.shaping = false →
      section_21_81 sdp { params with audioOnly := a } =
        section_21_81 sdp { params with audioOnly := b } ∧
      section_21_82 sdp { params with audioOnly := a } =
        section_21_82 sdp { params with audioOnly := b } ∧
      section_22_53 sdp { params with audioOnly := a } =
        section_22_53 sdp { params with audioOnly := b } ∧
      (allSections sdp { params with audioOnly := a }).map
          (List.filter (fun f => !f.isNotAudio)) =
        (allSections sdp { params with audioOnly := b }).map
          (List.filter (fun f => !f.isNotAudio))) := by
  have h30 : (section_30_62 sdp { params with audioOnly := a }).map
        (List.filter (fun f => !f.isNotAudio)) =
      (section_30_62 sdp { params with audioOnly := b }).map
        (List.filter (fun f => !f.isNotAudio)) := by
    unfold section_30_62
    apply concatResults_filter_congr
    refine .cons rfl (.cons rfl (.cons rfl (.cons rfl (.cons ?_ .nil))))
    simp only [Option.map_some', test_30_62_5_only_notAudio]
  refine ⟨⟨rfl, rfl, rfl, rfl, rfl, rfl, rfl, rfl, rfl, rfl, rfl, rfl, rfl, rfl, rfl, rfl, rfl,
    rfl, rfl, rfl⟩, ?_, ?_⟩
  · simp [test_21_81_1, test_21_81_2, test_21_82_1, test_21_82_2, test_22_53_1, shapingSkipped]
  · intro hs
    have e1 : section_21_81 sdp { params with audioOnly := a } =
        section_21_81 sdp { params with audioOnly := b } := by
      simp [section_21_81, test_21_81_1, test_21_81_2, shapingSkipped, hs]
    have e2 : section_21_82 sdp { params with audioOnly := a } =
        section_21_82 sdp { params with audioOnly := b } := by
      simp [section_21_82, test_21_82_1, test_21_82_2, shapingSkipped, hs]
    have e3 : section_22_53 sdp { params with audioOnly := a } =
        section_22_53 sdp { params with audioOnly := b } := by
      simp [section_22_53, test_22_53_1, shapingSkipped, hs]
    refine ⟨e1, e2, e3, ?_⟩
    have fin : ∀ (rs ts : List (Option (List Finding))),
        List.Forall₂ (fun r t => r.map (List.filter (fun f => !f.isNotAudio)) =
          t.map (List.filter (fun f => !f.isNotAudio))) rs ts →
        (concatResults rs).map (List.filter (fun f => !f.isNotAudio)) =
          (concatResults ts).map (List.filter (fun f => !f.isNotAudio)) :=
      concatResults_filter_congr _
    unfold allSections
    dsimp only
    by_cases h22 : params.smpte2110_22 = true
    · simp only [if_pos h22]
      by_cases hc : params.noCopy = true
      · simp only [if_pos hc]
        apply fin
        simp only [List.cons_append, List.nil_append, e3]
        repeat' first
          | exact List.Forall₂.nil
          | refine List.Forall₂.cons ?_ ?_
        all_goals rfl
      · simp only [if_neg hc]
        apply fin
        simp only [List.append_nil, e3]
        repeat' first
          | exact List.Forall₂.nil
          | refine List.Forall₂.cons ?_ ?_
        all_goals rfl
    · simp only [if_neg h22]
      by_cases hc : params.noCopy = true
      · simp only [if_pos hc]
        apply fin
        simp only [List.cons_append, List.nil_append, e1, e2]
        repeat' first
          | exact List.Forall₂.nil
          | refine List.Forall₂.cons ?_ ?_
        all_goals first | rfl | exact h30
      · simp only [if_neg hc]
        apply fin
        simp only [List.append_nil, e1, e2]
        repeat' first
          | exact List.Forall₂.nil
          | refine List.Forall₂.cons ?_ ?_
        all_goals first | rfl | exact h30

/-- C17 (witness): a video stream without TP, shaping not set. -/
theorem audioOnly_frame_witness :
    (allSections "v=0\nm=video 50000 RTP/AVP 112\na=fmtp:112 width=1280\n".toList
        { audioOnly := true }).map (List.filter (fun f => !f.isNotAudio)) =
      (allSections "v=0\nm=video 50000 RTP/AVP 112\na=fmtp:112 width=1280\n".toList
        { audioOnly := false }).map (List.filter (fun f => !f.isNotAudio)) :=
  ((audioOnly_frame "v=0\nm=video 50000 RTP/AVP 112\na=fmtp:112 width=1280\n".toList {}
    true false).2.2 rfl).2.2.2

/-- C17 (counterexample): with shaping set, the Finding of test_21_81_1 about the missing
TP is in the output of allSections without audioOnly and not in the output with it. -/
theorem audioOnly_switches_shaping_rules :
    allSections
      ("v=0\nm=video 50000 RTP/AVP 112\na=rtpmap:112 raw/90000\n" ++
       "a=fmtp:112 sampling=YCbCr-4:2:2; width=1280; height=720; " ++
       "exactframerate=60000/1001; depth=10; TCS=SDR; colorimetry=BT709; PM=2110GPM; " ++
       "SSN=ST2110-20:2017;\n" ++
       "a=ts-refclk:ptp=IEEE1588-2008:39-A7-94-FF-FE-07-CB-D0:37\n" ++
       "a=mediaclk:direct=0\n").toList { shaping := true, audioOnly := false } =
      some [Finding.tpMissing 4 1] ∧
    allSections
      ("v=0\nm=video 50000 RTP/AVP 112\na=rtpmap:112 raw/90000\n" ++
       "a=fmtp:112 sampling=YCbCr-4:2:2; width=1280; height=720; " ++
       "exactframerate=60000/1001; depth=10; TCS=SDR; colorimetry=BT709; PM=2110GPM; " ++
       "SSN=ST2110-20:2017;\n" ++
       "a=ts-refclk:ptp=IEEE1588-2008:39-A7-94-FF-FE-07-CB-D0:37\n" ++
       "a=mediaclk:direct=0\n").toList { shaping := true, audioOnly := true } =
      some [Finding.notAudio 1] := by
  decide!

/-! ## No state is carried from one call to the next -/

theorem agrees_unchanged (r : Option (List Finding)) : Agrees (Stateful.unchanged r) r :=
  fun _ h => ⟨rfl, h⟩

theorem agrees_concat : ∀ (ts : List Stateful.Rule) (rs : List (Option (List Finding))),
    List.Forall₂ Agrees ts rs → Agrees (Stateful.concat ts) (concatResults rs)
  | _, _, .nil => fun _ h => ⟨rfl, h⟩
  | t :: ts, r :: rs, .cons h hs => by
    intro g h0
    obtain ⟨h1, h2⟩ := h g h0
    obtain ⟨h3, h4⟩ := agrees_concat ts rs hs (t g).1 h2
    cases r with
    | none =>
      simp only [Stateful.concat, concatResults, h1]
      exact ⟨trivial, h2⟩
    | some fs =>
      cases hc : concatResults rs with
      | none =>
        rw [hc] at h3
        simp only [Stateful.concat, concatResults, h1, h3, hc]
        exact ⟨trivial, h4⟩
      | some gs =>
        rw [hc] at h3
        simp only [Stateful.concat, concatResults, h1, h3, hc]
        exact ⟨trivial, h4⟩

theorem extractRun_lastIndex (sdp : Str) (params : Params) (st : ExtractState)
    (h : extractRun 0 sdp params = some st) : st.lastIndex = 0 := by
  unfold extractRun at h
  cases hl : splitLines sdp with
  | none => rw [hl] at h; cases h
  | some lines =>
    rw [hl] at h
    obtain ⟨st1, h1, h2⟩ := extractLoop_returns lines (extractInit 0) 0
    simp only at h
    rw [h1] at h
    cases h
    exact h2 rfl

theorem extract_agrees (sdp : Str) (params : Params) (g : Globals) (h0 : g.fmtpParams = 0) :
    (Stateful.extractMTParams sdp params g).2 = extractMTParams sdp params ∧
    (Stateful.extractMTParams sdp params g).1.fmtpParams = 0 := by
  unfold Stateful.extractMTParams extractMTParams
  rw [h0]
  cases h : extractRun 0 sdp params with
  | none => exact ⟨rfl, h0⟩
  | some st => exact ⟨rfl, extractRun_lastIndex sdp params st h⟩

theorem agrees_forStreams (check : StreamParams → List Finding) (sdp : Str) (params : Params) :
    Agrees (Stateful.forStreams check sdp params) (forStreams check sdp params) := by
  intro g h0
  obtain ⟨h1, h2⟩ := extract_agrees sdp params g h0
  exact ⟨by simp only [Stateful.forStreams, forStreams, h1], h2⟩

theorem agrees_shaping (check : StreamParams → List Finding) (sdp : Str) (params : Params) :
    Agrees (Stateful.shaping check sdp params)
      (if shapingSkipped params then some [] else forStreams check sdp params) := by
  unfold Stateful.shaping
  split
  · exact agrees_unchanged _
  · exact agrees_forStreams _ _ _

theorem agrees_test_10_62_1 (sdp : Str) (params : Params) :
    Agrees (Stateful.test_10_62_1 sdp params) (test_10_62_1 sdp params) := by
  intro g h0
  unfold Stateful.test_10_62_1 test_10_62_1
  cases splitLines sdp with
  | none => exact ⟨rfl, h0⟩
  | some lines => exact ⟨rfl, h0⟩

theorem agrees_test_10_74_1 (sdp : Str) (params : Params) :
    Agrees (Stateful.test_10_74_1 sdp params) (some (test_10_74_1 sdp params)) :=
  fun _ h0 => ⟨rfl, h0⟩

theorem agrees_test_10_81_2 (sdp : Str) (params : Params) :
    Agrees (Stateful.test_10_81_2 sdp params) (some (test_10_81_2 sdp params)) := by
  intro g h0
  refine ⟨rfl, ?_⟩
  unfold Stateful.test_10_81_2
  split <;> exact h0

theorem agrees_test_20_71_3 (sdp : Str) (params : Params) :
    Agrees (Stateful.test_20_71_3 sdp params) (test_20_71_3 sdp params) := by
  intro g h0
  unfold Stateful.test_20_71_3
  cases test_20_71_3 sdp params with
  | none => exact ⟨rfl, h0⟩
  | some e => exact ⟨rfl, h0⟩

theorem agrees_test_22_6 (sdp : Str) (params : Params) :
    Agrees (Stateful.test_22_6 sdp params) (test_22_6 sdp params) := by
  intro g h0
  unfold Stateful.test_22_6
  cases test_22_6 sdp params with
  | none => exact ⟨rfl, h0⟩
  | some e => exact ⟨rfl, h0⟩

theorem agrees_test_20_75_2 (sdp : Str) (params : Params) :
    Agrees (Stateful.test_20_75_2 sdp params) (test_20_75_2 sdp params) := by
  unfold Stateful.test_20_75_2 test_20_75_2
  split
  · exact agrees_unchanged _
  · exact agrees_forStreams _ _ _

theorem agrees_test_22_74_1 (sdp : Str) (params : Params) :
    Agrees (Stateful.test_22_74_1 sdp params) (test_22_74_1 sdp params) := by
  intro g h0
  obtain ⟨h1, h2⟩ := extract_agrees sdp params g h0
  unfold Stateful.test_22_74_1 test_22_74_1
  rw [h1]
  cases splitLines sdp <;> cases extractMTParams sdp params <;> exact ⟨rfl, h2⟩
theorem agrees_section_10_62 (sdp : Str) (params : Params) :
    Agrees (Stateful.section_10_62 sdp params) (section_10_62 sdp params) :=
  agrees_concat _ _ (.cons (agrees_test_10_62_1 sdp params) .nil)

theorem agrees_section_10_74 (sdp : Str) (params : Params) :
    Agrees (Stateful.section_10_74 sdp params) (section_10_74 sdp params) :=
  agrees_concat _ _ (.cons (agrees_test_10_74_1 sdp params) .nil)

theorem agrees_section_10_81 (sdp : Str) (params : Params) :
    Agrees (Stateful.section_10_81 sdp params) (section_10_81 sdp params) :=
  agrees_concat _ _ (.cons (agrees_unchanged _) (.cons (agrees_test_10_81_2 sdp params) .nil))

theorem agrees_section_10_82 (sdp : Str) (params : Params) :
    Agrees (Stateful.section_10_82 sdp params) (section_10_82 sdp params) :=
  agrees_concat _ _ (.cons (agrees_unchanged _) (.cons (agrees_unchanged _)
    (.cons (agrees_unchanged _) (.cons (agrees_unchanged _) .nil))))

theorem agrees_section_10_83 (sdp : Str) (params : Params) :
    Agrees (Stateful.section_10_83 sdp params) (section_10_83 sdp params) :=
  agrees_concat _ _ (.cons (agrees_unchanged _) (.cons (agrees_unchanged _)
    (.cons (agrees_unchanged _) .nil)))

theorem agrees_section_20_71 (sdp : Str) (params : Params) :
    Agrees (Stateful.section_20_71 sdp params) (section_20_71 sdp params) :=
  agrees_concat _ _ (.cons (agrees_unchanged _) (.cons (agrees_unchanged _)
    (.cons (agrees_test_20_71_3 sdp params) (.cons (agrees_unchanged _) .nil))))

theorem agrees_section_20_72 (sdp : Str) (params : Params) :
    Agrees (Stateful.section_20_72 sdp params) (section_20_72 sdp params) :=
  agrees_concat _ _ (.cons (agrees_forStreams check_20_72_1 sdp { checkDups := true })
    (.cons (agrees_forStreams check_20_72_2 sdp params)
    (.cons (agrees_forStreams check_20_72_3 sdp params)
    (.cons (agrees_forStreams check_20_72_4 sdp params)
    (.cons (agrees_forStreams check_20_72_5 sdp params) .nil)))))

theorem agrees_section_20_73 (sdp : Str) (params : Params) :
    Agrees (Stateful.section_20_73 sdp params) (section_20_73 sdp params) :=
  agrees_concat _ _ (.cons (agrees_forStreams check_20_73_1 sdp params)
    (.cons (agrees_forStreams check_20_73_2 sdp params)
    (.cons (agrees_forStreams check_20_73_3 sdp params)
    (.cons (agrees_forStreams check_20_73_4 sdp params)
    (.cons (agrees_forStreams check_20_73_5 sdp params) .nil)))))

theorem agrees_section_20_74 (sdp : Str) (params : Params) :
    Agrees (Stateful.section_20_74 sdp params) (section_20_74 sdp params) :=
  agrees_concat _ _ (.cons (agrees_forStreams _ sdp params)
    (.cons (agrees_forStreams _ sdp params) .nil))

theorem agrees_section_20_75 (sdp : Str) (params : Params) :
    Agrees (Stateful.section_20_75 sdp params) (section_20_75 sdp params) :=
  agrees_concat _ _ (.cons (agrees_forStreams _ sdp params)
    (.cons (agrees_test_20_75_2 sdp params) .nil))

theorem agrees_section_20_76 (sdp : Str) (params : Params) :
    Agrees (Stateful.section_20_76 sdp params) (section_20_76 sdp params) :=
  agrees_concat _ _ (.cons (agrees_forStreams _ sdp params) .nil)

theorem agrees_section_30_62 (sdp : Str) (params : Params) :
    Agrees (Stateful.section_30_62 sdp params) (section_30_62 sdp params) :=
  agrees_concat _ _ (.cons (agrees_unchanged _) (.cons (agrees_unchanged _)
    (.cons (agrees_unchanged _) (.cons (agrees_unchanged _) (.cons (agrees_unchanged _) .nil)))))

theorem agrees_section_21_81 (sdp : Str) (params : Params) :
    Agrees (Stateful.section_21_81 sdp params) (section_21_81 sdp params) :=
  agrees_concat _ _ (.cons (agrees_shaping _ sdp params) (.cons (agrees_shaping _ sdp params) .nil))

theorem agrees_section_21_82 (sdp : Str) (params : Params) :
    Agrees (Stateful.section_21_82 sdp params) (section_21_82 sdp params) :=
  agrees_concat _ _ (.cons (agrees_shaping _ sdp params) (.cons (agrees_shaping _ sdp params) .nil))

theorem agrees_section_22_53 (sdp : Str) (params : Params) :
    Agrees (Stateful.section_22_53 sdp params) (section_22_53 sdp params) :=
  agrees_concat _ _ (.cons (agrees_shaping _ sdp params) .nil)

theorem agrees_section_22_6 (sdp : Str) (params : Params) :
    Agrees (Stateful.section_22_6 sdp params) (section_22_6 sdp params) :=
  agrees_concat _ _ (.cons (agrees_test_22_6 sdp params) .nil)

theorem agrees_section_22_71 (sdp : Str) (params : Params) :
    Agrees (Stateful.section_22_71 sdp params) (section_22_71 sdp params) :=
  agrees_concat _ _ (.cons (agrees_test_10_62_1 sdp params) .nil)

theorem agrees_section_22_72 (sdp : Str) (params : Params) :
    Agrees (Stateful.section_22_72 sdp params) (section_22_72 sdp params) :=
  agrees_concat _ _ (.cons (agrees_forStreams check_22_72_1 sdp { checkDups := true }) .nil)

theorem agrees_section_22_73 (sdp : Str) (params : Params) :
    Agrees (Stateful.section_22_73 sdp params) (section_22_73 sdp params) :=
  agrees_concat _ _ (.cons (agrees_unchanged _) .nil)

theorem agrees_section_22_74 (sdp : Str) (params : Params) :
    Agrees (Stateful.section_22_74 sdp params) (section_22_74 sdp params) :=
  agrees_concat _ _ (.cons (agrees_test_22_74_1 sdp params) .nil)

theorem agrees_allSections (sdp : Str) (params : Params) :
    Agrees (Stateful.allSections sdp params) (allSections sdp params) := by
  unfold Stateful.allSections allSections
  by_cases h22 : params.smpte2110_22 = true
  · simp only [if_pos h22]
    by_cases hc : params.noCopy = true
    · simp only [if_pos hc, List.cons_append, List.nil_append]
      exact agrees_concat _ _
        (.cons (agrees_section_10_74 sdp params)
        (.cons (agrees_section_10_81 sdp params)
        (.cons (agrees_section_10_82 sdp params)
        (.cons (agrees_section_10_83 sdp params)
        (.cons (agrees_section_22_53 sdp params)
        (.cons (agrees_section_22_6 sdp params)
        (.cons (agrees_section_22_71 sdp params)
        (.cons (agrees_section_22_72 sdp params)
        (.cons (agrees_section_22_73 sdp params)
        (.cons (agrees_section_22_74 sdp params)
        (.cons (agrees_unchanged _) .nil)))))))))))
    · simp only [if_neg hc, List.append_nil]
      exact agrees_concat _ _
        (.cons (agrees_section_10_74 sdp params)
        (.cons (agrees_section_10_81 sdp params)
        (.cons (agrees_section_10_82 sdp params)
        (.cons (agrees_section_10_83 sdp params)
        (.cons (agrees_section_22_53 sdp params)
        (.cons (agrees_section_22_6 sdp params)
        (.cons (agrees_section_22_71 sdp params)
        (.cons (agrees_section_22_72 sdp params)
        (.cons (agrees_section_22_73 sdp params)
        (.cons (agrees_section_22_74 sdp params)
        .nil))))))))))
  · simp only [if_neg h22]
    by_cases hc : params.noCopy = true
    · simp only [if_pos hc, List.cons_append, List.nil_append]
      exact agrees_concat _ _
        (.cons (agrees_section_10_62 sdp params)
        (.cons (agrees_section_10_74 sdp params)
        (.cons (agrees_section_10_81 sdp params)
        (.cons (agrees_section_10_82 sdp params)
        (.cons (agrees_section_10_83 sdp params)
        (.cons (agrees_section_20_71 sdp params)
        (.cons (agrees_section_20_72 sdp params)
        (.cons (agrees_section_20_73 sdp params)
        (.cons (agrees_section_20_74 sdp params)
        (.cons (agrees_section_20_75 sdp params)
        (.cons (agrees_section_20_76 sdp params)
        (.cons (agrees_section_30_62 sdp params)
        (.cons (agrees_section_21_81 sdp params)
        (.cons (agrees_section_21_82 sdp params)
        (.cons (agrees_unchanged _) .nil)))))))))))))))
    · simp only [if_neg hc, List.append_nil]
      exact agrees_concat _ _
        (.cons (agrees_section_10_62 sdp params)
        (.cons (agrees_section_10_74 sdp params)
        (.cons (agrees_section_10_81 sdp params)
        (.cons (agrees_section_10_82 sdp params)
        (.cons (agrees_section_10_83 sdp params)
        (.cons (agrees_section_20_71 sdp params)
        (.cons (agrees_section_20_72 sdp params)
        (.cons (agrees_section_20_73 sdp params)
        (.cons (agrees_section_20_74 sdp params)
        (.cons (agrees_section_20_75 sdp params)
        (.cons (agrees_section_20_76 sdp params)
        (.cons (agrees_section_30_62 sdp params)
        (.cons (agrees_section_21_81 sdp params)
        (.cons (agrees_section_21_82 sdp params)
        .nil))))))))))))))

/-- C18: in every state in which the shared expression fmtpParams holds the match position
zero, as it does when the module is loaded, whatever positions mediaclkTypePattern and
mediaclkDirectPattern and whatever values the two global variables hold, a call of
allSections returns what the function of the text and the configuration alone gives and
leaves the match position of fmtpParams zero; so the same call after any call on another
text and configuration returns the same Finding sequence. -/
theorem allSections_leaves_no_state (sdp earlier : Str) (params earlierParams : Params)
    (g : Globals) (h0 : g.fmtpParams = 0) :
    (Stateful.allSections sdp params g).2 = allSections sdp params ∧
    (Stateful.allSections sdp params g).1.fmtpParams = 0 ∧
    (Stateful.allSections sdp params (Stateful.allSections earlier earlierParams g).1).2 =
      (Stateful.allSections sdp params g).2 ∧
    (Stateful.allSections sdp params (Stateful.allSections sdp params g).1).2 =
      (Stateful.allSections sdp params g).2 := by
  have h1 := agrees_allSections sdp params g h0
  have h2 := agrees_allSections earlier earlierParams g h0
  have h3 := agrees_allSections sdp params _ h2.2
  have h4 := agrees_allSections sdp params _ h1.2
  exact ⟨h1.1, h1.2, by rw [h3.1, h1.1], by rw [h4.1, h1.1]⟩

/-- C18 (witness): the ST 2110-20 example twice, from the state of the loaded module. -/
theorem allSections_leaves_no_state_witness :
    (Stateful.allSections specExample20 { noCopy := true }
        (Stateful.allSections specExample20 { noCopy := true } Globals.initial).1).2 =
      (Stateful.allSections specExample20 { noCopy := true } Globals.initial).2 :=
  (allSections_leaves_no_state specExample20 specExample20 { noCopy := true }
    { noCopy := true } Globals.initial rfl).2.2.2

/-! ## The destination group line -/

theorem run_plus_cls (p : Char → Bool) (c : Char) (ds rest : Str) (pos : Nat)
    (caps : List (Nat × Str)) (k : MState → Option MState) (hc : p c = true)
    (hp : ∀ d ∈ ds, p d = true) (hrest : ∀ d r, rest = d :: r → p d = false)
    (hk : (k ⟨pos + 1 + ds.length, rest, caps⟩).isSome = true) :
    (Re.plus (.cls p)).run ⟨pos, c :: (ds ++ rest), caps⟩ k =
      k ⟨pos + 1 + ds.length, rest, caps⟩ := by
  rw [run_plus, run_cls_cons, if_pos hc]
  exact run_star_cls p ds rest (pos + 1) caps k hrest hp hk

theorem run_grp_plus_cls (i : Nat) (p : Char → Bool) (c : Char) (ds rest : Str) (pos : Nat)
    (caps : List (Nat × Str)) (k : MState → Option MState) (hc : p c = true)
    (hp : ∀ d ∈ ds, p d = true) (hrest : ∀ d r, rest = d :: r → p d = false)
    (hk : (k ⟨pos + 1 + ds.length, rest, setCap i (c :: ds) caps⟩).isSome = true) :
    (Re.grp i (.plus (.cls p))).run ⟨pos, c :: (ds ++ rest), caps⟩ k =
      k ⟨pos + 1 + ds.length, rest, setCap i (c :: ds) caps⟩ := by
  have ht : (c :: (ds ++ rest)).take ((c :: (ds ++ rest)).length - rest.length) = c :: ds := by
    have e : (c :: (ds ++ rest)).length - rest.length = (c :: ds).length := by
      simp only [List.length_cons, List.length_append]
      omega
    rw [e, ← List.cons_append, List.take_left]
  rw [run_grp]
  rw [run_plus_cls p c ds rest pos caps _ hc hp hrest]
  · simp only [ht]
  · simp only [ht]
    exact hk

/-- A word without white space: what `\S+` takes whole. -/
theorem groupPattern_exec (a : Char) (A : Str) (b : Char) (B rest : Str)
    (hA : ∀ c ∈ a :: A, isSpace c = false) (hB : ∀ c ∈ b :: B, isSpace c = false)
    (hrest : ∀ c r, rest = c :: r → isSpace c = true) :
    ∃ m, groupPattern.exec ("a=group:DUP".toList ++ ' ' :: ((a :: A) ++ ' ' :: ((b :: B) ++ rest))) =
        some m ∧ m.cap 1 = some (a :: A) ∧ m.cap 2 = some (b :: B) := by
  have hsp : isSpace ' ' = true := by decide
  have hnA : ∀ d ∈ A, (fun c => !isSpace c) d = true := by
    intro d hd
    simp [hA d (List.mem_cons_of_mem _ hd)]
  have hnB : ∀ d ∈ B, (fun c => !isSpace c) d = true := by
    intro d hd
    simp [hB d (List.mem_cons_of_mem _ hd)]
  have hna : (fun c => !isSpace c) a = true := by simp [hA a (List.mem_cons_self _ _)]
  have hnb : (fun c => !isSpace c) b = true := by simp [hB b (List.mem_cons_self _ _)]
  have hrest2 : ∀ d r, rest = d :: r → (fun c => !isSpace c) d = false := by
    intro d r h
    simp [hrest d r h]
  have hrun : groupPattern.run ⟨0, "a=group:DUP".toList ++ ' ' :: ((a :: A) ++ ' ' :: ((b :: B) ++ rest)), []⟩
      some = some ⟨0 + "a=group:DUP".toList.length + 1 + 0 + 1 + A.length + 1 + 0 + 1 + B.length,
        rest, setCap 2 (b :: B) (setCap 1 (a :: A) [])⟩ := by
    unfold groupPattern
    rw [run_cat_cons, run_lit_append, run_cat_cons]
    have e1 : (' ' :: ((a :: A) ++ ' ' :: ((b :: B) ++ rest))) =
        ' ' :: ([] ++ ((a :: A) ++ ' ' :: ((b :: B) ++ rest))) := rfl
    have e2 : (' ' :: ((b :: B) ++ rest)) = ' ' :: ([] ++ ((b :: B) ++ rest)) := rfl
    have k4 : ∀ pos caps, (Re.cat [Re.grp 2 (.plus (.cls (fun c => !isSpace c)))]).run
        ⟨pos, (b :: B) ++ rest, caps⟩ some =
        some ⟨pos + 1 + B.length, rest, setCap 2 (b :: B) caps⟩ := by
      intro pos caps
      rw [run_cat_cons, List.cons_append,
        run_grp_plus_cls 2 _ b B rest pos caps _ hnb hnB hrest2 (by rw [run_cat_nil]; rfl),
        run_cat_nil]
    have k3 : ∀ pos caps, (Re.cat [Re.plus (.cls isSpace),
        Re.grp 2 (.plus (.cls (fun c => !isSpace c)))]).run
        ⟨pos, ' ' :: ((b :: B) ++ rest), caps⟩ some =
        some ⟨pos + 1 + 0 + 1 + B.length, rest, setCap 2 (b :: B) caps⟩ := by
      intro pos caps
      rw [run_cat_cons, e2, run_plus_cls isSpace ' ' [] _ pos caps _ hsp (by simp)
        (by intro d r h; cases h; simp [hB b (List.mem_cons_self _ _)])
        (by simp only [List.length_nil]; rw [k4]; rfl)]
      simp only [List.length_nil]
      rw [k4]
    have k2 : ∀ pos caps, (Re.cat [Re.grp 1 (.plus (.cls (fun c => !isSpace c))),
        Re.plus (.cls isSpace), Re.grp 2 (.plus (.cls (fun c => !isSpace c)))]).run
        ⟨pos, (a :: A) ++ ' ' :: ((b :: B) ++ rest), caps⟩ some =
        some ⟨pos + 1 + A.length + 1 + 0 + 1 + B.length, rest,
          setCap 2 (b :: B) (setCap 1 (a :: A) caps)⟩ := by
      intro pos caps
      rw [run_cat_cons, List.cons_append,
        run_grp_plus_cls 1 _ a A _ pos caps _ hna hnA
          (by intro d r h; cases h; simp [hsp]) (by rw [k3]; rfl), k3]
    rw [e1, run_plus_cls isSpace ' ' [] _ _ [] _ hsp (by simp)
      (by intro d r h; cases h; simp [hA a (List.mem_cons_self _ _)])
      (by simp only [List.length_nil, List.nil_append]; rw [k2]; rfl)]
    simp only [List.length_nil, List.nil_append]
    rw [k2]
  refine ⟨_, exec_of_run hrun, ?_, ?_⟩
  · simp [Match.cap, setCap, List.lookup]
  · simp [Match.cap, setCap, List.lookup]
theorem lineRuns_mem_infix : ∀ (t : List Str) (s : Str), lineRuns s = t →
    ∀ l ∈ t, ∃ u v, s = u ++ (l ++ v)
  | [], _, _, l, hl => by cases hl
  | l0 :: t, s, h, l, hl => by
    obtain ⟨u, v, hs, -, -, -, -, hv⟩ := lineRuns_eq_cons h
    rcases List.mem_cons.1 hl with rfl | hl
    · exact ⟨u, v, hs⟩
    · obtain ⟨u1, v1, hv1⟩ := lineRuns_mem_infix t v hv l hl
      exact ⟨u ++ (l0 ++ u1), v1, by rw [hs, hv1]; simp⟩

theorem lit_test_of_line {s l w : Str} (hl : l ∈ lineRuns s) (hw : startsWith l w = true) :
    (Re.lit w).test s = true := by
  obtain ⟨u, v, hs⟩ := lineRuns_mem_infix _ s rfl l hl
  obtain ⟨t, ht⟩ := startsWith_iff.1 hw
  apply test_eq_true_iff.2
  exact ⟨u, w, t ++ v, by rw [hs, ht]; simp, den_lit.2 rfl⟩

theorem forLines_cons {σ : Type} (body : σ → Nat → Str → σ × List Finding) (st : σ) (x : Nat)
    (l : Str) (ls : List Str) :
    forLines body st x (l :: ls) =
      ((forLines body (body st x l).1 (x + 1) ls).1,
        (body st x l).2 ++ (forLines body (body st x l).1 (x + 1) ls).2) := by
  rw [forLines]

theorem not_media_of_mid {l : Str} (h : startsWith l "a=mid:".toList = true) :
    startsWith l "m=".toList = false := by
  obtain ⟨t, rfl⟩ := startsWith_iff.1 h
  rfl

theorem midStep_media (st : List Str × Nat) (x : Nat) (l : Str)
    (h : startsWith l "m=".toList = true) :
    midStep st x l =
      ((if !truthy (st.1.get? st.2) then st.1 ++ [[]] else st.1, st.2 + 1), []) := by
  have h2 : startsWith l "a=mid:".toList = false := by
    cases h3 : startsWith l "a=mid:".toList with
    | false => rfl
    | true => rw [not_media_of_mid h3] at h; cases h
  unfold midStep
  simp only [h, h2, if_true, Bool.false_eq_true, if_false]

theorem midStep_other (st : List Str × Nat) (x : Nat) (l : Str)
    (h : startsWith l "m=".toList = false) (h2 : startsWith l "a=mid:".toList = false) :
    midStep st x l = (st, []) := by
  unfold midStep
  simp only [h, h2, Bool.false_eq_true, if_false]

theorem midStep_mid (st : List Str × Nat) (x : Nat) (l : Str)
    (h2 : startsWith l "a=mid:".toList = true) :
    midStep st x l =
      if st.1.contains (slice l 6) then (st, [Finding.midDuplicate (x + 1) (slice l 6)])
      else if truthy (st.1.get? st.2) then
        (st, [Finding.midTwo (x + 1) (slice l 6) ((st.1.get? st.2).getD [])])
      else ((st.1 ++ [slice l 6], st.2), []) := by
  unfold midStep
  simp only [not_media_of_mid h2, h2, Bool.false_eq_true, if_false, if_true]

theorem midStep_mono (st : List Str × Nat) (x : Nat) (l : Str) (g : Str) (hg : g ∈ st.1) :
    g ∈ (midStep st x l).1.1 := by
  cases hm : startsWith l "m=".toList with
  | true =>
    rw [midStep_media st x l hm]
    simp only
    split
    · exact List.mem_append_left _ hg
    · exact hg
  | false =>
    cases h2 : startsWith l "a=mid:".toList with
    | false => rw [midStep_other st x l hm h2]; exact hg
    | true =>
      rw [midStep_mid st x l h2]
      split
      · exact hg
      · split
        · exact hg
        · exact List.mem_append_left _ hg

theorem forLines_midStep_mono : ∀ (ls : List Str) (st : List Str × Nat) (x : Nat) (g : Str),
    g ∈ st.1 → g ∈ (forLines midStep st x ls).1.1
  | [], _, _, _, hg => hg
  | l :: ls, st, x, g, hg => by
    rw [forLines_cons]
    exact forLines_midStep_mono ls _ _ g (midStep_mono st x l g hg)

/-- Every `a=mid:` line leaves its identifier among `mids`, unless it is reported as the
second identifier of one stream. -/
theorem mid_recorded : ∀ (ls : List Str) (st : List Str × Nat) (x0 i : Nat) (X : Str),
    midAt ls i = some X →
    X ∈ (forLines midStep st x0 ls).1.1 ∨
      ∃ o, Finding.midTwo (x0 + i + 1) X o ∈ (forLines midStep st x0 ls).2
  | [], _, _, i, X, h => by simp [midAt] at h
  | l :: ls, st, x0, 0, X, h => by
    simp only [midAt, List.get?_cons_zero] at h
    split at h
    · rename_i h2
      cases h
      rw [forLines_cons, midStep_mid st x0 l h2]
      split
      · rename_i hc
        left
        apply forLines_midStep_mono
        simpa using hc
      · split
        · right
          exact ⟨_, List.mem_append_left _ (List.mem_singleton.2 rfl)⟩
        · left
          apply forLines_midStep_mono
          simp
    · cases h
  | l :: ls, st, x0, i + 1, X, h => by
    have h1 : midAt ls i = some X := by simpa [midAt] using h
    rw [forLines_cons]
    rcases mid_recorded ls (midStep st x0 l).1 (x0 + 1) i X h1 with hm | ⟨o, ho⟩
    · exact Or.inl hm
    · right
      refine ⟨o, List.mem_append_right _ ?_⟩
      have e : x0 + (i + 1) + 1 = x0 + 1 + i + 1 := by omega
      rw [e]
      exact ho

/-- What `mids` holds in the end was there at the start, or is the empty text pushed at a
media line, or the identifier of an `a=mid:` line. -/
theorem mids_are_identifiers : ∀ (ls : List Str) (st : List Str × Nat) (x0 : Nat) (g : Str),
    g ∈ (forLines midStep st x0 ls).1.1 → g ∈ st.1 ∨ g = [] ∨ ∃ i, midAt ls i = some g
  | [], _, _, _, hg => Or.inl hg
  | l :: ls, st, x0, g, hg => by
    rw [forLines_cons] at hg
    rcases mids_are_identifiers ls _ (x0 + 1) g hg with h | h | ⟨i, hi⟩
    · cases hm : startsWith l "m=".toList with
      | true =>
        rw [midStep_media st x0 l hm] at h
        simp only at h
        split at h
        · rcases List.mem_append.1 h with h | h
          · exact Or.inl h
          · exact Or.inr (Or.inl (List.mem_singleton.1 h))
        · exact Or.inl h
      | false =>
        cases h2 : startsWith l "a=mid:".toList with
        | false => rw [midStep_other st x0 l hm h2] at h; exact Or.inl h
        | true =>
          rw [midStep_mid st x0 l h2] at h
          split at h
          · exact Or.inl h
          · split at h
            · exact Or.inl h
            · rcases List.mem_append.1 h with h | h
              · exact Or.inl h
              · refine Or.inr (Or.inr ⟨0, ?_⟩)
                rw [List.mem_singleton.1 h]
                simp only [midAt, List.get?_cons_zero, h2, if_true]
    · exact Or.inr (Or.inl h)
    · exact Or.inr (Or.inr ⟨i + 1, by simpa [midAt] using hi⟩)

theorem midStep_findings (st : List Str × Nat) (x : Nat) (l : Str) :
    ∀ f ∈ (midStep st x l).2, (∃ m, f = Finding.midDuplicate (x + 1) m) ∨
      ∃ m o, f = Finding.midTwo (x + 1) m o := by
  intro f hf
  cases hm : startsWith l "m=".toList with
  | true => rw [midStep_media st x l hm] at hf; cases hf
  | false =>
    cases h2 : startsWith l "a=mid:".toList with
    | false => rw [midStep_other st x l hm h2] at hf; cases hf
    | true =>
      rw [midStep_mid st x l h2] at hf
      split at hf
      · exact Or.inl ⟨_, List.mem_singleton.1 hf⟩
      · split at hf
        · exact Or.inr ⟨_, _, List.mem_singleton.1 hf⟩
        · cases hf
theorem groupLoop_media (mids : List Str) (d : Bool) (x : Nat) (l : Str) (ls : List Str)
    (h : startsWith l "m=".toList = true) :
    groupLoop mids d x (l :: ls) = if !d then [Finding.groupNotFound (x + 1)] else [] := by
  rw [groupLoop, if_pos h]

theorem groupLoop_skip (mids : List Str) (d : Bool) (x : Nat) (l : Str) (ls : List Str)
    (h : startsWith l "m=".toList = false) (h2 : startsWith l "a=group".toList = false) :
    groupLoop mids d x (l :: ls) = groupLoop mids d (x + 1) ls := by
  rw [groupLoop, if_neg (by rw [h]; simp), if_pos (by rw [h2]; rfl)]

theorem groupLoop_bad (mids : List Str) (d : Bool) (x : Nat) (l : Str) (ls : List Str)
    (h : startsWith l "m=".toList = false) (h2 : startsWith l "a=group".toList = true)
    (h3 : groupPattern.exec l = none) :
    groupLoop mids d x (l :: ls) =
      Finding.groupPatternBad (x + 1) :: groupLoop mids d (x + 1) ls := by
  rw [groupLoop, if_neg (by rw [h]; simp), if_neg (by rw [h2]; simp), h3]

theorem groupLoop_match (mids : List Str) (d : Bool) (x : Nat) (l : Str) (ls : List Str)
    (m : Match) (h : startsWith l "m=".toList = false)
    (h2 : startsWith l "a=group".toList = true) (h3 : groupPattern.exec l = some m) :
    groupLoop mids d x (l :: ls) =
      ([(m.cap 1).getD [], (m.cap 2).getD []].filter (fun groupId => !mids.contains groupId)).map
          (fun groupId => Finding.groupDangling (x + 1) groupId) ++
        groupLoop mids true (x + 1) ls := by
  rw [groupLoop, if_neg (by rw [h]; simp), if_neg (by rw [h2]; simp), h3]

theorem groupLoop_cites_later : ∀ (ls : List Str) (mids : List Str) (d : Bool) (x0 n : Nat)
    (g : Str), Finding.groupDangling n g ∈ groupLoop mids d x0 ls → x0 < n
  | [], _, _, _, _, _, h => by simp [groupLoop] at h
  | l :: ls, mids, d, x0, n, g, h => by
    cases hm : startsWith l "m=".toList with
    | true =>
      rw [groupLoop_media mids d x0 l ls hm] at h
      split at h <;> simp at h
    | false =>
      cases h2 : startsWith l "a=group".toList with
      | false =>
        rw [groupLoop_skip mids d x0 l ls hm h2] at h
        have := groupLoop_cites_later ls mids d (x0 + 1) n g h
        omega
      | true =>
        cases h3 : groupPattern.exec l with
        | none =>
          rw [groupLoop_bad mids d x0 l ls hm h2 h3] at h
          rcases List.mem_cons.1 h with h | h
          · cases h
          · have := groupLoop_cites_later ls mids d (x0 + 1) n g h
            omega
        | some m =>
          rw [groupLoop_match mids d x0 l ls m hm h2 h3] at h
          rcases List.mem_append.1 h with h | h
          · obtain ⟨a, -, ha⟩ := List.mem_map.1 h
            cases ha
            omega
          · have := groupLoop_cites_later ls mids true (x0 + 1) n g h
            omega

/-- The dangling references reported for a group line at session level: those of its two
captures that `mids` does not hold. -/
theorem groupLoop_at_line : ∀ (ls : List Str) (mids : List Str) (d : Bool) (x0 i : Nat)
    (l : Str) (m : Match), ls.get? i = some l →
    (∀ j, j ≤ i → startsWith (ls.getD j []) "m=".toList = false) →
    startsWith l "a=group".toList = true → groupPattern.exec l = some m →
    ∀ g, Finding.groupDangling (x0 + i + 1) g ∈ groupLoop mids d x0 ls ↔
      (g = (m.cap 1).getD [] ∨ g = (m.cap 2).getD []) ∧ mids.contains g = false
  | [], _, _, _, i, _, _, h, _, _, _ => by simp at h
  | l0 :: ls, mids, d, x0, 0, l, m, h, hs, h2, h3 => by
    intro g
    simp only [List.get?_cons_zero, Option.some.injEq] at h
    subst h
    have hm : startsWith l0 "m=".toList = false := by simpa using hs 0 (Nat.le_refl 0)
    rw [groupLoop_match mids d x0 l0 ls m hm h2 h3, List.mem_append]
    constructor
    · rintro (h | h)
      · obtain ⟨a, ha, hga⟩ := List.mem_map.1 h
        cases hga
        rw [List.mem_filter] at ha
        refine ⟨by simpa using ha.1, by simpa using ha.2⟩
      · have := groupLoop_cites_later ls mids true (x0 + 1) _ g h
        omega
    · rintro ⟨hg, hc⟩
      left
      apply List.mem_map.2
      exact ⟨g, List.mem_filter.2 ⟨by simpa using hg, by rw [hc]; rfl⟩, rfl⟩
  | l0 :: ls, mids, d, x0, i + 1, l, m, h, hs, h2, h3 => by
    intro g
    have h1 : ls.get? i = some l := by simpa using h
    have hs1 : ∀ j, j ≤ i → startsWith (ls.getD j []) "m=".toList = false := by
      intro j hj
      have := hs (j + 1) (by omega)
      simpa using this
    have hm : startsWith l0 "m=".toList = false := by simpa using hs 0 (Nat.zero_le _)
    have e : x0 + (i + 1) + 1 = x0 + 1 + i + 1 := by omega
    cases h20 : startsWith l0 "a=group".toList with
    | false =>
      rw [groupLoop_skip mids d x0 l0 ls hm h20, e]
      exact groupLoop_at_line ls mids d (x0 + 1) i l m h1 hs1 h2 h3 g
    | true =>
      cases h30 : groupPattern.exec l0 with
      | none =>
        rw [groupLoop_bad mids d x0 l0 ls hm h20 h30, List.mem_cons, e]
        rw [← groupLoop_at_line ls mids d (x0 + 1) i l m h1 hs1 h2 h3 g]
        constructor
        · rintro (h | h)
          · cases h
          · exact h
        · exact Or.inr
      | some m0 =>
        rw [groupLoop_match mids d x0 l0 ls m0 hm h20 h30, List.mem_append, e]
        rw [← groupLoop_at_line ls mids true (x0 + 1) i l m h1 hs1 h2 h3 g]
        constructor
        · rintro (h | h)
          · obtain ⟨a, -, ha⟩ := List.mem_map.1 h
            injection ha with ha1
            omega
          · exact h
        · exact Or.inr

theorem groupLoop_no_group : ∀ (ls : List Str) (mids : List Str) (x0 : Nat),
    (∀ j, j < ls.length → startsWith (ls.getD j []) "a=group".toList = true →
      ∃ k, k < j ∧ startsWith (ls.getD k []) "m=".toList = true) →
    groupLoop mids true x0 ls = []
  | [], _, _, _ => by simp [groupLoop]
  | l :: ls, mids, x0, h => by
    cases hm : startsWith l "m=".toList with
    | true => rw [groupLoop_media mids true x0 l ls hm]; rfl
    | false =>
      have h2 : startsWith l "a=group".toList = false := by
        cases h2 : startsWith l "a=group".toList with
        | false => rfl
        | true =>
          obtain ⟨k, hk, -⟩ := h 0 (by simp) (by simpa using h2)
          omega
      rw [groupLoop_skip mids true x0 l ls hm h2]
      apply groupLoop_no_group
      intro j hj hg
      obtain ⟨k, hk, hkm⟩ := h (j + 1) (by simp only [List.length_cons]; omega) (by simpa using hg)
      cases k with
      | zero =>
        simp only [List.getD_cons_zero] at hkm
        rw [hm] at hkm
        cases hkm
      | succ k => exact ⟨k, by omega, by simpa using hkm⟩

/-- The second loop of test_10_83_3 reports nothing where the one group line at session
level names two identifiers that `mids` holds. -/
theorem groupLoop_resolved : ∀ (ls : List Str) (mids : List Str) (d : Bool) (x0 i : Nat)
    (l : Str) (m : Match), ls.get? i = some l →
    (∀ j, j ≤ i → startsWith (ls.getD j []) "m=".toList = false) →
    startsWith l "a=group".toList = true → groupPattern.exec l = some m →
    mids.contains ((m.cap 1).getD []) = true → mids.contains ((m.cap 2).getD []) = true →
    (∀ j, j < ls.length → startsWith (ls.getD j []) "a=group".toList = true →
      j = i ∨ ∃ k, k < j ∧ startsWith (ls.getD k []) "m=".toList = true) →
    groupLoop mids d x0 ls = []
  | [], _, _, _, i, _, _, h, _, _, _, _, _, _ => by simp at h
  | l0 :: ls, mids, d, x0, 0, l, m, h, hs, h2, h3, c1, c2, ho => by
    simp only [List.get?_cons_zero, Option.some.injEq] at h
    subst h
    have hm : startsWith l0 "m=".toList = false := by simpa using hs 0 (Nat.le_refl 0)
    rw [groupLoop_match mids d x0 l0 ls m hm h2 h3]
    have hf : [(m.cap 1).getD [], (m.cap 2).getD []].filter (fun groupId => !mids.contains groupId)
        = [] := by
      apply List.filter_eq_nil_iff.2
      intro a ha
      simp only [List.mem_cons, List.mem_singleton, List.not_mem_nil, or_false] at ha
      rcases ha with rfl | rfl
      · rw [c1]; decide
      · rw [c2]; decide
    rw [hf, List.map_nil, List.nil_append]
    apply groupLoop_no_group
    intro j hj hg
    rcases ho (j + 1) (by simp only [List.length_cons]; omega) (by simpa using hg) with h0 | ⟨k, hk, hkm⟩
    · omega
    · cases k with
      | zero =>
        simp only [List.getD_cons_zero] at hkm
        rw [hm] at hkm
        cases hkm
      | succ k => exact ⟨k, by omega, by simpa using hkm⟩
  | l0 :: ls, mids, d, x0, i + 1, l, m, h, hs, h2, h3, c1, c2, ho => by
    have h1 : ls.get? i = some l := by simpa using h
    have hs1 : ∀ j, j ≤ i → startsWith (ls.getD j []) "m=".toList = false := by
      intro j hj
      have := hs (j + 1) (by omega)
      simpa using this
    have hm : startsWith l0 "m=".toList = false := by simpa using hs 0 (Nat.zero_le _)
    have h20 : startsWith l0 "a=group".toList = false := by
      cases h20 : startsWith l0 "a=group".toList with
      | false => rfl
      | true =>
        rcases ho 0 (by simp) (by simpa using h20) with h0 | ⟨k, hk, -⟩
        · omega
        · omega
    rw [groupLoop_skip mids d x0 l0 ls hm h20]
    apply groupLoop_resolved ls mids d (x0 + 1) i l m h1 hs1 h2 h3 c1 c2
    intro j hj hg
    rcases ho (j + 1) (by simp only [List.length_cons]; omega) (by simpa using hg) with h0 | ⟨k, hk, hkm⟩
    · left; omega
    · cases k with
      | zero =>
        simp only [List.getD_cons_zero] at hkm
        rw [hm] at hkm
        cases hkm
      | succ k => exact Or.inr ⟨k, by omega, by simpa using hkm⟩
theorem group_line_exec (A B rest : Str) (hA : A ≠ [] ∧ ∀ c ∈ A, isSpace c = false)
    (hB : B ≠ [] ∧ ∀ c ∈ B, isSpace c = false)
    (hrest : ∀ c r, rest = c :: r → isSpace c = true) :
    startsWith ("a=group:DUP ".toList ++ (A ++ ' ' :: (B ++ rest))) "a=group".toList = true ∧
    ∃ m, groupPattern.exec ("a=group:DUP ".toList ++ (A ++ ' ' :: (B ++ rest))) = some m ∧
      m.cap 1 = some A ∧ m.cap 2 = some B := by
  constructor
  · exact startsWith_iff.2 ⟨":DUP ".toList ++ (A ++ ' ' :: (B ++ rest)), rfl⟩
  · obtain ⟨hA0, hA1⟩ := hA
    obtain ⟨hB0, hB1⟩ := hB
    cases A with
    | nil => exact absurd rfl hA0
    | cons a A =>
      cases B with
      | nil => exact absurd rfl hB0
      | cons b B => exact groupPattern_exec a A b B rest hA1 hB1 hrest

theorem midAt_lt {ls : List Str} {j : Nat} {X : Str} (h : midAt ls j = some X) :
    j < ls.length := by
  unfold midAt at h
  cases hg : ls.get? j with
  | none => rw [hg] at h; cases h
  | some l =>
    by_contra hc
    rw [List.get?_eq_none.2 (by omega)] at hg
    cases hg

theorem test_10_83_3_eq (sdp : Str) (params : Params) (x : Nat) (l : Str)
    (hx : (lineRuns sdp).get? x = some l) (hg : startsWith l "a=group".toList = true) :
    test_10_83_3 sdp params =
      some ((forLines midStep ([], 0) 0 (lineRuns sdp)).2 ++
        groupLoop (forLines midStep ([], 0) 0 (lineRuns sdp)).1.1 false 0 (lineRuns sdp)) := by
  have hmem : l ∈ lineRuns sdp := List.get?_mem hx
  have ht := lit_test_of_line hmem hg
  obtain ⟨hsl, -, -⟩ := lineRuns_of_get hx
  unfold test_10_83_3
  rw [ht, hsl]
  rfl

/-- C19 (amended): for every SDP with a line `a=group:DUP A B` at session level, `A` and `B`
non-empty and without white space, test_10_83_3 returns a sequence in which, for each of
`A` and `B` that is the identifier of no `a=mid:` line, there is the Finding that cites the
group line and names it; and when each of `A` and `B` is the identifier of an `a=mid:`
line that is not reported as the second identifier of one stream, the sequence holds no
dangling-reference Finding for the group line. -/
theorem group_references_checked (sdp : Str) (params : Params) (x : Nat) (A B : Str)
    (hA : A ≠ [] ∧ ∀ c ∈ A, isSpace c = false) (hB : B ≠ [] ∧ ∀ c ∈ B, isSpace c = false)
    (hx : (lineRuns sdp).get? x = some ("a=group:DUP ".toList ++ (A ++ ' ' :: B)))
    (hsession : ∀ j, j ≤ x → startsWith ((lineRuns sdp).getD j []) "m=".toList = false) :
    ∃ fs, test_10_83_3 sdp params = some fs ∧
      (∀ X, X = A ∨ X = B →
        (∀ j, j < (lineRuns sdp).length → midAt (lineRuns sdp) j ≠ some X) →
        Finding.groupDangling (x + 1) X ∈ fs) ∧
      ((∀ X, X = A ∨ X = B → ∃ j, midAt (lineRuns sdp) j = some X ∧
          ∀ o, Finding.midTwo (j + 1) X o ∉ fs) →
        ∀ g, Finding.groupDangling (x + 1) g ∉ fs) := by
  have hx1 : (lineRuns sdp).get? x = some ("a=group:DUP ".toList ++ (A ++ ' ' :: (B ++ []))) := by
    rw [List.append_nil]; exact hx
  obtain ⟨hgrp, m, hm, hc1, hc2⟩ := group_line_exec A B [] hA hB (by intro c r h; cases h)
  have hout := test_10_83_3_eq sdp params x _ hx1 hgrp
  have hat := groupLoop_at_line (lineRuns sdp)
    (forLines midStep ([], 0) 0 (lineRuns sdp)).1.1 false 0 x _ m hx1 hsession hgrp hm
  rw [hc1, hc2] at hat
  simp only [Option.getD_some, Nat.zero_add] at hat
  have hne : ∀ X, X = A ∨ X = B → X ≠ [] := by
    rintro X (rfl | rfl)
    · exact hA.1
    · exact hB.1
  refine ⟨_, hout, ?_, ?_⟩
  · intro X hX hno
    apply List.mem_append_right
    rw [hat]
    refine ⟨hX, ?_⟩
    cases hc : (forLines midStep ([], 0) 0 (lineRuns sdp)).1.1.contains X with
    | false => rfl
    | true =>
      exfalso
      have hmem : X ∈ (forLines midStep ([], 0) 0 (lineRuns sdp)).1.1 := by simpa using hc
      rcases mids_are_identifiers _ _ _ _ hmem with h | h | ⟨i, hi⟩
      · cases h
      · exact hne X hX h
      · exact hno i (midAt_lt hi) hi
  · intro hid g hg
    rcases List.mem_append.1 hg with hg | hg
    · rcases forLines_all midStep
        (fun f => (∃ n m, f = Finding.midDuplicate n m) ∨ ∃ n m o, f = Finding.midTwo n m o)
        (by
          intro st y l f hf
          rcases midStep_findings st y l f hf with ⟨m, h⟩ | ⟨m, o, h⟩
          · exact Or.inl ⟨_, _, h⟩
          · exact Or.inr ⟨_, _, _, h⟩) _ _ _ _ hg with ⟨n, m1, h⟩ | ⟨n, m1, o, h⟩
      · cases h
      · cases h
    · obtain ⟨hX, hcont⟩ := (hat g).1 hg
      obtain ⟨j, hj, hno⟩ := hid g hX
      rcases mid_recorded (lineRuns sdp) ([], 0) 0 j g hj with hmem | ⟨o, ho⟩
      · have : (forLines midStep ([], 0) 0 (lineRuns sdp)).1.1.contains g = true := by
          simpa using hmem
        rw [this] at hcont
        cases hcont
      · rw [Nat.zero_add] at ho
        exact hno o (List.mem_append_left _ ho)

/-- C19 (witness): the group line names `A` and `B`, and only `A` is the identifier of an
`a=mid:` line. -/
theorem group_references_checked_witness :
    ∃ fs, test_10_83_3 "v=0\na=group:DUP A B\nm=video 50000 RTP/AVP 96\na=mid:A\n".toList {} =
        some fs ∧ Finding.groupDangling 2 "B".toList ∈ fs := by
  obtain ⟨fs, h1, h2, -⟩ := group_references_checked
    "v=0\na=group:DUP A B\nm=video 50000 RTP/AVP 96\na=mid:A\n".toList {} 1 "A".toList
    "B".toList (by decide) (by decide) (by decide!) (by decide!)
  exact ⟨fs, h1, h2 "B".toList (Or.inr rfl) (by decide!)⟩

/-- C19 (counterexample): `A` and `B` are the identifiers of the two `a=mid:` lines (lines 4
and 5), and test_10_83_3 reports a dangling reference `B` for the group line (line 2). -/
theorem group_reference_to_second_mid_dangles :
    midAt (lineRuns "v=0\na=group:DUP A B\nm=video 50000 RTP/AVP 96\na=mid:A\na=mid:B\n".toList)
      3 = some "A".toList ∧
    midAt (lineRuns "v=0\na=group:DUP A B\nm=video 50000 RTP/AVP 96\na=mid:A\na=mid:B\n".toList)
      4 = some "B".toList ∧
    test_10_83_3 "v=0\na=group:DUP A B\nm=video 50000 RTP/AVP 96\na=mid:A\na=mid:B\n".toList {} =
      some [Finding.midTwo 5 "B".toList "A".toList, Finding.groupDangling 2 "B".toList] := by
  decide!
theorem midStep_wellFormed : ∀ (ls : List Str) (seen : Bool) (ids mids : List Str)
    (sc x0 : Nat), midsWellFormed seen ids ls = true →
    (seen = false → mids.length = sc) →
    (seen = true → mids.length = sc + 1 ∧ truthy (mids.get? sc) = true) →
    (∀ g ∈ mids, g = [] ∨ g ∈ ids) →
    (forLines midStep (mids, sc) x0 ls).2 = []
  | [], _, _, _, _, _, _, _, _, _ => rfl
  | l :: ls, seen, ids, mids, sc, x0, hwf, h0, h1, hin => by
    rw [forLines_cons]
    cases hm : startsWith l "m=".toList with
    | true =>
      rw [midsWellFormed, if_pos hm] at hwf
      rw [midStep_media (mids, sc) x0 l hm]
      simp only [List.nil_append]
      apply midStep_wellFormed ls false ids _ (sc + 1) (x0 + 1) hwf
      · intro _
        cases hs : seen with
        | false =>
          have hl := h0 hs
          have hg : mids.get? sc = none := List.get?_eq_none.2 (by omega)
          have ht : truthy (mids.get? sc) = false := by rw [hg]; rfl
          simp only [ht, Bool.not_false, if_true, List.length_append, List.length_singleton, hl]
        | true =>
          obtain ⟨hl, ht⟩ := h1 hs
          simp only [ht, Bool.not_true, Bool.false_eq_true, if_false, hl]
      · intro h; cases h
      · intro g hg
        split at hg
        · rcases List.mem_append.1 hg with hg | hg
          · exact hin g hg
          · exact Or.inl (List.mem_singleton.1 hg)
        · exact hin g hg
    | false =>
      cases h2 : startsWith l "a=mid:".toList with
      | false =>
        rw [midsWellFormed, if_neg (by rw [hm]; simp), if_neg (by rw [h2]; simp)] at hwf
        rw [midStep_other (mids, sc) x0 l hm h2]
        simp only [List.nil_append]
        exact midStep_wellFormed ls seen ids mids sc (x0 + 1) hwf h0 h1 hin
      | true =>
        rw [midsWellFormed, if_neg (by rw [hm]; simp), if_pos h2] at hwf
        simp only [Bool.and_eq_true, Bool.not_eq_true'] at hwf
        obtain ⟨⟨⟨hseen, hne⟩, hnc⟩, hwf1⟩ := hwf
        have hlen := h0 hseen
        have hg : mids.get? sc = none := List.get?_eq_none.2 (by omega)
        have hnotin : mids.contains (slice l 6) = false := by
          cases hc : mids.contains (slice l 6) with
          | false => rfl
          | true =>
            exfalso
            have hmem : slice l 6 ∈ mids := by simpa using hc
            rcases hin _ hmem with h | h
            · rw [h] at hne; simp at hne
            · have : ids.contains (slice l 6) = true := by simpa using h
              rw [this] at hnc
              cases hnc
        rw [midStep_mid (mids, sc) x0 l h2]
        simp only [hnotin, hg, truthy, Bool.false_eq_true, if_false, List.nil_append]
        apply midStep_wellFormed ls true (slice l 6 :: ids) _ sc (x0 + 1) hwf1
        · intro h; cases h
        · intro _
          refine ⟨by simp [hlen], ?_⟩
          have : (mids ++ [slice l 6]).get? sc = some (slice l 6) := by
            rw [List.get?_eq_getElem?, List.getElem?_append_right (by omega)]
            simp [hlen]
          rw [this]
          cases hs : slice l 6 with
          | nil => rw [hs] at hne; simp at hne
          | cons c cs => rfl
        · intro g hg
          rcases List.mem_append.1 hg with hg | hg
          · rcases hin g hg with h | h
            · exact Or.inl h
            · exact Or.inr (List.mem_cons_of_mem _ h)
          · rw [List.mem_singleton.1 hg]
            exact Or.inr (List.mem_cons_self _ _)

/-- C20 (amended): for every SDP whose only `a=group` line at session level starts with
`a=group:DUP A B`, `A` and `B` non-empty and without white space, whose `a=mid:` lines
carry pairwise different non-empty identifiers, at most one in each media section, and in
which `A` and `B` are identifiers of `a=mid:` lines, test_10_83_3 returns the empty
sequence: whatever further identifiers the group line lists and whatever further `a=mid:`
lines the SDP has. -/
theorem unlisted_identifiers_unreported (sdp : Str) (params : Params) (x : Nat)
    (A B rest : Str) (hA : A ≠ [] ∧ ∀ c ∈ A, isSpace c = false)
    (hB : B ≠ [] ∧ ∀ c ∈ B, isSpace c = false)
    (hrest : ∀ c r, rest = c :: r → isSpace c = true)
    (hx : (lineRuns sdp).get? x = some ("a=group:DUP ".toList ++ (A ++ ' ' :: (B ++ rest))))
    (hsession : ∀ j, j ≤ x → startsWith ((lineRuns sdp).getD j []) "m=".toList = false)
    (honly : ∀ j, j < (lineRuns sdp).length →
      startsWith ((lineRuns sdp).getD j []) "a=group".toList = true →
      j = x ∨ ∃ k, k < j ∧ startsWith ((lineRuns sdp).getD k []) "m=".toList = true)
    (hwf : midsWellFormed false [] (lineRuns sdp) = true)
    (hAB : ∀ X, X = A ∨ X = B → ∃ j, midAt (lineRuns sdp) j = some X) :
    test_10_83_3 sdp params = some [] := by
  obtain ⟨hgrp, m, hm, hc1, hc2⟩ := group_line_exec A B rest hA hB hrest
  rw [test_10_83_3_eq sdp params x _ hx hgrp]
  have hF : (forLines midStep ([], 0) 0 (lineRuns sdp)).2 = [] :=
    midStep_wellFormed (lineRuns sdp) false [] [] 0 0 hwf (fun _ => rfl)
      (by intro h; cases h) (by intro g hg; cases hg)
  have hin : ∀ X, X = A ∨ X = B →
      (forLines midStep ([], 0) 0 (lineRuns sdp)).1.1.contains X = true := by
    intro X hX
    obtain ⟨j, hj⟩ := hAB X hX
    rcases mid_recorded (lineRuns sdp) ([], 0) 0 j X hj with hmem | ⟨o, ho⟩
    · simpa using hmem
    · rw [hF] at ho
      cases ho
  rw [hF, List.nil_append]
  rw [groupLoop_resolved (lineRuns sdp) _ false 0 x _ m hx hsession hgrp hm
    (by rw [hc1]; exact hin A (Or.inl rfl)) (by rw [hc2]; exact hin B (Or.inr rfl)) honly]

/-- C20 (witness): the group line lists `A`, `B` and `C`; the media sections are `A`, `B`
and `D`. -/
theorem unlisted_identifiers_unreported_witness :
    test_10_83_3
      ("v=0\na=group:DUP A B C\nm=video 50000 RTP/AVP 96\na=mid:A\n" ++
       "m=video 50002 RTP/AVP 96\na=mid:B\nm=video 50004 RTP/AVP 96\na=mid:D\n").toList {} =
      some [] :=
  unlisted_identifiers_unreported
    ("v=0\na=group:DUP A B C\nm=video 50000 RTP/AVP 96\na=mid:A\n" ++
     "m=video 50002 RTP/AVP 96\na=mid:B\nm=video 50004 RTP/AVP 96\na=mid:D\n").toList {} 1
    "A".toList "B".toList " C".toList (by decide) (by decide)
    (by intro c r h; cases h; decide) (by decide!) (by decide!) (by decide!) (by decide!)
    (by
      rintro X (rfl | rfl)
      · exact ⟨3, by decide!⟩
      · exact ⟨5, by decide!⟩)

/-- C20 (counterexample): the media-level `a=mid:D` is not listed in the group line, the
identifier `C` listed in the group line has no `a=mid:` line, and test_10_83_3 reports
nothing. -/
theorem unlisted_mid_and_third_identifier_pass :
    midAt (lineRuns ("v=0\na=group:DUP A B C\nm=video 50000 RTP/AVP 96\na=mid:A\n" ++
      "m=video 50002 RTP/AVP 96\na=mid:B\nm=video 50004 RTP/AVP 96\na=mid:D\n").toList) 7 =
      some "D".toList ∧
    (∀ j, j < 8 → midAt (lineRuns ("v=0\na=group:DUP A B C\nm=video 50000 RTP/AVP 96\n" ++
      "a=mid:A\nm=video 50002 RTP/AVP 96\na=mid:B\nm=video 50004 RTP/AVP 96\n" ++
      "a=mid:D\n").toList) j ≠ some "C".toList) ∧
    test_10_83_3
      ("v=0\na=group:DUP A B C\nm=video 50000 RTP/AVP 96\na=mid:A\n" ++
       "m=video 50002 RTP/AVP 96\na=mid:B\nm=video 50004 RTP/AVP 96\na=mid:D\n").toList {} =
      some [] := by
  decide!

/-! ## Repeated media identifiers -/

/-- An `a=mid:` line whose identifier is already among `mids` is reported as a duplicate. -/
theorem mid_duplicate_of_mem : ∀ (ls : List Str) (st : List Str × Nat) (x0 j : Nat) (X : Str),
    X ∈ st.1 → midAt ls j = some X →
    Finding.midDuplicate (x0 + j + 1) X ∈ (forLines midStep st x0 ls).2
  | [], _, _, _, _, _, h => by simp [midAt] at h
  | l :: ls, st, x0, 0, X, hX, h => by
    simp only [midAt, List.get?_cons_zero] at h
    split at h
    · rename_i h2
      cases h
      rw [forLines_cons, midStep_mid st x0 l h2]
      have hc : st.1.contains (slice l 6) = true := by simpa using hX
      rw [if_pos hc]
      exact List.mem_append_left _ (List.mem_singleton.2 rfl)
    · cases h
  | l :: ls, st, x0, j + 1, X, hX, h => by
    have h1 : midAt ls j = some X := by simpa [midAt] using h
    rw [forLines_cons]
    apply List.mem_append_right
    have e : x0 + (j + 1) + 1 = x0 + 1 + j + 1 := by omega
    rw [e]
    exact mid_duplicate_of_mem ls _ (x0 + 1) j X (midStep_mono st x0 l X hX) h1

/-- An `a=mid:` line that repeats the identifier of an earlier one is reported as a
duplicate, unless the earlier one was reported as the second identifier of one stream. -/
theorem mid_duplicate_of_earlier : ∀ (ls : List Str) (st : List Str × Nat) (x0 i j : Nat)
    (X : Str), i < j → midAt ls i = some X → midAt ls j = some X →
    (∀ o, Finding.midTwo (x0 + i + 1) X o ∉ (forLines midStep st x0 ls).2) →
    Finding.midDuplicate (x0 + j + 1) X ∈ (forLines midStep st x0 ls).2
  | [], _, _, _, _, _, _, h, _, _ => by simp [midAt] at h
  | _ :: _, _, _, _, 0, _, hij, _, _, _ => by omega
  | l :: ls, st, x0, 0, j + 1, X, _, hi, hj, hno => by
    have h1 : midAt ls j = some X := by simpa [midAt] using hj
    simp only [midAt, List.get?_cons_zero] at hi
    split at hi
    · rename_i h2
      cases hi
      rw [forLines_cons] at hno ⊢
      apply List.mem_append_right
      have e : x0 + (j + 1) + 1 = x0 + 1 + j + 1 := by omega
      rw [e]
      apply mid_duplicate_of_mem ls _ (x0 + 1) j _ _ h1
      rw [midStep_mid st x0 l h2] at hno ⊢
      split
      · rename_i hc
        simpa using hc
      · split
        · rename_i hc ht
          exfalso
          apply hno ((st.1.get? st.2).getD [])
          rw [if_neg hc, if_pos ht]
          exact List.mem_append_left _ (List.mem_singleton.2 rfl)
        · simp
    · cases hi
  | l :: ls, st, x0, i + 1, j + 1, X, hij, hi, hj, hno => by
    have h1 : midAt ls i = some X := by simpa [midAt] using hi
    have h2 : midAt ls j = some X := by simpa [midAt] using hj
    rw [forLines_cons] at hno ⊢
    apply List.mem_append_right
    have e : x0 + (j + 1) + 1 = x0 + 1 + j + 1 := by omega
    rw [e]
    apply mid_duplicate_of_earlier ls _ (x0 + 1) i j X (by omega) h1 h2
    intro o ho
    apply hno o
    apply List.mem_append_right
    have e2 : x0 + (i + 1) + 1 = x0 + 1 + i + 1 := by omega
    rw [e2]
    exact ho

/-- C21 (amended): for every SDP in which the text `a=group` occurs, test_10_83_3 returns a
sequence of Findings, and every `a=mid:` line (line `j + 1`) whose identifier equals that
of an earlier `a=mid:` line (line `i + 1`) that is not reported as the second identifier of
one stream yields the duplicate-identification Finding that cites line `j + 1`. -/
theorem duplicate_mid_reported (sdp : Str) (params : Params) (i j : Nat) (X : Str)
    (hg : (Re.lit "a=group".toList).test sdp = true) (hij : i < j)
    (hi : midAt (lineRuns sdp) i = some X) (hj : midAt (lineRuns sdp) j = some X) :
    ∃ fs, test_10_83_3 sdp params = some fs ∧
      ((∀ o, Finding.midTwo (i + 1) X o ∉ fs) → Finding.midDuplicate (j + 1) X ∈ fs) := by
  have hlt := midAt_lt hi
  have hne : lineRuns sdp ≠ [] := by
    intro h
    rw [h] at hlt
    cases hlt
  have hsl := splitLines_of_ne_nil hne
  refine ⟨_, by unfold test_10_83_3; rw [hg, hsl]; rfl, ?_⟩
  intro hno
  apply List.mem_append_left
  have h := mid_duplicate_of_earlier (lineRuns sdp) ([], 0) 0 i j X hij hi hj
  simp only [Nat.zero_add] at h
  apply h
  intro o ho
  exact hno o (List.mem_append_left _ ho)

/-- C21 (witness): the identifier `A` of line 4 is declared again at line 6. -/
theorem duplicate_mid_reported_witness :
    ∃ fs, test_10_83_3
        "v=0\na=group:DUP A B\nm=video 50000 RTP/AVP 96\na=mid:A\nm=video 50002 RTP/AVP 96\na=mid:A\n".toList
        {} = some fs ∧ Finding.midDuplicate 6 "A".toList ∈ fs := by
  obtain ⟨fs, h1, h2⟩ := duplicate_mid_reported
    "v=0\na=group:DUP A B\nm=video 50000 RTP/AVP 96\na=mid:A\nm=video 50002 RTP/AVP 96\na=mid:A\n".toList
    {} 3 5 "A".toList (by decide!) (by decide) (by decide!) (by decide!)
  refine ⟨fs, h1, h2 ?_⟩
  have e : test_10_83_3
      "v=0\na=group:DUP A B\nm=video 50000 RTP/AVP 96\na=mid:A\nm=video 50002 RTP/AVP 96\na=mid:A\n".toList
      {} = some [Finding.midDuplicate 6 "A".toList, Finding.groupDangling 2 "B".toList] := by
    decide!
  rw [e] at h1
  cases h1
  intro o ho
  simp at ho

/-- C21 (counterexample): the identifier `Y` of line 5 is declared again at line 7, and
test_10_83_3 reports no duplicate: line 5 is reported as a second identifier of the first
stream and `Y` is not recorded. -/
theorem repeated_mid_after_second_identifier_unreported :
    (Re.lit "a=group".toList).test
      "v=0\na=group:DUP X Y\nm=video 50000 RTP/AVP 96\na=mid:X\na=mid:Y\nm=video 50002 RTP/AVP 96\na=mid:Y\n".toList
      = true ∧
    midAt (lineRuns
      "v=0\na=group:DUP X Y\nm=video 50000 RTP/AVP 96\na=mid:X\na=mid:Y\nm=video 50002 RTP/AVP 96\na=mid:Y\n".toList)
      4 = some "Y".toList ∧
    midAt (lineRuns
      "v=0\na=group:DUP X Y\nm=video 50000 RTP/AVP 96\na=mid:X\na=mid:Y\nm=video 50002 RTP/AVP 96\na=mid:Y\n".toList)
      6 = some "Y".toList ∧
    test_10_83_3
      "v=0\na=group:DUP X Y\nm=video 50000 RTP/AVP 96\na=mid:X\na=mid:Y\nm=video 50002 RTP/AVP 96\na=mid:Y\n".toList
      {} = some [Finding.midTwo 5 "Y".toList "X".toList] := by
  decide!

/-! ## The rtpmap lines of a media section -/

theorem forLines_append {σ : Type} (body : σ → Nat → Str → σ × List Finding) :
    ∀ (a b : List Str) (st : σ) (x : Nat),
      forLines body st x (a ++ b) =
        ((forLines body (forLines body st x a).1 (x + a.length) b).1,
          (forLines body st x a).2 ++
            (forLines body (forLines body st x a).1 (x + a.length) b).2)
  | [], b, st, x => by simp [forLines]
  | l :: a, b, st, x => by
    rw [List.cons_append, forLines_cons, forLines_cons, forLines_append body a b]
    have e : x + 1 + a.length = x + (l :: a).length := by simp; omega
    rw [e, List.append_assoc]

theorem rtpMapStep_media (t c sp : Str) (st : RtpMapState) (x : Nat) (l : Str)
    (h : startsWith l "m=".toList = true) :
    rtpMapStep t c sp st x l =
      ({ rtpmapInStream := false
         payloadType := (videoPattern.exec l).map (fun m => toNumber ((m.cap 4).getD []))
         streamCount := st.streamCount + 1 },
       if !st.rtpmapInStream && st.payloadType.isSome then
         [Finding.rtpmapMissing (x + 1) st.streamCount] else []) := by
  unfold rtpMapStep
  rw [if_pos h]

theorem rtpMapStep_stream (t c sp : Str) (st : RtpMapState) (x : Nat) (l : Str) :
    ∀ f ∈ (rtpMapStep t c sp st x l).2, f.rtpmapStream = some st.streamCount := by
  intro f hf
  unfold rtpMapStep at hf
  repeat' split at hf
  all_goals simp at hf
  all_goals (rcases hf with ⟨-, rfl⟩ | ⟨-, rfl⟩ | ⟨-, rfl⟩ <;> rfl)

theorem rtpMapStep_count (t c sp : Str) (st : RtpMapState) (x : Nat) (l : Str) :
    (rtpMapStep t c sp st x l).1.streamCount =
      st.streamCount + (if startsWith l "m=".toList then 1 else 0) := by
  unfold rtpMapStep
  repeat' split
  all_goals simp_all

/-- The Findings of the loop of checkStreamsRtpMap name streams between the stream count
at the start and the stream count at the end, which is the count at the start plus the
number of media lines. -/
theorem forLines_rtpMapStep_streams (t c sp : Str) : ∀ (ls : List Str) (st : RtpMapState)
    (x : Nat),
    (forLines (rtpMapStep t c sp) st x ls).1.streamCount =
        st.streamCount + ls.countP (fun l => startsWith l "m=".toList) ∧
      ∀ f ∈ (forLines (rtpMapStep t c sp) st x ls).2, ∃ n, f.rtpmapStream = some n ∧
        st.streamCount ≤ n ∧ n ≤ (forLines (rtpMapStep t c sp) st x ls).1.streamCount
  | [], st, x => by simp [forLines]
  | l :: ls, st, x => by
    obtain ⟨h1, h2⟩ := forLines_rtpMapStep_streams t c sp ls (rtpMapStep t c sp st x l).1 (x + 1)
    rw [forLines_cons]
    have hc := rtpMapStep_count t c sp st x l
    constructor
    · simp only
      rw [h1, hc, List.countP_cons]
      omega
    · intro f hf
      simp only at hf ⊢
      rcases List.mem_append.1 hf with hf | hf
      · refine ⟨_, rtpMapStep_stream t c sp st x l f hf, Nat.le_refl _, ?_⟩
        rw [h1, hc]
        omega
      · obtain ⟨n, hn, h3, h4⟩ := h2 f hf
        exact ⟨n, hn, by rw [hc] at h3; omega, h4⟩

theorem rtpMapStep_body (t c sp : Str) (st : RtpMapState) (x : Nat) (l : Str) (p : Nat)
    (hm : startsWith l "m=".toList = false) (hp : st.payloadType = some p) :
    (rtpMapStep t c sp st x l).1 =
        { st with rtpmapInStream := st.rtpmapInStream || startsWith l "a=rtpmap".toList } ∧
      (rtpMapStep t c sp st x l).2.countP (Finding.isRtpmapRepeatedOf st.streamCount) =
        (if startsWith l "a=rtpmap".toList && st.rtpmapInStream then 1 else 0) ∧
      ∀ s, (rtpMapStep t c sp st x l).2.countP (Finding.isRtpmapMissingOf s) = 0 := by
  obtain ⟨b, pt, sc⟩ := st
  simp only at hp
  subst hp
  unfold rtpMapStep
  rw [if_neg (by rw [hm]; decide)]
  cases hr : startsWith l "a=rtpmap".toList with
  | false =>
    simp only [Bool.false_and, Bool.false_eq_true, if_false, Bool.or_false]
    exact ⟨trivial, rfl, fun _ => rfl⟩
  | true =>
    simp only [Option.isSome_some, Bool.and_self, if_true, Bool.or_true, Bool.true_and]
    cases b with
    | true =>
      simp only [if_true]
      refine ⟨trivial, ?_, fun _ => rfl⟩
      simp [Finding.isRtpmapRepeatedOf]
    | false =>
      simp only [Bool.false_eq_true, if_false]
      refine ⟨trivial, ?_, ?_⟩
      · split
        · rfl
        · rw [List.countP_eq_zero]
          intro f hf
          simp only [List.mem_append] at hf
          repeat' split at hf
          all_goals simp at hf
          all_goals (rcases hf with rfl | rfl | rfl <;> simp [Finding.isRtpmapRepeatedOf])
      · intro s
        split
        · rfl
        · rw [List.countP_eq_zero]
          intro f hf
          simp only [List.mem_append] at hf
          repeat' split at hf
          all_goals simp at hf
          all_goals (rcases hf with rfl | rfl | rfl <;> simp [Finding.isRtpmapMissingOf])

/-- The loop of checkStreamsRtpMap over the lines of a video media section after its media
line: every `a=rtpmap` line but the first is reported as a repetition, and no stream is
reported as without `rtpmap`. -/
theorem forLines_rtpMapStep_body (t c sp : Str) : ∀ (body : List Str) (b : Bool)
    (p sc x : Nat), (∀ l ∈ body, startsWith l "m=".toList = false) →
    (forLines (rtpMapStep t c sp) ⟨b, some p, sc⟩ x body).1 =
        ⟨b || decide (0 < body.countP (fun l => startsWith l "a=rtpmap".toList)), some p, sc⟩ ∧
      (forLines (rtpMapStep t c sp) ⟨b, some p, sc⟩ x body).2.countP
          (Finding.isRtpmapRepeatedOf sc) =
        (if b then body.countP (fun l => startsWith l "a=rtpmap".toList)
         else body.countP (fun l => startsWith l "a=rtpmap".toList) - 1) ∧
      ∀ s, (forLines (rtpMapStep t c sp) ⟨b, some p, sc⟩ x body).2.countP
          (Finding.isRtpmapMissingOf s) = 0
  | [], b, p, sc, x, _ => by simp [forLines]
  | l :: body, b, p, sc, x, h => by
    obtain ⟨h1, h2, h3⟩ := rtpMapStep_body t c sp ⟨b, some p, sc⟩ x l p
      (h l (List.mem_cons_self _ _)) rfl
    simp only at h1 h2
    obtain ⟨i1, i2, i3⟩ := forLines_rtpMapStep_body t c sp body
      (b || startsWith l "a=rtpmap".toList) p sc (x + 1)
      (fun l1 hl1 => h l1 (List.mem_cons_of_mem _ hl1))
    rw [forLines_cons, h1]
    simp only
    rw [i1, List.countP_append, h2, i2, List.countP_cons]
    refine ⟨?_, ?_, ?_⟩
    · cases b <;> cases startsWith l "a=rtpmap".toList <;> simp
    · cases b <;> cases startsWith l "a=rtpmap".toList <;> (simp; try omega)
    · intro s
      rw [List.countP_append, h3 s, i3 s]

/-- The loop of checkStreamsRtpMap does nothing over the lines of a media section that is
not a video section. -/
theorem forLines_rtpMapStep_idle (t c sp : Str) : ∀ (body : List Str) (b : Bool)
    (sc x : Nat), (∀ l ∈ body, startsWith l "m=".toList = false) →
    forLines (rtpMapStep t c sp) ⟨b, none, sc⟩ x body = (⟨b, none, sc⟩, [])
  | [], _, _, _, _ => rfl
  | l :: body, b, sc, x, h => by
    have hs : rtpMapStep t c sp ⟨b, none, sc⟩ x l = (⟨b, none, sc⟩, []) := by
      unfold rtpMapStep
      rw [if_neg (by rw [h l (List.mem_cons_self _ _)]; decide)]
      simp
    rw [forLines_cons, hs]
    simp only
    rw [forLines_rtpMapStep_idle t c sp body b sc (x + 1)
      (fun l1 hl1 => h l1 (List.mem_cons_of_mem _ hl1))]
    rfl

theorem isRtpmapMissingOf_stream {s : Nat} {f : Finding}
    (h : Finding.isRtpmapMissingOf s f = true) : f.rtpmapStream = some s := by
  unfold Finding.isRtpmapMissingOf at h
  split at h
  · simp only [beq_iff_eq] at h
    simp [Finding.rtpmapStream, h]
  · cases h

theorem isRtpmapRepeatedOf_stream {s : Nat} {f : Finding}
    (h : Finding.isRtpmapRepeatedOf s f = true) : f.rtpmapStream = some s := by
  unfold Finding.isRtpmapRepeatedOf at h
  split at h
  · simp only [beq_iff_eq] at h
    simp [Finding.rtpmapStream, h]
  · cases h

theorem countP_rtpmap_other_stream (s : Nat) (fs : List Finding)
    (h : ∀ f ∈ fs, f.rtpmapStream ≠ some s) :
    fs.countP (Finding.isRtpmapMissingOf s) = 0 ∧
      fs.countP (Finding.isRtpmapRepeatedOf s) = 0 := by
  constructor
  · rw [List.countP_eq_zero]
    intro f hf hc
    exact h f hf (isRtpmapMissingOf_stream hc)
  · rw [List.countP_eq_zero]
    intro f hf hc
    exact h f hf (isRtpmapRepeatedOf_stream hc)

theorem rtpMapFrom_append (t c sp : Str) (a b : List Str) (st : RtpMapState) (x len : Nat) :
    rtpMapFrom t c sp st x len (a ++ b) =
      (forLines (rtpMapStep t c sp) st x a).2 ++
        rtpMapFrom t c sp (forLines (rtpMapStep t c sp) st x a).1 (x + a.length) len b := by
  unfold rtpMapFrom
  rw [forLines_append]
  simp only [List.append_assoc]

theorem rtpMapFrom_cons (t c sp : Str) (l : Str) (ls : List Str) (st : RtpMapState)
    (x len : Nat) :
    rtpMapFrom t c sp st x len (l :: ls) =
      (rtpMapStep t c sp st x l).2 ++
        rtpMapFrom t c sp (rtpMapStep t c sp st x l).1 (x + 1) len ls := by
  unfold rtpMapFrom
  rw [forLines_cons]
  simp only [List.append_assoc]

theorem rtpMapFrom_streams (t c sp : Str) (ls : List Str) (st : RtpMapState) (x len : Nat) :
    ∀ f ∈ rtpMapFrom t c sp st x len ls, ∃ n, f.rtpmapStream = some n ∧ st.streamCount ≤ n := by
  obtain ⟨g1, g2⟩ := forLines_rtpMapStep_streams t c sp ls st x
  intro f hf
  unfold rtpMapFrom at hf
  rcases List.mem_append.1 hf with hf | hf
  · obtain ⟨n, hn, h3, -⟩ := g2 f hf
    exact ⟨n, hn, h3⟩
  · split at hf
    · rw [List.mem_singleton.1 hf, g1]
      exact ⟨_, rfl, Nat.le_add_right _ _⟩
    · cases hf

/-- The Findings of checkStreamsRtpMap from the end of a media section on: the section is
reported as without `rtpmap` once, if it is a video section without an `a=rtpmap` line, and
nothing else names it. -/
theorem rtpMap_tail (t c sp : Str) (post : List Str) (b : Bool) (pt : Option Nat)
    (s x len : Nat)
    (hpost : ∀ l post1, post = l :: post1 → startsWith l "m=".toList = true) :
    (rtpMapFrom t c sp ⟨b, pt, s⟩ x len post).countP (Finding.isRtpmapMissingOf s) =
        (if !b && pt.isSome then 1 else 0) ∧
      (rtpMapFrom t c sp ⟨b, pt, s⟩ x len post).countP (Finding.isRtpmapRepeatedOf s) = 0 ∧
      (pt = none → ∀ f ∈ rtpMapFrom t c sp ⟨b, pt, s⟩ x len post, f.rtpmapStream ≠ some s) := by
  cases post with
  | nil =>
    simp only [rtpMapFrom, forLines, List.nil_append]
    refine ⟨?_, ?_, ?_⟩
    · cases b <;> cases pt <;> simp [Finding.isRtpmapMissingOf]
    · cases b <;> cases pt <;> simp [Finding.isRtpmapRepeatedOf]
    · intro h
      subst h
      simp
  | cons l post1 =>
    have hm := hpost l post1 rfl
    rw [rtpMapFrom_cons, rtpMapStep_media t c sp _ x l hm]
    simp only
    have hrest : ∀ f ∈ rtpMapFrom t c sp
        ⟨false, (videoPattern.exec l).map (fun m => toNumber ((m.cap 4).getD [])), s + 1⟩
        (x + 1) len post1, f.rtpmapStream ≠ some s := by
      intro f hf
      obtain ⟨n, hn, h3⟩ := rtpMapFrom_streams t c sp post1 _ _ _ f hf
      rw [hn]
      intro e
      injection e with e
      simp only at h3
      omega
    obtain ⟨r1, r2⟩ := countP_rtpmap_other_stream s _ hrest
    refine ⟨?_, ?_, ?_⟩
    · rw [List.countP_append, r1]
      cases b <;> cases pt <;> simp [Finding.isRtpmapMissingOf]
    · rw [List.countP_append, r2]
      cases b <;> cases pt <;> simp [Finding.isRtpmapRepeatedOf]
    · intro h
      subst h
      intro f hf
      rcases List.mem_append.1 hf with hf | hf
      · simp at hf
      · exact hrest f hf

/-- C22: for every SDP and every media section of its lines (the lines `pre` before its
media line `m`, the lines `body` after `m` up to the next media line or the end), with `s`
the number of the section and `k` the number of lines of `body` that start with `a=rtpmap`:
checkStreamsRtpMap (test_20_71_3 and test_22_6 are calls of it) returns a sequence of
Findings; when videoPattern matches `m`, the Findings that say that stream `s` does not
have an `rtpmap` attribute are one if `k = 0` and none otherwise, and the Findings that
say that more than one `rtpmap` attribute was found for stream `s` are `k - 1`; when
videoPattern does not match `m`, no Finding names stream `s`. -/
theorem rtpmap_findings_per_section (sdp : Str) (params : Params) (t c sp : Str)
    (pre body post : List Str) (m : Str)
    (hl : lineRuns sdp = pre ++ m :: body ++ post)
    (hm : startsWith m "m=".toList = true)
    (hbody : ∀ l ∈ body, startsWith l "m=".toList = false)
    (hpost : ∀ l post1, post = l :: post1 → startsWith l "m=".toList = true) :
    ∃ fs, checkStreamsRtpMap sdp params t c sp = some fs ∧
      (videoPattern.test m = true →
        fs.countP (Finding.isRtpmapMissingOf
            (pre.countP (fun l => startsWith l "m=".toList) + 1)) =
          (if body.countP (fun l => startsWith l "a=rtpmap".toList) = 0 then 1 else 0) ∧
        fs.countP (Finding.isRtpmapRepeatedOf
            (pre.countP (fun l => startsWith l "m=".toList) + 1)) =
          body.countP (fun l => startsWith l "a=rtpmap".toList) - 1) ∧
      (videoPattern.test m = false →
        ∀ f ∈ fs, f.rtpmapStream ≠ some (pre.countP (fun l => startsWith l "m=".toList) + 1)) := by
  have hne : lineRuns sdp ≠ [] := by
    rw [hl]
    simp
  have hsl := splitLines_of_ne_nil hne
  have hfs : checkStreamsRtpMap sdp params t c sp =
      some (rtpMapFrom t c sp ⟨true, none, 0⟩ 0 (lineRuns sdp).length (lineRuns sdp)) := by
    unfold checkStreamsRtpMap
    rw [hsl]
    rfl
  refine ⟨_, hfs, ?_⟩
  generalize (lineRuns sdp).length = len
  have hl2 : lineRuns sdp = pre ++ m :: (body ++ post) := by
    rw [hl]
    simp
  rw [hl2, rtpMapFrom_append, rtpMapFrom_cons, rtpMapStep_media t c sp _ _ m hm,
    rtpMapFrom_append]
  obtain ⟨p1, p2⟩ := forLines_rtpMapStep_streams t c sp pre ⟨true, none, 0⟩ 0
  simp only [Nat.zero_add] at p1 p2 ⊢
  rw [p1]
  rw [p1] at p2
  generalize hst : forLines (rtpMapStep t c sp) ⟨true, none, 0⟩ 0 pre = rp at p1 p2 ⊢
  have hpre : ∀ f ∈ rp.2 ++ (if !rp.1.rtpmapInStream && rp.1.payloadType.isSome then
      [Finding.rtpmapMissing (pre.length + 1) (pre.countP (fun l => startsWith l "m=".toList))]
      else []),
      f.rtpmapStream ≠ some (pre.countP (fun l => startsWith l "m=".toList) + 1) := by
    intro f hf
    rcases List.mem_append.1 hf with hf | hf
    · obtain ⟨n, hn, -, h4⟩ := p2 f hf
      rw [hn]
      intro e
      injection e with e
      omega
    · split at hf
      · rw [List.mem_singleton.1 hf]
        simp [Finding.rtpmapStream]
      · cases hf
  obtain ⟨q1, q2⟩ := countP_rtpmap_other_stream _ _ hpre
  constructor
  · intro hv
    obtain ⟨mt, hmt⟩ := Option.isSome_iff_exists.1 hv
    rw [hmt]
    simp only [Option.map_some']
    obtain ⟨b1, b2, b3⟩ := forLines_rtpMapStep_body t c sp body false
      (toNumber ((mt.cap 4).getD [])) (pre.countP (fun l => startsWith l "m=".toList) + 1)
      (pre.length + 1) hbody
    obtain ⟨t1, t2, -⟩ := rtpMap_tail t c sp post
      (false || decide (0 < body.countP (fun l => startsWith l "a=rtpmap".toList)))
      (some (toNumber ((mt.cap 4).getD [])))
      (pre.countP (fun l => startsWith l "m=".toList) + 1)
      (pre.length + 1 + body.length) len hpost
    rw [b1]
    constructor
    · rw [← List.append_assoc, List.countP_append, q1, List.countP_append, b3, t1]
      by_cases hk : body.countP (fun l => startsWith l "a=rtpmap".toList) = 0
      · simp [hk]
      · have : 0 < body.countP (fun l => startsWith l "a=rtpmap".toList) := by omega
        simp [hk, this]
    · rw [← List.append_assoc, List.countP_append, q2, List.countP_append, b2, t2]
      simp
  · intro hv
    have hmt : videoPattern.exec m = none := by
      cases h : videoPattern.exec m with
      | none => rfl
      | some mt => simp [Re.test, h] at hv
    rw [hmt]
    simp only [Option.map_none']
    rw [forLines_rtpMapStep_idle t c sp body false _ _ hbody]
    simp only [List.nil_append]
    obtain ⟨-, -, t3⟩ := rtpMap_tail t c sp post false none
      (pre.countP (fun l => startsWith l "m=".toList) + 1)
      (pre.length + 1 + body.length) len hpost
    intro f hf
    rw [← List.append_assoc] at hf
    rcases List.mem_append.1 hf with hf | hf
    · exact hpre f hf
    · exact t3 rfl f hf

/-- C22 (witness): the first media section is a video section with two `a=rtpmap` lines,
and test_20_71_3 reports one repetition for stream 1 and does not report it as without
`rtpmap`. -/
theorem rtpmap_findings_per_section_witness :
    ∃ fs, test_20_71_3
        "v=0\nm=video 50000 RTP/AVP 96\na=rtpmap:96 raw/90000\na=rtpmap:96 raw/90000\nm=audio 5004 RTP/AVP 97\n".toList
        {} = some fs ∧
      fs.countP (Finding.isRtpmapMissingOf 1) = 0 ∧
      fs.countP (Finding.isRtpmapRepeatedOf 1) = 1 := by
  obtain ⟨fs, h1, h2, -⟩ := rtpmap_findings_per_section
    "v=0\nm=video 50000 RTP/AVP 96\na=rtpmap:96 raw/90000\na=rtpmap:96 raw/90000\nm=audio 5004 RTP/AVP 97\n".toList
    {} "raw".toList "90000".toList "ST2110-20 Section 7.1".toList
    ["v=0".toList] ["a=rtpmap:96 raw/90000".toList, "a=rtpmap:96 raw/90000".toList]
    ["m=audio 5004 RTP/AVP 97".toList] "m=video 50000 RTP/AVP 96".toList
    (by decide!) (by decide) (by decide)
    (by intro l p h; cases h; decide)
  exact ⟨fs, h1, h2 (by decide!)⟩

/-! ## The lines of a text and the lines that the rules number -/

theorem isCRLF_iff (c : Char) : isCRLF c = (c.toNat == 10 || c.toNat == 13) := by
  unfold isCRLF
  exact Bool.or_comm _ _

/-- A text without terminators is one line, or none if it is empty. -/
theorem lineRuns_of_line (w : Str) (h : ∀ c ∈ w, isCRLF c = false) :
    lineRuns w = if w.isEmpty then [] else [w] := by
  cases w with
  | nil => rw [lineRuns_nil]; rfl
  | cons a w =>
    have := lineRuns_line_append (a :: w) [] (by simp) h (by intro c r e; cases e)
    rw [List.append_nil, lineRuns_nil] at this
    rw [this]
    rfl

/-- The lines that splitLines returns are the non-empty ones of the lines of the text,
in order. -/
theorem textLinesFrom_filter : ∀ (s : Str) (afterCR : Bool) (cur : Str),
    (∀ c ∈ cur, isCRLF c = false) → (afterCR = true → cur = []) →
    (textLinesFrom afterCR cur s).filter (fun l => !l.isEmpty) = lineRuns (cur ++ s)
  | [], a, cur, h, _ => by
    rw [List.append_nil, lineRuns_of_line cur h, textLinesFrom]
    cases cur <;> rfl
  | c :: rest, a, cur, h, ha => by
    rw [textLinesFrom]
    by_cases h10 : (c.toNat == 10) = true
    · have hc : isCRLF c = true := by rw [isCRLF_iff, h10]; rfl
      rw [if_pos h10]
      cases a with
      | true =>
        rw [ha rfl, if_pos rfl, textLinesFrom_filter rest false [] (by simp) (by simp)]
        rw [List.nil_append, List.nil_append, lineRuns_cons_crlf rest hc]
      | false =>
        rw [if_neg (by decide), lineRuns_append_break cur c rest hc, lineRuns_of_line cur h,
          List.filter_cons, textLinesFrom_filter rest false [] (by simp) (by simp)]
        cases cur <;> rfl
    · rw [if_neg h10]
      by_cases h13 : (c.toNat == 13) = true
      · have hc : isCRLF c = true := by rw [isCRLF_iff, h13]; simp
        rw [if_pos h13, lineRuns_append_break cur c rest hc, lineRuns_of_line cur h,
          List.filter_cons, textLinesFrom_filter rest true [] (by simp) (by simp)]
        cases cur <;> rfl
      · have hc : isCRLF c = false := by
          rw [isCRLF_iff]
          simp only [Bool.not_eq_true] at h10 h13
          rw [h10, h13]
          rfl
        rw [if_neg h13, textLinesFrom_filter rest false (cur ++ [c])
          (by
            intro d hd
            rcases List.mem_append.1 hd with hd | hd
            · exact h d hd
            · rw [List.mem_singleton.1 hd]; exact hc)
          (by simp)]
        rw [List.append_assoc]
        rfl

theorem filter_get_of_take {α : Type} (p : α → Bool) : ∀ (L : List α) (i : Nat),
    (∀ l ∈ L.take (i + 1), p l = true) → (L.filter p).get? i = L.get? i
  | [], _, _ => rfl
  | a :: L, 0, h => by
    have ha : p a = true := h a (by simp)
    rw [List.filter_cons, if_pos ha]
    rfl
  | a :: L, i + 1, h => by
    have ha : p a = true := h a (by simp)
    rw [List.filter_cons, if_pos ha]
    simp only [List.get?_cons_succ]
    apply filter_get_of_take p L i
    intro l hl
    apply h
    rw [List.take_succ_cons]
    exact List.mem_cons_of_mem _ hl

/-- C23 (amended): for every text with LF, CR or CRLF terminators, splitLines returns the
non-empty lines of the text, in order (and the fault `null` when there is none): element
`i` of splitLines(text) is the non-empty line number `i + 1` of the text, blank lines not
counted, and it is line `i + 1` of the text when none of the first `i + 1` lines of the
text is blank. -/
theorem splitLines_numbers_nonblank_lines (text : Str) :
    lineRuns text = (textLines text).filter (fun l => !l.isEmpty) ∧
    splitLines text =
      (if (textLines text).filter (fun l => !l.isEmpty) = [] then none
       else some ((textLines text).filter (fun l => !l.isEmpty))) ∧
    ∀ i, (∀ l ∈ (textLines text).take (i + 1), l ≠ []) →
      (lineRuns text).get? i = (textLines text).get? i := by
  have h1 : lineRuns text = (textLines text).filter (fun l => !l.isEmpty) := by
    rw [textLines, textLinesFrom_filter text false [] (by simp) (by simp)]
    rfl
  refine ⟨h1, ?_, ?_⟩
  · rw [← h1]
    unfold splitLines
    cases lineRuns text <;> simp
  · intro i hi
    rw [h1]
    apply filter_get_of_take
    intro l hl
    have := hi l hl
    cases l with
    | nil => exact absurd rfl this
    | cons a l => rfl

/-- C23 (witness): a text with CRLF, CR and LF terminators and no blank line. -/
theorem splitLines_numbers_nonblank_lines_witness :
    splitLines "v=0\r\no=- 1 1 IN IP4 10.0.0.1\rs=x\nt=0 0".toList =
      some ["v=0".toList, "o=- 1 1 IN IP4 10.0.0.1".toList, "s=x".toList, "t=0 0".toList] ∧
    (lineRuns "v=0\r\no=- 1 1 IN IP4 10.0.0.1\rs=x\nt=0 0".toList).get? 3 =
      (textLines "v=0\r\no=- 1 1 IN IP4 10.0.0.1\rs=x\nt=0 0".toList).get? 3 :=
  ⟨by decide!,
    (splitLines_numbers_nonblank_lines "v=0\r\no=- 1 1 IN IP4 10.0.0.1\rs=x\nt=0 0".toList).2.2
      3 (by decide!)⟩

/-- C23 (counterexample): the text has a blank third line; its fourth line is element 2 of
splitLines, and test_10_82_2 cites it as line 3. -/
theorem blank_line_shifts_cited_line :
    (textLines "v=0\nm=video 50000 RTP/AVP 96\n\na=ts-refclk:foo\n".toList).get? 3 =
      some "a=ts-refclk:foo".toList ∧
    (splitLines "v=0\nm=video 50000 RTP/AVP 96\n\na=ts-refclk:foo\n".toList).map
      (fun lines => lines.get? 2) = some (some "a=ts-refclk:foo".toList) ∧
    test_10_82_2 "v=0\nm=video 50000 RTP/AVP 96\n\na=ts-refclk:foo\n".toList {} =
      some [Finding.tsrefclkForm 3] := by
  decide!

/-! ## Rules on the value of one parameter -/

theorem check_20_73_3_cited (o : StreamParams) (f : Finding) (h : f ∈ check_20_73_3 o) :
    f.citedLine = some o._line := by
  unfold check_20_73_3 at h
  repeat' split at h
  all_goals simp at h
  all_goals (subst h; rfl)

/-- C24 (amended): for every accepted `a=fmtp` line of a video media section that no
`a=rtpmap` line of a skipped type precedes in the section, test_20_73_3 returns,
and it reports a Finding that cites the line if and only if `RANGE` is present with a
value `range` and either `colorimetry` is `BT2100` and `range` is neither `FULL` nor
`NARROW`, or `colorimetry` is not `BT2100` (absent included) and `range` is none of
`NARROW`, `FULLPROTECT`, `FULL`; with `RANGE` absent there is no such Finding. -/
theorem range_rule (sdp : Str) (params : Params) (x j : Nat) (line : Str)
    (hline : (lineRuns sdp).get? x = some line)
    (hsec : inVideoSection (lineRuns sdp) j x)
    (hf : startsWith line "a=fmtp".toList = true) (ht : fmtpPattern.test line = true) :
    ∃ fs, test_20_73_3 sdp params = some fs ∧
      (fs.filter (fun f => f.citedLine == some (x + 1)) ≠ [] ↔
        ∃ range, (fmtpProps line).lookup "RANGE".toList = some range ∧
          (((fmtpProps line).lookup "colorimetry".toList = some "BT2100".toList ∧
              range ≠ "FULL".toList ∧ range ≠ "NARROW".toList) ∨
            ((fmtpProps line).lookup "colorimetry".toList ≠ some "BT2100".toList ∧
              range ∉ ["NARROW".toList, "FULLPROTECT".toList, "FULL".toList]))) ∧
      ((fmtpProps line).lookup "RANGE".toList = none →
        fs.filter (fun f => f.citedLine == some (x + 1)) = []) := by
  obtain ⟨r, pt, hr, hfil⟩ := findings_at_line check_20_73_3 check_20_73_3_cited sdp
    params x j line hline hsec hf ht
  refine ⟨r.2 ++ r.1.flatMap check_20_73_3, by simp [test_20_73_3, forStreams, hr], ?_, ?_⟩
  · rw [hfil]
    unfold check_20_73_3 rangePermitted
    simp only [StreamParams.get]
    generalize (fmtpProps line).lookup "RANGE".toList = oR
    generalize (fmtpProps line).lookup "colorimetry".toList = oC
    generalize "BT2100".toList = B
    generalize "FULLPROTECT".toList = P
    generalize "FULL".toList = F
    generalize "NARROW".toList = N
    cases oR with
    | none => simp
    | some range =>
      by_cases hc : oC = some B
      · subst hc
        by_cases h1 : range = F
        · simp [h1]
        · by_cases h2 : range = N
          · simp [h2]
          · simp [h1, h2]
      · have e : (oC == some B) = false := by simpa using hc
        simp only [e, Bool.false_eq_true, if_false]
        by_cases hp : range ∈ [N, P, F]
        · simp only [List.mem_cons, List.mem_singleton, List.not_mem_nil, or_false] at hp
          simp [hc]
        · simp only [List.mem_cons, List.mem_singleton, List.not_mem_nil, or_false] at hp
          simp [hc]
  · intro hR
    rw [hfil]
    unfold check_20_73_3
    simp only [StreamParams.get, hR]

/-- C24 (witness): with colorimetry `BT2100` the value `FULLPROTECT` of `RANGE` is
reported for the line. -/
theorem range_rule_witness :
    ∃ fs, test_20_73_3
        "v=0\nm=video 50000 RTP/AVP 112\na=fmtp:112 colorimetry=BT2100; RANGE=FULLPROTECT\n".toList
        {} = some fs ∧
      fs.filter (fun f => f.citedLine == some 3) ≠ [] := by
  obtain ⟨fs, h1, h2, -⟩ := range_rule
    "v=0\nm=video 50000 RTP/AVP 112\na=fmtp:112 colorimetry=BT2100; RANGE=FULLPROTECT\n".toList
    {} 2 1 "a=fmtp:112 colorimetry=BT2100; RANGE=FULLPROTECT".toList
    (by decide!) ⟨by decide, by decide!, by decide!, fun i h1 h2 => by omega⟩
    (by decide!) (by decide!)
  exact ⟨fs, h1, h2.2 ⟨"FULLPROTECT".toList, by decide!, Or.inl ⟨by decide!, by decide, by decide⟩⟩⟩

/-- C24 (counterexample): the `a=fmtp` line of a video media section follows an `a=rtpmap`
line of the skipped type `smpte291`: test_20_73_3 reports nothing for `RANGE=FULLPROTECT`
with `colorimetry=BT2100`, which it reports where the type is `raw`. -/
theorem skipped_section_range_unreported :
    test_20_73_3
      ("v=0\nm=video 50000 RTP/AVP 100\na=rtpmap:100 smpte291/90000\n" ++
       "a=fmtp:100 colorimetry=BT2100; RANGE=FULLPROTECT\n").toList {} = some [] ∧
    test_20_73_3
      ("v=0\nm=video 50000 RTP/AVP 100\na=rtpmap:100 raw/90000\n" ++
       "a=fmtp:100 colorimetry=BT2100; RANGE=FULLPROTECT\n").toList {} =
      some [Finding.rangeBT2100 4 1 "FULLPROTECT".toList] := by
  decide!

theorem checkPermitted_cited (name : String) (permitted : List Str)
    (finding : Nat → Nat → Finding) (hfind : ∀ a b, (finding a b).citedLine = some a)
    (o : StreamParams) (f : Finding) (h : f ∈ checkPermitted name permitted finding o) :
    f.citedLine = some o._line := by
  unfold checkPermitted at h
  repeat' split at h
  all_goals simp at h
  subst h
  exact hfind _ _

theorem checkPermitted_length (name : String) (permitted : List Str)
    (finding : Nat → Nat → Finding) (o : StreamParams) :
    (checkPermitted name permitted finding o).length =
      if outsidePermitted o.props name permitted then 1 else 0 := by
  unfold checkPermitted outsidePermitted StreamParams.get
  cases o.props.lookup name.toList with
  | none => rfl
  | some v => by_cases h : v ∈ permitted <;> simp [h]

theorem check_20_72_4_cited (o : StreamParams) (f : Finding) (h : f ∈ check_20_72_4 o) :
    f.citedLine = some o._line := by
  unfold check_20_72_4 at h
  repeat' split at h
  all_goals simp at h
  subst h
  rfl

theorem check_20_72_4_length (o : StreamParams) :
    (check_20_72_4 o).length = if outsidePermitted o.props "PM" packingModes then 1 else 0 := by
  unfold check_20_72_4 outsidePermitted StreamParams.get
  cases o.props.lookup "PM".toList with
  | none => rfl
  | some v => by_cases h : v ∈ packingModes <;> simp [h]

theorem check_20_73_4_cited (o : StreamParams) (f : Finding) (h : f ∈ check_20_73_4 o) :
    f.citedLine = some o._line := by
  unfold check_20_73_4 at h
  repeat' split at h
  all_goals simp at h
  subst h
  rfl

theorem check_20_73_4_length (o : StreamParams) :
    (check_20_73_4 o).length =
      if outsidePermitted o.props "MAXUDP" maxudpPermitted then 1 else 0 := by
  unfold check_20_73_4 outsidePermitted StreamParams.get
  cases o.props.lookup "MAXUDP".toList with
  | none => rfl
  | some v => by_cases h : v ∈ maxudpPermitted <;> simp [h]

/-- A rule that reports one Finding for a parameter with a value outside its permitted
list: the Findings that cite an accepted `a=fmtp` line. -/
theorem permitted_at_line (check : StreamParams → List Finding)
    (hc : ∀ o f, f ∈ check o → f.citedLine = some o._line)
    (name : String) (permitted : List Str)
    (hlen : ∀ o, (check o).length = if outsidePermitted o.props name permitted then 1 else 0)
    (sdp : Str) (params : Params) (x j : Nat) (line : Str)
    (hline : (lineRuns sdp).get? x = some line)
    (hsec : inVideoSection (lineRuns sdp) j x)
    (hf : startsWith line "a=fmtp".toList = true) (ht : fmtpPattern.test line = true) :
    ∃ fs, forStreams check sdp params = some fs ∧
      (fs.filter (fun f => f.citedLine == some (x + 1))).length =
        if outsidePermitted (fmtpProps line) name permitted then 1 else 0 := by
  obtain ⟨r, pt, hr, hfil⟩ := findings_at_line check hc sdp params x j line hline hsec hf ht
  refine ⟨r.2 ++ r.1.flatMap check, by simp [forStreams, hr], ?_⟩
  rw [hfil, hlen]

/-- C25 (amended): for every accepted `a=fmtp` line of a video media section that no
`a=rtpmap` line of a skipped type precedes in the section, test_20_74_2 returns,
and it reports exactly one Finding that cites the line if `depth` is present with a value
outside `8`, `10`, `12`, `16`, `16f`, and none otherwise (none when `depth` is absent);
the same holds of test_20_74_1 for `sampling`, test_20_75_1 for `colorimetry`,
test_20_76_1 for `TCS`, test_20_72_4 for `PM` and test_20_73_4 for `MAXUDP`, each against
its list of permitted values. -/
theorem permitted_value_rules (sdp : Str) (params : Params) (x j : Nat) (line : Str)
    (hline : (lineRuns sdp).get? x = some line)
    (hsec : inVideoSection (lineRuns sdp) j x)
    (hf : startsWith line "a=fmtp".toList = true) (ht : fmtpPattern.test line = true) :
    (∃ fs, test_20_74_2 sdp params = some fs ∧
      (fs.filter (fun f => f.citedLine == some (x + 1))).length =
        if outsidePermitted (fmtpProps line) "depth"
          ["8".toList, "10".toList, "12".toList, "16".toList, "16f".toList] then 1 else 0) ∧
    (∃ fs, test_20_74_1 sdp params = some fs ∧
      (fs.filter (fun f => f.citedLine == some (x + 1))).length =
        if outsidePermitted (fmtpProps line) "sampling" samplingPermitted then 1 else 0) ∧
    (∃ fs, test_20_75_1 sdp params = some fs ∧
      (fs.filter (fun f => f.citedLine == some (x + 1))).length =
        if outsidePermitted (fmtpProps line) "colorimetry" colorPermitted then 1 else 0) ∧
    (∃ fs, test_20_76_1 sdp params = some fs ∧
      (fs.filter (fun f => f.citedLine == some (x + 1))).length =
        if outsidePermitted (fmtpProps line) "TCS" tcsPermitted then 1 else 0) ∧
    (∃ fs, test_20_72_4 sdp params = some fs ∧
      (fs.filter (fun f => f.citedLine == some (x + 1))).length =
        if outsidePermitted (fmtpProps line) "PM" packingModes then 1 else 0) ∧
    (∃ fs, test_20_73_4 sdp params = some fs ∧
      (fs.filter (fun f => f.citedLine == some (x + 1))).length =
        if outsidePermitted (fmtpProps line) "MAXUDP" maxudpPermitted then 1 else 0) ∧
    (∀ name permitted, (fmtpProps line).lookup name.toList = none →
      outsidePermitted (fmtpProps line) name permitted = false) :=
  ⟨permitted_at_line _ (checkPermitted_cited "depth" depthPermitted Finding.depthValue
      (fun _ _ => rfl)) "depth" depthPermitted
      (checkPermitted_length _ _ _) sdp params x j line hline hsec hf ht,
    permitted_at_line _ (checkPermitted_cited "sampling" samplingPermitted
      Finding.samplingValue (fun _ _ => rfl)) "sampling"
      samplingPermitted (checkPermitted_length _ _ _) sdp params x j line hline hsec hf ht,
    permitted_at_line _ (checkPermitted_cited "colorimetry" colorPermitted
      Finding.colorimetryValue (fun _ _ => rfl)) "colorimetry"
      colorPermitted (checkPermitted_length _ _ _) sdp params x j line hline hsec hf ht,
    permitted_at_line _ (checkPermitted_cited "TCS" tcsPermitted Finding.tcsValue
      (fun _ _ => rfl)) "TCS" tcsPermitted
      (checkPermitted_length _ _ _) sdp params x j line hline hsec hf ht,
    permitted_at_line _ check_20_72_4_cited "PM" packingModes check_20_72_4_length
      sdp params x j line hline hsec hf ht,
    permitted_at_line _ check_20_73_4_cited "MAXUDP" maxudpPermitted check_20_73_4_length
      sdp params x j line hline hsec hf ht,
    fun name permitted h => by unfold outsidePermitted; rw [h]⟩

/-- C25 (witness): the line has `depth=9`, outside the permitted values, and no `TCS`:
test_20_74_2 reports one Finding for it and test_20_76_1 none. -/
theorem permitted_value_rules_witness :
    (∃ fs, test_20_74_2
        "v=0\nm=video 50000 RTP/AVP 112\na=fmtp:112 sampling=RGB; depth=9\n".toList {} =
        some fs ∧ (fs.filter (fun f => f.citedLine == some 3)).length = 1) ∧
    (∃ fs, test_20_76_1
        "v=0\nm=video 50000 RTP/AVP 112\na=fmtp:112 sampling=RGB; depth=9\n".toList {} =
        some fs ∧ (fs.filter (fun f => f.citedLine == some 3)).length = 0) := by
  obtain ⟨⟨fs, h1, h2⟩, -, -, ⟨gs, g1, g2⟩, -⟩ := permitted_value_rules
    "v=0\nm=video 50000 RTP/AVP 112\na=fmtp:112 sampling=RGB; depth=9\n".toList {} 2 1
    "a=fmtp:112 sampling=RGB; depth=9".toList
    (by decide!) ⟨by decide, by decide!, by decide!, fun i h1 h2 => by omega⟩
    (by decide!) (by decide!)
  refine ⟨⟨fs, h1, ?_⟩, ⟨gs, g1, ?_⟩⟩
  · rw [h2]
    decide!
  · rw [g2]
    decide!

/-- C25 (counterexample): the `a=fmtp` line of a video media section follows an `a=rtpmap`
line of the skipped type `smpte291`: test_20_74_2 reports nothing for `depth=9`, which it
reports where the type is `raw`. -/
theorem skipped_section_depth_unreported :
    test_20_74_2 ("v=0\nm=video 50000 RTP/AVP 100\na=rtpmap:100 smpte291/90000\n" ++
      "a=fmtp:100 depth=9\n").toList {} = some [] ∧
    test_20_74_2 ("v=0\nm=video 50000 RTP/AVP 100\na=rtpmap:100 raw/90000\n" ++
      "a=fmtp:100 depth=9\n").toList {} =
      some [Finding.depthValue 4 1] := by
  decide!

/-! ## The channel order of audio streams -/

theorem channelOrderStep_media (params : Params) (st : AudioState) (x : Nat) (l : Str)
    (h : startsWith l "m=".toList = true) :
    channelOrderStep params st x l =
      (audioMedia st l,
        if params.channelOrder == true && st.has == false && st.payloadType.isSome then
          [Finding.channelOrderMissing (x + 1) st.streamCount] else []) := by
  unfold channelOrderStep
  rw [if_pos h]

theorem channelOrderStep_idle (params : Params) (st : AudioState) (x : Nat) (l : Str)
    (h : startsWith l "m=".toList = false)
    (h2 : (st.payloadType.isSome && startsWith l "a=fmtp".toList) = false) :
    channelOrderStep params st x l = (st, []) := by
  unfold channelOrderStep
  rw [if_neg (by rw [h]; decide), if_neg (by rw [Bool.and_comm, h2]; decide)]

theorem channelOrderFrom_cons (params : Params) (l : Str) (ls : List Str) (st : AudioState)
    (x : Nat) :
    channelOrderFrom params st x (l :: ls) =
      (channelOrderStep params st x l).2 ++
        channelOrderFrom params (channelOrderStep params st x l).1 (x + 1) ls := by
  unfold channelOrderFrom
  rw [forLines_cons]
  simp only [List.append_assoc]

theorem channelOrderFrom_append (params : Params) (a b : List Str) (st : AudioState)
    (x : Nat) :
    channelOrderFrom params st x (a ++ b) =
      (forLines (channelOrderStep params) st x a).2 ++
        channelOrderFrom params (forLines (channelOrderStep params) st x a).1
          (x + a.length) b := by
  unfold channelOrderFrom
  rw [forLines_append]
  simp only [List.append_assoc]

theorem test_30_62_4_eq (sdp : Str) (params : Params) (h : lineRuns sdp ≠ []) :
    test_30_62_4 sdp params = some (channelOrderFrom params audioInit 0 (lineRuns sdp)) := by
  unfold test_30_62_4
  rw [splitLines_of_ne_nil h]
  rfl

/-- Without an `a=fmtp` line in the audio media sections, test_30_62_4 reports nothing
unless the channel order is required, and then each audio media section once. -/
theorem channelOrderFrom_free (params : Params) : ∀ (ls : List Str) (st : AudioState)
    (x : Nat), audioFmtpFree st.payloadType.isSome ls = true →
    (params.channelOrder = false → channelOrderFrom params st x ls = []) ∧
    (params.channelOrder = true →
      (channelOrderFrom params st x ls).map Finding.channelOrderMissingStream =
        ((if st.has == false && st.payloadType.isSome then [st.streamCount] else []) ++
          audioSectionNumbers st.streamCount ls).map some)
  | [], st, x, _ => by
    constructor
    · intro hc
      simp [channelOrderFrom, forLines, hc]
    · intro hc
      simp only [channelOrderFrom, forLines, hc, audioSectionNumbers, List.nil_append,
        List.append_nil, beq_self_eq_true, Bool.true_and]
      split <;> rfl
  | l :: ls, st, x, h => by
    rw [audioFmtpFree] at h
    rw [channelOrderFrom_cons, audioSectionNumbers]
    by_cases hm : startsWith l "m=".toList = true
    · rw [if_pos hm] at h
      rw [if_pos hm, channelOrderStep_media params st x l hm]
      have hpt : (audioMedia st l).payloadType.isSome = audioPattern.test l := by
        simp [audioMedia, Re.test]
      obtain ⟨i1, i2⟩ := channelOrderFrom_free params ls (audioMedia st l) (x + 1)
        (by rw [hpt]; exact h)
      constructor
      · intro hc
        simp only at i1 ⊢
        rw [i1 hc]
        simp [hc]
      · intro hc
        simp only at i2 ⊢
        rw [List.map_append, i2 hc, hpt]
        simp only [hc, beq_self_eq_true, Bool.true_and, audioMedia]
        cases audioPattern.test l <;>
          cases (st.has == false && st.payloadType.isSome) <;> simp [Finding.channelOrderMissingStream]
    · have hm1 : startsWith l "m=".toList = false := by simpa using hm
      rw [if_neg hm] at h
      rw [if_neg hm]
      simp only [Bool.and_eq_true, Bool.not_eq_true'] at h
      rw [channelOrderStep_idle params st x l hm1 h.1]
      simp only [List.nil_append]
      exact channelOrderFrom_free params ls st (x + 1) h.2

/-- A line that channelOrderPattern matches contains the text `channel-order=`. -/
theorem channelOrderPattern_contains {line : Str} (h : channelOrderPattern.test line = true) :
    (Re.lit "channel-order=".toList).test line = true := by
  obtain ⟨u, w, v, hs, hden⟩ := test_eq_true_iff.1 h
  unfold channelOrderPattern at hden
  obtain ⟨a1, b1, e1, -, h1⟩ := den_cat_cons.1 hden
  obtain ⟨a2, b2, e2, -, h2⟩ := den_cat_cons.1 h1
  obtain ⟨a3, b3, e3, -, h3⟩ := den_cat_cons.1 h2
  obtain ⟨a4, b4, e4, -, h4⟩ := den_cat_cons.1 h3
  obtain ⟨a5, b5, e5, -, h5⟩ := den_cat_cons.1 h4
  obtain ⟨a6, b6, e6, h6, -⟩ := den_cat_cons.1 h5
  have e := den_lit.1 h6
  apply test_eq_true_iff.2
  refine ⟨u ++ (a1 ++ (a2 ++ (a3 ++ (a4 ++ a5)))), a6, b6 ++ v, ?_, den_lit.2 e⟩
  rw [hs, e1, e2, e3, e4, e5, e6]
  simp only [List.append_assoc]

theorem channelOrderStep_count (params : Params) (st : AudioState) (x : Nat) (l : Str) :
    (channelOrderStep params st x l).1.streamCount =
      st.streamCount + (if startsWith l "m=".toList then 1 else 0) := by
  unfold channelOrderStep
  repeat' split
  all_goals simp_all [audioMedia]

theorem forLines_channelOrderStep_count (params : Params) : ∀ (ls : List Str)
    (st : AudioState) (x : Nat),
    (forLines (channelOrderStep params) st x ls).1.streamCount =
      st.streamCount + ls.countP (fun l => startsWith l "m=".toList)
  | [], st, x => by simp [forLines]
  | l :: ls, st, x => by
    rw [forLines_cons]
    simp only
    rw [forLines_channelOrderStep_count params ls, channelOrderStep_count, List.countP_cons]
    omega

theorem channelOrderStep_payloadType (params : Params) (st : AudioState) (x : Nat) (l : Str)
    (h : startsWith l "m=".toList = false) :
    (channelOrderStep params st x l).1.payloadType = st.payloadType := by
  unfold channelOrderStep
  rw [if_neg (by rw [h]; decide)]
  repeat' split
  all_goals rfl

theorem forLines_channelOrderStep_payloadType (params : Params) : ∀ (ls : List Str)
    (st : AudioState) (x : Nat), (∀ l ∈ ls, startsWith l "m=".toList = false) →
    (forLines (channelOrderStep params) st x ls).1.payloadType = st.payloadType
  | [], _, _, _ => rfl
  | l :: ls, st, x, h => by
    rw [forLines_cons]
    simp only
    rw [forLines_channelOrderStep_payloadType params ls _ _
      (fun l1 hl1 => h l1 (List.mem_cons_of_mem _ hl1)),
      channelOrderStep_payloadType params st x l (h l (List.mem_cons_self _ _))]

/-- C26 (amended): for every SDP with at least one non-empty line, test_30_62_4 returns a
sequence of Findings, and (1) if no audio media section (a media line that audioPattern
matches, and the lines up to the next media line) has a line that starts with `a=fmtp`,
the sequence is empty when `channelOrder` is false, and when `channelOrder` is true it
consists of one Finding, that the channel order is required by the test parameters and
not present, for each audio media section, in order; (2) when `channelOrder` is true, a
line that starts with `a=fmtp` in an audio media section and does not contain
`channel-order=` yields the Finding that the attribute does not contain a channel order
parameter, citing the line and the section. -/
theorem channel_order_required (sdp : Str) (params : Params) (hne : lineRuns sdp ≠ []) :
    ∃ fs, test_30_62_4 sdp params = some fs ∧
      (audioFmtpFree false (lineRuns sdp) = true →
        (params.channelOrder = false → fs = []) ∧
        (params.channelOrder = true →
          fs.map Finding.channelOrderMissingStream =
            (audioSectionNumbers 0 (lineRuns sdp)).map some)) ∧
      (params.channelOrder = true →
        ∀ (pre body post : List Str) (m line : Str),
          lineRuns sdp = pre ++ m :: body ++ line :: post →
          startsWith m "m=".toList = true → audioPattern.test m = true →
          (∀ l ∈ body, startsWith l "m=".toList = false) →
          startsWith line "m=".toList = false →
          startsWith line "a=fmtp".toList = true →
          (Re.lit "channel-order=".toList).test line = false →
          Finding.channelOrderAbsent (pre.length + body.length + 2)
            (pre.countP (fun l => startsWith l "m=".toList) + 1) ∈ fs) := by
  refine ⟨_, test_30_62_4_eq sdp params hne, ?_, ?_⟩
  · intro hfree
    obtain ⟨h1, h2⟩ := channelOrderFrom_free params (lineRuns sdp) audioInit 0 hfree
    refine ⟨h1, fun hc => ?_⟩
    rw [h2 hc]
    rfl
  · intro hc pre body post m line hl hm ha hbody hlm hf hno
    have hl2 : lineRuns sdp = (pre ++ m :: body) ++ line :: post := by
      rw [hl]
    rw [hl2, channelOrderFrom_append, channelOrderFrom_cons]
    apply List.mem_append_right
    apply List.mem_append_left
    have hcount := forLines_channelOrderStep_count params (pre ++ m :: body) audioInit 0
    have hpt : (forLines (channelOrderStep params) audioInit 0
        (pre ++ m :: body)).1.payloadType.isSome = true := by
      rw [forLines_append, forLines_cons]
      simp only
      rw [forLines_channelOrderStep_payloadType params body _ _ hbody,
        channelOrderStep_media params _ _ m hm]
      simp only [audioMedia, Option.isSome_map']
      exact ha
    have hcnt : (pre ++ m :: body).countP (fun l => startsWith l "m=".toList) =
        pre.countP (fun l => startsWith l "m=".toList) + 1 := by
      have hb : body.countP (fun l => startsWith l "m=".toList) = 0 :=
        List.countP_eq_zero.2 (fun l hl1 => by rw [hbody l hl1]; decide)
      rw [List.countP_append, List.countP_cons, hm, if_pos rfl, hb]
    rw [hcnt] at hcount
    have hex : channelOrderPattern.exec line = none := by
      cases he : channelOrderPattern.exec line with
      | none => rfl
      | some mt =>
        have : channelOrderPattern.test line = true := by simp [Re.test, he]
        rw [channelOrderPattern_contains this] at hno
        cases hno
    generalize forLines (channelOrderStep params) audioInit 0 (pre ++ m :: body) = rp at hcount hpt
    have hlen : 0 + (pre ++ m :: body).length + 1 = pre.length + body.length + 2 := by
      simp
      omega
    unfold channelOrderStep
    rw [if_neg (by rw [hlm]; decide), hf, hpt, hex]
    simp only [Bool.and_self, hc, beq_self_eq_true, if_true, List.mem_singleton]
    rw [hlen, hcount]
    simp [audioInit]

/-- C26 (witness): two audio media sections without an `a=fmtp` line are each reported
once when the channel order is required; and an `a=fmtp` line of an audio media section
without `channel-order=` is reported. -/
theorem channel_order_required_witness :
    (∃ fs, test_30_62_4
        "v=0\nm=audio 5004 RTP/AVP 97\na=rtpmap:97 L24/48000/2\nm=audio 5006 RTP/AVP 98\n".toList
        { channelOrder := true } = some fs ∧
      fs.map Finding.channelOrderMissingStream = [some 1, some 2]) ∧
    (∃ fs, test_30_62_4
        "v=0\nm=audio 5004 RTP/AVP 97\na=rtpmap:97 L24/48000/2\na=fmtp:97 foo=1\n".toList
        { channelOrder := true } = some fs ∧
      Finding.channelOrderAbsent 4 1 ∈ fs) := by
  constructor
  · obtain ⟨fs, h1, h2, -⟩ := channel_order_required
      "v=0\nm=audio 5004 RTP/AVP 97\na=rtpmap:97 L24/48000/2\nm=audio 5006 RTP/AVP 98\n".toList
      { channelOrder := true } (by decide!)
    refine ⟨fs, h1, ?_⟩
    rw [(h2 (by decide!)).2 rfl]
    decide!
  · obtain ⟨fs, h1, -, h3⟩ := channel_order_required
      "v=0\nm=audio 5004 RTP/AVP 97\na=rtpmap:97 L24/48000/2\na=fmtp:97 foo=1\n".toList
      { channelOrder := true } (by decide!)
    exact ⟨fs, h1, h3 rfl ["v=0".toList] ["a=rtpmap:97 L24/48000/2".toList] []
      "m=audio 5004 RTP/AVP 97".toList "a=fmtp:97 foo=1".toList (by decide!) (by decide)
      (by decide!) (by decide) (by decide) (by decide) (by decide!)⟩

/-- C26 (counterexample): the empty text has no audio media section, and test_30_62_4
throws on it. -/
theorem channel_order_rule_throws_on_empty_text :
    audioFmtpFree false (lineRuns []) = true ∧
    test_30_62_4 [] {} = none ∧ test_30_62_4 [] { channelOrder := true } = none := by
  decide

/-! ## Format-parameter lines that are accepted -/

theorem ne_nil_of_isEmpty_false {w : Str} (h : (!w.isEmpty) = true) : w ≠ [] := by
  cases w with
  | nil => cases h
  | cons a w => simp

theorem den_fmtpElement (e : Str × Option Str) (he : isElement e = true) (i j pos : Nat)
    (rest : Str) : Den (fmtpElement i j) pos (elementText e) rest := by
  obtain ⟨k, v⟩ := e
  unfold isElement at he
  simp only [Bool.and_eq_true] at he
  obtain ⟨⟨hk1, hk2⟩, hv⟩ := he
  unfold fmtpElement elementText
  refine den_seq.2 ⟨k, _, rfl, den_grp.2 (den_plus_cls.2
    ⟨ne_nil_of_isEmpty_false hk1, fun c hc => List.all_eq_true.1 hk2 c hc⟩), ?_⟩
  cases v with
  | none => exact den_opt.2 (Or.inr rfl)
  | some v =>
    simp only [Bool.and_eq_true] at hv
    refine den_opt.2 (Or.inl (den_seq.2 ⟨['='], v, rfl, den_chr.2 rfl, den_grp.2
      (den_plus_cls.2 ⟨ne_nil_of_isEmpty_false hv.1, fun c hc => List.all_eq_true.1 hv.2 c hc⟩)⟩))

theorem den_fmtpSeparator (w : Str) (hw : w.all isSpace = true) (pos : Nat) (rest : Str) :
    Den fmtpSeparator pos (';' :: w) rest := by
  unfold fmtpSeparator
  exact den_seq.2 ⟨[';'], w, rfl, den_chr.2 rfl,
    den_star_cls.2 (fun c hc => List.all_eq_true.1 hw c hc)⟩

theorem den_fmtp_more : ∀ (more : List (Str × (Str × Option Str))),
    more.all (fun p => p.1.all isSpace && isElement p.2) = true →
    ∀ (pos : Nat) (rest : Str),
      Den (.star (.grp 4 (.seq fmtpSeparator (fmtpElement 5 6)))) pos
        (more.flatMap (fun p => ';' :: (p.1 ++ elementText p.2))) rest
  | [], _, pos, rest => Den.starNil _ _ _
  | p :: more, h, pos, rest => by
    simp only [List.all_cons, Bool.and_eq_true] at h
    rw [List.flatMap_cons]
    refine Den.starCons _ _ _ _ _ (by simp) ?_ (den_fmtp_more more h.2 _ _)
    refine den_grp.2 (den_seq.2 ⟨';' :: p.1, elementText p.2, by simp, ?_, ?_⟩)
    · exact den_fmtpSeparator p.1 h.1.1 _ _
    · exact den_fmtpElement p.2 h.1.2 _ _ _ _

/-- A line of the form of fmtpLine matches fmtpPattern. -/
theorem fmtpLine_matches (pt ws : Str) (first : Str × Option Str)
    (more : List (Str × (Str × Option Str))) (last : Option Str)
    (h : isFmtpLine pt ws first more last = true) :
    fmtpPattern.test (fmtpLine pt ws first more last) = true := by
  unfold isFmtpLine at h
  simp only [Bool.and_eq_true] at h
  obtain ⟨⟨⟨⟨⟨⟨h1, h2⟩, h3⟩, h4⟩, h5⟩, h6⟩, h7⟩ := h
  apply test_eq_true_iff.2
  refine ⟨[], fmtpLine pt ws first more last, [], by simp, ?_⟩
  unfold fmtpPattern fmtpLine
  refine den_cat_cons.2 ⟨_, _, rfl, den_lit.2 rfl, ?_⟩
  refine den_cat_cons.2 ⟨_, _, rfl, den_grp.2 (den_plus_cls.2
    ⟨ne_nil_of_isEmpty_false h1, fun c hc => List.all_eq_true.1 h2 c hc⟩), ?_⟩
  refine den_cat_cons.2 ⟨_, _, rfl, den_plus_cls.2
    ⟨ne_nil_of_isEmpty_false h3, fun c hc => List.all_eq_true.1 h4 c hc⟩, ?_⟩
  refine den_cat_cons.2 ⟨_, _, rfl, den_fmtpElement first h5 _ _ _ _, ?_⟩
  refine den_cat_cons.2 ⟨_, _, rfl, den_fmtp_more more h6 _ _, ?_⟩
  cases last with
  | none =>
    exact den_cat_cons.2 ⟨[], [], rfl, den_opt.2 (Or.inr rfl),
      den_cat_cons.2 ⟨[], [], rfl, den_eol.2 ⟨rfl, rfl⟩, den_cat_nil.2 rfl⟩⟩
  | some w =>
    exact den_cat_cons.2 ⟨';' :: w, [], by simp,
      den_opt.2 (Or.inl (den_fmtpSeparator w h7 _ _)),
      den_cat_cons.2 ⟨[], [], rfl, den_eol.2 ⟨rfl, rfl⟩, den_cat_nil.2 rfl⟩⟩

/-- A Finding of a loop over the lines is pushed at one of the lines. -/
theorem forLines_mem {σ : Type} (body : σ → Nat → Str → σ × List Finding) :
    ∀ (ls : List Str) (st : σ) (x0 : Nat) (f : Finding), f ∈ (forLines body st x0 ls).2 →
      ∃ i st1 l, ls.get? i = some l ∧ f ∈ (body st1 (x0 + i) l).2
  | [], _, _, _, h => by simp [forLines] at h
  | l :: ls, st, x0, f, h => by
    rw [forLines_cons] at h
    rcases List.mem_append.1 h with h | h
    · exact ⟨0, st, l, rfl, h⟩
    · obtain ⟨i, st1, l1, h1, h2⟩ := forLines_mem body ls _ (x0 + 1) f h
      refine ⟨i + 1, st1, l1, h1, ?_⟩
      have e : x0 + (i + 1) = x0 + 1 + i := by omega
      rw [e]
      exact h2

theorem fmtpStep_patternBad (st : FmtpState) (y : Nat) (l : Str) (n s : Nat)
    (h : Finding.fmtpPatternBad n s ∈ (fmtpStep st y l).2) :
    n = y + 1 ∧ fmtpPattern.exec l = none := by
  unfold fmtpStep fmtpCheck at h
  repeat' split at h
  all_goals simp at h
  all_goals exact ⟨h.1, by assumption⟩

/-- C27 (amended): a line of the form `a=fmtp:<pt>`, white space, and elements `key` or
`key=value` separated by semicolons, where white space may follow each semicolon (also a
semicolon after the last element) and stands nowhere else, matches fmtpPattern; and when
it is line `x + 1` of an SDP, in a video media section that is not of a skipped type,
extractMTParams returns an object for the line and no Finding that cites it, and
test_20_71_4 returns no Finding that the `fmtp` attribute of line `x + 1` is not an
acceptable pattern. -/
theorem fmtp_line_accepted (pt ws : Str) (first : Str × Option Str)
    (more : List (Str × (Str × Option Str))) (last : Option Str)
    (h : isFmtpLine pt ws first more last = true) :
    fmtpPattern.test (fmtpLine pt ws first more last) = true ∧
    ∀ (sdp : Str) (params : Params) (x j : Nat),
      (lineRuns sdp).get? x = some (fmtpLine pt ws first more last) →
      inVideoSection (lineRuns sdp) j x →
      (∃ r o, extractMTParams sdp params = some r ∧ o ∈ r.1 ∧ o._line = x + 1 ∧
        o.props = fmtpProps (fmtpLine pt ws first more last) ∧
        (∀ o1 ∈ r.1, o1._line = x + 1 → o1 = o) ∧
        ∀ f ∈ r.2, f.citedLine ≠ some (x + 1)) ∧
      (∃ fs, test_20_71_4 sdp params = some fs ∧
        ∀ s, Finding.fmtpPatternBad (x + 1) s ∉ fs) := by
  have ht := fmtpLine_matches pt ws first more last h
  refine ⟨ht, ?_⟩
  intro sdp params x j hline hsec
  have hf : startsWith (fmtpLine pt ws first more last) "a=fmtp".toList = true := by
    apply startsWith_iff.2
    refine ⟨(fmtpLine pt ws first more last).drop 6, ?_⟩
    unfold fmtpLine
    rfl
  constructor
  · obtain ⟨st, p, A, B, hrun, hmt, hA, hB, hE⟩ :=
      extractRun_at_line sdp params x j _ hline hsec hf ht
    refine ⟨(st.mtParams, st.errors), StreamParams.mk (fmtpProps (fmtpLine pt ws first more last))
      p (x + 1) (streamNumberAt (lineRuns sdp) x), by simp [extractMTParams, hrun], ?_, rfl,
      rfl, ?_, hE⟩
    · simp only
      rw [hmt]
      simp
    · intro o1 ho1 hl1
      simp only at ho1
      rw [hmt] at ho1
      rcases List.mem_append.1 ho1 with h1 | h1
      · exact absurd hl1 (hA o1 h1)
      · rcases List.mem_cons.1 h1 with h2 | h2
        · exact h2
        · exact absurd hl1 (hB o1 h2)
  · obtain ⟨hsl, -, -⟩ := lineRuns_of_get hline
    refine ⟨_, by unfold test_20_71_4; rw [hsl]; rfl, ?_⟩
    intro s hmem
    simp only at hmem
    rcases List.mem_append.1 hmem with h1 | h1
    · obtain ⟨i, st1, l, hl, hin⟩ := forLines_mem fmtpStep _ _ _ _ h1
      obtain ⟨e1, e2⟩ := fmtpStep_patternBad st1 (0 + i) l (x + 1) s hin
      have ei : i = x := by omega
      subst ei
      rw [hline] at hl
      cases hl
      simp [Re.test, e2] at ht
    · split at h1
      · simp at h1
      · cases h1

/-- C27 (witness): the line `a=fmtp:112 width=1280; height=720;interlace; `, with white
space after semicolons only, as line 3 of an SDP. -/
theorem fmtp_line_accepted_witness :
    fmtpLine "112".toList " ".toList ("width".toList, some "1280".toList)
        [(" ".toList, ("height".toList, some "720".toList)), ([], ("interlace".toList, none))]
        (some " ".toList) =
      "a=fmtp:112 width=1280; height=720;interlace; ".toList ∧
    fmtpPattern.test (fmtpLine "112".toList " ".toList ("width".toList, some "1280".toList)
        [(" ".toList, ("height".toList, some "720".toList)), ([], ("interlace".toList, none))]
        (some " ".toList)) = true ∧
    (∃ r o, extractMTParams
        "v=0\nm=video 50000 RTP/AVP 112\na=fmtp:112 width=1280; height=720;interlace; \n".toList
        {} = some r ∧ o ∈ r.1 ∧ o._line = 3) ∧
    ∃ fs, test_20_71_4
        "v=0\nm=video 50000 RTP/AVP 112\na=fmtp:112 width=1280; height=720;interlace; \n".toList
        {} = some fs ∧ ∀ s, Finding.fmtpPatternBad 3 s ∉ fs := by
  obtain ⟨h1, h2⟩ := fmtp_line_accepted "112".toList " ".toList
    ("width".toList, some "1280".toList)
    [(" ".toList, ("height".toList, some "720".toList)), ([], ("interlace".toList, none))]
    (some " ".toList) (by decide)
  obtain ⟨⟨r, o, g1, g2, g3, -⟩, g4⟩ := h2
    "v=0\nm=video 50000 RTP/AVP 112\na=fmtp:112 width=1280; height=720;interlace; \n".toList
    {} 2 1 (by decide!) ⟨by decide, by decide!, by decide!, fun i h1 h2 => by omega⟩
  exact ⟨by decide, h1, ⟨r, o, g1, g2, g3⟩, g4⟩

/-- C27 (counterexample): white space before a semicolon, and white space after a last
element that no semicolon follows, make the line one that fmtpPattern does not match:
extractMTParams returns no object and a Finding for the line, and test_20_71_4 reports
that the attribute is not an acceptable pattern.  And for a line of the accepted form that
follows an `a=rtpmap` line of the skipped type `smpte291` extractMTParams returns no
object. -/
theorem fmtp_line_with_space_before_semicolon_rejected :
    fmtpPattern.test "a=fmtp:112 width=1280 ; height=720".toList = false ∧
    fmtpPattern.test "a=fmtp:112 width=1280; height=720 ".toList = false ∧
    extractMTParams
      "v=0\nm=video 50000 RTP/AVP 112\na=fmtp:112 width=1280 ; height=720\n".toList {} =
      some ([], [Finding.fmtpError 3 "a=fmtp:112 width=1280 ; height=720".toList]) ∧
    test_20_71_4
      "v=0\nm=video 50000 RTP/AVP 112\na=fmtp:112 width=1280 ; height=720\n".toList {} =
      some [Finding.fmtpPatternBad 3 1] ∧
    fmtpPattern.test "a=fmtp:100 width=1280; height=720".toList = true ∧
    extractMTParams
      ("v=0\nm=video 50000 RTP/AVP 100\na=rtpmap:100 smpte291/90000\n" ++
       "a=fmtp:100 width=1280; height=720\n").toList {} = some ([], []) := by
  decide!

/-! ## Media sections of a skipped type -/

theorem extractStep_payloadType (st : ExtractState) (x : Nat) (line : Str) (st1 : ExtractState)
    (hm : startsWith line "m=".toList = false) (h : extractStep st x line = some st1) :
    st1.payloadType = st.payloadType := by
  unfold extractStep at h
  simp only [hm, Bool.false_eq_true, if_false] at h
  split at h
  · cases h; rfl
  · split at h
    · split at h
      · cases h; rfl
      · obtain ⟨_, _, _, h4, _⟩ := extractFmtp_shape st x line st1 h
        exact h4
    · cases h; rfl

theorem extractStep_skipLine (st : ExtractState) (x : Nat) (line : Str)
    (hm : startsWith line "m=".toList = false) (hs : isSkipLine line = true)
    (hp : st.payloadType.isSome = true) :
    extractStep st x line = some { st with isSkippedType := true } := by
  unfold isSkipLine at hs
  simp only [Bool.and_eq_true] at hs
  unfold extractStep
  simp only [hm, Bool.false_eq_true, if_false, hs.1, hp, Bool.true_and, hs.2, if_true]

theorem extractStep_skipped (st : ExtractState) (x : Nat) (line : Str)
    (hm : startsWith line "m=".toList = false) (hsk : st.isSkippedType = true) :
    ∃ st1, extractStep st x line = some st1 ∧ st1.isSkippedType = true ∧
      st1.mtParams = st.mtParams ∧ st1.errors = st.errors := by
  unfold extractStep
  simp only [hm, Bool.false_eq_true, if_false, hsk, Bool.not_true, Bool.and_false]
  split
  · exact ⟨_, rfl, rfl, rfl, rfl⟩
  · exact ⟨_, rfl, hsk, rfl, rfl⟩

/-- After the media line of a video media section, up to the next media line, the loop of
extractMTParams holds a payload type. -/
theorem extractLoop_video_payload (lines : List Str) (j x : Nat) (hx : x ≤ lines.length)
    (hm : startsWith (lines.getD j []) "m=".toList = true)
    (hv : videoPattern.test (lines.getD j []) = true)
    (hmid : ∀ n, j < n → n < x → startsWith (lines.getD n []) "m=".toList = false) :
    ∀ (n : Nat), j < n → n ≤ x → ∀ st,
      extractLoop (extractInit 0) 0 (lines.take n) = some st → st.payloadType.isSome = true
  | 0, hj, _, _, _ => by omega
  | n + 1, hj, hn, st1, hst1 => by
    rw [extractLoop_take_succ lines n (by omega)] at hst1
    cases hs : extractLoop (extractInit 0) 0 (lines.take n) with
    | none => rw [hs] at hst1; cases hst1
    | some st =>
      rw [hs] at hst1
      simp only [Option.some_bind] at hst1
      by_cases hjn : j = n
      · subst hjn
        obtain ⟨st2, h2, h3, _, _⟩ := extractStep_media st j (lines.getD j []) hm hv
        rw [h2] at hst1
        cases hst1
        exact h3
      · have ih := extractLoop_video_payload lines j x hx hm hv hmid n (by omega) (by omega)
          st hs
        rw [extractStep_payloadType st n _ st1 (hmid n (by omega) (by omega)) hst1]
        exact ih

/-- After a line that marks a video media section as of a skipped type, up to the next
media line, the loop of extractMTParams holds `isSkippedType`. -/
theorem extractLoop_skipped_state (lines : List Str) (j i x : Nat) (hx : x ≤ lines.length)
    (hji : j < i) (hm : startsWith (lines.getD j []) "m=".toList = true)
    (hv : videoPattern.test (lines.getD j []) = true)
    (hmid : ∀ n, j < n → n < x → startsWith (lines.getD n []) "m=".toList = false)
    (hskip : isSkipLine (lines.getD i []) = true) :
    ∀ (n : Nat), i < n → n ≤ x → ∀ st,
      extractLoop (extractInit 0) 0 (lines.take n) = some st → st.isSkippedType = true
  | 0, hi, _, _, _ => by omega
  | n + 1, hi, hn, st1, hst1 => by
    rw [extractLoop_take_succ lines n (by omega)] at hst1
    cases hs : extractLoop (extractInit 0) 0 (lines.take n) with
    | none => rw [hs] at hst1; cases hst1
    | some st =>
      rw [hs] at hst1
      simp only [Option.some_bind] at hst1
      by_cases hin : i = n
      · subst hin
        have hp := extractLoop_video_payload lines j x hx hm hv hmid i hji (by omega) st hs
        rw [extractStep_skipLine st i _ (hmid i hji (by omega)) hskip hp] at hst1
        cases hst1
        rfl
      · have ih := extractLoop_skipped_state lines j i x hx hji hm hv hmid hskip n (by omega)
          (by omega) st hs
        obtain ⟨st2, h2, h3, _, _⟩ := extractStep_skipped st n (lines.getD n [])
          (hmid n (by omega) (by omega)) ih
        rw [h2] at hst1
        cases hst1
        exact h3

/-- C28 (amended): in a video media section (media line `j + 1`) with an `a=rtpmap` line
(line `i + 1`) whose encoding name is on the skip-list, for every line `x + 1` of the
section after the `a=rtpmap` line, extractMTParams returns no object and no Finding for
the line; so no rule that reports what extractMTParams returns and, for each object, Findings
that cite the line of the object (the parameter rules of sections 7.2 to 7.6) reports a
Finding that cites the line. -/
theorem skipped_type_bypassed (sdp : Str) (params : Params) (j i x : Nat)
    (hx : x < (lineRuns sdp).length) (hji : j < i) (hix : i < x)
    (hm : startsWith ((lineRuns sdp).getD j []) "m=".toList = true)
    (hv : videoPattern.test ((lineRuns sdp).getD j []) = true)
    (hmid : ∀ n, j < n → n ≤ x → startsWith ((lineRuns sdp).getD n []) "m=".toList = false)
    (hskip : isSkipLine ((lineRuns sdp).getD i []) = true) :
    ∃ r, extractMTParams sdp params = some r ∧
      (∀ o ∈ r.1, o._line ≠ x + 1) ∧ (∀ f ∈ r.2, f.citedLine ≠ some (x + 1)) ∧
      ∀ check : StreamParams → List Finding,
        (∀ o f, f ∈ check o → f.citedLine = some o._line) →
        ∃ fs, forStreams check sdp params = some fs ∧
          ∀ f ∈ fs, f.citedLine ≠ some (x + 1) := by
  have hne : lineRuns sdp ≠ [] := by
    intro h
    rw [h] at hx
    cases hx
  have hsl := splitLines_of_ne_nil hne
  obtain ⟨st0, hst0, hli, hsc, hM, hE⟩ := extractLoop_prefix (lineRuns sdp) x (by omega)
  have hsk := extractLoop_skipped_state (lineRuns sdp) j i x (by omega) hji hm hv
    (fun n h1 h2 => hmid n h1 (by omega)) hskip x hix (Nat.le_refl _) st0 hst0
  obtain ⟨st1, hst1, -, hmt1, herr1⟩ := extractStep_skipped st0 x ((lineRuns sdp).getD x [])
    (hmid x (by omega) (Nat.le_refl _)) hsk
  have h1 := extractLoop_take_succ (lineRuns sdp) x hx (extractInit 0)
  rw [hst0] at h1
  simp only [Option.some_bind] at h1
  rw [hst1] at h1
  obtain ⟨st2, hst2, _⟩ := extractLoop_returns ((lineRuns sdp).drop (x + 1)) st1 (0 + (x + 1))
  obtain ⟨⟨M, hM2, hM2l⟩, ⟨E, hE2, hE2l⟩⟩ := extractLoop_adds _ _ _ _ hst2
  have hlen : ((lineRuns sdp).take (x + 1)).length = x + 1 := by
    rw [List.length_take]; omega
  have hrun : extractLoop (extractInit 0) 0 (lineRuns sdp) = some st2 := by
    conv => lhs; rw [← List.take_append_drop (x + 1) (lineRuns sdp)]
    rw [extractLoop_append, h1, hlen]
    exact hst2
  have hex : extractMTParams sdp params = some (st2.mtParams, st2.errors) := by
    unfold extractMTParams extractRun
    rw [hsl]
    simp only [hrun, Option.map_some']
  have hobj : ∀ o ∈ st2.mtParams, o._line ≠ x + 1 := by
    intro o ho
    rw [hM2, hmt1] at ho
    rcases List.mem_append.1 ho with h2 | h2
    · have := hM o h2
      omega
    · have := hM2l o h2
      omega
  have herr : ∀ f ∈ st2.errors, f.citedLine ≠ some (x + 1) := by
    intro f hf
    rw [hE2, herr1] at hf
    rcases List.mem_append.1 hf with h2 | h2
    · obtain ⟨n, hn, hle⟩ := hE f h2
      rw [hn]
      intro hc
      injection hc with hc
      omega
    · obtain ⟨n, hn, hlt⟩ := hE2l f h2
      rw [hn]
      intro hc
      injection hc with hc
      omega
  refine ⟨_, hex, hobj, herr, ?_⟩
  intro check hc
  refine ⟨_, by unfold forStreams; rw [hex]; rfl, ?_⟩
  intro f hf
  simp only at hf
  rcases List.mem_append.1 hf with h2 | h2
  · exact herr f h2
  · obtain ⟨o, ho, hfo⟩ := List.mem_flatMap.1 h2
    rw [hc o f hfo]
    intro hcc
    injection hcc with hcc
    exact hobj o ho hcc

/-- C28 (witness): the `a=fmtp` line (line 4) follows the `a=rtpmap` line of a section of
type `smpte291`, and test_20_74_2 reports nothing for it. -/
theorem skipped_type_bypassed_witness :
    ∃ fs, test_20_74_2
        "v=0\nm=video 50000 RTP/AVP 100\na=rtpmap:100 smpte291/90000\na=fmtp:100 depth=9\n".toList
        {} = some fs ∧ ∀ f ∈ fs, f.citedLine ≠ some 4 := by
  obtain ⟨r, -, -, -, h⟩ := skipped_type_bypassed
    "v=0\nm=video 50000 RTP/AVP 100\na=rtpmap:100 smpte291/90000\na=fmtp:100 depth=9\n".toList
    {} 1 2 3 (by decide!) (by decide) (by decide) (by decide!) (by decide!)
    (by
      intro n h1 h2
      have h3 : n = 2 ∨ n = 3 := by omega
      rcases h3 with rfl | rfl <;> decide!)
    (by decide!)
  exact h (checkPermitted "depth" depthPermitted Finding.depthValue)
    (checkPermitted_cited "depth" depthPermitted Finding.depthValue (fun _ _ => rfl))

/-- C28 (counterexample): the `a=fmtp` line (line 3) stands before the `a=rtpmap` line of a
section of type `smpte291`: extractMTParams returns an object for it, and test_20_74_2
reports its depth. -/
theorem fmtp_before_rtpmap_of_skipped_type_checked :
    isSkipLine "a=rtpmap:100 smpte291/90000".toList = true ∧
    (extractMTParams
      "v=0\nm=video 50000 RTP/AVP 100\na=fmtp:100 depth=9\na=rtpmap:100 smpte291/90000\n".toList
      {}).map (fun r => r.1.map (fun o => o._line)) = some [3] ∧
    test_20_74_2
      "v=0\nm=video 50000 RTP/AVP 100\na=fmtp:100 depth=9\na=rtpmap:100 smpte291/90000\n".toList
      {} = some [Finding.depthValue 3 1] := by
  decide!

/-! ## The video media lines -/

/-- The Findings of a loop over the lines that cite line `x0 + i + 1` are those pushed at
line `i`, when each turn of the loop cites its own line. -/
theorem forLines_filter_cited {σ : Type} (body : σ → Nat → Str → σ × List Finding)
    (hb : ∀ st y l f, f ∈ (body st y l).2 → f.citedLine = some (y + 1)) :
    ∀ (ls : List Str) (st : σ) (x0 i : Nat) (l : Str), ls.get? i = some l →
      ∃ st1, (forLines body st x0 ls).2.filter (fun f => f.citedLine == some (x0 + i + 1)) =
        (body st1 (x0 + i) l).2
  | [], _, _, _, _, h => by simp at h
  | l0 :: ls, st, x0, 0, l, h => by
    simp only [List.get?_cons_zero, Option.some.injEq] at h
    subst h
    refine ⟨st, ?_⟩
    rw [forLines_cons, List.filter_append]
    have h1 : (body st x0 l0).2.filter (fun f => f.citedLine == some (x0 + 0 + 1)) =
        (body st x0 l0).2 := by
      apply List.filter_eq_self.2
      intro f hf
      rw [hb st x0 l0 f hf]
      simp
    have h2 : (forLines body (body st x0 l0).1 (x0 + 1) ls).2.filter
        (fun f => f.citedLine == some (x0 + 0 + 1)) = [] := by
      apply List.filter_eq_nil_iff.2
      intro f hf
      obtain ⟨i, st1, l1, -, hin⟩ := forLines_mem body ls _ _ f hf
      rw [hb _ _ _ f hin]
      simp
      omega
    rw [h1, h2, List.append_nil]
    rfl
  | l0 :: ls, st, x0, i + 1, l, h => by
    simp only [List.get?_cons_succ] at h
    obtain ⟨st1, h1⟩ := forLines_filter_cited body hb ls (body st x0 l0).1 (x0 + 1) i l h
    refine ⟨st1, ?_⟩
    rw [forLines_cons, List.filter_append]
    have h2 : (body st x0 l0).2.filter (fun f => f.citedLine == some (x0 + (i + 1) + 1)) =
        [] := by
      apply List.filter_eq_nil_iff.2
      intro f hf
      rw [hb st x0 l0 f hf]
      simp
    have e : x0 + (i + 1) = x0 + 1 + i := by omega
    rw [h2, List.nil_append, e, h1]

theorem checkVideoLine_cited (x : Nat) (line : Str) :
    ∀ f ∈ checkVideoLine x line, f.citedLine = some (x + 1) := by
  intro f hf
  unfold checkVideoLine at hf
  split at hf
  · rw [List.mem_singleton.1 hf]; rfl
  · simp only [List.mem_append] at hf
    rcases hf with (hf | hf) | hf <;> split at hf <;>
      first
        | (rw [List.mem_singleton.1 hf]; rfl)
        | cases hf

theorem videoStep_cited (b : Bool) (y : Nat) (l : Str) (f : Finding)
    (hf : f ∈ (videoStep b y l).2) : f.citedLine = some (y + 1) := by
  unfold videoStep at hf
  split at hf
  · cases hf
  · exact checkVideoLine_cited y l f hf

theorem videoStep_video (b : Bool) (y : Nat) (l : Str)
    (h : startsWith l "m=video".toList = true) :
    videoStep b y l = (true, checkVideoLine y l) := by
  unfold videoStep
  rw [if_neg (by rw [h]; decide)]

theorem forLines_videoStep_flag : ∀ (ls : List Str) (b : Bool) (x0 : Nat),
    (forLines videoStep b x0 ls).1 = (b || ls.any (fun l => startsWith l "m=video".toList))
  | [], b, _ => by simp [forLines]
  | l :: ls, b, x0 => by
    rw [forLines_cons]
    simp only
    rw [forLines_videoStep_flag ls _ (x0 + 1), List.any_cons]
    unfold videoStep
    cases startsWith l "m=video".toList <;> simp

theorem forLines_videoStep_none : ∀ (ls : List Str) (b : Bool) (x0 : Nat),
    (∀ l ∈ ls, startsWith l "m=video".toList = false) → (forLines videoStep b x0 ls).2 = []
  | [], _, _, _ => rfl
  | l :: ls, b, x0, h => by
    rw [forLines_cons]
    simp only
    rw [forLines_videoStep_none ls _ (x0 + 1) (fun l1 h1 => h l1 (List.mem_cons_of_mem _ h1))]
    unfold videoStep
    rw [h l (List.mem_cons_self _ _)]
    rfl

theorem videoExpected_filter (n : Nat) (c : Bool) :
    (if c = true then [Finding.videoExpected] else []).filter
      (fun f => f.citedLine == some n) = [] := by
  cases c
  · rfl
  · rfl

theorem test_10_62_1_at_line (lines : List Str) (x : Nat) (line : Str)
    (hline : lines.get? x = some line) (hv : startsWith line "m=video".toList = true) :
    ((forLines videoStep false 0 lines).2 ++
        (if ((forLines videoStep false 0 lines).1 == false) = true then
          [Finding.videoExpected] else [])).filter (fun f => f.citedLine == some (x + 1)) =
      checkVideoLine x line := by
  obtain ⟨b, hb⟩ := forLines_filter_cited videoStep videoStep_cited lines false 0 x line hline
  rw [List.filter_append, videoExpected_filter, List.append_nil]
  rw [Nat.zero_add] at hb
  rw [hb, videoStep_video b x line hv]

theorem checkVideoLine_unmatched (x : Nat) (line : Str) (h : videoPattern.exec line = none) :
    checkVideoLine x line = [Finding.videoPatternBad (x + 1)] := by
  unfold checkVideoLine
  rw [h]

theorem checkVideoLine_matched (x : Nat) (line : Str) (m : Match)
    (h : videoPattern.exec line = some m) :
    ((∃ p, Finding.videoPort (x + 1) p ∈ checkVideoLine x line) ↔
        65535 < toNumber ((m.cap 1).getD [])) ∧
      (Finding.srtp (x + 1) ∈ checkVideoLine x line ↔ m.cap 3 = some "RTP/SAVP".toList) ∧
      (Finding.videoPayloadType (x + 1) ∈ checkVideoLine x line ↔
        ¬ (96 ≤ toNumber ((m.cap 4).getD []) ∧ toNumber ((m.cap 4).getD []) ≤ 127)) ∧
      ∀ f ∈ checkVideoLine x line,
        (∃ p, f = Finding.videoPort (x + 1) p) ∨ f = Finding.srtp (x + 1) ∨
          f = Finding.videoPayloadType (x + 1) := by
  unfold checkVideoLine
  rw [h]
  simp only [isNaNOfDigits, Bool.false_or, Nat.not_lt_zero, decide_False]
  generalize toNumber ((m.cap 1).getD []) = port
  generalize toNumber ((m.cap 4).getD []) = pt
  generalize "RTP/SAVP".toList = savp
  by_cases h1 : 65535 < port <;> by_cases h2 : m.cap 3 = some savp <;>
    by_cases h3 : pt < 96 <;> by_cases h4 : 127 < pt <;>
    simp [h1, h2, h3, h4]

theorem videoExpected_iff (lines : List Str) :
    Finding.videoExpected ∈ (forLines videoStep false 0 lines).2 ++
        (if ((forLines videoStep false 0 lines).1 == false) = true then
          [Finding.videoExpected] else []) ↔
      ∀ line ∈ lines, startsWith line "m=video".toList = false := by
  rw [List.mem_append, forLines_videoStep_flag]
  constructor
  · rintro (h | h)
    · obtain ⟨i, st1, l, -, hin⟩ := forLines_mem videoStep _ _ _ _ h
      have := videoStep_cited st1 _ l _ hin
      cases this
    · intro line hl
      cases hv : startsWith line "m=video".toList with
      | false => rfl
      | true =>
        have hany : lines.any (fun l => startsWith l "m=video".toList) = true :=
          List.any_eq_true.2 ⟨line, hl, hv⟩
        rw [hany] at h
        cases h
  · intro hall
    right
    have hany : lines.any (fun l => startsWith l "m=video".toList) = false := by
      rw [List.any_eq_false]
      intro l hl
      rw [hall l hl]
      decide
    rw [hany]
    exact List.mem_singleton.2 rfl

theorem videoExpected_only (lines : List Str)
    (hall : ∀ line ∈ lines, startsWith line "m=video".toList = false) :
    (forLines videoStep false 0 lines).2 ++
        (if ((forLines videoStep false 0 lines).1 == false) = true then
          [Finding.videoExpected] else []) = [Finding.videoExpected] := by
  have hany : lines.any (fun l => startsWith l "m=video".toList) = false := by
    rw [List.any_eq_false]
    intro l hl
    rw [hall l hl]
    decide
  rw [forLines_videoStep_none _ _ _ hall, forLines_videoStep_flag, hany]
  rfl

/-- C29 (amended): for every SDP with at least one non-empty line, test_10_62_1 returns a
sequence of Findings; for each line `x + 1` that starts with `m=video`, the Findings that
cite the line are exactly the one Finding of a pattern that is not acceptable if
videoPattern does not match the line, and otherwise they hold an invalid-port Finding if
and only if the port exceeds 65535, the SRTP Finding if and only if the transport is
`RTP/SAVP`, the dynamic-payload-type Finding if and only if the payload type is outside
96..127, and no Finding of another kind; the Finding `m=video expected` is reported if and
only if no line starts with `m=video`, and it is then the only Finding. -/
theorem video_line_rule (sdp : Str) (params : Params) (hne : lineRuns sdp ≠ []) :
    ∃ fs, test_10_62_1 sdp params = some fs ∧
      (∀ x line, (lineRuns sdp).get? x = some line →
        startsWith line "m=video".toList = true →
        (videoPattern.exec line = none →
          fs.filter (fun f => f.citedLine == some (x + 1)) = [Finding.videoPatternBad (x + 1)]) ∧
        (∀ m, videoPattern.exec line = some m →
          ((∃ p, Finding.videoPort (x + 1) p ∈
              fs.filter (fun f => f.citedLine == some (x + 1))) ↔
            65535 < toNumber ((m.cap 1).getD [])) ∧
          (Finding.srtp (x + 1) ∈ fs.filter (fun f => f.citedLine == some (x + 1)) ↔
            m.cap 3 = some "RTP/SAVP".toList) ∧
          (Finding.videoPayloadType (x + 1) ∈
              fs.filter (fun f => f.citedLine == some (x + 1)) ↔
            ¬ (96 ≤ toNumber ((m.cap 4).getD []) ∧ toNumber ((m.cap 4).getD []) ≤ 127)) ∧
          ∀ f ∈ fs.filter (fun f => f.citedLine == some (x + 1)),
            (∃ p, f = Finding.videoPort (x + 1) p) ∨ f = Finding.srtp (x + 1) ∨
              f = Finding.videoPayloadType (x + 1))) ∧
      (Finding.videoExpected ∈ fs ↔
        ∀ line ∈ lineRuns sdp, startsWith line "m=video".toList = false) ∧
      ((∀ line ∈ lineRuns sdp, startsWith line "m=video".toList = false) →
        fs = [Finding.videoExpected]) := by
  have hsl := splitLines_of_ne_nil hne
  have hout : test_10_62_1 sdp params =
      some ((forLines videoStep false 0 (lineRuns sdp)).2 ++
        (if ((forLines videoStep false 0 (lineRuns sdp)).1 == false) = true then
          [Finding.videoExpected] else [])) := by
    unfold test_10_62_1
    rw [hsl, Option.map_some']
  refine ⟨(forLines videoStep false 0 (lineRuns sdp)).2 ++
      (if ((forLines videoStep false 0 (lineRuns sdp)).1 == false) = true then
        [Finding.videoExpected] else []), hout, ?_, videoExpected_iff _, videoExpected_only _⟩
  intro x line hline hv
  rw [test_10_62_1_at_line (lineRuns sdp) x line hline hv]
  exact ⟨checkVideoLine_unmatched x line, checkVideoLine_matched x line⟩

/-- C29 (witness): line 2 is a video line with port 70000, transport `RTP/SAVP` and payload
type 35, and line 3 starts with `m=video` and does not match videoPattern. -/
theorem video_line_rule_witness :
    ∃ fs, test_10_62_1 "v=0\nm=video 70000 RTP/SAVP 35\nm=video junk\n".toList {} = some fs ∧
      fs.filter (fun f => f.citedLine == some 3) = [Finding.videoPatternBad 3] ∧
      Finding.srtp 2 ∈ fs.filter (fun f => f.citedLine == some 2) ∧
      Finding.videoPayloadType 2 ∈ fs.filter (fun f => f.citedLine == some 2) ∧
      Finding.videoExpected ∉ fs := by
  obtain ⟨fs, h1, h2, h3, -⟩ := video_line_rule
    "v=0\nm=video 70000 RTP/SAVP 35\nm=video junk\n".toList {} (by decide!)
  have hjunk : videoPattern.exec "m=video junk".toList = none := by
    cases h : videoPattern.exec "m=video junk".toList with
    | none => rfl
    | some m =>
      have ht : videoPattern.test "m=video junk".toList = false := by decide!
      rw [Re.test, h] at ht
      cases ht
  have hvid : videoPattern.test "m=video 70000 RTP/SAVP 35".toList = true := by decide!
  refine ⟨fs, h1, (h2 2 "m=video junk".toList (by decide!) (by decide)).1 hjunk, ?_, ?_, ?_⟩
  · cases hm : videoPattern.exec "m=video 70000 RTP/SAVP 35".toList with
    | none => rw [Re.test, hm] at hvid; cases hvid
    | some m =>
      have hc : (videoPattern.exec "m=video 70000 RTP/SAVP 35".toList).bind
          (fun m => m.cap 3) = some "RTP/SAVP".toList := by decide!
      rw [hm] at hc
      exact ((h2 1 "m=video 70000 RTP/SAVP 35".toList (by decide!) (by decide)).2 m hm).2.1.2 hc
  · cases hm : videoPattern.exec "m=video 70000 RTP/SAVP 35".toList with
    | none => rw [Re.test, hm] at hvid; cases hvid
    | some m =>
      have hc : (videoPattern.exec "m=video 70000 RTP/SAVP 35".toList).bind
          (fun m => m.cap 4) = some "35".toList := by decide!
      rw [hm] at hc
      have hc4 : m.cap 4 = some "35".toList := hc
      apply ((h2 1 "m=video 70000 RTP/SAVP 35".toList (by decide!) (by decide)).2 m
        hm).2.2.1.2
      rw [hc4]
      decide
  · intro h
    have := h3.1 h "m=video junk".toList (by decide!)
    revert this
    decide

/-- C29 (counterexample): the empty text has no line that starts with `m=video`, and
test_10_62_1 throws on it instead of reporting `m=video expected`. -/
theorem video_rule_throws_on_empty_text :
    lineRuns [] = [] ∧ test_10_62_1 [] {} = none := by
  decide

/-! ## Reduced rationals -/

theorem parPattern_exec_ratio (ns ds : Str) (hn : isPositiveDecimal ns = true)
    (hd : isPositiveDecimal ds = true) :
    ∃ m, parPattern.exec (ns ++ ':' :: ds) = some m ∧ m.cap 1 = some ns ∧
      m.cap 2 = some ds := by
  obtain ⟨c, cs, rfl, hc, hcs⟩ := isPositiveDecimal_cons hn
  obtain ⟨e, es, rfl, he, hes⟩ := isPositiveDecimal_cons hd
  have hcolon : ∀ (x : Char) (r : Str), ':' :: e :: es = x :: r → isDigit x = false := by
    intro x r hx
    cases hx
    decide
  have hrun : parPattern.run ⟨0, (c :: cs) ++ ':' :: e :: es, []⟩ some =
      some ⟨0 + 1 + cs.length + 1 + 1 + es.length, [],
        setCap 2 (e :: es) (setCap 1 (c :: cs) [])⟩ := by
    unfold parPattern
    simp only [run_cat_cons, run_cat_nil, run_bol, run_grp, run_seq, run_cls_cons,
      run_chr_cons, List.cons_append, hc, if_true]
    rw [run_star_cls isDigit cs (':' :: e :: es) _ _ _ hcolon hcs]
    · simp only [run_chr_cons, beq_self_eq_true, if_true, run_cls_cons, he]
      rw [run_star_cls_end isDigit es _ _ _ hes]
      · simp only [run_eol, List.isEmpty_nil, if_true, List.length_cons, List.length_append,
          List.length_nil, Nat.sub_zero]
        have e1 : cs.length + (es.length + 1 + 1) + 1 - (es.length + 1 + 1) = cs.length + 1 := by
          omega
        have e2 : (c :: (cs ++ ':' :: e :: es)).take (cs.length + 1) = c :: cs := by
          rw [List.take_succ_cons, List.take_left']
          rfl
        have e3 : (e :: es).take (es.length + 1) = e :: es := List.take_of_length_le (by simp)
        simp only [e1, e2, e3]
      · simp [run_eol]
    · simp only [run_chr_cons, beq_self_eq_true, if_true, run_cls_cons, he]
      rw [run_star_cls_end isDigit es _ _ _ hes]
      · simp [run_eol]
      · simp [run_eol]
  refine ⟨_, exec_of_run hrun, ?_, ?_⟩
  · show (setCap 2 (e :: es) (setCap 1 (c :: cs) [])).lookup 1 = some (c :: cs)
    rw [lookup_setCap_ne (by decide), lookup_setCap_self]
  · show (setCap 2 (e :: es) (setCap 1 (c :: cs) [])).lookup 2 = some (e :: es)
    rw [lookup_setCap_self]

/-- Two positive numbers share a factor greater than one exactly when their greatest
common divisor is not one. -/
theorem gcd_ne_one_iff (n d : Nat) (hn : 0 < n) :
    Nat.gcd n d ≠ 1 ↔ ∃ k, 1 < k ∧ k ∣ n ∧ k ∣ d := by
  constructor
  · intro h
    have hpos : 0 < Nat.gcd n d := Nat.gcd_pos_of_pos_left d hn
    exact ⟨Nat.gcd n d, by omega, Nat.gcd_dvd_left n d, Nat.gcd_dvd_right n d⟩
  · rintro ⟨k, hk, h1, h2⟩ h
    have := Nat.dvd_gcd h1 h2
    rw [h] at this
    have := Nat.le_of_dvd (by decide) this
    omega

theorem check_20_72_3_notMinimal (o : StreamParams) (ns ds : Str)
    (hv : o.get "exactframerate" = some (ns ++ '/' :: ds))
    (hn : isPositiveDecimal ns = true) (hd : isPositiveDecimal ds = true)
    (hn53 : toNumber ns < 2 ^ 53) (hd53 : toNumber ds < 2 ^ 53) :
    Finding.frameRateNotMinimal o._line o._streamNumber ∈ check_20_72_3 o ↔
      Nat.gcd (toNumber ns) (toNumber ds) ≠ 1 := by
  obtain ⟨m, hm, h1, h2⟩ := frameRatePattern_exec_rational ns ds hn hd
  obtain ⟨e, es, hds, _, _⟩ := isPositiveDecimal_cons hd
  have ht : truthy (some ds) = true := by rw [hds]; rfl
  have hg := greatestCommonDivisor_eq_gcd (toNumber ns) (toNumber ds) (lt_Infinity hn53)
    (lt_Infinity hd53)
  unfold check_20_72_3
  rw [hv]
  simp only [hm, h1, h2, ht, isNaNOfDigits, Option.getD_some, Bool.false_eq_true, if_false,
    List.nil_append, Bool.not_true, hg, List.mem_append]
  by_cases c3 : Nat.gcd (toNumber ns) (toNumber ds) = 1
  · simp only [c3, ne_eq, not_true_eq_false, iff_false]
    rintro ((h | h) | h)
    · split at h
      · simp at h
      · cases h
    · split at h
      · simp at h
      · cases h
    · simp at h
  · simp [c3]

theorem check_20_73_5_cited (o : StreamParams) (f : Finding) (h : f ∈ check_20_73_5 o) :
    f.citedLine = some o._line := by
  unfold check_20_73_5 at h
  repeat' split at h
  all_goals simp at h
  all_goals (subst h; rfl)

theorem check_20_73_5_notMinimal (o : StreamParams) (ns ds : Str)
    (hv : o.get "PAR" = some (ns ++ ':' :: ds))
    (hn : isPositiveDecimal ns = true) (hd : isPositiveDecimal ds = true)
    (hn53 : toNumber ns < 2 ^ 53) (hd53 : toNumber ds < 2 ^ 53) :
    Finding.parNotMinimal o._line o._streamNumber (ns ++ ':' :: ds) ∈ check_20_73_5 o ↔
      Nat.gcd (toNumber ns) (toNumber ds) ≠ 1 := by
  obtain ⟨m, hm, h1, h2⟩ := parPattern_exec_ratio ns ds hn hd
  have hpos : 0 < Nat.gcd (toNumber ns) (toNumber ds) :=
    Nat.gcd_pos_of_pos_left _ (toNumber_pos hn)
  have hg := greatestCommonDivisor_eq_gcd (toNumber ns) (toNumber ds) (lt_Infinity hn53)
    (lt_Infinity hd53)
  unfold check_20_73_5
  rw [hv]
  simp only [hm, h1, h2, Option.getD_some, hg]
  by_cases c3 : Nat.gcd (toNumber ns) (toNumber ds) = 1
  · simp [c3]
  · have : 1 < Nat.gcd (toNumber ns) (toNumber ds) := by omega
    simp [c3, this]

theorem mem_filter_cited (fs : List Finding) (f : Finding) (n : Nat)
    (hc : f.citedLine = some n) :
    f ∈ fs ↔ f ∈ fs.filter (fun g => g.citedLine == some n) := by
  rw [List.mem_filter, hc]
  simp

/-- C30 (amended): the recursion of greatestCommonDivisor ends for all natural numbers `a`
and `b` that a number holds, which are below `2 ^ 1024` (more than `b` calls are never
needed, and the result does not depend on how many more are allowed) and returns their
greatest common divisor, `a` when `b` is zero; it ends on `Infinity` too, with the other
number as the result unless that is zero; so for an accepted `a=fmtp` line of a video
media section that no `a=rtpmap` line of a skipped type precedes in the section, whose
`exactframerate` is `n/d`, or whose `PAR` is `n:d`, with `n` and `d` positive decimal
integers without leading zeros below `2 ^ 53` (where unary `+` gives the number that the
digits denote), test_20_72_3 reports the not-the-minimum-possible Finding for the line, and
test_20_73_5 the not-the-smallest-possible-values Finding, exactly when `n` and `d` share a
factor greater than one. -/
theorem gcd_rule :
    (∀ a b fuel, a < Infinity → b < Infinity → b < fuel → gcdLoop fuel a b = Nat.gcd a b) ∧
    (∀ a b, a < Infinity → b < Infinity → greatestCommonDivisor a b = Nat.gcd a b) ∧
    (∀ a, a < Infinity → greatestCommonDivisor a 0 = a) ∧
    ((∀ b, greatestCommonDivisor Infinity b = if b = 0 then Infinity else b) ∧
      ∀ a, a < Infinity → greatestCommonDivisor a Infinity = if a = 0 then Infinity else a) ∧
    ∀ (sdp : Str) (params : Params) (x j : Nat) (line ns ds : Str),
      (lineRuns sdp).get? x = some line → inVideoSection (lineRuns sdp) j x →
      startsWith line "a=fmtp".toList = true → fmtpPattern.test line = true →
      isPositiveDecimal ns = true → isPositiveDecimal ds = true →
      toNumber ns < 2 ^ 53 → toNumber ds < 2 ^ 53 →
      ((fmtpProps line).lookup "exactframerate".toList = some (ns ++ '/' :: ds) →
        ∃ fs, test_20_72_3 sdp params = some fs ∧
          (Finding.frameRateNotMinimal (x + 1) (streamNumberAt (lineRuns sdp) x) ∈ fs ↔
            ∃ k, 1 < k ∧ k ∣ toNumber ns ∧ k ∣ toNumber ds)) ∧
      ((fmtpProps line).lookup "PAR".toList = some (ns ++ ':' :: ds) →
        ∃ fs, test_20_73_5 sdp params = some fs ∧
          (Finding.parNotMinimal (x + 1) (streamNumberAt (lineRuns sdp) x) (ns ++ ':' :: ds) ∈
              fs ↔
            ∃ k, 1 < k ∧ k ∣ toNumber ns ∧ k ∣ toNumber ds)) := by
  refine ⟨fun a b fuel ha hb h => gcdLoop_eq_gcd fuel a b h ha hb,
    greatestCommonDivisor_eq_gcd, ?_, greatestCommonDivisor_Infinity, ?_⟩
  · intro a ha
    rw [greatestCommonDivisor_eq_gcd a 0 ha Infinity_pos, Nat.gcd_zero_right]
  · intro sdp params x j line ns ds hline hsec hf ht hn hd hn53 hd53
    constructor
    · intro hv
      obtain ⟨r, pt, hr, hfil⟩ := findings_at_line check_20_72_3 check_20_72_3_cited sdp
        params x j line hline hsec hf ht
      refine ⟨r.2 ++ r.1.flatMap check_20_72_3, by simp [test_20_72_3, hr], ?_⟩
      rw [mem_filter_cited _ (Finding.frameRateNotMinimal (x + 1)
        (streamNumberAt (lineRuns sdp) x)) (x + 1) rfl, hfil,
        ← gcd_ne_one_iff _ _ (toNumber_pos hn)]
      exact check_20_72_3_notMinimal
        (StreamParams.mk (fmtpProps line) pt (x + 1) (streamNumberAt (lineRuns sdp) x)) ns ds
        hv hn hd hn53 hd53
    · intro hv
      obtain ⟨r, pt, hr, hfil⟩ := findings_at_line check_20_73_5 check_20_73_5_cited sdp
        params x j line hline hsec hf ht
      refine ⟨r.2 ++ r.1.flatMap check_20_73_5, by simp [test_20_73_5, forStreams, hr], ?_⟩
      rw [mem_filter_cited _ (Finding.parNotMinimal (x + 1)
        (streamNumberAt (lineRuns sdp) x) (ns ++ ':' :: ds)) (x + 1) rfl, hfil,
        ← gcd_ne_one_iff _ _ (toNumber_pos hn)]
      exact check_20_73_5_notMinimal
        (StreamParams.mk (fmtpProps line) pt (x + 1) (streamNumberAt (lineRuns sdp) x)) ns ds
        hv hn hd hn53 hd53

/-- C30 (witness): the frame rate `30/15` and the ratio `4:2` of line 3 are reported, as
2 divides both numbers of each. -/
theorem gcd_rule_witness :
    greatestCommonDivisor 60000 1001 = 1 ∧ greatestCommonDivisor 30 15 = 15 ∧
    (∃ fs, test_20_72_3
        "v=0\nm=video 50000 RTP/AVP 112\na=fmtp:112 exactframerate=30/15; PAR=4:2\n".toList
        {} = some fs ∧ Finding.frameRateNotMinimal 3 1 ∈ fs) ∧
    (∃ fs, test_20_73_5
        "v=0\nm=video 50000 RTP/AVP 112\na=fmtp:112 exactframerate=30/15; PAR=4:2\n".toList
        {} = some fs ∧ Finding.parNotMinimal 3 1 "4:2".toList ∈ fs) := by
  refine ⟨by decide!, by decide!, ?_, ?_⟩
  · obtain ⟨fs, h1, h2⟩ := (gcd_rule.2.2.2.2
      "v=0\nm=video 50000 RTP/AVP 112\na=fmtp:112 exactframerate=30/15; PAR=4:2\n".toList
      {} 2 1 "a=fmtp:112 exactframerate=30/15; PAR=4:2".toList "30".toList "15".toList
      (by decide!) ⟨by decide, by decide!, by decide!, fun i h1 h2 => by omega⟩
      (by decide!) (by decide!) (by decide!) (by decide!) (by decide!) (by decide!)).1
      (by decide!)
    exact ⟨fs, h1, h2.2 ⟨3, by decide, by decide!, by decide!⟩⟩
  · obtain ⟨fs, h1, h2⟩ := (gcd_rule.2.2.2.2
      "v=0\nm=video 50000 RTP/AVP 112\na=fmtp:112 exactframerate=30/15; PAR=4:2\n".toList
      {} 2 1 "a=fmtp:112 exactframerate=30/15; PAR=4:2".toList "4".toList "2".toList
      (by decide!) ⟨by decide, by decide!, by decide!, fun i h1 h2 => by omega⟩
      (by decide!) (by decide!) (by decide!) (by decide!) (by decide!) (by decide!)).2
      (by decide!)
    exact ⟨fs, h1, h2.2 ⟨2, by decide, by decide!, by decide!⟩⟩

/-- C30 (counterexample): 3 divides 9007199254740993 and 3, but unary `+` rounds the first
to `2 ^ 53`, and neither test_20_72_3 nor test_20_73_5 reports a Finding; and after an
`a=rtpmap` line of the skipped type `smpte291` neither reports `30/15` or `4:2`. -/
theorem rounded_numerator_hides_common_factor :
    3 ∣ digitsValue "9007199254740993".toList ∧
    toNumber "9007199254740993".toList = 2 ^ 53 ∧
    test_20_72_3
      "v=0\nm=video 50000 RTP/AVP 112\na=fmtp:112 exactframerate=9007199254740993/3\n".toList
      {} = some [] ∧
    test_20_73_5
      "v=0\nm=video 50000 RTP/AVP 112\na=fmtp:112 PAR=9007199254740993:3\n".toList {} =
      some [] ∧
    test_20_72_3
      ("v=0\nm=video 50000 RTP/AVP 100\na=rtpmap:100 smpte291/90000\n" ++
       "a=fmtp:100 exactframerate=30/15; PAR=4:2\n").toList {} = some [] ∧
    test_20_73_5
      ("v=0\nm=video 50000 RTP/AVP 100\na=rtpmap:100 smpte291/90000\n" ++
       "a=fmtp:100 exactframerate=30/15; PAR=4:2\n").toList {} = some [] := by
  decide!

/-! ## The permitted sender types of ST 2110-22 -/

/-- C31 (evaluation): under traffic shaping, test_22_53_1 returns no Finding for a video
stream with `TP=2110TPN`, a value that is not in typesPermitted22; the rule searches
typesPermitted, and it does report a value that is in neither list. -/
theorem tpn_accepted_by_22_rule :
    typesPermitted22.contains "2110TPN".toList = false ∧
    test_22_53_1 "v=0\nm=video 50000 RTP/AVP 112\na=fmtp:112 TP=2110TPN\n".toList
      { shaping := true } = some [] ∧
    test_22_53_1 "v=0\nm=video 50000 RTP/AVP 112\na=fmtp:112 TP=2110TPX\n".toList
      { shaping := true } = some [Finding.tpValue22 3 1] := by
  decide!

/-! ## The media-level ts-refclk rule -/

/-- C32 (evaluation): of two media sections only the first has an `a=ts-refclk` line, and
test_10_82_1 returns no Finding; without any `a=ts-refclk` line it reports both streams,
and test_10_81_1, which tests each stream, reports stream 2 alone for the like case of
`a=mediaclk`. -/
theorem tsrefclk_rule_tests_whole_text :
    test_10_82_1
      ("v=0\nm=video 50000 RTP/AVP 112\n" ++
       "a=ts-refclk:ptp=IEEE1588-2008:39-A7-94-FF-FE-07-CB-D0:37\n" ++
       "m=video 50002 RTP/AVP 112\na=mediaclk:direct=0\n").toList {} = [] ∧
    test_10_82_1
      ("v=0\nm=video 50000 RTP/AVP 112\n" ++
       "m=video 50002 RTP/AVP 112\na=mediaclk:direct=0\n").toList {} =
      [Finding.tsrefclkMissing 1, Finding.tsrefclkMissing 2] ∧
    test_10_81_1
      ("v=0\nm=video 50000 RTP/AVP 112\na=mediaclk:direct=0\n" ++
       "m=video 50002 RTP/AVP 112\n").toList {} = [Finding.mediaclkMissing 2] := by
  decide!

/-! ## The stream number in the Findings of the mediaclk offset rule -/

/-- C35 (evaluation): the only media section of the text has a non-zero mediaclk offset
and is an audio section; test_10_74_1 names it stream 0, test_20_71_1 names it stream 1,
and test_10_81_1 names the only media section of the like text without `a=mediaclk`
stream 1. -/
theorem mediaclk_offset_names_stream_from_zero :
    test_10_74_1
      ("v=0\nm=audio 5004 RTP/AVP 97\n" ++
       "a=ts-refclk:ptp=IEEE1588-2008:39-A7-94-FF-FE-07-CB-D0:37\n" ++
       "a=mediaclk:direct=5\n").toList {} = [Finding.mediaclkOffset 0] ∧
    test_20_71_1
      ("v=0\nm=audio 5004 RTP/AVP 97\n" ++
       "a=ts-refclk:ptp=IEEE1588-2008:39-A7-94-FF-FE-07-CB-D0:37\n" ++
       "a=mediaclk:direct=5\n").toList { videoOnly := true } = [Finding.notVideo 1] ∧
    test_10_81_1
      ("v=0\nm=audio 5004 RTP/AVP 97\n" ++
       "a=ts-refclk:ptp=IEEE1588-2008:39-A7-94-FF-FE-07-CB-D0:37\n").toList {} =
      [Finding.mediaclkMissing 1] := by
  decide!

/-! ## The frame rate rule of ST 2110-22 on a duplicated pair -/

/-- C33 (evaluation): for two video media sections, each with an `a=fmtp` line that
carries `exactframerate`, and no `a=framerate` line, test_22_74_1 reports that the file
should specify a single video stream or a duplicate, and that the frame rate is not
specified; with an `a=framerate` line added it does not report that both methods are used;
for the first media section alone it reports nothing. -/
theorem duplicated_pair_rejected :
    test_22_74_1
      ("v=0\nm=video 50000 RTP/AVP 112\na=fmtp:112 exactframerate=25\n" ++
       "m=video 50002 RTP/AVP 112\na=fmtp:112 exactframerate=25\n").toList {} =
      some [Finding.singleStream, Finding.framerateMissing] ∧
    test_22_74_1
      ("v=0\nm=video 50000 RTP/AVP 112\na=fmtp:112 exactframerate=25\n" ++
       "m=video 50002 RTP/AVP 112\na=fmtp:112 exactframerate=25\na=framerate:25\n").toList {} =
      some [Finding.singleStream] ∧
    test_22_74_1 "v=0\nm=video 50000 RTP/AVP 112\na=fmtp:112 exactframerate=25\n".toList {} =
      some [] := by
  decide!

/-! ## The two rules on video media lines -/

theorem forLines_video_same : ∀ (ls : List Str) (b : Bool) (x0 : Nat),
    (forLines videoStep b x0 ls).2 =
      (forLines (fun (_ : Unit) x line =>
        if !startsWith line "m=video".toList then ((), []) else ((), checkVideoLine x line))
        () x0 ls).2
  | [], _, _ => rfl
  | l :: ls, b, x0 => by
    rw [forLines_cons, forLines_cons]
    simp only
    rw [forLines_video_same ls _ (x0 + 1)]
    congr 1
    unfold videoStep
    split <;> rfl

theorem test_20_71_2_eq (sdp : Str) (params : Params) (hne : lineRuns sdp ≠ []) :
    test_20_71_2 sdp params = some (forLines videoStep false 0 (lineRuns sdp)).2 := by
  unfold test_20_71_2
  rw [splitLines_of_ne_nil hne, Option.map_some', forLines_video_same]

theorem test_10_62_1_eq (sdp : Str) (params : Params) (hne : lineRuns sdp ≠ []) :
    test_10_62_1 sdp params =
      some ((forLines videoStep false 0 (lineRuns sdp)).2 ++
        (if ((forLines videoStep false 0 (lineRuns sdp)).1 == false) = true then
          [Finding.videoExpected] else [])) := by
  unfold test_10_62_1
  rw [splitLines_of_ne_nil hne, Option.map_some']

/-- C37 (amended): test_22_71_1 returns exactly what test_10_62_1 returns; for every SDP
with a line that starts with `m=video`, test_10_62_1 and test_20_71_2 return the same
sequence of Findings, so that a video media line that videoPattern does not match is
reported by both; and for every SDP with at least one non-empty line and no line that
starts with `m=video`, test_20_71_2 returns the empty sequence and test_10_62_1 the one
Finding `m=video expected`. -/
theorem video_rules_agree (sdp : Str) (params : Params) :
    test_22_71_1 sdp params = test_10_62_1 sdp params ∧
    ((∃ line ∈ lineRuns sdp, startsWith line "m=video".toList = true) →
      ∃ fs, test_10_62_1 sdp params = some fs ∧ test_20_71_2 sdp params = some fs ∧
        ∀ x line, (lineRuns sdp).get? x = some line →
          startsWith line "m=video".toList = true → videoPattern.exec line = none →
          Finding.videoPatternBad (x + 1) ∈ fs) ∧
    (lineRuns sdp ≠ [] →
      (∀ line ∈ lineRuns sdp, startsWith line "m=video".toList = false) →
      test_20_71_2 sdp params = some [] ∧
        test_10_62_1 sdp params = some [Finding.videoExpected]) := by
  refine ⟨rfl, ?_, ?_⟩
  · rintro ⟨line, hl, hv⟩
    have hne : lineRuns sdp ≠ [] := List.ne_nil_of_mem hl
    have hany : (lineRuns sdp).any (fun l => startsWith l "m=video".toList) = true :=
      List.any_eq_true.2 ⟨line, hl, hv⟩
    have h1 := test_10_62_1_eq sdp params hne
    rw [forLines_videoStep_flag, hany] at h1
    simp only [Bool.false_or, Bool.true_eq_false, beq_iff_eq, if_false, List.append_nil] at h1
    refine ⟨_, h1, test_20_71_2_eq sdp params hne, ?_⟩
    intro x l hline hv1 hex
    obtain ⟨b, hb⟩ := forLines_filter_cited videoStep videoStep_cited (lineRuns sdp) false 0 x
      l hline
    rw [Nat.zero_add, videoStep_video b x l hv1, checkVideoLine_unmatched x l hex] at hb
    have hm : Finding.videoPatternBad (x + 1) ∈
        (forLines videoStep false 0 (lineRuns sdp)).2.filter
          (fun f => f.citedLine == some (x + 1)) := by
      rw [hb]
      exact List.mem_singleton.2 rfl
    exact (List.mem_filter.1 hm).1
  · intro hne hall
    refine ⟨?_, ?_⟩
    · rw [test_20_71_2_eq sdp params hne, forLines_videoStep_none _ _ _ hall]
    · rw [test_10_62_1_eq sdp params hne, videoExpected_only _ hall]

/-- C37 (witness): a text whose only video media line is not matched by videoPattern: both
rules return the one Finding for line 2; and a text without a video media line. -/
theorem video_rules_agree_witness :
    (∃ fs, test_10_62_1 "v=0\nm=video junk\n".toList {} = some fs ∧
      test_20_71_2 "v=0\nm=video junk\n".toList {} = some fs ∧
      Finding.videoPatternBad 2 ∈ fs) ∧
    test_20_71_2 "v=0\nm=audio 5004 RTP/AVP 97\n".toList {} = some [] ∧
    test_10_62_1 "v=0\nm=audio 5004 RTP/AVP 97\n".toList {} = some [Finding.videoExpected] := by
  have hjunk : videoPattern.exec "m=video junk".toList = none := by
    cases h : videoPattern.exec "m=video junk".toList with
    | none => rfl
    | some m =>
      have ht : videoPattern.test "m=video junk".toList = false := by decide!
      rw [Re.test, h] at ht
      cases ht
  constructor
  · obtain ⟨fs, h1, h2, h3⟩ := (video_rules_agree "v=0\nm=video junk\n".toList {}).2.1
      ⟨"m=video junk".toList, by decide!, by decide⟩
    exact ⟨fs, h1, h2, h3 1 "m=video junk".toList (by decide!) (by decide) hjunk⟩
  · exact (video_rules_agree "v=0\nm=audio 5004 RTP/AVP 97\n".toList {}).2.2 (by decide!)
      (by decide!)

/-- C37 (counterexample): the empty text has no line that starts with `m=video`, and
both rules throw on it: they do not differ by the Finding `m=video expected`. -/
theorem video_rules_both_throw_on_empty_text :
    lineRuns [] = [] ∧ test_10_62_1 [] {} = none ∧ test_20_71_2 [] {} = none := by
  decide
/-! ## A text without a video media line under the ST 2110-20 profile -/

theorem concatResults_append_isSome (rs ts : List (Option (List Finding))) :
    (concatResults (rs ++ ts)).isSome =
      ((concatResults rs).isSome && (concatResults ts).isSome) := by
  induction rs with
  | nil => simp [concatResults_nil_isSome]
  | cons r rs ih => simp [concatResults_cons_isSome, ih, Bool.and_assoc]

theorem allSections_20_isSome (sdp : Str) (params : Params)
    (h : ∃ c ∈ sdp, isCRLF c = false) (h22 : params.smpte2110_22 = false)
    (hcopy : params.noCopy = true → (no_copy_20 sdp).isSome = true) :
    (allSections sdp params).isSome = true := by
  unfold allSections
  rw [h22]
  simp only [Bool.false_eq_true, if_false]
  rw [concatResults_append_isSome]
  simp only [concatResults_cons_isSome, concatResults_nil_isSome,
    section_10_62_isSome sdp params h,
    section_10_74_isSome, section_10_81_isSome, section_10_82_isSome sdp params h,
    section_10_83_isSome sdp params h, section_20_71_isSome sdp params h,
    section_20_72_isSome sdp params h, section_20_73_isSome sdp params h,
    section_20_74_isSome sdp params h, section_20_75_isSome sdp params h,
    section_20_76_isSome sdp params h, section_30_62_isSome sdp params h,
    section_21_81_isSome sdp params h, section_21_82_isSome sdp params h, Bool.and_self,
    Bool.true_and]
  cases hc : params.noCopy with
  | false => rfl
  | true =>
    simp only [if_true, concatResults_cons_isSome, concatResults_nil_isSome, Bool.and_true]
    exact hcopy hc

theorem concatResults_head (a : List Finding) (rs : List (Option (List Finding)))
    (h : (concatResults (some a :: rs)).isSome = true) :
    ∃ gs, concatResults (some a :: rs) = some (a ++ gs) := by
  rw [concatResults_cons_isSome] at h
  cases hr : concatResults rs with
  | none => rw [hr] at h; cases h
  | some gs => exact ⟨gs, by simp [concatResults, hr]⟩

/-- C38 (amended): under the ST 2110-20 profile, for every SDP with a character that is
not white space and no line that starts with `m=video`, and every value of the other
options, allSections returns a sequence of Findings that holds `m=video expected`, so a
sequence that is not empty. -/
theorem no_video_never_conformant (sdp : Str) (params : Params)
    (hs : ∃ c ∈ sdp, isSpace c = false) (h22 : params.smpte2110_22 = false)
    (hall : ∀ line ∈ lineRuns sdp, startsWith line "m=video".toList = false) :
    ∃ fs, allSections sdp params = some fs ∧ Finding.videoExpected ∈ fs ∧ fs ≠ [] := by
  have h : ∃ c ∈ sdp, isCRLF c = false := by
    obtain ⟨c, hc, hsp⟩ := hs
    refine ⟨c, hc, ?_⟩
    cases hcr : isCRLF c with
    | false => rfl
    | true => rw [isSpace_of_isCRLF hcr] at hsp; cases hsp
  have hsome := allSections_20_isSome sdp params h h22
    (fun _ => no_copy_isSome sdp specExample20 hs (by decide))
  have hne : lineRuns sdp ≠ [] := lineRuns_ne_nil h
  have h62 : section_10_62 sdp params = some [Finding.videoExpected] := by
    unfold section_10_62
    rw [test_10_62_1_eq sdp params hne, videoExpected_only _ hall]
    rfl
  unfold allSections at hsome ⊢
  rw [h22] at hsome ⊢
  simp only [Bool.false_eq_true, if_false, h62, List.cons_append] at hsome ⊢
  obtain ⟨gs, hgs⟩ := concatResults_head _ _ hsome
  refine ⟨_, hgs, by simp, by simp⟩

/-- C38 (witness): an SDP with one audio media section, with `audioOnly` set. -/
theorem no_video_never_conformant_witness :
    ∃ fs, allSections "v=0\nm=audio 5004 RTP/AVP 97\n".toList { audioOnly := true } = some fs ∧
      Finding.videoExpected ∈ fs ∧ fs ≠ [] :=
  no_video_never_conformant "v=0\nm=audio 5004 RTP/AVP 97\n".toList { audioOnly := true }
    ⟨'v', by decide, by decide⟩ rfl (by decide!)

/-- C38 (counterexample): a text of one line terminator, and a text of one blank with
`noCopy` set, are not empty and have no line that starts with `m=video`; allSections throws
on both. -/
theorem all_sections_throw_on_blank_text :
    lineRuns "\n".toList = [] ∧ allSections "\n".toList {} = none ∧
    lineRuns " ".toList = [" ".toList] ∧ allSections " ".toList { noCopy := true } = none := by
  decide!

/-! ## Width and height -/

theorem isDigit_not_space {x : Char} (h : isDigit x = true) : isSpace x = false := by
  simp only [isDigit, Bool.and_eq_true, decide_eq_true_eq] at h
  simp only [isSpace, Bool.or_eq_false_iff, beq_eq_false_iff_ne, ne_eq, Bool.and_eq_false_imp,
    decide_eq_true_eq, decide_eq_false_iff_not]
  omega

theorem isDigit_of_isDigit19 {x : Char} (h : isDigit19 x = true) : isDigit x = true := by
  simp only [isDigit19, Bool.and_eq_true, decide_eq_true_eq] at h
  simp only [isDigit, Bool.and_eq_true, decide_eq_true_eq]
  omega

theorem dropWhile_none {p : Char → Bool} : ∀ (l : Str), (∀ x ∈ l, p x = false) →
    l.dropWhile p = l
  | [], _ => rfl
  | a :: l, h => by
    rw [List.dropWhile_cons, if_neg (by rw [h a (by simp)]; decide)]

theorem trim_digits (s : Str) (h : ∀ x ∈ s, isDigit x = true) : trim s = s := by
  unfold trim
  rw [dropWhile_none s (fun x hx => isDigit_not_space (h x hx)),
    dropWhile_none s.reverse (fun x hx => isDigit_not_space (h x (List.mem_reverse.1 hx))),
    List.reverse_reverse]

theorem takeWhile_all {p : Char → Bool} : ∀ (l : Str), (∀ x ∈ l, p x = true) →
    l.takeWhile p = l ∧ l.dropWhile p = []
  | [], _ => ⟨rfl, rfl⟩
  | a :: l, h => by
    obtain ⟨h1, h2⟩ := takeWhile_all l (fun x hx => h x (by simp [hx]))
    rw [List.takeWhile_cons, List.dropWhile_cons, if_pos (h a (by simp)),
      if_pos (h a (by simp)), h1, h2]
    exact ⟨rfl, rfl⟩

/-- Unary `+` on a decimal integer without leading zeros is not `NaN`. -/
theorem stringToNumber_positiveDecimal {v : Str} (h : isPositiveDecimal v = true) :
    (stringToNumber v).isNaN = false := by
  obtain ⟨c, cs, rfl, hc, hcs⟩ := isPositiveDecimal_cons h
  have hall : ∀ x ∈ c :: cs, isDigit x = true := by
    intro x hx
    rcases List.mem_cons.1 hx with rfl | hx
    · exact isDigit_of_isDigit19 hc
    · exact hcs x hx
  have hcode : 49 ≤ c.toNat ∧ c.toNat ≤ 57 := by
    simpa only [isDigit19, Bool.and_eq_true, decide_eq_true_eq] using hc
  have hne : ∀ d : Char, d.toNat < 49 ∨ 57 < d.toNat → c ≠ d := by
    intro d hd e
    rw [e] at hcode
    omega
  obtain ⟨ht, hd⟩ := takeWhile_all (c :: cs) hall
  unfold stringToNumber
  rw [trim_digits _ hall]
  split
  · rename_i e; cases e
  · rename_i t e
    injection e with e1 e2
    exact absurd e1 (hne '+' (by decide))
  · rename_i t e
    injection e with e1 e2
    exact absurd e1 (hne '-' (by decide))
  · have hnd : nonDecimalLiteral (c :: cs) = none := by
      unfold nonDecimalLiteral
      split
      · rename_i e
        injection e with e1 e2
        exact absurd e1 (hne '0' (by decide))
      · rfl
    rw [hnd]
    simp only
    unfold unsignedDecimal
    have hinf : (c :: cs == "Infinity".toList) = false := by
      apply beq_eq_false_iff_ne.2
      intro e
      injection e with e1 e2
      exact absurd e1 (hne 'I' (by decide))
    rw [hinf]
    simp only [Bool.false_eq_true, if_false, ht, hd, List.isEmpty_cons, Bool.false_and,
      exponentPart]
    rfl

/-- The texts that integerPattern matches are the decimal integers without leading
zeros. -/
theorem integerPattern_test_iff (v : Str) :
    integerPattern.test v = isPositiveDecimal v := by
  rw [Bool.eq_iff_iff, test_eq_true_iff]
  constructor
  · rintro ⟨u, w, r, hs, hden⟩
    unfold integerPattern at hden
    obtain ⟨a1, b1, e1, h1, g1⟩ := den_cat_cons.1 hden
    obtain ⟨a2, b2, e2, h2, g2⟩ := den_cat_cons.1 g1
    obtain ⟨a3, b3, e3, h3, g3⟩ := den_cat_cons.1 g2
    obtain ⟨a4, b4, e4, h4, g4⟩ := den_cat_cons.1 g3
    obtain ⟨ha1, hu⟩ := den_bol.1 h1
    obtain ⟨c, ha2, hc⟩ := den_cls.1 h2
    have ha3 := den_star_cls.1 h3
    obtain ⟨ha4, hr⟩ := den_eol.1 h4
    have hb4 := den_cat_nil.1 g4
    have hu0 : u = [] := List.length_eq_zero.1 hu
    subst hu0 ha1 ha2 ha4 hb4 hr
    subst e4
    subst e3
    subst e2
    subst e1
    subst hs
    simp only [List.nil_append, List.append_nil, List.singleton_append, isPositiveDecimal,
      Bool.and_eq_true, List.all_eq_true]
    exact ⟨hc, ha3⟩
  · intro h
    obtain ⟨c, cs, rfl, hc, hcs⟩ := isPositiveDecimal_cons h
    refine ⟨[], c :: cs, [], by simp, ?_⟩
    unfold integerPattern
    exact den_cat_cons.2 ⟨[], c :: cs, rfl, den_bol.2 ⟨rfl, rfl⟩,
      den_cat_cons.2 ⟨[c], cs, rfl, den_cls.2 ⟨c, rfl, hc⟩,
        den_cat_cons.2 ⟨cs, [], by simp, den_star_cls.2 hcs,
          den_cat_cons.2 ⟨[], [], rfl, den_eol.2 ⟨rfl, rfl⟩, den_cat_nil.2 rfl⟩⟩⟩⟩

theorem check_20_72_2_cited (o : StreamParams) (f : Finding) (h : f ∈ check_20_72_2 o) :
    f.citedLine = some o._line := by
  unfold check_20_72_2 at h
  split at h
  · rcases List.mem_append.1 h with h1 | h1 <;> repeat' split at h1
    all_goals simp at h1
    all_goals (subst h1; rfl)
  · cases h

/-- The Findings of test_20_72_2 for a stream with `width` and `height`: for each of the
two, the not-an-integer Finding if the value is not a decimal integer without leading
zeros, the range Finding if it is one above 32767, nothing otherwise. -/
theorem check_20_72_2_eq (o : StreamParams) (w h : Str)
    (hw : o.get "width" = some w) (hh : o.get "height" = some h) :
    check_20_72_2 o =
      (if isPositiveDecimal w = false then [Finding.widthNotInteger o._line o._streamNumber]
       else if 32767 < toNumber w then
        [Finding.widthRange o._line o._streamNumber (toNumber w)]
       else []) ++
      (if isPositiveDecimal h = false then [Finding.heightNotInteger o._line o._streamNumber]
       else if 32767 < toNumber h then
        [Finding.heightRange o._line o._streamNumber (toNumber h)]
       else []) := by
  have key : ∀ v : Str, ∀ (A B : List Finding),
      (if ((stringToNumber v).isNaN || integerPattern.test v == false) = true then A
       else if (decide (toNumber v < 1) || decide (32767 < toNumber v)) = true then B
       else []) =
      (if isPositiveDecimal v = false then A else if 32767 < toNumber v then B else []) := by
    intro v A B
    rw [integerPattern_test_iff]
    cases hp : isPositiveDecimal v with
    | false => simp
    | true =>
      have hpos := toNumber_pos hp
      have h1 : ¬ toNumber v < 1 := by omega
      simp [stringToNumber_positiveDecimal hp, h1]
  unfold check_20_72_2
  rw [hw, hh]
  simp only
  rw [key w, key h]

/-- C34 (amended): for every accepted `a=fmtp` line of a video media section that no
`a=rtpmap` line of a skipped type precedes in the section, and that carries `width` with
the value `w` and `height` with the value `h`, test_20_72_2 returns, and it reports no
Finding that cites the line if and only if each of `w` and `h` is a decimal integer
without leading zeros from 1 to 32767; a value that is not such an integer yields the
is-not-an-integer Finding and such an integer above 32767 the outside-the-range Finding,
for width and for height each on its own. -/
theorem width_height_rule (sdp : Str) (params : Params) (x j : Nat) (line w h : Str)
    (hline : (lineRuns sdp).get? x = some line)
    (hsec : inVideoSection (lineRuns sdp) j x)
    (hf : startsWith line "a=fmtp".toList = true) (ht : fmtpPattern.test line = true)
    (hw : (fmtpProps line).lookup "width".toList = some w)
    (hh : (fmtpProps line).lookup "height".toList = some h) :
    ∃ fs, test_20_72_2 sdp params = some fs ∧
      (fs.filter (fun f => f.citedLine == some (x + 1)) = [] ↔
        (isPositiveDecimal w = true ∧ toNumber w ≤ 32767) ∧
          (isPositiveDecimal h = true ∧ toNumber h ≤ 32767)) ∧
      (Finding.widthNotInteger (x + 1) (streamNumberAt (lineRuns sdp) x) ∈
          fs.filter (fun f => f.citedLine == some (x + 1)) ↔ isPositiveDecimal w = false) ∧
      (Finding.widthRange (x + 1) (streamNumberAt (lineRuns sdp) x) (toNumber w) ∈
          fs.filter (fun f => f.citedLine == some (x + 1)) ↔
        isPositiveDecimal w = true ∧ 32767 < toNumber w) ∧
      (Finding.heightNotInteger (x + 1) (streamNumberAt (lineRuns sdp) x) ∈
          fs.filter (fun f => f.citedLine == some (x + 1)) ↔ isPositiveDecimal h = false) ∧
      (Finding.heightRange (x + 1) (streamNumberAt (lineRuns sdp) x) (toNumber h) ∈
          fs.filter (fun f => f.citedLine == some (x + 1)) ↔
        isPositiveDecimal h = true ∧ 32767 < toNumber h) := by
  obtain ⟨r, pt, hr, hfil⟩ := findings_at_line check_20_72_2 check_20_72_2_cited sdp
    params x j line hline hsec hf ht
  refine ⟨r.2 ++ r.1.flatMap check_20_72_2, by simp [test_20_72_2, forStreams, hr], ?_⟩
  rw [hfil, check_20_72_2_eq (StreamParams.mk (fmtpProps line) pt (x + 1)
    (streamNumberAt (lineRuns sdp) x)) w h hw hh]
  simp only
  generalize streamNumberAt (lineRuns sdp) x = s
  generalize toNumber w = nw
  generalize toNumber h = nh
  cases isPositiveDecimal w <;> cases isPositiveDecimal h <;>
    by_cases c1 : 32767 < nw <;> by_cases c2 : 32767 < nh <;> simp [c1, c2]
  all_goals omega

/-- C34 (witness): width `1920` and height `40000`: only the range of the height is
reported for line 3. -/
theorem width_height_rule_witness :
    ∃ fs, test_20_72_2
        "v=0\nm=video 50000 RTP/AVP 112\na=fmtp:112 width=1920; height=40000\n".toList {} =
        some fs ∧
      fs.filter (fun f => f.citedLine == some 3) ≠ [] ∧
      Finding.heightRange 3 1 40000 ∈ fs.filter (fun f => f.citedLine == some 3) ∧
      Finding.widthNotInteger 3 1 ∉ fs.filter (fun f => f.citedLine == some 3) := by
  obtain ⟨fs, h1, h2, h3, -, -, h6⟩ := width_height_rule
    "v=0\nm=video 50000 RTP/AVP 112\na=fmtp:112 width=1920; height=40000\n".toList {} 2 1
    "a=fmtp:112 width=1920; height=40000".toList "1920".toList "40000".toList
    (by decide!) ⟨by decide, by decide!, by decide!, fun i h1 h2 => by omega⟩
    (by decide!) (by decide!) (by decide!) (by decide!)
  refine ⟨fs, h1, ?_, h6.2 ⟨by decide, by decide⟩, ?_⟩
  · intro h
    have := (h2.1 h).2.2
    revert this
    decide
  · intro h
    have := h3.1 h
    revert this
    decide

/-- C34 (counterexample): the `a=fmtp` line of a video media section follows an `a=rtpmap`
line of the skipped type `smpte291`: test_20_72_2 reports nothing for `width=0` and
`height=99999`, which it reports where the type is `raw`. -/
theorem skipped_section_size_unreported :
    test_20_72_2 ("v=0\nm=video 50000 RTP/AVP 100\na=rtpmap:100 smpte291/90000\n" ++
      "a=fmtp:100 width=0; height=99999\n").toList {} = some [] ∧
    test_20_72_2 ("v=0\nm=video 50000 RTP/AVP 100\na=rtpmap:100 raw/90000\n" ++
      "a=fmtp:100 width=0; height=99999\n").toList {} =
      some [Finding.widthNotInteger 4 1, Finding.heightRange 4 1 99999] := by
  decide!

/-! ## The three checks on a rational frame rate -/

/-- The Findings of test_20_72_3 for a stream whose frame rate is `n/d`, `n` and `d`
positive decimal integers without leading zeros below `2 ^ 53`: one for each of the
conditions `d` divides `n`, `n < d`, `gcd(n, d) ≠ 1` that holds, in this order. -/
theorem check_20_72_3_eq (o : StreamParams) (ns ds : Str)
    (hv : o.get "exactframerate" = some (ns ++ '/' :: ds))
    (hn : isPositiveDecimal ns = true) (hd : isPositiveDecimal ds = true)
    (hn53 : toNumber ns < 2 ^ 53) (hd53 : toNumber ds < 2 ^ 53) :
    check_20_72_3 o =
      (if toNumber ds ∣ toNumber ns then
        [Finding.frameRateInteger o._line o._streamNumber] else []) ++
      (if toNumber ns < toNumber ds then
        [Finding.frameRateSlow o._line o._streamNumber] else []) ++
      (if Nat.gcd (toNumber ns) (toNumber ds) ≠ 1 then
        [Finding.frameRateNotMinimal o._line o._streamNumber] else []) := by
  obtain ⟨m, hm, h1, h2⟩ := frameRatePattern_exec_rational ns ds hn hd
  obtain ⟨e, es, hds, _, _⟩ := isPositiveDecimal_cons hd
  have ht : truthy (some ds) = true := by rw [hds]; rfl
  have hq := quotientIsInteger_iff (toNumber ns) (toNumber ds) (toNumber_pos hn)
    (toNumber_pos hd) hn53 hd53
  have hg := greatestCommonDivisor_eq_gcd (toNumber ns) (toNumber ds) (lt_Infinity hn53)
    (lt_Infinity hd53)
  have hdiv := divisionIsInteger_of_lt (lt_Infinity hn53) (lt_Infinity hd53)
  unfold check_20_72_3
  rw [hv]
  simp only [hm, h1, h2, ht, isNaNOfDigits, Option.getD_some, Bool.false_eq_true, if_false,
    List.nil_append, Bool.not_true, hg, hdiv]
  by_cases c1 : toNumber ds ∣ toNumber ns
  · rw [hq.2 c1]
    simp [c1]
  · have c1n : quotientIsInteger (toNumber ns) (toNumber ds) = false := by
      cases hc : quotientIsInteger (toNumber ns) (toNumber ds) with
      | false => rfl
      | true => exact absurd (hq.1 hc) c1
    rw [c1n]
    simp [c1]

/-- C40 (amended): for every accepted `a=fmtp` line of a video media section that no
`a=rtpmap` line of a skipped type precedes in the section, whose `exactframerate` is `n/d`,
`n` and `d` positive decimal integers without leading zeros below `2 ^ 53`, the Findings of
test_20_72_3 that cite the line are one for each of the
conditions `d` divides `n` (integer rate), `d > n` (slower than one per second) and
`gcd(n, d) ≠ 1` (not the minimum possible) that holds; so the integer-rate Finding and the
slower Finding are never both reported, with the integer-rate Finding and `d ≥ 2` the
not-the-minimum Finding is reported too, and the number of the Findings is the number of
the conditions that hold. -/
theorem rational_checks_relate (sdp : Str) (params : Params) (x j : Nat) (line ns ds : Str)
    (hline : (lineRuns sdp).get? x = some line)
    (hsec : inVideoSection (lineRuns sdp) j x)
    (hf : startsWith line "a=fmtp".toList = true) (ht : fmtpPattern.test line = true)
    (hv : (fmtpProps line).lookup "exactframerate".toList = some (ns ++ '/' :: ds))
    (hn : isPositiveDecimal ns = true) (hd : isPositiveDecimal ds = true)
    (hn53 : toNumber ns < 2 ^ 53) (hd53 : toNumber ds < 2 ^ 53) :
    ∃ fs, test_20_72_3 sdp params = some fs ∧
      fs.filter (fun f => f.citedLine == some (x + 1)) =
        (if toNumber ds ∣ toNumber ns then
          [Finding.frameRateInteger (x + 1) (streamNumberAt (lineRuns sdp) x)] else []) ++
        (if toNumber ns < toNumber ds then
          [Finding.frameRateSlow (x + 1) (streamNumberAt (lineRuns sdp) x)] else []) ++
        (if Nat.gcd (toNumber ns) (toNumber ds) ≠ 1 then
          [Finding.frameRateNotMinimal (x + 1) (streamNumberAt (lineRuns sdp) x)] else []) ∧
      ¬ (Finding.frameRateInteger (x + 1) (streamNumberAt (lineRuns sdp) x) ∈
            fs.filter (fun f => f.citedLine == some (x + 1)) ∧
          Finding.frameRateSlow (x + 1) (streamNumberAt (lineRuns sdp) x) ∈
            fs.filter (fun f => f.citedLine == some (x + 1))) ∧
      (Finding.frameRateInteger (x + 1) (streamNumberAt (lineRuns sdp) x) ∈
          fs.filter (fun f => f.citedLine == some (x + 1)) → 2 ≤ toNumber ds →
        Finding.frameRateNotMinimal (x + 1) (streamNumberAt (lineRuns sdp) x) ∈
          fs.filter (fun f => f.citedLine == some (x + 1))) ∧
      (fs.filter (fun f => f.citedLine == some (x + 1))).length =
        (if toNumber ds ∣ toNumber ns then 1 else 0) +
        (if toNumber ns < toNumber ds then 1 else 0) +
        (if Nat.gcd (toNumber ns) (toNumber ds) ≠ 1 then 1 else 0) := by
  obtain ⟨r, pt, hr, hfil⟩ := findings_at_line check_20_72_3 check_20_72_3_cited sdp
    params x j line hline hsec hf ht
  refine ⟨r.2 ++ r.1.flatMap check_20_72_3, by simp [test_20_72_3, hr], ?_⟩
  rw [hfil, check_20_72_3_eq (StreamParams.mk (fmtpProps line) pt (x + 1)
    (streamNumberAt (lineRuns sdp) x)) ns ds hv hn hd hn53 hd53]
  simp only
  have hnpos := toNumber_pos hn
  have hdpos := toNumber_pos hd
  generalize streamNumberAt (lineRuns sdp) x = s
  generalize toNumber ns = n at hnpos ⊢
  generalize toNumber ds = d at hdpos ⊢
  refine ⟨trivial, ?_, ?_, ?_⟩
  · by_cases c1 : d ∣ n
    · have hle := Nat.le_of_dvd hnpos c1
      have c2 : ¬ n < d := by omega
      simp [c1, c2]
    · simp [c1]
  · intro hi hd2
    by_cases c1 : d ∣ n
    · have hg : Nat.gcd n d = d := Nat.gcd_eq_right c1
      have c3 : Nat.gcd n d ≠ 1 := by omega
      simp [c3]
    · simp [c1] at hi
  · by_cases c1 : d ∣ n <;> by_cases c2 : n < d <;> by_cases c3 : Nat.gcd n d = 1 <;>
      simp [c1, c2, c3]

/-- C40 (witness): `30/15`: 15 divides 30 and the greatest common divisor is 15, so the
integer-rate Finding and the not-the-minimum Finding are reported for line 3. -/
theorem rational_checks_relate_witness :
    ∃ fs, test_20_72_3
        "v=0\nm=video 50000 RTP/AVP 112\na=fmtp:112 exactframerate=30/15\n".toList {} =
        some fs ∧
      fs.filter (fun f => f.citedLine == some 3) =
        [Finding.frameRateInteger 3 1, Finding.frameRateNotMinimal 3 1] := by
  obtain ⟨fs, h1, h2, -⟩ := rational_checks_relate
    "v=0\nm=video 50000 RTP/AVP 112\na=fmtp:112 exactframerate=30/15\n".toList {} 2 1
    "a=fmtp:112 exactframerate=30/15".toList "30".toList "15".toList
    (by decide!) ⟨by decide, by decide!, by decide!, fun i h1 h2 => by omega⟩
    (by decide!) (by decide!) (by decide!) (by decide!) (by decide!) (by decide!) (by decide!)
  refine ⟨fs, h1, ?_⟩
  rw [h2]
  decide!

/-- C40 (counterexample): the frame rate is `1/d` with `d` the digit 1 followed by 330
zeros, which unary `+` rounds to `Infinity`; the quotient is the number zero, an integer,
and test_20_72_3 reports both the integer-rate Finding and the
slower-than-one-per-second Finding for line 3.  And after an `a=rtpmap` line of the
skipped type `smpte291` it reports nothing for `30/15`, of which two of the three
conditions hold. -/
theorem huge_denominator_integer_and_slow :
    toNumber ("1".toList ++ List.replicate 330 '0') = Infinity ∧
    test_20_72_3
      ("v=0\nm=video 50000 RTP/AVP 112\na=fmtp:112 exactframerate=1/1".toList ++
        (List.replicate 330 '0' ++ "\n".toList)) {} =
      some [Finding.frameRateInteger 3 1, Finding.frameRateSlow 3 1] ∧
    test_20_72_3
      ("v=0\nm=video 50000 RTP/AVP 100\na=rtpmap:100 smpte291/90000\n" ++
       "a=fmtp:100 exactframerate=30/15\n").toList {} = some [] := by
  decide!

/-! ## The reference clock patterns on any text -/

theorem den_seq_assoc {a b c : Re} {pos : Nat} {w rest : Str} :
    Den (.seq (.seq a b) c) pos w rest ↔ Den (.seq a (.seq b c)) pos w rest := by
  simp only [den_seq]
  constructor
  · rintro ⟨w12, w3, rfl, ⟨w1, w2, rfl, h1, h2⟩, h3⟩
    refine ⟨w1, w2 ++ w3, by simp, by simpa using h1, w2, w3, rfl, h2, ?_⟩
    simpa [Nat.add_assoc] using h3
  · rintro ⟨w1, w23, rfl, h1, w2, w3, rfl, h2, h3⟩
    refine ⟨w1 ++ w2, w3, by simp, ⟨w1, w2, rfl, by simpa using h1, h2⟩, ?_⟩
    simpa [Nat.add_assoc] using h3

theorem den_octet_group {p : Char → Bool} {g pos : Nat} {w rest : Str} :
    Den (.grp g (.cat [.cls p, .cls p, .chr '-'])) pos w rest ↔
      ∃ a b, w = [a, b, '-'] ∧ p a = true ∧ p b = true := by
  rw [den_grp]
  constructor
  · intro h
    obtain ⟨x1, y1, rfl, d1, h⟩ := den_cat_cons.1 h
    obtain ⟨x2, y2, rfl, d2, h⟩ := den_cat_cons.1 h
    obtain ⟨x3, y3, rfl, d3, h⟩ := den_cat_cons.1 h
    obtain ⟨a, rfl, ha⟩ := den_cls.1 d1
    obtain ⟨b, rfl, hb⟩ := den_cls.1 d2
    rw [den_cat_nil.1 h, den_chr.1 d3]
    exact ⟨a, b, rfl, ha, hb⟩
  · rintro ⟨a, b, rfl, ha, hb⟩
    exact den_cat_cons.2 ⟨[a], [b, '-'], rfl, den_cls.2 ⟨a, rfl, ha⟩,
      den_cat_cons.2 ⟨[b], ['-'], rfl, den_cls.2 ⟨b, rfl, hb⟩,
        den_cat_cons.2 ⟨['-'], [], rfl, den_chr.2 rfl, den_cat_nil.2 rfl⟩⟩⟩

theorem den_octet_pair {p : Char → Bool} {pos : Nat} {w rest : Str} :
    Den (.seq (.cls p) (.cls p)) pos w rest ↔ ∃ a b, w = [a, b] ∧ p a = true ∧ p b = true := by
  rw [den_seq]
  constructor
  · rintro ⟨w1, w2, rfl, h1, h2⟩
    obtain ⟨a, rfl, ha⟩ := den_cls.1 h1
    obtain ⟨b, rfl, hb⟩ := den_cls.1 h2
    exact ⟨a, b, rfl, ha, hb⟩
  · rintro ⟨a, b, rfl, ha, hb⟩
    exact ⟨[a], [b], rfl, den_cls.2 ⟨a, rfl, ha⟩, den_cls.2 ⟨b, rfl, hb⟩⟩

theorem den_octets : ∀ (n pos : Nat) (w rest : Str),
    Den (Re.seq (Re.rep n (.grp 3 (.cat [.cls isHexUpper, .cls isHexUpper, .chr '-'])))
      (.seq (.cls isHexUpper) (.cls isHexUpper))) pos w rest ↔ isOctets n w = true
  | 0, pos, w, rest => by
    rw [Re.rep, den_seq]
    constructor
    · rintro ⟨w1, w2, rfl, h1, h2⟩
      rw [den_eps.1 h1]
      obtain ⟨a, b, rfl, ha, hb⟩ := den_octet_pair.1 h2
      simp [isOctets, ha, hb]
    · intro h
      match w, h with
      | [a, b], h =>
        simp only [isOctets, Bool.and_eq_true] at h
        exact ⟨[], [a, b], rfl, den_eps.2 rfl, den_octet_pair.2 ⟨a, b, rfl, h.1, h.2⟩⟩
  | n + 1, pos, w, rest => by
    rw [Re.rep, den_seq_assoc, den_seq]
    constructor
    · rintro ⟨w1, w2, rfl, h1, h2⟩
      obtain ⟨a, b, rfl, ha, hb⟩ := den_octet_group.1 h1
      simp [isOctets, ha, hb, (den_octets n _ w2 rest).1 h2]
    · intro h
      match w, h with
      | a :: b :: c :: t, h =>
        simp only [isOctets, Bool.and_eq_true, beq_iff_eq] at h
        obtain ⟨⟨⟨ha, hb⟩, hc⟩, hrec⟩ := h
        subst hc
        exact ⟨[a, b, '-'], t, rfl, den_octet_group.2 ⟨a, b, rfl, ha, hb⟩,
          (den_octets n _ t rest).2 hrec⟩

theorem den_macOctets : ∀ (n pos : Nat) (w rest : Str),
    Den (Re.seq (Re.rep n (.grp 2 (.cat [.cls isHex, .cls isHex, .chr '-'])))
      (.seq (.cls isHex) (.cls isHex))) pos w rest ↔ isMacOctets n w = true
  | 0, pos, w, rest => by
    rw [Re.rep, den_seq]
    constructor
    · rintro ⟨w1, w2, rfl, h1, h2⟩
      rw [den_eps.1 h1]
      obtain ⟨a, b, rfl, ha, hb⟩ := den_octet_pair.1 h2
      simp [isMacOctets, ha, hb]
    · intro h
      match w, h with
      | [a, b], h =>
        simp only [isMacOctets, Bool.and_eq_true] at h
        exact ⟨[], [a, b], rfl, den_eps.2 rfl, den_octet_pair.2 ⟨a, b, rfl, h.1, h.2⟩⟩
  | n + 1, pos, w, rest => by
    rw [Re.rep, den_seq_assoc, den_seq]
    constructor
    · rintro ⟨w1, w2, rfl, h1, h2⟩
      obtain ⟨a, b, rfl, ha, hb⟩ := den_octet_group.1 h1
      simp [isMacOctets, ha, hb, (den_macOctets n _ w2 rest).1 h2]
    · intro h
      match w, h with
      | a :: b :: c :: t, h =>
        simp only [isMacOctets, Bool.and_eq_true, beq_iff_eq] at h
        obtain ⟨⟨⟨ha, hb⟩, hc⟩, hrec⟩ := h
        subst hc
        exact ⟨[a, b, '-'], t, rfl, den_octet_group.2 ⟨a, b, rfl, ha, hb⟩,
          (den_macOctets n _ t rest).2 hrec⟩

theorem den_ptpIdentity {pos : Nat} {w rest : Str} :
    Den ptpIdentity pos w rest ↔ isOctets 7 w = true := by
  unfold ptpIdentity
  rw [den_grp]
  exact den_octets 7 pos w rest

theorem den_macPattern {pos : Nat} {w rest : Str} :
    Den macPattern pos w rest ↔ isMacOctets 5 w = true := by
  unfold macPattern
  rw [den_grp]
  exact den_macOctets 5 pos w rest

theorem macPattern_test_iff (v : Str) : macPattern.test v = true ↔ containsMac v := by
  rw [test_eq_true_iff]
  unfold containsMac
  constructor
  · rintro ⟨u, w, t, h, hden⟩
    exact ⟨u, w, t, h, den_macPattern.1 hden⟩
  · rintro ⟨u, w, t, h, hm⟩
    exact ⟨u, w, t, h, den_macPattern.2 hm⟩

theorem den_ptpPattern {pos : Nat} {w rest : Str} :
    Den ptpPattern pos w rest ↔ w = "traceable".toList ∨
      (rest = [] ∧ ∃ id dom, w = id ++ domainSuffix dom ∧ isOctets 7 id = true ∧
        ∀ ds, dom = some ds → isDigits ds = true) := by
  unfold ptpPattern
  rw [den_alt, den_lit]
  apply or_congr Iff.rfl
  constructor
  · intro h
    obtain ⟨w1, w2, rfl, h1, h2⟩ := den_seq.1 h
    obtain ⟨rfl, rfl⟩ := den_eol.1 h2
    obtain ⟨id, sfx, rfl, hid, hopt⟩ := den_seq.1 (den_grp.1 h1)
    refine ⟨rfl, ?_⟩
    rcases den_opt.1 hopt with h | rfl
    · obtain ⟨c, ds, rfl, hc, hds⟩ := den_seq.1 (den_grp.1 h)
      obtain ⟨hne, hall⟩ := den_plus_cls.1 (den_grp.1 hds)
      refine ⟨id, some ds, ?_, den_ptpIdentity.1 hid, ?_⟩
      · rw [den_chr.1 hc]; simp [domainSuffix]
      · intro ds1 e
        cases e
        cases ds with
        | nil => exact absurd rfl hne
        | cons d t => simpa [isDigits] using hall
    · exact ⟨id, none, by simp [domainSuffix], den_ptpIdentity.1 hid, fun _ e => by cases e⟩
  · rintro ⟨rfl, id, dom, rfl, hid, hdom⟩
    refine den_seq.2 ⟨id ++ domainSuffix dom, [], by simp, den_grp.2 ?_, den_eol.2 ⟨rfl, rfl⟩⟩
    refine den_seq.2 ⟨id, domainSuffix dom, rfl, den_ptpIdentity.2 hid, den_opt.2 ?_⟩
    cases dom with
    | none => right; rfl
    | some ds =>
      left
      obtain ⟨d, t, rfl, hd, ht⟩ := isDigits_cons (hdom ds rfl)
      refine den_grp.2 (den_seq.2 ⟨[':'], d :: t, rfl, den_chr.2 rfl, den_grp.2 ?_⟩)
      refine den_plus_cls.2 ⟨by simp, ?_⟩
      intro c hc
      rcases List.mem_cons.1 hc with rfl | hc
      · exact hd
      · exact ht c hc
theorem ptpPattern_matchAt_traceable (pos : Nat) (v : Str) :
    ∃ m, ptpPattern.matchAt pos ("traceable".toList ++ v) = some m ∧ m.cap 5 = none ∧
      m.cap 2 = none := by
  have hrun : ptpPattern.run ⟨pos, "traceable".toList ++ v, []⟩ some =
      some ⟨pos + "traceable".toList.length, v, []⟩ := by
    unfold ptpPattern
    rw [Re.run, run_lit_append]
  unfold Re.matchAt
  rw [hrun]
  exact ⟨_, rfl, rfl, rfl⟩

theorem ptpPattern_matchAt_identity (pos : Nat) (id : Str) (h : isOctets 7 id = true) :
    ∃ m, ptpPattern.matchAt pos id = some m ∧ m.cap 5 = none ∧ m.cap 2 = some id := by
  obtain ⟨a, t, hid, ha⟩ := isOctets_cons h
  obtain ⟨caps1, hl, h2, hk⟩ := run_ptpIdentity id [] pos [] h
  have ht : "traceable".toList = ['t', 'r', 'a', 'c', 'e', 'a', 'b', 'l', 'e'] := rfl
  simp only [List.append_nil] at hk
  have hrun : ptpPattern.run ⟨pos, id, []⟩ some =
      some ⟨pos + id.length, [], setCap 1 id caps1⟩ := by
    unfold ptpPattern
    rw [Re.run]
    have h1 : (Re.lit "traceable".toList).run ⟨pos, id, []⟩ some = none := by
      rw [ht, hid]
      simp [Re.lit, Re.run, Re.chr, isHexUpper_ne_t ha]
    rw [h1]
    simp only [run_seq, run_grp, run_opt, hk, run_chr_nil, run_eol]
    simp
  unfold Re.matchAt
  rw [hrun]
  refine ⟨_, rfl, ?_, ?_⟩
  · show (setCap 1 id caps1).lookup 5 = none
    rw [lookup_setCap_ne (by decide), hl 5 (by decide) (by decide)]
    rfl
  · show (setCap 1 id caps1).lookup 2 = some id
    rw [lookup_setCap_ne (by decide), h2]

theorem ptpPattern_matchAt_domain (pos : Nat) (id ds : Str) (h : isOctets 7 id = true)
    (hd : isDigits ds = true) :
    ∃ m, ptpPattern.matchAt pos (id ++ ':' :: ds) = some m ∧ m.cap 5 = some ds := by
  obtain ⟨a, t, hid, ha⟩ := isOctets_cons h
  obtain ⟨d, dt, hds, hd0, hdt⟩ := isDigits_cons hd
  subst hds
  obtain ⟨caps1, hl, h2, hk⟩ := run_ptpIdentity id (':' :: d :: dt) pos [] h
  have ht : "traceable".toList = ['t', 'r', 'a', 'c', 'e', 'a', 'b', 'l', 'e'] := rfl
  have hstar := fun k hk1 => run_star_cls isDigit dt [] (pos + id.length + 1 + 1) caps1 k
    (by simp) hdt hk1
  simp only [List.append_nil] at hstar
  have hrun : ptpPattern.run ⟨pos, id ++ ':' :: d :: dt, []⟩ some =
      some ⟨pos + id.length + 1 + 1 + dt.length, [],
        setCap 1 (id ++ ':' :: d :: dt) (setCap 4 (':' :: d :: dt) (setCap 5 (d :: dt) caps1))⟩ := by
    unfold ptpPattern
    rw [Re.run]
    have h1 : (Re.lit "traceable".toList).run ⟨pos, id ++ ':' :: d :: dt, []⟩ some = none := by
      rw [ht, hid]
      simp [Re.lit, Re.run, Re.chr, isHexUpper_ne_t ha]
    rw [h1]
    simp only [run_seq, run_grp, run_opt, run_plus, hk, run_chr_cons, run_cls_cons,
      beq_self_eq_true, if_true, hd0]
    rw [hstar]
    · simp only [run_eol, List.isEmpty_nil, if_true, List.length_append, List.length_cons,
        List.length_nil, Nat.sub_zero, Option.some.injEq, MState.mk.injEq, true_and]
      congr 1
      · apply List.take_of_length_le; simp
      · congr 1
        · simp
        · simp
    · simp [run_eol]
  unfold Re.matchAt
  rw [hrun]
  refine ⟨_, rfl, ?_⟩
  show (setCap 1 (id ++ ':' :: d :: dt) (setCap 4 (':' :: d :: dt)
    (setCap 5 (d :: dt) caps1))).lookup 5 = some (d :: dt)
  rw [lookup_setCap_ne (by decide), lookup_setCap_ne (by decide), lookup_setCap_self]

/-- The body of test_10_82_3 on a line that names the 2008 version of PTP. -/
theorem check_10_82_3_versioned (x : Nat) (rest : Str) :
    check_10_82_3 x ("a=ts-refclk:ptp=IEEE1588-2008:".toList ++ rest) =
      match ptpPattern.exec rest with
      | none => [Finding.ptpServer (x + 1)]
      | some ptpMatch =>
        if truthy (ptpMatch.cap 5) then
          if decide (127 < toNumber ((ptpMatch.cap 5).getD [])) then
            [Finding.ptpDomainRange (x + 1)] else []
        else if truthy (ptpMatch.cap 2) then [Finding.ptpDomainMissing (x + 1)]
        else [] := by
  cases h : ptpPattern.exec rest <;> simp [check_10_82_3, startsWith, slice, h]

/-- The body of test_10_82_4 on a line that gives a hardware address. -/
theorem check_10_82_4_localmac (x : Nat) (v : Str) :
    check_10_82_4 x ("a=ts-refclk:localmac=".toList ++ v) =
      if macPattern.test v = true then [] else [Finding.localmacInvalid (x + 1)] := by
  cases h : macPattern.test v <;> simp [check_10_82_4, startsWith, slice, h]
/-- The four outcomes of test_10_82_3 on a line that names the 2008 version of PTP, each
with what it tells about the text after the version. -/
theorem check_10_82_3_classified (x : Nat) (rest : Str) :
    (check_10_82_3 x ("a=ts-refclk:ptp=IEEE1588-2008:".toList ++ rest) =
        [Finding.ptpServer (x + 1)] ∧
      ¬ containsWord "traceable".toList rest ∧ ¬ endsWithClock rest) ∨
    (check_10_82_3 x ("a=ts-refclk:ptp=IEEE1588-2008:".toList ++ rest) = [] ∧
      (containsWord "traceable".toList rest ∨
        ∃ u id ds, rest = u ++ (id ++ ':' :: ds) ∧ isOctets 7 id = true ∧
          isDigits ds = true ∧ toNumber ds ≤ 127)) ∨
    (check_10_82_3 x ("a=ts-refclk:ptp=IEEE1588-2008:".toList ++ rest) =
        [Finding.ptpDomainRange (x + 1)] ∧ endsWithClock rest) ∨
    (check_10_82_3 x ("a=ts-refclk:ptp=IEEE1588-2008:".toList ++ rest) =
        [Finding.ptpDomainMissing (x + 1)] ∧ endsWithClock rest) := by
  rw [check_10_82_3_versioned]
  cases hex : ptpPattern.exec rest with
  | none =>
    left
    unfold Re.exec at hex
    have hn := searchFrom_none hex
    refine ⟨rfl, ?_, ?_⟩
    · rintro ⟨u, v, h⟩
      exact hn u "traceable".toList v h (den_ptpPattern.2 (Or.inl rfl))
    · rintro ⟨u, id, dom, h, hid, hdom⟩
      exact hn u (id ++ domainSuffix dom) [] (by simpa using h)
        (den_ptpPattern.2 (Or.inr ⟨rfl, id, dom, rfl, hid, hdom⟩))
  | some m =>
    right
    unfold Re.exec at hex
    obtain ⟨u, w, v, hrem, hden, _, _, _, hmat, _⟩ := searchFrom_some hex
    rcases den_ptpPattern.1 hden with rfl | ⟨rfl, id, dom, rfl, hid, hdom⟩
    · obtain ⟨m1, hm1, h5, h2⟩ := ptpPattern_matchAt_traceable (0 + u.length) v
      rw [hm1] at hmat
      cases hmat
      left
      refine ⟨?_, Or.inl ⟨u, v, hrem⟩⟩
      simp only [h5, h2]
      rfl
    · cases dom with
      | none =>
        simp only [domainSuffix, List.append_nil] at hmat hrem
        obtain ⟨m1, hm1, h5, h2⟩ := ptpPattern_matchAt_identity (0 + u.length) id hid
        rw [hm1] at hmat
        cases hmat
        right; right
        obtain ⟨a, t, hat, _⟩ := isOctets_cons hid
        have ht : truthy (some id) = true := by rw [hat]; rfl
        have hnone : truthy none = false := rfl
        refine ⟨?_, u, id, none, by simpa [domainSuffix] using hrem, hid, fun _ e => by cases e⟩
        simp [h5, h2, ht, hnone]
      | some ds =>
        simp only [domainSuffix, List.append_nil] at hmat hrem
        obtain ⟨m1, hm1, h5⟩ := ptpPattern_matchAt_domain (0 + u.length) id ds hid (hdom ds rfl)
        rw [hm1] at hmat
        cases hmat
        have ht := isDigits_truthy (hdom ds rfl)
        by_cases hr : 127 < toNumber ds
        · right; left
          refine ⟨?_, u, id, some ds, by simpa [domainSuffix] using hrem, hid, hdom⟩
          simp [h5, ht, hr]
        · left
          refine ⟨?_, Or.inr ⟨u, id, ds, hrem, hid, hdom ds rfl, by omega⟩⟩
          simp [h5, ht, hr]

/-- C36 (amended): for every media-level line
`a=ts-refclk:ptp=IEEE1588-2008:<rest>`, test_10_82_3 reports the do-not-match-acceptable-
patterns Finding for the line exactly when `<rest>` neither contains `traceable` nor ends
with eight hyphen-separated upper-case hexadecimal octets optionally followed by a colon and
decimal digits; it reports no Finding for the line only if `<rest>` contains `traceable` or
ends with such an identity, a colon and a domain number of at most 127, and it reports none
when `<rest>` is exactly `traceable` or exactly such an identity, a colon and a domain of at
most 127.  For every media-level line `a=ts-refclk:localmac=<v>`, test_10_82_4 reports no
Finding for the line when `<v>` contains six hyphen-separated hexadecimal octets, and the
invalid-address Finding otherwise. -/
theorem refclk_forms_rule (sdp : Str) (params : Params) (x : Nat) (line : Str)
    (hline : (lineRuns sdp).get? x = some line) (hmedia : mediaLevel (lineRuns sdp) x) :
    ∃ fs gs, test_10_82_3 sdp params = some fs ∧ test_10_82_4 sdp params = some gs ∧
      (∀ rest, line = "a=ts-refclk:ptp=IEEE1588-2008:".toList ++ rest →
        (fs.filter (fun f => f.citedLine == some (x + 1)) = [Finding.ptpServer (x + 1)] ↔
          ¬ containsWord "traceable".toList rest ∧ ¬ endsWithClock rest) ∧
        (fs.filter (fun f => f.citedLine == some (x + 1)) = [] →
          containsWord "traceable".toList rest ∨
            ∃ u id ds, rest = u ++ (id ++ ':' :: ds) ∧ isOctets 7 id = true ∧
              isDigits ds = true ∧ toNumber ds ≤ 127) ∧
        (rest = "traceable".toList →
          fs.filter (fun f => f.citedLine == some (x + 1)) = []) ∧
        (∀ id ds, rest = id ++ ':' :: ds → isOctets 7 id = true → isDigits ds = true →
          toNumber ds ≤ 127 → fs.filter (fun f => f.citedLine == some (x + 1)) = [])) ∧
      (∀ v, line = "a=ts-refclk:localmac=".toList ++ v →
        (containsMac v → gs.filter (fun f => f.citedLine == some (x + 1)) = []) ∧
        (¬ containsMac v →
          gs.filter (fun f => f.citedLine == some (x + 1)) =
            [Finding.localmacInvalid (x + 1)])) := by
  obtain ⟨hsl, hx, hget⟩ := lineRuns_of_get hline
  refine ⟨mediaLevelLoop check_10_82_3 0 false (lineRuns sdp),
    mediaLevelLoop check_10_82_4 0 false (lineRuns sdp), by simp [test_10_82_3, hsl],
    by simp [test_10_82_4, hsl], ?_, ?_⟩
  · intro rest hrest
    have h3 := mediaLevelLoop_filter check_10_82_3 check_10_82_3_cited (lineRuns sdp) 0 false x
      hx (Or.inr hmedia)
    simp only [Nat.zero_add] at h3
    rw [h3, hget, hrest]
    have hcl := check_10_82_3_classified x rest
    refine ⟨?_, ?_, ?_, ?_⟩
    · constructor
      · intro h
        rcases hcl with ⟨_, h1, h2⟩ | ⟨e, _⟩ | ⟨e, _⟩ | ⟨e, _⟩
        · exact ⟨h1, h2⟩
        · rw [e] at h; cases h
        · rw [e] at h; cases h
        · rw [e] at h; cases h
      · rintro ⟨h1, h2⟩
        rcases hcl with ⟨e, _⟩ | ⟨_, hc | ⟨u, id, ds, hr, hid, hds, _⟩⟩ | ⟨_, hc⟩ | ⟨_, hc⟩
        · exact e
        · exact absurd hc h1
        · exact absurd ⟨u, id, some ds, hr, hid, fun _ e => by cases e; exact hds⟩ h2
        · exact absurd hc h2
        · exact absurd hc h2
    · intro h
      rcases hcl with ⟨e, _⟩ | ⟨_, hc⟩ | ⟨e, _⟩ | ⟨e, _⟩
      · rw [e] at h; cases h
      · exact hc
      · rw [e] at h; cases h
      · rw [e] at h; cases h
    · rintro rfl
      rw [check_10_82_3_versioned]
      obtain ⟨m1, hm1, h5, h2⟩ := ptpPattern_matchAt_traceable 0 []
      have hex : ptpPattern.exec "traceable".toList = some m1 := by
        rw [← hm1]; rfl
      rw [hex]
      simp only [h5, h2]
      rfl
    · rintro id ds rfl hid hds hle
      have := check_10_82_3_domain x id ds hid hds
      rw [List.append_assoc] at this
      rw [this, if_neg (by omega)]
  · intro v hv
    have h4 := mediaLevelLoop_filter check_10_82_4 check_10_82_4_cited (lineRuns sdp) 0 false x
      hx (Or.inr hmedia)
    simp only [Nat.zero_add] at h4
    rw [h4, hget, hv, check_10_82_4_localmac]
    constructor
    · intro h
      rw [if_pos ((macPattern_test_iff v).2 h)]
    · intro h
      rw [if_neg (fun ht => h ((macPattern_test_iff v).1 ht))]

/-- C36 (witness): the exact word `traceable` after the version, on line 3, gives no
Finding for the line. -/
theorem refclk_forms_rule_witness :
    ∃ fs gs,
      test_10_82_3
        "v=0\nm=video 50000 RTP/AVP 112\na=ts-refclk:ptp=IEEE1588-2008:traceable\n".toList {} =
          some fs ∧
      test_10_82_4
        "v=0\nm=video 50000 RTP/AVP 112\na=ts-refclk:ptp=IEEE1588-2008:traceable\n".toList {} =
          some gs ∧
      fs.filter (fun f => f.citedLine == some (2 + 1)) = [] := by
  obtain ⟨fs, gs, h3, h4, hp, _⟩ := refclk_forms_rule
    "v=0\nm=video 50000 RTP/AVP 112\na=ts-refclk:ptp=IEEE1588-2008:traceable\n".toList {} 2
    "a=ts-refclk:ptp=IEEE1588-2008:traceable".toList (by decide!) ⟨1, by decide, by decide!⟩
  exact ⟨fs, gs, h3, h4, (hp "traceable".toList rfl).2.2.1 rfl⟩

/-- C36 (counterexample): text around `traceable` and text before the clock identity are
accepted without a Finding; a clock identity alone gives the domain Finding, not the
do-not-match one; and text before a hardware address of six octets is accepted. -/
theorem padded_clock_forms_accepted :
    test_10_82_3
      "v=0\nm=video 50000 RTP/AVP 112\na=ts-refclk:ptp=IEEE1588-2008:xtraceabley\n".toList {} =
        some [] ∧
    test_10_82_3
      "v=0\nm=video 50000 RTP/AVP 112\na=ts-refclk:ptp=IEEE1588-2008:XX39-A7-94-FF-FE-07-CB-D0:37\n".toList
      {} = some [] ∧
    test_10_82_3
      "v=0\nm=video 50000 RTP/AVP 112\na=ts-refclk:ptp=IEEE1588-2008:39-A7-94-FF-FE-07-CB-D0\n".toList
      {} = some [Finding.ptpDomainMissing 3] ∧
    test_10_82_4
      "v=0\nm=video 50000 RTP/AVP 112\na=ts-refclk:localmac=xx00-11-22-33-44-55-66\n".toList {} =
        some [] := by
  decide!

/-! ## The loop over the elements of a parameter string -/

/-- The loop over a global expression that matches no empty word ends: every match
consumes a character, and there are at most as many matches as characters from
`lastIndex` on. -/
theorem execLoop_bound (r : Re) (s : Str) (hne : ∀ pos w v, Den r pos w v → w ≠ []) :
    ∀ (fuel li : Nat), 1 ≤ fuel → (li ≤ s.length → s.length - li + 1 ≤ fuel) →
      ∃ ms, r.execLoop s fuel li = some (ms, 0) ∧ ms.length ≤ s.length - li ∧
        ∀ m ∈ ms, m.index < m.stop ∧ m.stop ≤ s.length
  | 0, _, h, _ => by omega
  | n + 1, li, _, hf => by
    rw [Re.execLoop]
    unfold Re.execG
    by_cases hli : s.length < li
    · exact ⟨[], by simp [hli], by simp, by simp⟩
    · simp only [hli, if_false]
      cases hs : r.searchFrom li (s.drop li) with
      | none => exact ⟨[], by simp, by simp, by simp⟩
      | some m =>
        obtain ⟨u, w, v, hrem, hden, hi, hstop, _⟩ := searchFrom_some hs
        have hw : 0 < w.length := by
          have := hne _ _ _ hden
          cases w with
          | nil => exact absurd rfl this
          | cons c t => simp
        have hlen : (s.drop li).length = u.length + (w.length + v.length) := by
          rw [hrem]; simp
        rw [List.length_drop] at hlen
        have h1 := hf (by omega)
        obtain ⟨ms, hms, hcount, hall⟩ :=
          execLoop_bound r s hne n m.stop (by omega) (by intro _; omega)
        refine ⟨m :: ms, by simp [hms], by simp only [List.length_cons]; omega, ?_⟩
        intro m1 hm1
        rcases List.mem_cons.1 hm1 with rfl | h
        · exact ⟨by omega, by omega⟩
        · exact hall _ h

/-- A loop that ends within a counter ends the same way within every larger one. -/
theorem execLoop_mono (r : Re) (s : Str) :
    ∀ (fuel li : Nat) (x : List Match × Nat), r.execLoop s fuel li = some x →
      ∀ fuel1, fuel ≤ fuel1 → r.execLoop s fuel1 li = some x
  | 0, _, _, h, _, _ => by rw [Re.execLoop] at h; cases h
  | n + 1, li, x, h, fuel1, hle => by
    cases fuel1 with
    | zero => omega
    | succ n1 =>
      rw [Re.execLoop] at h ⊢
      cases hg : r.execG s li with
      | mk om li1 =>
        rw [hg] at h
        cases om with
        | none => exact h
        | some m =>
          simp only at h ⊢
          cases hr : r.execLoop s n li1 with
          | none => rw [hr] at h; cases h
          | some y =>
            rw [execLoop_mono r s n li1 y hr n1 (by omega)]
            rw [hr] at h
            exact h

/-! ## The object built from the pairs -/

theorem lookup_append_single (n k v : Str) : ∀ (o : List (Str × Str)),
    (o ++ [(k, v)]).lookup n =
      match o.lookup n with
      | some x => some x
      | none => if n = k then some v else none
  | [] => by
    by_cases h : n = k
    · simp [List.lookup, h]
    · have : (n == k) = false := by simpa using h
      simp [List.lookup, h, this]
  | (a, b) :: o => by
    by_cases h : n = a
    · subst h; simp [List.lookup]
    · have : (n == a) = false := by simpa using h
      simp only [List.cons_append, List.lookup, this]
      exact lookup_append_single n k v o

theorem lookup_none_of_not_any (k : Str) : ∀ (o : List (Str × Str)),
    o.any (fun p => p.1 == k) = false → o.lookup k = none
  | [], _ => rfl
  | (a, b) :: o, h => by
    simp only [List.any_cons, Bool.or_eq_false_iff] at h
    have : (k == a) = false := by
      have := h.1
      simp only [beq_eq_false_iff_ne, ne_eq] at this ⊢
      exact fun e => this e.symm
    simp only [List.lookup, this]
    exact lookup_none_of_not_any k o h.2

theorem lookup_map_replace (n k v : Str) : ∀ (o : List (Str × Str)),
    (o.map (fun p => if p.1 == k then (k, v) else p)).lookup n =
      if n = k then (if o.any (fun p => p.1 == k) then some v else none) else o.lookup n
  | [] => by simp [List.lookup]
  | (a, b) :: o => by
    have ih := lookup_map_replace n k v o
    by_cases hak : a = k
    · subst hak
      have hf : (if ((a, b) : Str × Str).1 == a then (a, v) else (a, b)) = (a, v) := by simp
      rw [List.map_cons]
      simp only []
      rw [hf, List.lookup_cons, List.lookup_cons, ih]
      by_cases hn : n = a
      · subst hn; simp
      · have : (n == a) = false := by simpa using hn
        simp [this, hn]
    · have h1 : (a == k) = false := by simpa using hak
      have hf : (if ((a, b) : Str × Str).1 == k then (k, v) else (a, b)) = (a, b) := by
        simp [h1]
      rw [List.map_cons]
      simp only []
      rw [hf, List.lookup_cons, List.lookup_cons, ih]
      by_cases hn : n = a
      · subst hn
        simp [hak]
      · have : (n == a) = false := by simpa using hn
        simp only [this, h1, Bool.false_eq_true, if_false, List.any_cons, Bool.false_or]

/-- The assignment `x[k] = v` sets the property `k` and leaves the others, for every
property name but `__proto__`. -/
theorem lookup_setProp (o : List (Str × Str)) (k v n : Str) (hn : n ≠ "__proto__".toList) :
    (setProp o k v).lookup n = if n = k then some v else o.lookup n := by
  unfold setProp
  generalize "__proto__".toList = proto at hn
  by_cases hk : k = proto
  · have : (k == proto) = true := by simpa using hk
    rw [if_pos this, if_neg (by rw [hk]; exact hn)]
  · have : (k == proto) = false := by simpa using hk
    simp only [this, Bool.false_eq_true, if_false]
    cases ha : o.any (fun p => p.1 == k) with
    | true =>
      rw [if_pos rfl, lookup_map_replace, ha]
      by_cases hnk : n = k
      · rw [if_pos hnk, if_pos hnk, if_pos rfl]
      · rw [if_neg hnk, if_neg hnk]
    | false =>
      rw [if_neg (by simp), lookup_append_single]
      by_cases hnk : n = k
      · subst hnk
        rw [lookup_none_of_not_any n o ha, if_pos rfl]
      · simp only [if_neg hnk]
        cases o.lookup n <;> rfl

/-- The object built from the pairs holds, for every property name but `__proto__`, the
value of the last pair with that key. -/
theorem lookup_foldl_setProp (n : Str) (hn : n ≠ "__proto__".toList) :
    ∀ (ps o : List (Str × Str)),
      (ps.foldl (fun o p => setProp o p.1 p.2) o).lookup n =
        match lastValue n ps with
        | some v => some v
        | none => o.lookup n
  | [], o => by simp [lastValue, List.lookup]
  | p :: ps, o => by
    rw [List.foldl_cons, lookup_foldl_setProp n hn ps, lookup_setProp o p.1 p.2 n hn]
    unfold lastValue
    rw [List.reverse_cons]
    obtain ⟨k, v⟩ := p
    rw [lookup_append_single]
    cases ps.reverse.lookup n with
    | some x => rfl
    | none =>
      by_cases h : n = k <;> simp [h]
theorem run_opt_none (a : Re) (st : MState) (k : MState → Option MState)
    (h : a.run st k = none) : (Re.opt a).run st k = k st := by
  rw [run_opt, h]

theorem run_opt_some (a : Re) (st : MState) (k : MState → Option MState)
    (h : (a.run st k).isSome = true) : (Re.opt a).run st k = a.run st k := by
  rw [run_opt]
  cases hr : a.run st k with
  | none => rw [hr] at h; cases h
  | some r => rfl

theorem run_optSeparator_nil (pos : Nat) (caps : List (Nat × Str))
    (k : MState → Option MState) :
    (Re.opt fmtpSeparator).run ⟨pos, [], caps⟩ k = k ⟨pos, [], caps⟩ := by
  rw [run_opt_none]
  unfold fmtpSeparator
  rw [run_seq, run_chr_nil]

theorem run_optSeparator_cons (pos : Nat) (caps : List (Nat × Str)) (w rest : Str)
    (hw : ∀ c ∈ w, isSpace c = true) (hrest : ∀ c r, rest = c :: r → isSpace c = false) :
    (Re.opt fmtpSeparator).run ⟨pos, ';' :: (w ++ rest), caps⟩ some =
      some ⟨pos + 1 + w.length, rest, caps⟩ := by
  have h : fmtpSeparator.run ⟨pos, ';' :: (w ++ rest), caps⟩ some =
      some ⟨pos + 1 + w.length, rest, caps⟩ := by
    unfold fmtpSeparator
    rw [run_seq, run_chr_cons, if_pos (by simp)]
    exact run_star_cls isSpace w rest (pos + 1) caps some hrest hw rfl
  rw [run_opt_some _ _ _ (by rw [h]; rfl), h]

/-- The value part `(?:=([^\s;]+))?` of an element where no value stands: before a
semicolon or at the end. -/
theorem run_noValue (j pos : Nat) (tail : Str) (caps : List (Nat × Str))
    (htail : ∀ c r, tail = c :: r → c = ';') (k : MState → Option MState) :
    (Re.opt (.seq (.chr '=')
        (.grp j (.plus (.cls (fun c => !(isSpace c || c == ';'))))))).run ⟨pos, tail, caps⟩ k =
      k ⟨pos, tail, caps⟩ := by
  rw [run_opt_none]
  cases tail with
  | nil => rw [run_seq, run_chr_nil]
  | cons c r =>
    rw [htail c r rfl, run_seq, run_chr_cons, if_neg (by decide)]

/-- An element at the head of the input, followed by a semicolon or by nothing: the key is
taken whole into the first group, the value whole into the second. -/
theorem run_fmtpElement (e : Str × Option Str) (he : isElement e = true) (pos : Nat)
    (tail : Str) (htail : ∀ c r, tail = c :: r → c = ';') (k : MState → Option MState)
    (hk : ∀ caps, (k ⟨pos + (elementText e).length, tail, caps⟩).isSome = true) :
    ∃ caps1, caps1.lookup 1 = some e.1 ∧ caps1.lookup 2 = e.2 ∧
      (fmtpElement 1 2).run ⟨pos, elementText e ++ tail, []⟩ k =
        k ⟨pos + (elementText e).length, tail, caps1⟩ := by
  obtain ⟨key, val⟩ := e
  unfold isElement at he
  simp only [Bool.and_eq_true, List.all_eq_true] at he
  obtain ⟨⟨hk0, hkey⟩, hval⟩ := he
  cases key with
  | nil => simp at hk0
  | cons c ds =>
    have hc := hkey c (by simp)
    have hds : ∀ d ∈ ds, (fun c => !(isSpace c || c == '=' || c == ';')) d = true :=
      fun d hd => hkey d (by simp [hd])
    cases val with
    | none =>
      have ht : elementText (c :: ds, none) ++ tail = c :: (ds ++ tail) := by
        simp [elementText]
      have hl : pos + (elementText (c :: ds, none)).length = pos + 1 + ds.length := by
        simp [elementText]; omega
      rw [ht, hl]
      rw [hl] at hk
      refine ⟨setCap 1 (c :: ds) [], lookup_setCap_self _ _ _, ?_, ?_⟩
      · rw [lookup_setCap_ne (by decide)]; rfl
      · unfold fmtpElement
        rw [run_seq, run_grp_plus_cls 1 _ c ds tail pos [] _ hc hds]
        · exact run_noValue 2 _ tail _ htail k
        · intro d r hd
          rw [htail d r hd]
          decide
        · rw [run_noValue 2 _ tail _ htail k]
          exact hk _
    | some v =>
      simp only [Bool.and_eq_true, List.all_eq_true] at hval
      obtain ⟨hv0, hv⟩ := hval
      cases v with
      | nil => simp at hv0
      | cons c1 vs =>
        have hc1 := hv c1 (by simp)
        have hvs : ∀ d ∈ vs, (fun c => !(isSpace c || c == ';')) d = true :=
          fun d hd => hv d (by simp [hd])
        have ht : elementText (c :: ds, some (c1 :: vs)) ++ tail =
            c :: (ds ++ '=' :: c1 :: (vs ++ tail)) := by
          simp [elementText]
        have hl : pos + (elementText (c :: ds, some (c1 :: vs))).length =
            pos + 1 + ds.length + 1 + 1 + vs.length := by
          simp [elementText]; omega
        rw [ht, hl]
        rw [hl] at hk
        have hval : (Re.opt (.seq (.chr '=')
            (.grp 2 (.plus (.cls (fun c => !(isSpace c || c == ';'))))))).run
              ⟨pos + 1 + ds.length, '=' :: c1 :: (vs ++ tail), setCap 1 (c :: ds) []⟩ k =
            k ⟨pos + 1 + ds.length + 1 + 1 + vs.length, tail,
              setCap 2 (c1 :: vs) (setCap 1 (c :: ds) [])⟩ := by
          have hin : (Re.seq (.chr '=')
              (.grp 2 (.plus (.cls (fun c => !(isSpace c || c == ';')))))).run
                ⟨pos + 1 + ds.length, '=' :: c1 :: (vs ++ tail), setCap 1 (c :: ds) []⟩ k =
              k ⟨pos + 1 + ds.length + 1 + 1 + vs.length, tail,
                setCap 2 (c1 :: vs) (setCap 1 (c :: ds) [])⟩ := by
            rw [run_seq, run_chr_cons, if_pos (by simp)]
            rw [run_grp_plus_cls 2 _ c1 vs tail (pos + 1 + ds.length + 1) _ k hc1 hvs]
            · intro d r hd
              rw [htail d r hd]
              decide
            · exact hk _
          rw [run_opt_some _ _ _ (by rw [hin]; exact hk _), hin]
        refine ⟨setCap 2 (c1 :: vs) (setCap 1 (c :: ds) []), ?_, lookup_setCap_self _ _ _, ?_⟩
        · rw [lookup_setCap_ne (by decide), lookup_setCap_self]
        · unfold fmtpElement
          rw [run_seq, run_grp_plus_cls 1 _ c ds _ pos [] _ hc hds]
          · exact hval
          · intro d r hd
            cases hd
            decide
          · rw [hval]
            exact hk _

/-- One match of fmtpParams: an element at the position tried, with the semicolon and the
white space after it, if any. -/
theorem fmtpParams_matchAt (e : Str × Option Str) (he : isElement e = true) (pos : Nat)
    (tail : Str) (n : Nat) (rest : Str)
    (hsep : (tail = [] ∧ n = 0) ∨
      ∃ w, tail = ';' :: (w ++ rest) ∧ n = 1 + w.length ∧ (∀ c ∈ w, isSpace c = true) ∧
        ∀ c r, rest = c :: r → isSpace c = false) :
    ∃ m, fmtpParams.matchAt pos (elementText e ++ tail) = some m ∧ m.index = pos ∧
      m.stop = pos + (elementText e).length + n ∧ splitParam m = elementPair e := by
  have htail : ∀ c r, tail = c :: r → c = ';' := by
    intro c r h
    rcases hsep with ⟨h0, _⟩ | ⟨w, hw, _⟩
    · rw [h0] at h; cases h
    · rw [hw] at h; cases h; rfl
  have hsepRun : ∀ p caps, (Re.opt fmtpSeparator).run ⟨p, tail, caps⟩ some =
      some ⟨p + n, (if n = 0 then [] else rest), caps⟩ := by
    intro p caps
    rcases hsep with ⟨h0, hn⟩ | ⟨w, hw, hn, hsp, hrest⟩
    · rw [h0, hn, run_optSeparator_nil]
      rfl
    · rw [hw, hn, run_optSeparator_cons p caps w rest hsp hrest, if_neg (by omega)]
      congr 2
      omega
  obtain ⟨caps1, h1, h2, hrun⟩ := run_fmtpElement e he pos tail htail
    (fun st1 => (Re.opt fmtpSeparator).run st1 some) (fun caps => by simp only [hsepRun]; rfl)
  unfold Re.matchAt fmtpParams
  rw [run_seq, hrun]
  simp only [hsepRun]
  refine ⟨_, rfl, rfl, rfl, ?_⟩
  unfold splitParam elementPair Match.cap
  simp only [h1, h2, Option.getD_some]
theorem fmtpParams_matchAt_nil (pos : Nat) : fmtpParams.matchAt pos [] = none := by
  cases h : fmtpParams.matchAt pos [] with
  | none => rfl
  | some m =>
    obtain ⟨w, v, hrem, hden, _⟩ := matchAt_some h
    have hw : w = [] := by
      cases w with
      | nil => rfl
      | cons c t => simp at hrem
    exact absurd hw (fmtpParams_nonempty hden)

theorem searchFrom_of_matchAt {r : Re} {pos : Nat} {s : Str} {m : Match}
    (h : r.matchAt pos s = some m) : r.searchFrom pos s = some m := by
  cases s with
  | nil => rw [Re.searchFrom, h]
  | cons c cs => rw [Re.searchFrom, h]

theorem execLoop_at_end (s : Str) (fuel : Nat) (hf : 1 ≤ fuel) :
    fmtpParams.execLoop s fuel s.length = some ([], 0) := by
  cases fuel with
  | zero => omega
  | succ n =>
    rw [Re.execLoop]
    unfold Re.execG
    rw [if_neg (by omega), List.drop_length, Re.searchFrom, fmtpParams_matchAt_nil]

theorem paramsText_cons (first : Str × Option Str) (w : Str) (e : Str × Option Str)
    (more : List (Str × (Str × Option Str))) (last : Option Str) :
    paramsText first ((w, e) :: more) last =
      elementText first ++ ';' :: (w ++ paramsText e more last) := by
  simp [paramsText]

theorem elementText_length_pos (e : Str × Option Str) (he : isElement e = true) :
    0 < (elementText e).length := by
  obtain ⟨key, val⟩ := e
  unfold isElement at he
  simp only [Bool.and_eq_true] at he
  cases key with
  | nil => simp at he
  | cons c ds => simp [elementText]

theorem paramsText_head (e : Str × Option Str) (he : isElement e = true)
    (more : List (Str × (Str × Option Str))) (last : Option Str) :
    ∀ c r, paramsText e more last = c :: r → isSpace c = false := by
  obtain ⟨key, val⟩ := e
  unfold isElement at he
  simp only [Bool.and_eq_true, List.all_eq_true] at he
  obtain ⟨⟨hk0, hkey⟩, _⟩ := he
  cases key with
  | nil => simp at hk0
  | cons c ds =>
    intro a r h
    have hc := hkey c (by simp)
    simp only [paramsText, elementText, List.cons_append, List.cons.injEq] at h
    rw [← h.1]
    cases hs : isSpace c with
    | false => rfl
    | true => simp [hs] at hc

/-- The last turn of the loop: an element followed by nothing or by a semicolon and white
space up to the end. -/
theorem execLoop_last (first : Str × Option Str) (he : isElement first = true) (pre tail : Str)
    (hsep : tail = [] ∨ ∃ w, tail = ';' :: w ∧ ∀ c ∈ w, isSpace c = true) (fuel : Nat)
    (hf : (elementText first ++ tail).length + 1 ≤ fuel) :
    ∃ ms, fmtpParams.execLoop (pre ++ (elementText first ++ tail)) fuel pre.length =
        some (ms, 0) ∧
      ms.map splitParam = [elementPair first] := by
  have hpos := elementText_length_pos first he
  obtain ⟨m, hm, _, hstop, hpair⟩ := fmtpParams_matchAt first he pre.length tail tail.length []
    (by
      rcases hsep with h | ⟨w, h, hw⟩
      · left; rw [h]; exact ⟨rfl, rfl⟩
      · right
        exact ⟨w, by simp [h], by rw [h]; simp; omega, hw, fun c r h => by cases h⟩)
  have hend : m.stop = (pre ++ (elementText first ++ tail)).length := by
    rw [hstop]
    simp only [List.length_append]
    omega
  cases fuel with
  | zero => omega
  | succ n =>
    rw [Re.execLoop]
    unfold Re.execG
    rw [if_neg (by simp), List.drop_left, searchFrom_of_matchAt hm]
    simp only
    rw [hend, execLoop_at_end _ n (by simp only [List.length_append] at hf; omega)]
    exact ⟨[m], rfl, by simp [hpair]⟩

/-- The loop over fmtpParams on a parameter string, from the start of an element: one
match for each element, in order, each read as the pair of its key and its value. -/
theorem execLoop_params : ∀ (more : List (Str × (Str × Option Str)))
    (first : Str × Option Str) (last : Option Str) (pre : Str) (fuel : Nat),
    isParamsText first more last = true → (paramsText first more last).length + 1 ≤ fuel →
    ∃ ms, fmtpParams.execLoop (pre ++ paramsText first more last) fuel pre.length =
        some (ms, 0) ∧
      ms.map splitParam = (first :: more.map (fun p => p.2)).map elementPair
  | [], first, last, pre, fuel, h, hf => by
    unfold isParamsText at h
    simp only [List.all_nil, Bool.and_true, Bool.and_eq_true] at h
    obtain ⟨he, hlast⟩ := h
    cases last with
    | none =>
      have htext : paramsText first [] none = elementText first ++ [] := by
        simp [paramsText]
      rw [htext] at hf ⊢
      exact execLoop_last first he pre [] (Or.inl rfl) fuel hf
    | some w =>
      have htext : paramsText first [] (some w) = elementText first ++ ';' :: w := by
        simp [paramsText]
      rw [htext] at hf ⊢
      exact execLoop_last first he pre (';' :: w)
        (Or.inr ⟨w, rfl, fun c hc => List.all_eq_true.1 hlast c hc⟩) fuel hf
  | (w, e) :: more, first, last, pre, fuel, h, hf => by
    unfold isParamsText at h
    simp only [List.all_cons, Bool.and_eq_true, List.all_eq_true] at h
    obtain ⟨⟨he, ⟨hw, he1⟩, hmore⟩, hlast⟩ := h
    have hrec : isParamsText e more last = true := by
      unfold isParamsText
      simp only [Bool.and_eq_true, List.all_eq_true]
      exact ⟨⟨he1, hmore⟩, hlast⟩
    have hpos := elementText_length_pos first he
    obtain ⟨m, hm, _, hstop, hpair⟩ := fmtpParams_matchAt first he pre.length
      (';' :: (w ++ paramsText e more last)) (1 + w.length) (paramsText e more last)
      (Or.inr ⟨w, rfl, rfl, hw, paramsText_head e he1 more last⟩)
    have htext := paramsText_cons first w e more last
    cases fuel with
    | zero => omega
    | succ n =>
      have hfn : (paramsText e more last).length + 1 ≤ n := by
        rw [htext] at hf
        simp only [List.length_append, List.length_cons] at hf
        omega
      obtain ⟨ms, hms, hpairs⟩ := execLoop_params more e last
        (pre ++ (elementText first ++ ';' :: w)) n hrec hfn
      have hs : pre ++ paramsText first ((w, e) :: more) last =
          (pre ++ (elementText first ++ ';' :: w)) ++ paramsText e more last := by
        rw [htext]; simp
      have hst : m.stop = (pre ++ (elementText first ++ ';' :: w)).length := by
        rw [hstop]
        simp only [List.length_append, List.length_cons]
        omega
      rw [Re.execLoop]
      unfold Re.execG
      rw [if_neg (by simp), List.drop_left, htext, searchFrom_of_matchAt hm]
      simp only
      rw [← htext, hs, hst, hms]
      exact ⟨m :: ms, rfl, by simp [hpair, hpairs]⟩
/-! ## The parameter string of a format-parameter line -/

theorem spaceAfterSemicolon_word : ∀ (x : Str) (a : Char) (y : Str),
    (∀ c ∈ x, isSpace c = false) → (∀ b, spaceAfterSemicolon b y = true) →
    spaceAfterSemicolon a (x ++ y) = true
  | [], a, y, _, hy => hy a
  | c :: x, a, y, hx, hy => by
    rw [List.cons_append, spaceAfterSemicolon, hx c (by simp),
      spaceAfterSemicolon_word x c y (fun d hd => hx d (by simp [hd])) hy]
    rfl

theorem spaceAfterSemicolon_spaces : ∀ (w : Str) (a : Char) (y : Str),
    (a = ';' ∨ isSpace a = true) → (∀ c ∈ w, isSpace c = true) →
    (∀ b, spaceAfterSemicolon b y = true) → spaceAfterSemicolon a (w ++ y) = true
  | [], a, y, _, _, hy => hy a
  | c :: w, a, y, ha, hw, hy => by
    rw [List.cons_append, spaceAfterSemicolon,
      spaceAfterSemicolon_spaces w c y (Or.inr (hw c (by simp)))
        (fun d hd => hw d (by simp [hd])) hy]
    rcases ha with rfl | ha
    · simp
    · simp [ha]

theorem spaceAfterSemicolon_separator (w y : Str) (hw : ∀ c ∈ w, isSpace c = true)
    (hy : ∀ b, spaceAfterSemicolon b y = true) (a : Char) :
    spaceAfterSemicolon a (';' :: (w ++ y)) = true := by
  rw [spaceAfterSemicolon, spaceAfterSemicolon_spaces w ';' y (Or.inl rfl) hw hy]
  have : isSpace ';' = false := by decide
  simp [this]

theorem elementText_no_space (e : Str × Option Str) (he : isElement e = true) :
    ∀ c ∈ elementText e, isSpace c = false := by
  obtain ⟨key, val⟩ := e
  unfold isElement at he
  simp only [Bool.and_eq_true, List.all_eq_true] at he
  obtain ⟨⟨_, hkey⟩, hval⟩ := he
  have hk : ∀ c ∈ key, isSpace c = false := by
    intro c hc
    have := hkey c hc
    cases hs : isSpace c with
    | false => rfl
    | true => simp [hs] at this
  cases val with
  | none => simpa [elementText] using hk
  | some v =>
    simp only [Bool.and_eq_true, List.all_eq_true] at hval
    intro c hc
    simp only [elementText, List.mem_append, List.mem_cons] at hc
    rcases hc with hc | rfl | hc
    · exact hk c hc
    · decide
    · have := hval.2 c hc
      cases hs : isSpace c with
      | false => rfl
      | true => simp [hs] at this

/-- In a parameter string white space stands only after a semicolon or white space. -/
theorem paramsText_spaces : ∀ (more : List (Str × (Str × Option Str)))
    (first : Str × Option Str) (last : Option Str), isParamsText first more last = true →
    ∀ b, spaceAfterSemicolon b (paramsText first more last) = true
  | [], first, last, h, b => by
    unfold isParamsText at h
    simp only [List.all_nil, Bool.and_true, Bool.and_eq_true] at h
    obtain ⟨he, hlast⟩ := h
    cases last with
    | none =>
      have htext : paramsText first [] none = elementText first ++ [] := by
        simp [paramsText]
      rw [htext]
      exact spaceAfterSemicolon_word _ b [] (elementText_no_space first he) (fun _ => rfl)
    | some w =>
      have htext : paramsText first [] (some w) = elementText first ++ ';' :: (w ++ []) := by
        simp [paramsText]
      rw [htext]
      exact spaceAfterSemicolon_word _ b _ (elementText_no_space first he)
        (spaceAfterSemicolon_separator w [] (fun c hc => List.all_eq_true.1 hlast c hc)
          (fun _ => rfl))
  | (w, e) :: more, first, last, h, b => by
    unfold isParamsText at h
    simp only [List.all_cons, Bool.and_eq_true, List.all_eq_true] at h
    obtain ⟨⟨he, ⟨hw, he1⟩, hmore⟩, hlast⟩ := h
    have hrec : isParamsText e more last = true := by
      unfold isParamsText
      simp only [Bool.and_eq_true, List.all_eq_true]
      exact ⟨⟨he1, hmore⟩, hlast⟩
    rw [paramsText_cons]
    exact spaceAfterSemicolon_word _ b _ (elementText_no_space first he)
      (spaceAfterSemicolon_separator w _ hw (paramsText_spaces more e last hrec))

theorem spaceAfterSemicolon_false_append : ∀ (x : Str) (a : Char) (y : Str),
    (∀ b, spaceAfterSemicolon b y = false) → spaceAfterSemicolon a (x ++ y) = false
  | [], a, y, hy => hy a
  | c :: x, a, y, hy => by
    rw [List.cons_append, spaceAfterSemicolon, spaceAfterSemicolon_false_append x c y hy]
    simp

theorem spaceAfterSemicolon_digits : ∀ (ds : Str) (s : Char) (rest : Str) (b : Char),
    ds ≠ [] → (∀ c ∈ ds, isDigit c = true) → isSpace s = true →
    spaceAfterSemicolon b (ds ++ s :: rest) = false
  | [], _, _, _, h, _, _ => absurd rfl h
  | [d], s, rest, b, _, hd, hs => by
    have hd1 := hd d (by simp)
    have h1 : isSpace d = false := isDigit_not_space hd1
    have h2 : (d == ';') = false := by
      cases hc : d == ';' with
      | false => rfl
      | true =>
        have : d = ';' := by simpa using hc
        subst this
        revert hd1
        decide
    simp [spaceAfterSemicolon, hs, h1, h2]
  | d :: d1 :: ds, s, rest, b, _, hd, hs => by
    rw [List.cons_append, spaceAfterSemicolon,
      spaceAfterSemicolon_digits (d1 :: ds) s rest d (by simp)
        (fun c hc => hd c (by simp [hc])) hs]
    simp

theorem den_fmtpHead {pos : Nat} {w v : Str} (h : Den fmtpHead pos w v) :
    ∃ ds s sp, w = "a=fmtp:".toList ++ (ds ++ s :: sp) ∧ ds ≠ [] ∧
      (∀ c ∈ ds, isDigit c = true) ∧ isSpace s = true := by
  unfold fmtpHead at h
  obtain ⟨w1, r1, rfl, h1, h⟩ := den_cat_cons.1 h
  obtain ⟨w2, r2, rfl, h2, h⟩ := den_cat_cons.1 h
  obtain ⟨w3, r3, rfl, h3, h⟩ := den_cat_cons.1 h
  obtain ⟨hne2, hd⟩ := den_plus_cls.1 h2
  obtain ⟨hne3, hs⟩ := den_plus_cls.1 h3
  cases w3 with
  | nil => exact absurd rfl hne3
  | cons s sp =>
    refine ⟨w2, s, sp, ?_, hne2, hd, hs s (by simp)⟩
    rw [den_lit.1 h1, den_cat_nil.1 h]
    simp

/-- The separator `a=fmtp:<digits><white space>` occurs nowhere in a parameter string. -/
theorem paramsText_no_head (first : Str × Option Str)
    (more : List (Str × (Str × Option Str))) (last : Option Str)
    (h : isParamsText first more last = true) (u w v : Str) (pos : Nat)
    (hs : paramsText first more last = u ++ (w ++ v)) : ¬ Den fmtpHead pos w v := by
  intro hden
  obtain ⟨ds, s, sp, rfl, hne, hd, hsp⟩ := den_fmtpHead hden
  have h1 := paramsText_spaces more first last h 'x'
  have h2 : spaceAfterSemicolon 'x'
      ((u ++ "a=fmtp:".toList) ++ ((ds ++ s :: (sp ++ v)))) = false :=
    spaceAfterSemicolon_false_append _ _ _
      (fun b => spaceAfterSemicolon_digits ds s (sp ++ v) b hne hd hsp)
  rw [hs] at h1
  simp only [List.append_assoc, List.cons_append] at h1 h2
  rw [h1] at h2
  cases h2

theorem splitGo_no_match (r : Re) : ∀ (fromQ : Str) (fuel p q : Nat) (fromP : Str),
    (∀ u w v, fromQ = u ++ (w ++ v) → ¬ Den r (q + u.length) w v) →
    splitGo r fuel p q fromP fromQ = [fromP]
  | [], fuel, p, q, fromP, _ => by
    cases fuel <;> rw [splitGo]
  | c :: cs, fuel, p, q, fromP, h => by
    cases fuel with
    | zero => rw [splitGo]
    | succ n =>
      rw [splitGo]
      have hn : r.matchAt q (c :: cs) = none := by
        cases hm : r.matchAt q (c :: cs) with
        | none => rfl
        | some m =>
          obtain ⟨w, v, hrem, hden, _⟩ := matchAt_some hm
          exact absurd (by simpa using hden) (h [] w v (by simpa using hrem))
      rw [hn]
      simp only
      apply splitGo_no_match r cs n p (q + 1) fromP
      intro u w v hu hden
      apply h (c :: u) w v (by simp [hu])
      simpa [Nat.add_assoc, Nat.add_comm 1] using hden
theorem fmtpHead_matchAt (d : Char) (ds : Str) (s : Char) (ss P : Str)
    (hd : isDigit d = true) (hds : ∀ c ∈ ds, isDigit c = true) (hs : isSpace s = true)
    (hss : ∀ c ∈ ss, isSpace c = true) (hP : ∀ c r, P = c :: r → isSpace c = false) :
    ∃ m, fmtpHead.matchAt 0 ("a=fmtp:".toList ++ (d :: (ds ++ s :: (ss ++ P)))) = some m ∧
      m.stop = 7 + (1 + ds.length) + (1 + ss.length) := by
  have hin : ∀ p, (Re.cat [Re.plus (.cls isSpace)]).run ⟨p, s :: (ss ++ P), []⟩ some =
      some ⟨p + 1 + ss.length, P, []⟩ := by
    intro p
    rw [run_cat_cons, run_plus_cls isSpace s ss P p [] _ hs hss hP (by rw [run_cat_nil]; rfl),
      run_cat_nil]
  have hrun : fmtpHead.run ⟨0, "a=fmtp:".toList ++ (d :: (ds ++ s :: (ss ++ P))), []⟩ some =
      some ⟨0 + "a=fmtp:".toList.length + 1 + ds.length + 1 + ss.length, P, []⟩ := by
    unfold fmtpHead
    rw [run_cat_cons, run_lit_append, run_cat_cons,
      run_plus_cls isDigit d ds (s :: (ss ++ P)) _ [] _ hd hds
        (fun c r h => by cases h; exact Bool.eq_false_iff.2 (fun hc => by
          have := isDigit_not_space hc; rw [hs] at this; cases this))
        (by rw [hin]; rfl), hin]
  unfold Re.matchAt
  rw [hrun]
  refine ⟨_, rfl, ?_⟩
  show 0 + "a=fmtp:".toList.length + 1 + ds.length + 1 + ss.length = _
  have : "a=fmtp:".toList.length = 7 := rfl
  omega

theorem isParamsText_of_isFmtpLine {pt ws : Str} {first : Str × Option Str}
    {more : List (Str × (Str × Option Str))} {last : Option Str}
    (h : isFmtpLine pt ws first more last = true) : isParamsText first more last = true := by
  unfold isFmtpLine at h
  simp only [Bool.and_eq_true] at h
  obtain ⟨⟨⟨⟨⟨⟨_, _⟩, _⟩, _⟩, h5⟩, h6⟩, h7⟩ := h
  unfold isParamsText
  simp only [Bool.and_eq_true]
  exact ⟨⟨h5, h6⟩, h7⟩

/-- The parameter string that extractMTParams cuts from a format-parameter line. -/
theorem split_fmtpLine (pt ws : Str) (first : Str × Option Str)
    (more : List (Str × (Str × Option Str))) (last : Option Str)
    (h : isFmtpLine pt ws first more last = true) :
    (fmtpHead.split (fmtpLine pt ws first more last)).get? 1 =
      some (paramsText first more last) := by
  have hp := isParamsText_of_isFmtpLine h
  unfold isFmtpLine at h
  simp only [Bool.and_eq_true, List.all_eq_true] at h
  obtain ⟨⟨⟨⟨⟨⟨h1, h2⟩, h3⟩, h4⟩, h5⟩, _⟩, _⟩ := h
  cases pt with
  | nil => simp at h1
  | cons d ds =>
    cases ws with
    | nil => simp at h3
    | cons s ss =>
      obtain ⟨m, hm, hstop⟩ := fmtpHead_matchAt d ds s ss (paramsText first more last)
        (h2 d (by simp)) (fun c hc => h2 c (by simp [hc])) (h4 s (by simp))
        (fun c hc => h4 c (by simp [hc])) (paramsText_head first h5 more last)
      have hl : fmtpLine (d :: ds) (s :: ss) first more last =
          'a' :: ("=fmtp:".toList ++ (d :: (ds ++ s :: (ss ++ paramsText first more last)))) :=
        rfl
      have hm1 : fmtpHead.matchAt 0
          ('a' :: ("=fmtp:".toList ++ (d :: (ds ++ s :: (ss ++ paramsText first more last))))) =
          some m := hm
      have hdrop : ('a' :: ("=fmtp:".toList ++
          (d :: (ds ++ s :: (ss ++ paramsText first more last))))).drop (m.stop - 0) =
          paramsText first more last := by
        have e : ('a' :: ("=fmtp:".toList ++
            (d :: (ds ++ s :: (ss ++ paramsText first more last))))) =
            ("a=fmtp:".toList ++ (d :: ds) ++ (s :: ss)) ++ paramsText first more last := by
          simp
        rw [e]
        apply List.drop_left'
        rw [hstop]
        simp
        omega
      rw [hl]
      unfold Re.split
      simp only [List.length_cons]
      rw [splitGo, hm1]
      simp only
      rw [if_neg (by omega), hdrop,
        splitGo_no_match fmtpHead _ _ _ _ _
          (fun u w v hu => paramsText_no_head first more last hp u w v _ hu)]
      rfl

/-- The pairs that extractMTParams reads from a format-parameter line: one for each
element, in order. -/
theorem fmtpPairs_fmtpLine (pt ws : Str) (first : Str × Option Str)
    (more : List (Str × (Str × Option Str))) (last : Option Str)
    (h : isFmtpLine pt ws first more last = true) :
    fmtpPairs (fmtpLine pt ws first more last) =
      (first :: more.map (fun p => p.2)).map elementPair := by
  obtain ⟨ms, hms, hpairs⟩ := execLoop_params more first last []
    ((paramsText first more last).length + 1) (isParamsText_of_isFmtpLine h) (Nat.le_refl _)
  unfold fmtpPairs
  rw [split_fmtpLine pt ws first more last h]
  simp only [List.nil_append, List.length_nil] at hms
  simp only [hms, hpairs]
/-- C39 (amended): extractMTParams returns on every text with a non-empty line,
and leaves the match position of fmtpParams at zero.  The loop that applies fmtpParams to a
parameter string ends for every string and every match position it starts from: every match
consumes at least one character, there are at most as many matches as the string has
characters, and the position is zero afterwards.  For a format-parameter line of elements
separated by semicolons the loop reads one pair for each element, a name-only element as the
pair of its name and the empty string; and the object built for such a line in a video
section holds, for every key other than `__proto__`, `_payloadType`, `_line` and
`_streamNumber`, the value of the last element with that key. -/
theorem fmtp_loop_terminates (sdp : Str) (params : Params)
    (h : ∃ c ∈ sdp, isCRLF c = false) :
    (∃ st, extractRun 0 sdp params = some st ∧ st.lastIndex = 0 ∧
      extractMTParams sdp params = some (st.mtParams, st.errors)) ∧
    (∀ (s : Str) (li : Nat), ∃ ms,
      (∀ fuel, s.length + 1 ≤ fuel → fmtpParams.execLoop s fuel li = some (ms, 0)) ∧
      ms.length ≤ s.length ∧ ∀ m ∈ ms, m.index < m.stop ∧ m.stop ≤ s.length) ∧
    (∀ pt ws first more last, isFmtpLine pt ws first more last = true →
      fmtpPairs (fmtpLine pt ws first more last) =
        (first :: more.map (fun p => p.2)).map elementPair ∧
      (∀ e ∈ first :: more.map (fun p => p.2), e.2 = none →
        (e.1, []) ∈ fmtpPairs (fmtpLine pt ws first more last)) ∧
      ∀ x j, (lineRuns sdp).get? x = some (fmtpLine pt ws first more last) →
        inVideoSection (lineRuns sdp) j x →
        ∃ r o, extractMTParams sdp params = some r ∧ o ∈ r.1 ∧ o._line = x + 1 ∧
          (∀ o1 ∈ r.1, o1._line = x + 1 → o1 = o) ∧
          ∀ k, k ∉ ["__proto__".toList, "_payloadType".toList, "_line".toList,
              "_streamNumber".toList] →
            o.props.lookup k =
              lastValue k ((first :: more.map (fun p => p.2)).map elementPair)) := by
  refine ⟨?_, ?_, ?_⟩
  · obtain ⟨st, hst, hli⟩ := extractRun_returns sdp params h
    exact ⟨st, hst, hli, by simp [extractMTParams, hst]⟩
  · intro s li
    obtain ⟨ms, hms, hcount, hall⟩ := execLoop_bound fmtpParams s
      (fun _ _ _ hd => fmtpParams_nonempty hd) (s.length + 1) li (by omega)
      (by intro _; omega)
    exact ⟨ms, fun fuel hf => execLoop_mono fmtpParams s _ li _ hms fuel hf, by omega, hall⟩
  · intro pt ws first more last hl
    have hpairs := fmtpPairs_fmtpLine pt ws first more last hl
    refine ⟨hpairs, ?_, ?_⟩
    · intro e he h2
      rw [hpairs]
      refine List.mem_map.2 ⟨e, he, ?_⟩
      unfold elementPair
      rw [h2]
      rfl
    · intro x j hline hsec
      have ht := fmtpLine_matches pt ws first more last hl
      have hf : startsWith (fmtpLine pt ws first more last) "a=fmtp".toList = true := by
        apply startsWith_iff.2
        refine ⟨(fmtpLine pt ws first more last).drop 6, ?_⟩
        unfold fmtpLine
        rfl
      obtain ⟨st, p, A, B, hrun, hmt, hA, hB, _⟩ :=
        extractRun_at_line sdp params x j _ hline hsec hf ht
      refine ⟨(st.mtParams, st.errors),
        StreamParams.mk (fmtpProps (fmtpLine pt ws first more last)) p (x + 1)
          (streamNumberAt (lineRuns sdp) x), by simp [extractMTParams, hrun], ?_, rfl, ?_, ?_⟩
      · simp only
        rw [hmt]
        simp
      · intro o1 ho1 hl1
        simp only at ho1
        rw [hmt] at ho1
        rcases List.mem_append.1 ho1 with h1 | h1
        · exact absurd hl1 (hA o1 h1)
        · rcases List.mem_cons.1 h1 with h2 | h2
          · exact h2
          · exact absurd hl1 (hB o1 h2)
      · intro k hk
        have hp : k ≠ "__proto__".toList := fun e => hk (by rw [e]; exact List.mem_cons_self _ _)
        show (fmtpProps (fmtpLine pt ws first more last)).lookup k = _
        unfold fmtpProps
        rw [lookup_foldl_setProp k hp, hpairs]
        cases lastValue k ((first :: more.map (fun p => p.2)).map elementPair) <;> rfl

/-- C39 (witness): the line `a=fmtp:112 a=1; b; a=2` as line 3 of an SDP; the object
built for it holds `2` for `a` and the empty string for `b`. -/
theorem fmtp_loop_terminates_witness :
    ∃ r o, extractMTParams "v=0\nm=video 50000 RTP/AVP 112\na=fmtp:112 a=1; b; a=2\n".toList {} =
        some r ∧ o ∈ r.1 ∧ o._line = 3 ∧
      o.props.lookup "a".toList = some "2".toList ∧ o.props.lookup "b".toList = some [] := by
  obtain ⟨_, _, h3⟩ := fmtp_loop_terminates
    "v=0\nm=video 50000 RTP/AVP 112\na=fmtp:112 a=1; b; a=2\n".toList {}
    ⟨'v', by decide!, by decide!⟩
  obtain ⟨_, _, hx⟩ := h3 "112".toList " ".toList ("a".toList, some "1".toList)
    [(" ".toList, ("b".toList, none)), (" ".toList, ("a".toList, some "2".toList))] none
    (by decide)
  obtain ⟨r, o, hr, ho, hl, _, hk⟩ := hx 2 1 (by decide!)
    ⟨by decide, by decide!, by decide!, fun i h1 h2 => by omega⟩
  exact ⟨r, o, hr, ho, hl, by rw [hk "a".toList (by decide)]; decide,
    by rw [hk "b".toList (by decide)]; decide⟩

/-- C39 (counterexample): the line `a=fmtp:112 __proto__=5; __proto__` is an accepted
format-parameter line, and the object built for it has no property from the line: the key
`__proto__` is mapped neither to the empty string of its last, name-only occurrence nor to
any other string.  For the line `a=fmtp:112 _line=5` the reduction assigns `5` to `_line`,
and the property `_line` of the object is the line number 3 that is assigned after it. -/
theorem reserved_keys_not_stored :
    fmtpPattern.test "a=fmtp:112 __proto__=5; __proto__".toList = true ∧
    fmtpPairs "a=fmtp:112 __proto__=5; __proto__".toList =
      [("__proto__".toList, "5".toList), ("__proto__".toList, [])] ∧
    extractMTParams "v=0\nm=video 50000 RTP/AVP 112\na=fmtp:112 __proto__=5; __proto__\n".toList
      {} = some ([StreamParams.mk [] 112 3 1], []) ∧
    (extractMTParams "v=0\nm=video 50000 RTP/AVP 112\na=fmtp:112 _line=5\n".toList {}).map
      (fun r => r.1.map (fun o => (o.props, o._line))) =
      some [([("_line".toList, "5".toList)], 3)] := by
  decide!

end SDPoker
